import Mathlib


/-! mailclient-cpp: session core and protocol adapters

A shallow embedding of `MAIL/MAILClient.{h,cpp}`, `MAIL/POPClient.{h,cpp}`,
`MAIL/IMAPClient.{h,cpp}` and `MAIL/SMTPClient.{h,cpp}`.

Conventions of the embedding

* `std::string` is `String`; the characters stand for the bytes of the C++ string, and
  `::toupper` is the one of the C locale (`Char.toUpper`: only `a`-`z` change).
* A member function that mutates `*this` is a function from the object state to
  the returned value and the new object state.
* libcurl is external.  The easy handle is the record of the options that were set
  on it (`CurlOpts`); `curl_easy_reset` puts the record back to `CurlOpts.default`;
  the outcome of `curl_easy_init`, `curl_easy_perform`, `curl_easy_strerror` and of
  opening a local file is read from the environment `Env`.
* The field `trace` of the object is ghost state: it records, in order, what the
  object did to the outside world (logger calls, handle resets, requests executed,
  files opened and closed) and when `Perform` entered one of its two hooks.
* Enumerations used as bit sets (`SettingsFlag`, `SslTlsFlag`) are `Nat`.
* An output parameter `std::string&` is the address of the caller's string (a `Nat`); what
  the transport writes into it is outside the embedding.
* A `std::string` handed to libcurl as `s.c_str()` reaches it as a C string: libcurl reads
  the characters before the first NUL character (`c_str`).  The same holds for a string
  formatted with `%s`.
* The field `crashed` of the object is ghost state: it is set where the program
  dereferences a null pointer (`Perform`, line 294).  The call does not return then: the
  state is the one the program was in, and the Boolean paired with it is no returned value.
-/

namespace MailClient

/-! ## Strings -/

/-- The `std::transform(s.begin(), s.end(), s.begin(), ::toupper)` idiom. -/
def toupper (s : String) : String := ⟨s.data.map Char.toUpper⟩

/-- The test `s.compare(0, n, t) == 0`: the first `n` characters of `s` (all of `s`
when it is shorter) are exactly `t`. -/
def compare0 (s : String) (n : Nat) (t : String) : Bool := s.data.take n == t.data

/-- The test `s.empty()`. -/
def empty (s : String) : Bool := s.data.isEmpty

/-- The character `s.at(s.length() - 1)` of a string (`none` when `s` is empty, where
the C++ call throws). -/
def lastChar (s : String) : Option Char := s.data.getLast?

/-- The character `s.at(0)` (`none` when `s` is empty). -/
def firstChar (s : String) : Option Char := s.data.head?

/-- The C string `s.c_str()` as a C function reads it: the characters of `s` before its
first NUL character (all of `s` when it has none). -/
def c_str (s : String) : String := ⟨s.data.takeWhile (fun c => c != '\x00')⟩

/-! ## Flags (`MAILClient.h`) -/

def NO_FLAGS : Nat := 0x00
def ENABLE_LOG : Nat := 0x01
def VERIFY_PEER : Nat := 0x02
def VERIFY_HOST : Nat := 0x04
def ALL_FLAGS : Nat := 0xFF

def NO_SSLTLS : Nat := 0x00
def ENABLE_TLS : Nat := 0x01
def ENABLE_SSL : Nat := 0x02

/-- The C++ condition `if (a & b)`. -/
def flagSet (a b : Nat) : Bool := (a &&& b) != 0

def CLIENT_USERAGENT : String := "mailclientcpp-agent/1.0"

def CURLE_OK : Nat := 0
/-- The code `curl_easy_perform` returns when it is given a null handle. -/
def CURLE_BAD_FUNCTION_ARGUMENT : Nat := 43
def CURLUSESSL_ALL : Nat := 3

/-! ## Log messages (`MAILClient.h`) -/

def LOG_ERROR_CURL_ALREADY_INIT_MSG : String :=
  "[MAILClient][Error] Curl session is already initialized ! " ++
  "Use CleanupSession() to clean the present one."
def LOG_ERROR_EMPTY_HOST_MSG : String := "[MAILClient][Error] Empty hostname."
def LOG_ERROR_CURL_NOT_INIT_MSG : String :=
  "[MAILClient][Error] Curl session is not initialized ! Use InitSession() before."
def LOG_WARNING_OBJECT_NOT_CLEANED : String :=
  "[MAILClient][Warning] Object was freed before calling CMailClient::CleanupSession()." ++
  " The API session was cleaned though."
def LOG_ERROR_PREPERFORM_FAILED_MSG : String := "[MAILClient][Error] PrePerform failed !"
def LOG_ERROR_POSTPERFORM_FAILED_MSG : String := "[MAILClient][Error] PostPerform failed !"

/-- The text `StringFormat(LOG_ERROR_CURL_PEFORM_FAILURE_FORMAT, res, strerror)`. -/
def LOG_ERROR_CURL_PEFORM_FAILURE (res : Nat) (strerror : String) : String :=
  "[MAILClient][Error] Unable to perform a request (Error=" ++ toString res ++ " | " ++
  strerror ++ ") !"

/-! ## The transport handle -/

/-- The static callbacks of `CMailClient` that are handed to libcurl. -/
inductive Callback
  | WriteInStringCallback
  | WriteToFileCallback
  | ReadLineFromFileStreamCallback
  | ReadLineFromStringStreamCallback
  /-- The caller's progress function `*GetProgressFnCallback()`: the plain function
  number `f`. -/
  | ProgressFnCallback (f : Nat)
  deriving DecidableEq, Repr

/-- The user-data pointers handed to libcurl next to a callback. -/
inductive DataPtr
  /-- The caller's output string `m_pstrText` points to (its address). -/
  | text (addr : Nat)
  /-- The address of `m_fLocalFile`. -/
  | localFile
  /-- The address of `m_ssString`. -/
  | ssString
  /-- The address of `m_ProgressStruct`. -/
  | progressStruct
  deriving DecidableEq, Repr

/-- The options of a libcurl easy handle this library sets; `none` is "never set since
the last reset", where libcurl applies its default. -/
structure CurlOpts where
  URL : Option String := none
  CUSTOMREQUEST : Option String := none
  NOBODY : Option Nat := none
  UPLOAD : Option Nat := none
  WRITEFUNCTION : Option Callback := none
  WRITEDATA : Option DataPtr := none
  READFUNCTION : Option Callback := none
  READDATA : Option DataPtr := none
  MAIL_FROM : Option String := none
  MAIL_RCPT : Option (List String) := none
  USERNAME : Option String := none
  PASSWORD : Option String := none
  USE_SSL : Option Nat := none
  CAINFO : Option String := none
  SSLCERT : Option String := none
  SSLKEY : Option String := none
  KEYPASSWD : Option String := none
  SSL_VERIFYPEER : Option Nat := none
  SSL_VERIFYHOST : Option Nat := none
  PROGRESSFUNCTION : Option Callback := none
  PROGRESSDATA : Option DataPtr := none
  NOPROGRESS : Option Nat := none
  USERAGENT : Option String := none
  TIMEOUT : Option Int := none
  NOSIGNAL : Option Nat := none
  PROXY : Option String := none
  HTTPPROXYTUNNEL : Option Nat := none
  deriving DecidableEq, Repr

/-- The handle as `curl_easy_init` returns it and as `curl_easy_reset` leaves it. -/
def CurlOpts.default : CurlOpts := {}

/-! ## Ghost trace -/

/-- What the object did, in order. -/
inductive Event
  /-- The logger `m_oLog` was called with this text. -/
  | log (msg : String)
  /-- The call `curl_easy_reset(m_pCurlSession)`. -/
  | reset
  /-- The function `Perform` is about to call the virtual `PrePerform`. -/
  | prePerform
  /-- The call `curl_easy_perform(m_pCurlSession)`: the options the handle carried and the
  code returned. -/
  | perform (opts : CurlOpts) (code : Nat)
  /-- The function `Perform` is about to call the virtual `PostPerform(code)`. -/
  | postPerform (code : Nat)
  /-- The call `m_fLocalFile.open(path, mode)`; `forWriting` is `out | binary | trunc`,
  otherwise `in`; `ok` tells whether the file was opened. -/
  | fileOpen (path : String) (forWriting : Bool) (ok : Bool)
  /-- The call `m_fLocalFile.close()`. -/
  | fileClose
  /-- The call `curl_easy_cleanup(m_pCurlSession)`. -/
  | cleanup
  deriving DecidableEq, Repr

/-- A request was executed on the transport. -/
def Event.isPerform : Event → Bool
  | .perform _ _ => true
  | _ => false

/-- The logger was called. -/
def Event.isLog : Event → Bool
  | .log _ => true
  | _ => false

/-- The options of the requests executed in a trace, oldest first. -/
def requests : List Event → List CurlOpts
  | [] => []
  | .perform opts _ :: es => opts :: requests es
  | _ :: es => requests es

/-- How many times `Perform` entered the pre-configure hook in a trace. -/
def prePerformCalls : List Event → Nat
  | [] => 0
  | .prePerform :: es => prePerformCalls es + 1
  | _ :: es => prePerformCalls es

/-- How many times `Perform` entered the post-configure hook in a trace. -/
def postPerformCalls : List Event → Nat
  | [] => 0
  | .postPerform _ :: es => postPerformCalls es + 1
  | _ :: es => postPerformCalls es

/-! ## Environment -/

/-- What the library cannot decide by itself. Every answer may depend on what happened
before (the trace). -/
structure Env where
  /-- Whether `curl_easy_init()` returns a handle. -/
  curl_easy_init : List Event → Bool
  /-- The code `curl_easy_perform` returns for a handle carrying these options. -/
  curl_easy_perform : List Event → CurlOpts → Nat
  /-- The text of `curl_easy_strerror`. -/
  curl_easy_strerror : Nat → String
  /-- Whether `std::fstream::open(path, mode)` succeeds on a closed stream. -/
  fopen : List Event → String → Bool → Bool
  /-- The static `CMailClient::s_strCertificationAuthorityFile`. -/
  s_strCertificationAuthorityFile : String

/-! ## Streams owned by the object -/

/-- The state of `std::fstream m_fLocalFile` the library looks at: `is_open()` and
`operator bool` (no fail bit). -/
structure FStream where
  is_open : Bool := false
  good : Bool := true
  deriving DecidableEq, Repr

/-- The state of `std::istringstream m_ssString`: its text, the read position and
`operator bool`. -/
structure IStringStream where
  str : String := ""
  gpos : Nat := 0
  good : Bool := true
  deriving DecidableEq, Repr

/-! ## The session core (`CMailClient`) -/

/-- What a `CMailClient::ProgressFnCallback`, which is a
`std::function<int(void*, double, double, double, double)>`, holds. -/
inductive ProgressFnCallback
  /-- No target. -/
  | empty
  /-- A pointer to the plain function number `f`, of the type
  `int (*)(void*, double, double, double, double)`; it is not null, a `std::function` made
  from a null function pointer has no target. -/
  | functionPointer (f : Nat)
  /-- A target of any other type: a lambda, a function object, a bind expression. -/
  | callable (id : Nat)
  deriving DecidableEq, Repr

/-- The call `fn.target<int(*)(void*, double, double, double, double)>()`: the address of
the stored function pointer when the target is a plain function (`some f`, for the
function `f` it points to), a null pointer (`none`) for every other target and for no
target. -/
def ProgressFnCallback.target : ProgressFnCallback → Option Nat
  | .functionPointer f => some f
  | .empty => none
  | .callable _ => none

/-- The data members of `CMailClient`, and the ghost `trace` and `crashed`. -/
structure CMailClient where
  m_strUserName : String := ""
  m_strPassword : String := ""
  m_strURL : String := ""
  m_strProxy : String := ""
  m_bNoSignal : Bool := false
  m_strLocalFile : String := ""
  m_fLocalFile : FStream := {}
  m_ssString : IStringStream := {}
  m_strSSLCertFile : String := ""
  m_strSSLKeyFile : String := ""
  m_strSSLKeyPwd : String := ""
  /-- The easy handle: `none` is `nullptr`. -/
  m_pCurlSession : Option CurlOpts := none
  /-- The `curl_slist` of recipients: `[]` is `nullptr`. -/
  m_pRecipientslist : List String := []
  m_iCurlTimeout : Int := 0
  m_eSettingsFlags : Nat := ALL_FLAGS
  m_eSslTlsFlags : Nat := NO_SSLTLS
  m_fnProgressCallback : ProgressFnCallback := ProgressFnCallback.empty
  m_bProgressCallbackSet : Bool := false
  /-- The member `m_ProgressStruct.pOwner`. -/
  m_ProgressStruct_pOwner : Option Nat := none
  trace : List Event := []
  /-- The program has dereferenced a null pointer. -/
  crashed : Bool := false
  deriving DecidableEq, Repr

/-- An object of a class derived from `CMailClient`: the base sub-object and the members
the derived class adds. -/
structure Object (δ : Type) where
  base : CMailClient
  derived : δ

/-- The virtual member functions of `CMailClient`. -/
structure VTable (δ : Type) where
  PrePerform : Env → Object δ → Bool × Object δ
  PostPerform : Env → Nat → Object δ → Bool × Object δ
  /-- The call `ParseURL(m_strURL)`: the reference parameter is the member `m_strURL`. -/
  ParseURL : Object δ → Object δ
  CleanupSession : Object δ → Bool × Object δ

/-- The statement `if (m_eSettingsFlags & ENABLE_LOG) m_oLog(msg);`. -/
def CMailClient.logIfEnabled (c : CMailClient) (msg : String) : CMailClient :=
  if flagSet c.m_eSettingsFlags ENABLE_LOG then { c with trace := c.trace ++ [Event.log msg] }
  else c

/-- A `curl_easy_setopt` on the handle of the session. -/
def CMailClient.setopt (c : CMailClient) (f : CurlOpts → CurlOpts) : CMailClient :=
  { c with m_pCurlSession := c.m_pCurlSession.map f }

/-- The state the constructor `CMailClient::CMailClient(Logger)` leaves. -/
def CMailClient.new : CMailClient := {}

/-- Apply a change to the base sub-object. -/
def Object.onBase {δ : Type} (o : Object δ) (f : CMailClient → CMailClient) : Object δ :=
  { o with base := f o.base }

/-- A `curl_easy_setopt` on the handle of the object. -/
def Object.setopt {δ : Type} (o : Object δ) (f : CurlOpts → CurlOpts) : Object δ :=
  o.onBase (fun c => c.setopt f)

/-- The statement `if (m_eSettingsFlags & ENABLE_LOG) m_oLog(msg);` on an object. -/
def Object.logIfEnabled {δ : Type} (o : Object δ) (msg : String) : Object δ :=
  o.onBase (fun c => c.logIfEnabled msg)

/-- The assignments of `InitSession` before `ParseURL` (`MAILClient.cpp`, lines
104-108): the handle `curl_easy_init()` returned, the flags, the TLS mode and the host. -/
def CMailClient.storeSession (handle : Option CurlOpts) (eSettingsFlags eSslTlsFlags : Nat)
    (strHost : String) (c : CMailClient) : CMailClient :=
  { c with
    m_pCurlSession := handle
    m_eSettingsFlags := eSettingsFlags
    m_eSslTlsFlags := eSslTlsFlags
    m_strURL := strHost }

/-- The assignments of `InitSession` after `ParseURL` (`MAILClient.cpp`, lines
110-111). -/
def CMailClient.storeCredentials (strLogin strPassword : String) (c : CMailClient) :
    CMailClient :=
  { c with
    m_strUserName := strLogin
    m_strPassword := strPassword }

/-- The function `CMailClient::InitSession` (`MAILClient.cpp`, lines 84-114).  The C++
default arguments are `eSettingsFlags = ALL_FLAGS` and `eSslTlsFlags = NO_SSLTLS`. -/
def InitSession {δ : Type} (vt : VTable δ) (env : Env) (strHost strLogin strPassword : String)
    (eSettingsFlags eSslTlsFlags : Nat) (o : Object δ) : Bool × Object δ :=
  if empty strHost then
    (false, o.logIfEnabled LOG_ERROR_EMPTY_HOST_MSG)
  else if o.base.m_pCurlSession.isSome then
    (false, o.logIfEnabled LOG_ERROR_CURL_ALREADY_INIT_MSG)
  else
    let handle := if env.curl_easy_init o.base.trace then some CurlOpts.default else none
    let o1 := o.onBase (CMailClient.storeSession handle eSettingsFlags eSslTlsFlags strHost)
    let o2 := vt.ParseURL o1
    let o3 := o2.onBase (CMailClient.storeCredentials strLogin strPassword)
    (o3.base.m_pCurlSession.isSome, o3)

/-- The function `CMailClient::CleanupSession` (`MAILClient.cpp`, lines 129-165). -/
def CMailClient.CleanupSession (c : CMailClient) : Bool × CMailClient :=
  if c.m_pCurlSession.isNone then
    (false, c.logIfEnabled LOG_ERROR_CURL_NOT_INIT_MSG)
  else
    (true, { c with
      trace := c.trace ++ [Event.cleanup]
      m_pCurlSession := none
      m_pRecipientslist := [] })

/-- The function `CMailClient::SetProgressFnCallback` (`MAILClient.cpp`, lines 174-181).
The members `pCurl` and `dLastRunTime` of `m_ProgressStruct`, which it also assigns and
which the library never reads, are not kept. -/
def CMailClient.SetProgressFnCallback (pOwner : Option Nat) (fnCallback : ProgressFnCallback)
    (c : CMailClient) : CMailClient :=
  { c with
    m_ProgressStruct_pOwner := pOwner
    m_fnProgressCallback := fnCallback
    m_bProgressCallbackSet := true }

/-- The function `CMailClient::GetProgressFnCallback` (`MAILClient.h`, lines 89-92):
`none` is the null pointer. -/
def CMailClient.GetProgressFnCallback (c : CMailClient) : Option Nat :=
  c.m_fnProgressCallback.target

/-- The function `CMailClient::SetProxy` (`MAILClient.cpp`, lines 189-201). -/
def CMailClient.SetProxy (strProxy : String) (c : CMailClient) : CMailClient :=
  if empty strProxy then c
  else
    let strUri := toupper strProxy
    if !(compare0 strUri 4 "HTTP") then
      { c with m_strProxy := "http://" ++ strProxy }
    else
      { c with m_strProxy := strProxy }

def CMailClient.SetTimeout (iTimeout : Int) (c : CMailClient) : CMailClient :=
  { c with m_iCurlTimeout := iTimeout }

def CMailClient.SetNoSignal (bNoSignal : Bool) (c : CMailClient) : CMailClient :=
  { c with m_bNoSignal := bNoSignal }

def CMailClient.SetSSLCertFile (strPath : String) (c : CMailClient) : CMailClient :=
  { c with m_strSSLCertFile := strPath }

def CMailClient.SetSSLKeyFile (strPath : String) (c : CMailClient) : CMailClient :=
  { c with m_strSSLKeyFile := strPath }

def CMailClient.SetSSLKeyPassword (strPwd : String) (c : CMailClient) : CMailClient :=
  { c with m_strSSLKeyPwd := strPwd }

/-- The cross-cutting settings of `CMailClient::Perform` that come before the progress
callback (`MAILClient.cpp`, lines 233-290): every `curl_easy_setopt(m_pCurlSession, ...)`
between the return of `PrePerform` and line 292, in the order of the source, as the change
they make to the options `h` of the handle. -/
def CMailClient.settingsBeforeProgress (env : Env) (c : CMailClient) (h : CurlOpts) :
    CurlOpts :=
  let h := { h with USERNAME := some (c_str c.m_strUserName) }
  let h := { h with PASSWORD := some (c_str c.m_strPassword) }
  let h := if flagSet c.m_eSslTlsFlags ENABLE_TLS then
      { h with USE_SSL := some CURLUSESSL_ALL }
    else h
  let h := if !(empty env.s_strCertificationAuthorityFile) then
      { h with CAINFO := some (c_str env.s_strCertificationAuthorityFile) }
    else h
  let h := if !(empty c.m_strSSLCertFile) then
      { h with SSLCERT := some (c_str c.m_strSSLCertFile) }
    else h
  let h := if !(empty c.m_strSSLKeyFile) then
      { h with SSLKEY := some (c_str c.m_strSSLKeyFile) }
    else h
  let h := if !(empty c.m_strSSLKeyPwd) then
      { h with KEYPASSWD := some (c_str c.m_strSSLKeyPwd) }
    else h
  let h := if !(flagSet c.m_eSettingsFlags VERIFY_PEER) then
      { h with SSL_VERIFYPEER := some 0 }
    else h
  let h := if !(flagSet c.m_eSettingsFlags VERIFY_HOST) then
      { h with SSL_VERIFYHOST := some 0 }
    else h
  h

/-- The cross-cutting settings of `CMailClient::Perform` (`MAILClient.cpp`, lines
233-318): every `curl_easy_setopt(m_pCurlSession, ...)` between the return of
`PrePerform` and the call of `curl_easy_perform`, in the order of the source, as the
change they make to the options `h` of the handle.  Line 294 reads
`*GetProgressFnCallback()`; `Perform` comes here only when that pointer is not null (it
stops at line 294 otherwise), and the option then is the function the pointer points
to. -/
def CMailClient.settings (env : Env) (c : CMailClient) (h : CurlOpts) : CurlOpts :=
  let h := c.settingsBeforeProgress env h
  let h := if c.m_bProgressCallbackSet then
      { h with
        PROGRESSFUNCTION := c.GetProgressFnCallback.map Callback.ProgressFnCallback
        PROGRESSDATA := some DataPtr.progressStruct
        NOPROGRESS := some 0 }
    else h
  let h := { h with USERAGENT := some CLIENT_USERAGENT }
  let h := if c.m_iCurlTimeout > 0 then
      { h with TIMEOUT := some c.m_iCurlTimeout, NOSIGNAL := some 1 }
    else h
  let h := if !(empty c.m_strProxy) then
      { h with PROXY := some (c_str c.m_strProxy), HTTPPROXYTUNNEL := some 1 }
    else h
  let h := if c.m_bNoSignal then
      { h with NOSIGNAL := some 1 }
    else h
  h

/-- The state in which `CMailClient::Perform` stops when line 294 dereferences a null
pointer: the settings of lines 233-290 are on the handle, nothing was executed, and the
program has crashed. -/
def CMailClient.nullDereference (env : Env) (c : CMailClient) : CMailClient :=
  { c.setopt (c.settingsBeforeProgress env) with crashed := true }

/-- The cross-cutting settings of `CMailClient::Perform`, applied to the handle of the
session. -/
def CMailClient.applySettings (env : Env) (c : CMailClient) : CMailClient :=
  c.setopt (c.settings env)

/-- The call `curl_easy_perform(m_pCurlSession)`: the environment gives the code, the
trace records the request.  On a null handle libcurl returns
`CURLE_BAD_FUNCTION_ARGUMENT` and nothing is sent. -/
def CMailClient.curl_easy_perform (env : Env) (c : CMailClient) : Nat × CMailClient :=
  match c.m_pCurlSession with
  | some opts =>
    let res := env.curl_easy_perform c.trace opts
    (res, { c with trace := c.trace ++ [Event.perform opts res] })
  | none => (CURLE_BAD_FUNCTION_ARGUMENT, c)

/-- The start of `CMailClient::Perform` on a session with a handle: the mandatory
`curl_easy_reset`, then the virtual `PrePerform` is entered. -/
def Object.beforePrePerform {δ : Type} (o : Object δ) : Object δ :=
  let o := o.onBase (fun c => { c with
    m_pCurlSession := some CurlOpts.default
    trace := c.trace ++ [Event.reset] })
  o.onBase (fun c => { c with trace := c.trace ++ [Event.prePerform] })

/-- The middle of `CMailClient::Perform`, between the two hooks: the cross-cutting
settings, then `res = curl_easy_perform(m_pCurlSession)`, then the virtual
`PostPerform(res)` is entered. -/
def Object.execute {δ : Type} (env : Env) (o : Object δ) : Nat × Object δ :=
  let o := o.onBase (CMailClient.applySettings env)
  let r := o.base.curl_easy_perform env
  let res := r.1
  let o := o.onBase (fun _ => r.2)
  (res, o.onBase (fun c => { c with trace := c.trace ++ [Event.postPerform res] }))

/-- The function `CMailClient::Perform` (`MAILClient.cpp`, lines 211-347).  When a
progress callback was registered and `GetProgressFnCallback()` is a null pointer, line 294
dereferences it: the function does not return, and the state is the one of the crash
(`CMailClient.nullDereference`). -/
def Perform {δ : Type} (vt : VTable δ) (env : Env) (o : Object δ) : Bool × Object δ :=
  if o.base.m_pCurlSession.isNone then
    (false, o.logIfEnabled LOG_ERROR_CURL_NOT_INIT_MSG)
  else
    let pre := vt.PrePerform env o.beforePrePerform
    if !pre.1 then
      (false, pre.2.logIfEnabled LOG_ERROR_PREPERFORM_FAILED_MSG)
    else if pre.2.base.m_bProgressCallbackSet && pre.2.base.GetProgressFnCallback.isNone then
      (false, pre.2.onBase (CMailClient.nullDereference env))
    else
      let ex := pre.2.execute env
      let res := ex.1
      let post := vt.PostPerform env res ex.2
      if !post.1 then
        (false, post.2.logIfEnabled LOG_ERROR_POSTPERFORM_FAILED_MSG)
      else if res != CURLE_OK then
        (false, post.2.logIfEnabled
          (LOG_ERROR_CURL_PEFORM_FAILURE res (env.curl_easy_strerror res)))
      else
        (true, post.2)

/-! ## Local file stream -/

/-- The call `m_fLocalFile.open(path, mode)`: it fails on a stream that is already open,
and otherwise as the environment says; success clears the error state, failure sets the
fail bit. -/
def CMailClient.fileOpen (env : Env) (path : String) (forWriting : Bool) (c : CMailClient) :
    CMailClient :=
  let ok := !c.m_fLocalFile.is_open && env.fopen c.trace path forWriting
  { c with
    m_fLocalFile := if ok then { is_open := true, good := true }
      else { c.m_fLocalFile with good := false }
    trace := c.trace ++ [Event.fileOpen path forWriting ok] }

/-- The statement `if (m_fLocalFile.is_open()) m_fLocalFile.close();`. -/
def CMailClient.closeIfOpen (c : CMailClient) : CMailClient :=
  if c.m_fLocalFile.is_open then
    { c with
      m_fLocalFile := { c.m_fLocalFile with is_open := false }
      trace := c.trace ++ [Event.fileClose] }
  else c

/-! ## Input string stream -/

/-- The call `m_ssString.clear()`: the error state is reset. -/
def CMailClient.ssClear (c : CMailClient) : CMailClient :=
  { c with m_ssString := { c.m_ssString with good := true } }

/-- The call `m_ssString.str(text)`: the stream reads `text` from its beginning. -/
def CMailClient.ssStr (text : String) (c : CMailClient) : CMailClient :=
  { c with m_ssString := { c.m_ssString with str := text, gpos := 0 } }

/-- Apply a change to the members the derived class adds. -/
def Object.onDerived {δ : Type} (o : Object δ) (f : δ → δ) : Object δ :=
  { o with derived := f o.derived }

/-! ## The base class used on its own -/

/-- The virtual functions as `CMailClient` itself defines them (`MAILClient.h`, lines
131-135, and `CleanupSession`). -/
def CMailClient.vtable : VTable Unit where
  PrePerform := fun _ o => (true, o)
  PostPerform := fun _ _ o => (true, o)
  ParseURL := fun o => o
  CleanupSession := fun o =>
    let r := o.base.CleanupSession
    (r.1, o.onBase (fun _ => r.2))

/-! ## The POP3 adapter (`POPClient.h`, `POPClient.cpp`) -/

namespace POP

/-- The enumeration `CPOPClient::MailOperation`.  The member `m_eOperationType` is
protected and only ever assigned one of these enumerators, so the `default:` branch of
`PrePerform` cannot be reached and has no counterpart here. -/
inductive MailOperation
  | POP3_LIST
  | POP3_RETR_STRING
  | POP3_RETR_FILE
  | POP3_DELE
  | POP3_UIDL
  | POP3_TOP
  | POP3_STAT
  | POP3_NOOP
  deriving DecidableEq, Repr

end POP

/-- The data members `CPOPClient` adds; the defaults are those of its constructor. -/
structure CPOPClient where
  m_eOperationType : POP.MailOperation := POP.MailOperation.POP3_NOOP
  m_strMsgNumber : String := ""
  /-- The pointer `m_pstrText`: `none` is `nullptr`, `some a` the address of the caller's
  string. -/
  m_pstrText : Option Nat := none
  deriving DecidableEq, Repr

/-- The function `CPOPClient::ParseURL` (`POPClient.cpp`, lines 81-103), on the member
`m_strURL` it is called with. -/
def CPOPClient.ParseURL (o : Object CPOPClient) : Object CPOPClient :=
  let strTmp := toupper o.base.m_strURL
  let o :=
    if compare0 strTmp 8 "POP3S://" || compare0 strTmp 7 "POP3://" then
      if o.base.m_eSslTlsFlags != ENABLE_SSL then
        o.onBase (fun c => { c with m_eSslTlsFlags := ENABLE_SSL })
      else o
    else if o.base.m_eSslTlsFlags == ENABLE_SSL then
      o.onBase (fun c => { c with m_strURL := "pop3s://" ++ c.m_strURL })
    else
      o.onBase (fun c => { c with m_strURL := "pop3://" ++ c.m_strURL })
  if lastChar o.base.m_strURL != some '/' then
    o.onBase (fun c => { c with m_strURL := c.m_strURL ++ "/" })
  else o

/-- The two `curl_easy_setopt` calls that direct the download into `*m_pstrText`. -/
def writeInString {δ : Type} (o : Object δ) (addr : Nat) : Object δ :=
  o.setopt (fun h => { h with
    WRITEFUNCTION := some Callback.WriteInStringCallback
    WRITEDATA := some (DataPtr.text addr) })

/-- The two `curl_easy_setopt` calls that direct the download into `m_fLocalFile`. -/
def writeToFile {δ : Type} (o : Object δ) : Object δ :=
  o.setopt (fun h => { h with
    WRITEFUNCTION := some Callback.WriteToFileCallback
    WRITEDATA := some DataPtr.localFile })

/-- The last statements of every `PrePerform`:
`curl_easy_setopt(m_pCurlSession, CURLOPT_URL, strRequestURL.c_str())` and `return true`. -/
def finishPrePerform {δ : Type} (o : Object δ) (strRequestURL : String) : Bool × Object δ :=
  (true, o.setopt (fun h => { h with URL := some (c_str strRequestURL) }))

/-- The function `CPOPClient::PrePerform` (`POPClient.cpp`, lines 114-245). -/
def CPOPClient.PrePerform (env : Env) (o : Object CPOPClient) : Bool × Object CPOPClient :=
  let strRequestURL := o.base.m_strURL
  match o.derived.m_eOperationType with
  | .POP3_TOP =>
    match o.derived.m_pstrText with
    | none => (false, o)
    | some addr =>
      let o := writeInString o addr
      if !(empty o.derived.m_strMsgNumber) then
        let o := o.setopt (fun h => { h with
          CUSTOMREQUEST := some (c_str ("TOP " ++ o.derived.m_strMsgNumber ++ " 0")) })
        finishPrePerform o strRequestURL
      else (false, o)
  | .POP3_NOOP =>
    let o := o.setopt (fun h => { h with CUSTOMREQUEST := some "NOOP" })
    let o := o.setopt (fun h => { h with NOBODY := some 1 })
    finishPrePerform o strRequestURL
  | .POP3_UIDL =>
    let o := o.setopt (fun h => { h with CUSTOMREQUEST := some "UIDL" })
    -- falls through to POP3_LIST
    match o.derived.m_pstrText with
    | none => (false, o)
    | some addr => finishPrePerform (writeInString o addr) strRequestURL
  | .POP3_LIST =>
    match o.derived.m_pstrText with
    | none => (false, o)
    | some addr => finishPrePerform (writeInString o addr) strRequestURL
  | .POP3_DELE =>
    if !(empty o.derived.m_strMsgNumber) then
      let o := o.setopt (fun h => { h with
        CUSTOMREQUEST := some (c_str ("DELE " ++ o.derived.m_strMsgNumber)) })
      let o := o.setopt (fun h => { h with NOBODY := some 1 })
      finishPrePerform o strRequestURL
    else (false, o)
  | .POP3_RETR_STRING =>
    if !(empty o.derived.m_strMsgNumber) then
      let strRequestURL := strRequestURL ++ o.derived.m_strMsgNumber
      match o.derived.m_pstrText with
      | none => (false, o)
      | some addr => finishPrePerform (writeInString o addr) strRequestURL
    else (false, o)
  | .POP3_RETR_FILE =>
    if !(empty o.derived.m_strMsgNumber) then
      let strRequestURL := strRequestURL ++ o.derived.m_strMsgNumber
      let o := o.onBase (fun c => c.fileOpen env c.m_strLocalFile true)
      if o.base.m_fLocalFile.good then
        finishPrePerform (writeToFile o) strRequestURL
      else
        (false, o.logIfEnabled ("[POPClient][Error] Unable to open local file " ++
          c_str o.base.m_strLocalFile ++
          " in CMailClient::Perform() in case POP3_RETR_FILE."))
    else (false, o)
  | .POP3_STAT =>
    match o.derived.m_pstrText with
    | none => (false, o)
    | some addr =>
      let o := writeInString o addr
      let o := o.setopt (fun h => { h with CUSTOMREQUEST := some "STAT" })
      let o := o.setopt (fun h => { h with NOBODY := some 1 })
      finishPrePerform o strRequestURL

/-- The function `CPOPClient::PostPerform` (`POPClient.cpp`, lines 256-265). -/
def CPOPClient.PostPerform (_env : Env) (_ePerformCode : Nat) (o : Object CPOPClient) :
    Bool × Object CPOPClient :=
  if o.derived.m_eOperationType = POP.MailOperation.POP3_RETR_FILE then
    (true, o.onBase CMailClient.closeIfOpen)
  else (true, o)

/-- The function `CPOPClient::CleanupSession` (`POPClient.cpp`, lines 17-21). -/
def CPOPClient.CleanupSession (o : Object CPOPClient) : Bool × Object CPOPClient :=
  let o := { o with derived := { o.derived with m_pstrText := none } }
  let r := o.base.CleanupSession
  (r.1, o.onBase (fun _ => r.2))

def CPOPClient.vtable : VTable CPOPClient where
  PrePerform := CPOPClient.PrePerform
  PostPerform := CPOPClient.PostPerform
  ParseURL := CPOPClient.ParseURL
  CleanupSession := CPOPClient.CleanupSession

/-- The state the constructor `CPOPClient::CPOPClient(oLogger)` leaves. -/
def CPOPClient.new : Object CPOPClient := { base := CMailClient.new, derived := {} }

/-- The function `CPOPClient::List`; `strList` is the address of the output string. -/
def CPOPClient.List (env : Env) (strList : Nat) (o : Object CPOPClient) :
    Bool × Object CPOPClient :=
  Perform CPOPClient.vtable env { o with derived := { o.derived with
    m_pstrText := some strList
    m_eOperationType := POP.MailOperation.POP3_LIST } }

/-- The function `CPOPClient::ListUIDL`. -/
def CPOPClient.ListUIDL (env : Env) (strList : Nat) (o : Object CPOPClient) :
    Bool × Object CPOPClient :=
  Perform CPOPClient.vtable env { o with derived := { o.derived with
    m_pstrText := some strList
    m_eOperationType := POP.MailOperation.POP3_UIDL } }

/-- The function `CPOPClient::GetString`. -/
def CPOPClient.GetString (env : Env) (strMsgNumber : String) (strOutput : Nat)
    (o : Object CPOPClient) : Bool × Object CPOPClient :=
  Perform CPOPClient.vtable env { o with derived := { o.derived with
    m_pstrText := some strOutput
    m_strMsgNumber := strMsgNumber
    m_eOperationType := POP.MailOperation.POP3_RETR_STRING } }

/-- The function `CPOPClient::GetFile`. -/
def CPOPClient.GetFile (env : Env) (strMsgNumber strFilePath : String)
    (o : Object CPOPClient) : Bool × Object CPOPClient :=
  Perform CPOPClient.vtable env { o with
    base := { o.base with m_strLocalFile := strFilePath }
    derived := { o.derived with
      m_strMsgNumber := strMsgNumber
      m_eOperationType := POP.MailOperation.POP3_RETR_FILE } }

/-- The function `CPOPClient::GetHeaders`. -/
def CPOPClient.GetHeaders (env : Env) (strMsgNumber : String) (strOutput : Nat)
    (o : Object CPOPClient) : Bool × Object CPOPClient :=
  Perform CPOPClient.vtable env { o with derived := { o.derived with
    m_pstrText := some strOutput
    m_strMsgNumber := strMsgNumber
    m_eOperationType := POP.MailOperation.POP3_TOP } }

/-- The function `CPOPClient::Delete`. -/
def CPOPClient.Delete (env : Env) (strMsgNumber : String) (o : Object CPOPClient) :
    Bool × Object CPOPClient :=
  Perform CPOPClient.vtable env { o with derived := { o.derived with
    m_strMsgNumber := strMsgNumber
    m_eOperationType := POP.MailOperation.POP3_DELE } }

/-- The function `CPOPClient::Noop`. -/
def CPOPClient.Noop (env : Env) (o : Object CPOPClient) : Bool × Object CPOPClient :=
  Perform CPOPClient.vtable env { o with derived := { o.derived with
    m_eOperationType := POP.MailOperation.POP3_NOOP } }

/-- The function `CPOPClient::Stat`. -/
def CPOPClient.Stat (env : Env) (strStat : Nat) (o : Object CPOPClient) :
    Bool × Object CPOPClient :=
  Perform CPOPClient.vtable env { o with derived := { o.derived with
    m_pstrText := some strStat
    m_eOperationType := POP.MailOperation.POP3_STAT } }

/-! ## The IMAP adapter (`IMAPClient.h`, `IMAPClient.cpp`) -/

namespace IMAP

/-- The enumeration `CIMAPClient::MailOperation` (protected, only ever assigned one of
these enumerators: the `default:` branch of `PrePerform` cannot be reached). -/
inductive MailOperation
  | IMAP_NOOP
  | IMAP_LIST
  | IMAP_SEND_STRING
  | IMAP_SEND_FILE
  | IMAP_RETR_FILE
  | IMAP_RETR_STRING
  | IMAP_DELETE_FOLDER
  | IMAP_INFO_FOLDER
  | IMAP_LSUB
  | IMAP_COPY
  | IMAP_CREATE
  | IMAP_SEARCH
  | IMAP_STORE
  deriving DecidableEq, Repr

/-- The public `enum class MailProperty`: a caller can pass any value of the underlying
type `int`, the enumerators are the values 0 to 5. -/
abbrev MailProperty := Int
def MailProperty.Deleted : MailProperty := 0
def MailProperty.Seen : MailProperty := 1
def MailProperty.Answered : MailProperty := 2
def MailProperty.Flagged : MailProperty := 3
def MailProperty.Draft : MailProperty := 4
def MailProperty.Recent : MailProperty := 5

/-- The public `enum class SearchOption`: the enumerators are the values 0 to 6. -/
abbrev SearchOption := Int
def SearchOption.ANSWERED : SearchOption := 0
def SearchOption.DELETED : SearchOption := 1
def SearchOption.DRAFT : SearchOption := 2
def SearchOption.FLAGGED : SearchOption := 3
def SearchOption.NEW : SearchOption := 4
def SearchOption.RECENT : SearchOption := 5
def SearchOption.SEEN : SearchOption := 6

end IMAP

/-- The data members `CIMAPClient` adds; the defaults are those of its constructor. -/
structure CIMAPClient where
  m_eOperationType : IMAP.MailOperation := IMAP.MailOperation.IMAP_NOOP
  m_eMailProperty : IMAP.MailProperty := IMAP.MailProperty.Flagged
  m_eSearchOption : IMAP.SearchOption := IMAP.SearchOption.FLAGGED
  m_strFrom : String := ""
  m_strTo : String := ""
  m_strCc : String := ""
  m_strMail : String := ""
  m_strMsgNumber : String := ""
  m_strFolderName : String := ""
  m_pstrText : Option Nat := none
  deriving DecidableEq, Repr

/-- The function `CIMAPClient::ParseURL` (`IMAPClient.cpp`, lines 135-157), on the member
`m_strURL` it is called with. -/
def CIMAPClient.ParseURL (o : Object CIMAPClient) : Object CIMAPClient :=
  let strTmp := toupper o.base.m_strURL
  let o :=
    if compare0 strTmp 8 "IMAPS://" || compare0 strTmp 7 "IMAP://" then
      if o.base.m_eSslTlsFlags != ENABLE_SSL then
        o.onBase (fun c => { c with m_eSslTlsFlags := ENABLE_SSL })
      else o
    else if o.base.m_eSslTlsFlags == ENABLE_SSL then
      o.onBase (fun c => { c with m_strURL := "imaps://" ++ c.m_strURL })
    else
      o.onBase (fun c => { c with m_strURL := "imap://" ++ c.m_strURL })
  if lastChar o.base.m_strURL != some '/' then
    o.onBase (fun c => { c with m_strURL := c.m_strURL ++ "/" })
  else o

/-- The keyword chain of the `IMAP_SEARCH` case (`IMAPClient.cpp`, lines 384-401). -/
def CIMAPClient.searchKeyword (e : IMAP.SearchOption) : Option String :=
  if e == IMAP.SearchOption.ANSWERED then some "ANSWERED"
  else if e == IMAP.SearchOption.DELETED then some "DELETED"
  else if e == IMAP.SearchOption.DRAFT then some "DRAFT"
  else if e == IMAP.SearchOption.FLAGGED then some "FLAGGED"
  else if e == IMAP.SearchOption.NEW then some "NEW"
  else if e == IMAP.SearchOption.RECENT then some "RECENT"
  else if e == IMAP.SearchOption.SEEN then some "SEEN"
  else none

/-- The keyword chain of the `IMAP_STORE` case (`IMAPClient.cpp`, lines 415-430). -/
def CIMAPClient.propertyKeyword (e : IMAP.MailProperty) : Option String :=
  if e == IMAP.MailProperty.Deleted then some "Deleted"
  else if e == IMAP.MailProperty.Seen then some "Seen"
  else if e == IMAP.MailProperty.Answered then some "Answered"
  else if e == IMAP.MailProperty.Flagged then some "Flagged"
  else if e == IMAP.MailProperty.Draft then some "Draft"
  else if e == IMAP.MailProperty.Recent then some "Recent"
  else none

/-- The three `curl_easy_setopt` calls that make the request an upload read through a
line callback. -/
def uploadFrom {δ : Type} (o : Object δ) (cb : Callback) (data : DataPtr) : Object δ :=
  o.setopt (fun h => { h with READFUNCTION := some cb, READDATA := some data, UPLOAD := some 1 })

/-- The function `CIMAPClient::PrePerform` (`IMAPClient.cpp`, lines 168-453). -/
def CIMAPClient.PrePerform (env : Env) (o : Object CIMAPClient) : Bool × Object CIMAPClient :=
  let strRequestURL := o.base.m_strURL
  let o := o.onBase CMailClient.ssClear
  match o.derived.m_eOperationType with
  | .IMAP_SEND_STRING =>
    let strRequestURL := strRequestURL ++ o.derived.m_strMsgNumber
    let o := o.onBase (CMailClient.ssStr o.derived.m_strMail)
    let o := uploadFrom o Callback.ReadLineFromStringStreamCallback DataPtr.ssString
    finishPrePerform o strRequestURL
  | .IMAP_SEND_FILE =>
    if !(empty o.base.m_strLocalFile) then
      let o := o.onBase (fun c => c.fileOpen env c.m_strLocalFile false)
      if o.base.m_fLocalFile.good then
        let o := uploadFrom o Callback.ReadLineFromFileStreamCallback DataPtr.localFile
        finishPrePerform o strRequestURL
      else
        (false, o.logIfEnabled ("[IMAPClient][Error] Unable to open local file " ++
          c_str o.base.m_strLocalFile ++
          " in CIMAPClient::PrePerform()in case IMAP_SEND_FILE."))
    else (false, o)
  | .IMAP_NOOP =>
    let o := o.setopt (fun h => { h with CUSTOMREQUEST := some "NOOP" })
    let o := o.setopt (fun h => { h with NOBODY := some 1 })
    finishPrePerform o strRequestURL
  | .IMAP_LIST =>
    match o.derived.m_pstrText with
    | none => (false, o)
    | some addr =>
      let strRequestURL :=
        if !(empty o.derived.m_strFolderName) then strRequestURL ++ o.derived.m_strFolderName
        else strRequestURL
      finishPrePerform (writeInString o addr) strRequestURL
  | .IMAP_DELETE_FOLDER =>
    if !(empty o.derived.m_strFolderName) then
      let o := o.setopt (fun h => { h with
        CUSTOMREQUEST := some (c_str ("DELETE " ++ o.derived.m_strFolderName)) })
      finishPrePerform o strRequestURL
    else (false, o)
  | .IMAP_RETR_STRING =>
    if !(empty o.derived.m_strMsgNumber) then
      let strRequestURL := strRequestURL ++ ("INBOX/;UID=" ++ o.derived.m_strMsgNumber)
      match o.derived.m_pstrText with
      | none => (false, o)
      | some addr => finishPrePerform (writeInString o addr) strRequestURL
    else (false, o)
  | .IMAP_RETR_FILE =>
    if !(empty o.derived.m_strMsgNumber) then
      let strRequestURL := strRequestURL ++ ("INBOX/;UID=" ++ o.derived.m_strMsgNumber)
      let o := o.onBase (fun c => c.fileOpen env c.m_strLocalFile true)
      if o.base.m_fLocalFile.good then
        finishPrePerform (writeToFile o) strRequestURL
      else
        (false, o.logIfEnabled ("[IMAPClient][Error] Unable to open local file " ++
          c_str o.base.m_strLocalFile ++
          " in CIMAPClient::PrePerform() in case IMAP_RETR_FILE."))
    else (false, o)
  | .IMAP_INFO_FOLDER =>
    match o.derived.m_pstrText with
    | none => (false, o)
    | some addr =>
      let o := writeInString o addr
      let o := o.setopt (fun h => { h with
        CUSTOMREQUEST := some (c_str ("EXAMINE " ++ o.derived.m_strFolderName)) })
      finishPrePerform o strRequestURL
  | .IMAP_LSUB =>
    match o.derived.m_pstrText with
    | none => (false, o)
    | some addr =>
      let o := writeInString o addr
      let o := o.setopt (fun h => { h with CUSTOMREQUEST := some "LSUB \"\" *" })
      finishPrePerform o strRequestURL
  | .IMAP_COPY =>
    if !(empty o.derived.m_strMsgNumber) && !(empty o.derived.m_strFolderName) then
      let strRequestURL := strRequestURL ++ "INBOX"
      let o := o.setopt (fun h => { h with
        CUSTOMREQUEST := some
          (c_str ("COPY " ++ o.derived.m_strMsgNumber ++ " " ++ o.derived.m_strFolderName)) })
      finishPrePerform o strRequestURL
    else (false, o)
  | .IMAP_CREATE =>
    if !(empty o.derived.m_strFolderName) then
      let o := o.setopt (fun h => { h with
        CUSTOMREQUEST := some (c_str ("CREATE " ++ o.derived.m_strFolderName)) })
      finishPrePerform o strRequestURL
    else (false, o)
  | .IMAP_SEARCH =>
    match o.derived.m_pstrText with
    | none => (false, o)
    | some addr =>
      let o := writeInString o addr
      let strRequestURL := strRequestURL ++ "INBOX"
      match CIMAPClient.searchKeyword o.derived.m_eSearchOption with
      | none => (false, o)
      | some strCmd =>
        let o := o.setopt (fun h => { h with
          CUSTOMREQUEST := some (c_str ("SEARCH " ++ strCmd)) })
        finishPrePerform o strRequestURL
  | .IMAP_STORE =>
    if !(empty o.derived.m_strMsgNumber) then
      match CIMAPClient.propertyKeyword o.derived.m_eMailProperty with
      | none => (false, o)
      | some strCmd =>
        let strRequestURL := strRequestURL ++ "INBOX"
        let o := o.setopt (fun h => { h with
          CUSTOMREQUEST := some
            (c_str ("STORE " ++ o.derived.m_strMsgNumber ++ " +Flags \\" ++ strCmd)) })
        finishPrePerform o strRequestURL
    else (false, o)

/-- The function `CIMAPClient::PostPerform` (`IMAPClient.cpp`, lines 464-489). -/
def CIMAPClient.PostPerform (env : Env) (ePerformCode : Nat) (o : Object CIMAPClient) :
    Bool × Object CIMAPClient :=
  let o :=
    if o.derived.m_eOperationType = IMAP.MailOperation.IMAP_SEND_FILE ∨
        o.derived.m_eOperationType = IMAP.MailOperation.IMAP_RETR_FILE then
      o.onBase CMailClient.closeIfOpen
    else o
  if o.derived.m_eOperationType = IMAP.MailOperation.IMAP_STORE then
    if ePerformCode != CURLE_OK then
      let o := o.setopt (fun h => { h with CUSTOMREQUEST := some "EXPUNGE" })
      let r := o.base.curl_easy_perform env
      let ePerformCode := r.1
      let o := o.onBase (fun _ => r.2)
      if ePerformCode != CURLE_OK then
        (true, o.logIfEnabled
          (LOG_ERROR_CURL_PEFORM_FAILURE ePerformCode (env.curl_easy_strerror ePerformCode)))
      else (true, o)
    else (true, o)
  else (true, o)

/-- The function `CIMAPClient::CleanupSession` (`IMAPClient.cpp`, lines 19-23). -/
def CIMAPClient.CleanupSession (o : Object CIMAPClient) : Bool × Object CIMAPClient :=
  let o := { o with derived := { o.derived with m_pstrText := none } }
  let r := o.base.CleanupSession
  (r.1, o.onBase (fun _ => r.2))

def CIMAPClient.vtable : VTable CIMAPClient where
  PrePerform := CIMAPClient.PrePerform
  PostPerform := CIMAPClient.PostPerform
  ParseURL := CIMAPClient.ParseURL
  CleanupSession := CIMAPClient.CleanupSession

/-- The state the constructor `CIMAPClient::CIMAPClient(oLogger)` leaves. -/
def CIMAPClient.new : Object CIMAPClient := { base := CMailClient.new, derived := {} }

/-- The function `CIMAPClient::List`; the C++ default of `strFolderName` is `""`. -/
def CIMAPClient.List (env : Env) (strList : Nat) (strFolderName : String)
    (o : Object CIMAPClient) : Bool × Object CIMAPClient :=
  Perform CIMAPClient.vtable env { o with derived := { o.derived with
    m_strFolderName := strFolderName
    m_pstrText := some strList
    m_eOperationType := IMAP.MailOperation.IMAP_LIST } }

/-- The function `CIMAPClient::ListSubFolders`. -/
def CIMAPClient.ListSubFolders (env : Env) (strList : Nat) (o : Object CIMAPClient) :
    Bool × Object CIMAPClient :=
  Perform CIMAPClient.vtable env { o with derived := { o.derived with
    m_pstrText := some strList
    m_eOperationType := IMAP.MailOperation.IMAP_LSUB } }

/-- The function `CIMAPClient::SendString`. -/
def CIMAPClient.SendString (env : Env) (strMail : String) (o : Object CIMAPClient) :
    Bool × Object CIMAPClient :=
  Perform CIMAPClient.vtable env { o with derived := { o.derived with
    m_strMail := strMail
    m_eOperationType := IMAP.MailOperation.IMAP_SEND_STRING } }

/-- The function `CIMAPClient::SendFile`. -/
def CIMAPClient.SendFile (env : Env) (strPath : String) (o : Object CIMAPClient) :
    Bool × Object CIMAPClient :=
  Perform CIMAPClient.vtable env { o with
    base := { o.base with m_strLocalFile := strPath }
    derived := { o.derived with m_eOperationType := IMAP.MailOperation.IMAP_SEND_FILE } }

/-- The function `CIMAPClient::GetString`. -/
def CIMAPClient.GetString (env : Env) (strMsgNumber : String) (strOutput : Nat)
    (o : Object CIMAPClient) : Bool × Object CIMAPClient :=
  Perform CIMAPClient.vtable env { o with derived := { o.derived with
    m_strMsgNumber := strMsgNumber
    m_pstrText := some strOutput
    m_eOperationType := IMAP.MailOperation.IMAP_RETR_STRING } }

/-- The function `CIMAPClient::GetFile`. -/
def CIMAPClient.GetFile (env : Env) (strMsgNumber strFilePath : String)
    (o : Object CIMAPClient) : Bool × Object CIMAPClient :=
  Perform CIMAPClient.vtable env { o with
    base := { o.base with m_strLocalFile := strFilePath }
    derived := { o.derived with
      m_strMsgNumber := strMsgNumber
      m_eOperationType := IMAP.MailOperation.IMAP_RETR_FILE } }

/-- The function `CIMAPClient::DeleteFolder`. -/
def CIMAPClient.DeleteFolder (env : Env) (strFolderName : String) (o : Object CIMAPClient) :
    Bool × Object CIMAPClient :=
  Perform CIMAPClient.vtable env { o with derived := { o.derived with
    m_strFolderName := strFolderName
    m_eOperationType := IMAP.MailOperation.IMAP_DELETE_FOLDER } }

/-- The function `CIMAPClient::Noop`. -/
def CIMAPClient.Noop (env : Env) (o : Object CIMAPClient) : Bool × Object CIMAPClient :=
  Perform CIMAPClient.vtable env { o with derived := { o.derived with
    m_eOperationType := IMAP.MailOperation.IMAP_NOOP } }

/-- The function `CIMAPClient::CopyMail`. -/
def CIMAPClient.CopyMail (env : Env) (strMsgNumber strFolderName : String)
    (o : Object CIMAPClient) : Bool × Object CIMAPClient :=
  Perform CIMAPClient.vtable env { o with derived := { o.derived with
    m_strMsgNumber := strMsgNumber
    m_strFolderName := strFolderName
    m_eOperationType := IMAP.MailOperation.IMAP_COPY } }

/-- The function `CIMAPClient::CreateFolder`. -/
def CIMAPClient.CreateFolder (env : Env) (strFolderName : String) (o : Object CIMAPClient) :
    Bool × Object CIMAPClient :=
  Perform CIMAPClient.vtable env { o with derived := { o.derived with
    m_strFolderName := strFolderName
    m_eOperationType := IMAP.MailOperation.IMAP_CREATE } }

/-- The function `CIMAPClient::SetMailProperty`. -/
def CIMAPClient.SetMailProperty (env : Env) (strMsgNumber : String)
    (eNewProperty : IMAP.MailProperty) (o : Object CIMAPClient) : Bool × Object CIMAPClient :=
  Perform CIMAPClient.vtable env { o with derived := { o.derived with
    m_strMsgNumber := strMsgNumber
    m_eMailProperty := eNewProperty
    m_eOperationType := IMAP.MailOperation.IMAP_STORE } }

/-- The function `CIMAPClient::Search`; the C++ default of `eSearchOption` is `NEW`. -/
def CIMAPClient.Search (env : Env) (strRes : Nat) (eSearchOption : IMAP.SearchOption)
    (o : Object CIMAPClient) : Bool × Object CIMAPClient :=
  Perform CIMAPClient.vtable env { o with derived := { o.derived with
    m_pstrText := some strRes
    m_eSearchOption := eSearchOption
    m_eOperationType := IMAP.MailOperation.IMAP_SEARCH } }

/-- The function `CIMAPClient::InfoFolder`. -/
def CIMAPClient.InfoFolder (env : Env) (strFolderName : String) (strInfo : Nat)
    (o : Object CIMAPClient) : Bool × Object CIMAPClient :=
  Perform CIMAPClient.vtable env { o with derived := { o.derived with
    m_strFolderName := strFolderName
    m_pstrText := some strInfo
    m_eOperationType := IMAP.MailOperation.IMAP_INFO_FOLDER } }

/-! ## The SMTP adapter (`SMTPClient.h`, `SMTPClient.cpp`) -/

namespace SMTP

/-- The enumeration `CSMTPClient::MailOperation` (protected, only ever assigned one of
these enumerators: the `default:` branch of `PrePerform` cannot be reached). -/
inductive MailOperation
  | SMTP_SEND_STRING
  | SMTP_SEND_FILE
  | SMTP_VRFY
  | SMTP_EXPN
  deriving DecidableEq, Repr

end SMTP

/-- The data members `CSMTPClient` adds; the defaults are those of its constructor. -/
structure CSMTPClient where
  m_eOperationType : SMTP.MailOperation := SMTP.MailOperation.SMTP_SEND_STRING
  m_strFrom : String := ""
  m_strTo : String := ""
  m_strCc : String := ""
  m_strMail : String := ""
  deriving DecidableEq, Repr

/-- The function `CSMTPClient::ParseURL` (`SMTPClient.cpp`, lines 56-75), on the member
`m_strURL` it is called with. -/
def CSMTPClient.ParseURL (o : Object CSMTPClient) : Object CSMTPClient :=
  let strTmp := toupper o.base.m_strURL
  if compare0 strTmp 8 "SMTPS://" || compare0 strTmp 7 "SMTP://" then
    if o.base.m_eSslTlsFlags != ENABLE_SSL then
      o.onBase (fun c => { c with m_eSslTlsFlags := ENABLE_SSL })
    else o
  else if o.base.m_eSslTlsFlags == ENABLE_SSL then
    o.onBase (fun c => { c with m_strURL := "smtps://" ++ c.m_strURL })
  else
    o.onBase (fun c => { c with m_strURL := "smtp://" ++ c.m_strURL })

/-- The call `m_pRecipientslist = curl_slist_append(m_pRecipientslist, s.c_str())`: the
list gains a copy of the C string. -/
def appendRecipient {δ : Type} (o : Object δ) (s : String) : Object δ :=
  o.onBase (fun c => { c with m_pRecipientslist := c.m_pRecipientslist ++ [c_str s] })

/-- The call `curl_easy_setopt(m_pCurlSession, CURLOPT_MAIL_RCPT, m_pRecipientslist)`. -/
def setMailRcpt {δ : Type} (o : Object δ) : Object δ :=
  o.setopt (fun h => { h with MAIL_RCPT := some o.base.m_pRecipientslist })

/-- The statements of `CSMTPClient::PrePerform` that append `m_strTo`, and `m_strCc` when
it is not empty, to the recipient list and hand the list to the transport. -/
def CSMTPClient.addRecipients (o : Object CSMTPClient) : Object CSMTPClient :=
  let o := appendRecipient o o.derived.m_strTo
  let o := if !(empty o.derived.m_strCc) then appendRecipient o o.derived.m_strCc else o
  setMailRcpt o

/-- The function `CSMTPClient::PrePerform` (`SMTPClient.cpp`, lines 86-227). -/
def CSMTPClient.PrePerform (env : Env) (o : Object CSMTPClient) : Bool × Object CSMTPClient :=
  let o := o.onBase CMailClient.ssClear
  match o.derived.m_eOperationType with
  | .SMTP_SEND_STRING =>
    if !(empty o.derived.m_strFrom) && !(empty o.derived.m_strTo) then
      let o := o.onBase (CMailClient.ssStr o.derived.m_strMail)
      let o := o.setopt (fun h => { h with MAIL_FROM := some (c_str o.derived.m_strFrom) })
      let o := CSMTPClient.addRecipients o
      let o := uploadFrom o Callback.ReadLineFromStringStreamCallback DataPtr.ssString
      finishPrePerform o o.base.m_strURL
    else (false, o)
  | .SMTP_SEND_FILE =>
    if !(empty o.base.m_strLocalFile) && !(empty o.derived.m_strFrom) &&
        !(empty o.derived.m_strTo) then
      let o := o.onBase (fun c => c.fileOpen env c.m_strLocalFile false)
      if o.base.m_fLocalFile.good then
        let o := uploadFrom o Callback.ReadLineFromFileStreamCallback DataPtr.localFile
        let o := o.setopt (fun h => { h with MAIL_FROM := some (c_str o.derived.m_strFrom) })
        let o := CSMTPClient.addRecipients o
        finishPrePerform o o.base.m_strURL
      else
        (false, o.logIfEnabled ("[SMTPClient][Error] Unable to open local file " ++
          c_str o.base.m_strLocalFile ++
          " in CSMTPClient::PrePerform()in case SMTP_SEND_FILE."))
    else (false, o)
  | .SMTP_VRFY =>
    if !(empty o.derived.m_strTo) then
      let o := if firstChar o.derived.m_strTo != some '<' then
          o.onDerived (fun d => { d with m_strTo := "<" ++ d.m_strTo })
        else o
      let o := if lastChar o.derived.m_strTo != some '>' then
          o.onDerived (fun d => { d with m_strTo := d.m_strTo ++ ">" })
        else o
      let o := appendRecipient o o.derived.m_strTo
      let o := setMailRcpt o
      finishPrePerform o o.base.m_strURL
    else (false, o)
  | .SMTP_EXPN =>
    let o := appendRecipient o o.derived.m_strMail
    let o := setMailRcpt o
    let o := o.setopt (fun h => { h with CUSTOMREQUEST := some "EXPN" })
    finishPrePerform o o.base.m_strURL

/-- The function `CSMTPClient::PostPerform` (`SMTPClient.cpp`, lines 238-247). -/
def CSMTPClient.PostPerform (_env : Env) (_ePerformCode : Nat) (o : Object CSMTPClient) :
    Bool × Object CSMTPClient :=
  if o.derived.m_eOperationType = SMTP.MailOperation.SMTP_SEND_FILE then
    (true, o.onBase CMailClient.closeIfOpen)
  else (true, o)

/-- The class `CSMTPClient` does not override `CleanupSession`. -/
def CSMTPClient.CleanupSession (o : Object CSMTPClient) : Bool × Object CSMTPClient :=
  let r := o.base.CleanupSession
  (r.1, o.onBase (fun _ => r.2))

def CSMTPClient.vtable : VTable CSMTPClient where
  PrePerform := CSMTPClient.PrePerform
  PostPerform := CSMTPClient.PostPerform
  ParseURL := CSMTPClient.ParseURL
  CleanupSession := CSMTPClient.CleanupSession

/-- The state the constructor `CSMTPClient::CSMTPClient(oLogger)` leaves. -/
def CSMTPClient.new : Object CSMTPClient := { base := CMailClient.new, derived := {} }

/-- The function `CSMTPClient::SendString`. -/
def CSMTPClient.SendString (env : Env) (strFrom strTo strCc strMail : String)
    (o : Object CSMTPClient) : Bool × Object CSMTPClient :=
  Perform CSMTPClient.vtable env { o with derived := { o.derived with
    m_strFrom := strFrom
    m_strTo := strTo
    m_strCc := strCc
    m_strMail := strMail
    m_eOperationType := SMTP.MailOperation.SMTP_SEND_STRING } }

/-- The function `CSMTPClient::SendFile`. -/
def CSMTPClient.SendFile (env : Env) (strFrom strTo strCc strPath : String)
    (o : Object CSMTPClient) : Bool × Object CSMTPClient :=
  Perform CSMTPClient.vtable env { o with
    base := { o.base with m_strLocalFile := strPath }
    derived := { o.derived with
      m_strFrom := strFrom
      m_strTo := strTo
      m_strCc := strCc
      m_eOperationType := SMTP.MailOperation.SMTP_SEND_FILE } }

/-- The function `CSMTPClient::VerifyAddress`. -/
def CSMTPClient.VerifyAddress (env : Env) (strAddress : String) (o : Object CSMTPClient) :
    Bool × Object CSMTPClient :=
  Perform CSMTPClient.vtable env { o with derived := { o.derived with
    m_strTo := strAddress
    m_eOperationType := SMTP.MailOperation.SMTP_VRFY } }

/-- The function `CSMTPClient::ExpandMailList`. -/
def CSMTPClient.ExpandMailList (env : Env) (strListName : String) (o : Object CSMTPClient) :
    Bool × Object CSMTPClient :=
  Perform CSMTPClient.vtable env { o with derived := { o.derived with
    m_strMail := strListName
    m_eOperationType := SMTP.MailOperation.SMTP_EXPN } }

/-! ## The four classes side by side -/

/-- The public mail operations of `CPOPClient`, with their arguments. -/
inductive POP.Op
  | List (strList : Nat)
  | ListUIDL (strList : Nat)
  | GetString (strMsgNumber : String) (strOutput : Nat)
  | GetFile (strMsgNumber strFilePath : String)
  | GetHeaders (strMsgNumber : String) (strOutput : Nat)
  | Delete (strMsgNumber : String)
  | Noop
  | Stat (strStat : Nat)
  deriving DecidableEq, Repr

/-- Call a public mail operation of `CPOPClient`. -/
def POP.Op.run (env : Env) : POP.Op → Object CPOPClient → Bool × Object CPOPClient
  | .List strList => CPOPClient.List env strList
  | .ListUIDL strList => CPOPClient.ListUIDL env strList
  | .GetString strMsgNumber strOutput => CPOPClient.GetString env strMsgNumber strOutput
  | .GetFile strMsgNumber strFilePath => CPOPClient.GetFile env strMsgNumber strFilePath
  | .GetHeaders strMsgNumber strOutput => CPOPClient.GetHeaders env strMsgNumber strOutput
  | .Delete strMsgNumber => CPOPClient.Delete env strMsgNumber
  | .Noop => CPOPClient.Noop env
  | .Stat strStat => CPOPClient.Stat env strStat

/-- The public mail operations of `CIMAPClient`, with their arguments. -/
inductive IMAP.Op
  | List (strList : Nat) (strFolderName : String)
  | ListSubFolders (strList : Nat)
  | SendString (strMail : String)
  | SendFile (strPath : String)
  | GetString (strMsgNumber : String) (strOutput : Nat)
  | GetFile (strMsgNumber strFilePath : String)
  | DeleteFolder (strFolderName : String)
  | Noop
  | CopyMail (strMsgNumber strFolderName : String)
  | CreateFolder (strFolderName : String)
  | SetMailProperty (strMsgNumber : String) (eNewProperty : IMAP.MailProperty)
  | Search (strRes : Nat) (eSearchOption : IMAP.SearchOption)
  | InfoFolder (strFolderName : String) (strInfo : Nat)
  deriving DecidableEq, Repr

/-- Call a public mail operation of `CIMAPClient`. -/
def IMAP.Op.run (env : Env) : IMAP.Op → Object CIMAPClient → Bool × Object CIMAPClient
  | .List strList strFolderName => CIMAPClient.List env strList strFolderName
  | .ListSubFolders strList => CIMAPClient.ListSubFolders env strList
  | .SendString strMail => CIMAPClient.SendString env strMail
  | .SendFile strPath => CIMAPClient.SendFile env strPath
  | .GetString strMsgNumber strOutput => CIMAPClient.GetString env strMsgNumber strOutput
  | .GetFile strMsgNumber strFilePath => CIMAPClient.GetFile env strMsgNumber strFilePath
  | .DeleteFolder strFolderName => CIMAPClient.DeleteFolder env strFolderName
  | .Noop => CIMAPClient.Noop env
  | .CopyMail strMsgNumber strFolderName => CIMAPClient.CopyMail env strMsgNumber strFolderName
  | .CreateFolder strFolderName => CIMAPClient.CreateFolder env strFolderName
  | .SetMailProperty strMsgNumber eNewProperty =>
    CIMAPClient.SetMailProperty env strMsgNumber eNewProperty
  | .Search strRes eSearchOption => CIMAPClient.Search env strRes eSearchOption
  | .InfoFolder strFolderName strInfo => CIMAPClient.InfoFolder env strFolderName strInfo

/-- The public mail operations of `CSMTPClient`, with their arguments. -/
inductive SMTP.Op
  | SendString (strFrom strTo strCc strMail : String)
  | SendFile (strFrom strTo strCc strPath : String)
  | VerifyAddress (strAddress : String)
  | ExpandMailList (strListName : String)
  deriving DecidableEq, Repr

/-- Call a public mail operation of `CSMTPClient`. -/
def SMTP.Op.run (env : Env) : SMTP.Op → Object CSMTPClient → Bool × Object CSMTPClient
  | .SendString strFrom strTo strCc strMail =>
    CSMTPClient.SendString env strFrom strTo strCc strMail
  | .SendFile strFrom strTo strCc strPath => CSMTPClient.SendFile env strFrom strTo strCc strPath
  | .VerifyAddress strAddress => CSMTPClient.VerifyAddress env strAddress
  | .ExpandMailList strListName => CSMTPClient.ExpandMailList env strListName

/-- The classes of the library: the session core used on its own and the three protocol
adapters derived from it. -/
inductive Adapter
  | mail
  | pop3
  | imap
  | smtp
  deriving DecidableEq, Repr

/-- The data members the class adds to `CMailClient`. -/
def Adapter.Fields : Adapter → Type
  | .mail => Unit
  | .pop3 => CPOPClient
  | .imap => CIMAPClient
  | .smtp => CSMTPClient

/-- The virtual functions of the class. -/
def Adapter.vtable : (a : Adapter) → VTable a.Fields
  | .mail => CMailClient.vtable
  | .pop3 => CPOPClient.vtable
  | .imap => CIMAPClient.vtable
  | .smtp => CSMTPClient.vtable

/-- The object the constructor of the class leaves. -/
def Adapter.new : (a : Adapter) → Object a.Fields
  | .mail => { base := CMailClient.new, derived := () }
  | .pop3 => CPOPClient.new
  | .imap => CIMAPClient.new
  | .smtp => CSMTPClient.new

/-- The public mail operations of the class (`CMailClient` itself has none: `Perform` is
protected). -/
def Adapter.Op : Adapter → Type
  | .mail => Empty
  | .pop3 => POP.Op
  | .imap => IMAP.Op
  | .smtp => SMTP.Op

/-- Call a public mail operation of the class. -/
def Adapter.run : (a : Adapter) → Env → a.Op → Object a.Fields → Bool × Object a.Fields
  | .mail => fun _ op _ => nomatch op
  | .pop3 => fun env op => POP.Op.run env op
  | .imap => fun env op => IMAP.Op.run env op
  | .smtp => fun env op => SMTP.Op.run env op

/-- A call of a public member function on an object of the class. -/
inductive Call (a : Adapter)
  | InitSession (strHost strLogin strPassword : String) (eSettingsFlags eSslTlsFlags : Nat)
  | CleanupSession
  | SetProgressFnCallback (pOwner : Option Nat) (fnCallback : ProgressFnCallback)
  | SetProxy (strProxy : String)
  | SetTimeout (iTimeout : Int)
  | SetNoSignal (bNoSignal : Bool)
  | SetSSLCertFile (strPath : String)
  | SetSSLKeyFile (strPath : String)
  | SetSSLKeyPassword (strPwd : String)
  | op (x : a.Op)

/-- Make the call; the functions returning `void` are given the value `true`. -/
def Call.run {a : Adapter} (env : Env) : Call a → Object a.Fields → Bool × Object a.Fields
  | .InitSession strHost strLogin strPassword eSettingsFlags eSslTlsFlags => fun o =>
    MailClient.InitSession a.vtable env strHost strLogin strPassword eSettingsFlags
      eSslTlsFlags o
  | .CleanupSession => fun o => a.vtable.CleanupSession o
  | .SetProgressFnCallback pOwner fnCallback => fun o =>
    (true, o.onBase (CMailClient.SetProgressFnCallback pOwner fnCallback))
  | .SetProxy strProxy => fun o => (true, o.onBase (CMailClient.SetProxy strProxy))
  | .SetTimeout iTimeout => fun o => (true, o.onBase (CMailClient.SetTimeout iTimeout))
  | .SetNoSignal bNoSignal => fun o => (true, o.onBase (CMailClient.SetNoSignal bNoSignal))
  | .SetSSLCertFile strPath => fun o => (true, o.onBase (CMailClient.SetSSLCertFile strPath))
  | .SetSSLKeyFile strPath => fun o => (true, o.onBase (CMailClient.SetSSLKeyFile strPath))
  | .SetSSLKeyPassword strPwd => fun o =>
    (true, o.onBase (CMailClient.SetSSLKeyPassword strPwd))
  | .op x => fun o => a.run env x o

/-- Make the calls one after the other on the same object. -/
def Call.runAll {a : Adapter} (env : Env) : List (Call a) → Object a.Fields → Object a.Fields
  | [], o => o
  | c :: cs, o => Call.runAll env cs (c.run env o).2

/-- The call is `CleanupSession`. -/
def Call.isCleanup {a : Adapter} : Call a → Bool
  | .CleanupSession => true
  | _ => false

/-! ## Notions the statements use -/

/-- The string `s` begins with `pre` when letter case is ignored: its first
`pre.length` characters are those of `pre` once both are put in upper case. -/
def startsWithNoCase (s pre : String) : Prop :=
  (s.data.take pre.data.length).map Char.toUpper = pre.data.map Char.toUpper

instance (s pre : String) : Decidable (startsWithNoCase s pre) :=
  inferInstanceAs (Decidable (_ = _))

/-- The host already carries the scheme of the adapter, with or without the `s`, in any
letter case (the session core used on its own knows no scheme). -/
def Adapter.hasScheme : Adapter → String → Prop
  | .mail, _ => False
  | .pop3, h => startsWithNoCase h "pop3s://" ∨ startsWithNoCase h "pop3://"
  | .imap, h => startsWithNoCase h "imaps://" ∨ startsWithNoCase h "imap://"
  | .smtp, h => startsWithNoCase h "smtps://" ∨ startsWithNoCase h "smtp://"

instance (a : Adapter) (h : String) : Decidable (a.hasScheme h) := by
  cases a
  · exact inferInstanceAs (Decidable False)
  · exact inferInstanceAs (Decidable (_ ∨ _))
  · exact inferInstanceAs (Decidable (_ ∨ _))
  · exact inferInstanceAs (Decidable (_ ∨ _))

/-- The scheme the adapter puts in front of a host that carries none: the secure one
exactly when the TLS mode is `ENABLE_SSL`. -/
def Adapter.scheme : Adapter → Nat → String
  | .mail, _ => ""
  | .pop3, tls => if tls = ENABLE_SSL then "pop3s://" else "pop3://"
  | .imap, tls => if tls = ENABLE_SSL then "imaps://" else "imap://"
  | .smtp, tls => if tls = ENABLE_SSL then "smtps://" else "smtp://"

/-- The adapter wants the URL to end with a separator (POP3 and IMAP do). -/
def Adapter.wantsSeparator : Adapter → Bool
  | .mail => false
  | .pop3 => true
  | .imap => true
  | .smtp => false

/-- The normalisation of a host by the adapter: the scheme in front unless the host has
one, the separator behind when the adapter wants one and the host does not end with it;
the host itself for the session core used on its own. -/
def Adapter.normalise (a : Adapter) (tls : Nat) (host : String) : String :=
  (if a.hasScheme host then "" else a.scheme tls) ++ host ++
    (if a.wantsSeparator = true ∧ lastChar host ≠ some '/' then "/" else "")

/-- The string `s` ends with the character `c`. -/
def endsWithChar (s : String) (c : Char) : Prop := ∃ t : String, s = t ++ String.singleton c

/-- The options of a request that decide how the connection is secured. -/
structure Security where
  USE_SSL : Option Nat
  SSL_VERIFYPEER : Option Nat
  SSL_VERIFYHOST : Option Nat
  deriving DecidableEq, Repr

/-- The security options a handle carries. -/
@[reducible] def CurlOpts.security (h : CurlOpts) : Security :=
  { USE_SSL := h.USE_SSL, SSL_VERIFYPEER := h.SSL_VERIFYPEER, SSL_VERIFYHOST := h.SSL_VERIFYHOST }

/-- The security options the handle of the session carries, if there is a handle. -/
def CMailClient.security (c : CMailClient) : Option Security :=
  c.m_pCurlSession.map CurlOpts.security

/-- The security options `Perform` gives the requests of a session with these settings
flags and this TLS mode: encryption is required when the `ENABLE_TLS` bit is set, peer and
host verification are switched off when their bit is clear, and what is not set is left
to the defaults of the transport. -/
def requestSecurity (flags tls : Nat) : Security :=
  { USE_SSL := if flagSet tls ENABLE_TLS then some CURLUSESSL_ALL else none
    SSL_VERIFYPEER := if flagSet flags VERIFY_PEER then none else some 0
    SSL_VERIFYHOST := if flagSet flags VERIFY_HOST then none else some 0 }

/-- The session `c'` comes from the session `c` by calls that keep the session: the
flags, the TLS mode, the URL, the credentials and the presence of the handle are the
same, and every request executed in between carried the security options of these flags
and this TLS mode. -/
structure SessionStep (c c' : CMailClient) : Prop where
  flags : c'.m_eSettingsFlags = c.m_eSettingsFlags
  tls : c'.m_eSslTlsFlags = c.m_eSslTlsFlags
  url : c'.m_strURL = c.m_strURL
  user : c'.m_strUserName = c.m_strUserName
  password : c'.m_strPassword = c.m_strPassword
  handle : c'.m_pCurlSession.isSome = c.m_pCurlSession.isSome
  sent : ∃ new, requests c'.trace = requests c.trace ++ new ∧
    ∀ q ∈ new, q.security = requestSecurity c.m_eSettingsFlags c.m_eSslTlsFlags

/-- The session `c'` comes from the session `c` by steps that keep the configuration of
the session (flags, TLS mode, URL, credentials, the security options on the handle), that
do not enter a hook of `Perform`, and that execute requests only if `sends` is true and
then only with the security options the handle of `c` carries. -/
structure Frame (sends : Bool) (c c' : CMailClient) : Prop where
  flags : c'.m_eSettingsFlags = c.m_eSettingsFlags
  tls : c'.m_eSslTlsFlags = c.m_eSslTlsFlags
  url : c'.m_strURL = c.m_strURL
  user : c'.m_strUserName = c.m_strUserName
  password : c'.m_strPassword = c.m_strPassword
  security : c'.security = c.security
  pre : prePerformCalls c'.trace = prePerformCalls c.trace
  post : postPerformCalls c'.trace = postPerformCalls c.trace
  sent : ∃ new, requests c'.trace = requests c.trace ++ new ∧
    ∀ q ∈ new, sends = true ∧ some q.security = c.security

/-- A session for worked examples: a POP3 client initialised for `"mail.example.com"` with
the flag `ENABLE_LOG` alone, so with both verifications switched off. -/
def Example.popSession : Object CPOPClient :=
  (InitSession CPOPClient.vtable
    { curl_easy_init := fun _ => true
      curl_easy_perform := fun _ _ => CURLE_OK
      curl_easy_strerror := fun _ => "No error"
      fopen := fun _ _ _ => true
      s_strCertificationAuthorityFile := "" }
    "mail.example.com" "user" "secret" ENABLE_LOG NO_SSLTLS CPOPClient.new).2

/-- An environment for worked examples: the transport allocates handles, every request
fails with code 7 (could not connect) and no file can be opened. -/
def Env.offline : Env where
  curl_easy_init := fun _ => true
  curl_easy_perform := fun _ _ => 7
  curl_easy_strerror := fun _ => "Couldn't connect to server"
  fopen := fun _ _ _ => false
  s_strCertificationAuthorityFile := ""

/-- An environment for worked examples: the transport allocates handles, every request
succeeds and every file can be opened. -/
def Env.online : Env where
  curl_easy_init := fun _ => true
  curl_easy_perform := fun _ _ => CURLE_OK
  curl_easy_strerror := fun _ => "No error"
  fopen := fun _ _ _ => true
  s_strCertificationAuthorityFile := ""

/-! ## The static state of the class, construction and destruction -/

/-- A call of one of the two process-wide functions of the transport. -/
inductive GlobalCall
  /-- The call `curl_global_init(CURL_GLOBAL_ALL)`. -/
  | init
  /-- The call `curl_global_cleanup()`. -/
  | cleanup
  deriving DecidableEq, Repr

/-- The static state the objects share: the counter `s_iCurlSession` and, as a ghost, the
calls of `curl_global_init` and `curl_global_cleanup` made so far. -/
structure Globals where
  s_iCurlSession : Int := 0
  calls : List GlobalCall := []
  deriving DecidableEq, Repr

/-- The value of an `int` computation on a two's complement machine of 32 bits. -/
def wrapInt32 (x : Int) : Int := (x + 2147483648) % 4294967296 - 2147483648

/-- The constructor `CMailClient::CMailClient(Logger)` (`MAILClient.cpp`, lines 24-39):
the members are initialised, and `if (s_iCurlSession++ == 0) curl_global_init(...)`. -/
def CMailClient.constructor (g : Globals) : CMailClient × Globals :=
  (CMailClient.new,
    { s_iCurlSession := wrapInt32 (g.s_iCurlSession + 1)
      calls := if g.s_iCurlSession = 0 then g.calls ++ [GlobalCall.init] else g.calls })

/-- The first statement of the destructor (`MAILClient.cpp`, lines 47-53): a session that
still has its handle is cleaned, after a warning.  In a destructor the call
`CleanupSession()` is the one of `CMailClient` itself. -/
def CMailClient.destroySession (c : CMailClient) : CMailClient :=
  if c.m_pCurlSession.isSome then
    (c.logIfEnabled LOG_WARNING_OBJECT_NOT_CLEANED).CleanupSession.2
  else c

/-- The destructor `CMailClient::~CMailClient()` (`MAILClient.cpp`, lines 45-62): the
session is cleaned if need be, and `if (--s_iCurlSession <= 0) curl_global_cleanup()`. -/
def CMailClient.destructor (c : CMailClient) (g : Globals) : CMailClient × Globals :=
  (c.destroySession,
    { s_iCurlSession := wrapInt32 (g.s_iCurlSession - 1)
      calls :=
        if wrapInt32 (g.s_iCurlSession - 1) ≤ 0 then g.calls ++ [GlobalCall.cleanup]
        else g.calls })

/-- A construction or a destruction of an object of the library; the destruction names the
object destroyed, in the state it has then. -/
inductive Lifecycle
  | construct
  | destruct (c : CMailClient)

/-- The static state after a construction or a destruction. -/
def Lifecycle.step (g : Globals) : Lifecycle → Globals
  | .construct => (CMailClient.constructor g).2
  | .destruct c => (c.destructor g).2

/-- The static state after a sequence of constructions and destructions. -/
def Lifecycle.run (g : Globals) (evs : List Lifecycle) : Globals :=
  evs.foldl Lifecycle.step g

/-- The number of objects alive after a sequence of constructions and destructions that
starts with `live` objects alive. -/
def Lifecycle.liveAfter (live : Nat) : List Lifecycle → Nat
  | [] => live
  | .construct :: evs => Lifecycle.liveAfter (live + 1) evs
  | .destruct _ :: evs => Lifecycle.liveAfter (live - 1) evs

/-- No destruction of the sequence comes when no object is alive (each object is destroyed
at most once, after its construction), and fewer than `bound` objects are alive at any
time. -/
def Lifecycle.ordered (bound live : Nat) : List Lifecycle → Bool
  | [] => decide (live < bound)
  | .construct :: evs => decide (live < bound) && Lifecycle.ordered bound (live + 1) evs
  | .destruct _ :: evs =>
    decide (live < bound) && decide (0 < live) && Lifecycle.ordered bound (live - 1) evs

/-- The calls of the global init and of the global teardown the specification asks for:
the init at each construction that finds no object alive, the teardown at each destruction
that leaves no object alive. -/
def Lifecycle.specCalls (live : Nat) : List Lifecycle → List GlobalCall
  | [] => []
  | .construct :: evs =>
    (if live = 0 then [GlobalCall.init] else []) ++ Lifecycle.specCalls (live + 1) evs
  | .destruct _ :: evs =>
    (if live - 1 = 0 then [GlobalCall.cleanup] else []) ++ Lifecycle.specCalls (live - 1) evs

/-! ## The assignments of the operations -/

/-- The assignments a public operation of `CPOPClient` makes to the members before it
calls `Perform`. -/
def POP.Op.store : POP.Op → Object CPOPClient → Object CPOPClient
  | .List strList, o => { o with derived := { o.derived with
      m_pstrText := some strList
      m_eOperationType := POP.MailOperation.POP3_LIST } }
  | .ListUIDL strList, o => { o with derived := { o.derived with
      m_pstrText := some strList
      m_eOperationType := POP.MailOperation.POP3_UIDL } }
  | .GetString strMsgNumber strOutput, o => { o with derived := { o.derived with
      m_pstrText := some strOutput
      m_strMsgNumber := strMsgNumber
      m_eOperationType := POP.MailOperation.POP3_RETR_STRING } }
  | .GetFile strMsgNumber strFilePath, o => { o with
      base := { o.base with m_strLocalFile := strFilePath }
      derived := { o.derived with
        m_strMsgNumber := strMsgNumber
        m_eOperationType := POP.MailOperation.POP3_RETR_FILE } }
  | .GetHeaders strMsgNumber strOutput, o => { o with derived := { o.derived with
      m_pstrText := some strOutput
      m_strMsgNumber := strMsgNumber
      m_eOperationType := POP.MailOperation.POP3_TOP } }
  | .Delete strMsgNumber, o => { o with derived := { o.derived with
      m_strMsgNumber := strMsgNumber
      m_eOperationType := POP.MailOperation.POP3_DELE } }
  | .Noop, o => { o with derived := { o.derived with
      m_eOperationType := POP.MailOperation.POP3_NOOP } }
  | .Stat strStat, o => { o with derived := { o.derived with
      m_pstrText := some strStat
      m_eOperationType := POP.MailOperation.POP3_STAT } }

/-- The assignments a public operation of `CIMAPClient` makes to the members before it
calls `Perform`. -/
def IMAP.Op.store : IMAP.Op → Object CIMAPClient → Object CIMAPClient
  | .List strList strFolderName, o => { o with derived := { o.derived with
      m_strFolderName := strFolderName
      m_pstrText := some strList
      m_eOperationType := IMAP.MailOperation.IMAP_LIST } }
  | .ListSubFolders strList, o => { o with derived := { o.derived with
      m_pstrText := some strList
      m_eOperationType := IMAP.MailOperation.IMAP_LSUB } }
  | .SendString strMail, o => { o with derived := { o.derived with
      m_strMail := strMail
      m_eOperationType := IMAP.MailOperation.IMAP_SEND_STRING } }
  | .SendFile strPath, o => { o with
      base := { o.base with m_strLocalFile := strPath }
      derived := { o.derived with m_eOperationType := IMAP.MailOperation.IMAP_SEND_FILE } }
  | .GetString strMsgNumber strOutput, o => { o with derived := { o.derived with
      m_strMsgNumber := strMsgNumber
      m_pstrText := some strOutput
      m_eOperationType := IMAP.MailOperation.IMAP_RETR_STRING } }
  | .GetFile strMsgNumber strFilePath, o => { o with
      base := { o.base with m_strLocalFile := strFilePath }
      derived := { o.derived with
        m_strMsgNumber := strMsgNumber
        m_eOperationType := IMAP.MailOperation.IMAP_RETR_FILE } }
  | .DeleteFolder strFolderName, o => { o with derived := { o.derived with
      m_strFolderName := strFolderName
      m_eOperationType := IMAP.MailOperation.IMAP_DELETE_FOLDER } }
  | .Noop, o => { o with derived := { o.derived with
      m_eOperationType := IMAP.MailOperation.IMAP_NOOP } }
  | .CopyMail strMsgNumber strFolderName, o => { o with derived := { o.derived with
      m_strMsgNumber := strMsgNumber
      m_strFolderName := strFolderName
      m_eOperationType := IMAP.MailOperation.IMAP_COPY } }
  | .CreateFolder strFolderName, o => { o with derived := { o.derived with
      m_strFolderName := strFolderName
      m_eOperationType := IMAP.MailOperation.IMAP_CREATE } }
  | .SetMailProperty strMsgNumber eNewProperty, o => { o with derived := { o.derived with
      m_strMsgNumber := strMsgNumber
      m_eMailProperty := eNewProperty
      m_eOperationType := IMAP.MailOperation.IMAP_STORE } }
  | .Search strRes eSearchOption, o => { o with derived := { o.derived with
      m_pstrText := some strRes
      m_eSearchOption := eSearchOption
      m_eOperationType := IMAP.MailOperation.IMAP_SEARCH } }
  | .InfoFolder strFolderName strInfo, o => { o with derived := { o.derived with
      m_strFolderName := strFolderName
      m_pstrText := some strInfo
      m_eOperationType := IMAP.MailOperation.IMAP_INFO_FOLDER } }

/-- The assignments a public operation of `CSMTPClient` makes to the members before it
calls `Perform`. -/
def SMTP.Op.store : SMTP.Op → Object CSMTPClient → Object CSMTPClient
  | .SendString strFrom strTo strCc strMail, o => { o with derived := { o.derived with
      m_strFrom := strFrom
      m_strTo := strTo
      m_strCc := strCc
      m_strMail := strMail
      m_eOperationType := SMTP.MailOperation.SMTP_SEND_STRING } }
  | .SendFile strFrom strTo strCc strPath, o => { o with
      base := { o.base with m_strLocalFile := strPath }
      derived := { o.derived with
        m_strFrom := strFrom
        m_strTo := strTo
        m_strCc := strCc
        m_eOperationType := SMTP.MailOperation.SMTP_SEND_FILE } }
  | .VerifyAddress strAddress, o => { o with derived := { o.derived with
      m_strTo := strAddress
      m_eOperationType := SMTP.MailOperation.SMTP_VRFY } }
  | .ExpandMailList strListName, o => { o with derived := { o.derived with
      m_strMail := strListName
      m_eOperationType := SMTP.MailOperation.SMTP_EXPN } }

/-! ## The line sources (`MAILClient.cpp`, lines 445-491) -/

/-- The call `std::getline(is, strLine, '\n')` on an input stream, with an empty `strLine`:
the line read and the stream afterwards.  On a stream in error nothing is read; at the end
of the text nothing is read and the stream goes into error; otherwise the characters up to
the next `'\n'` (or up to the end of the text) are read and the `'\n'` is skipped.  A
character of the model stands for a byte of the text. -/
def IStringStream.getline (s : IStringStream) : String × IStringStream :=
  if !s.good then ("", s)
  else
    let rest := s.str.data.drop s.gpos
    if rest.isEmpty then ("", { s with good := false })
    else
      let line := rest.takeWhile (fun c => c != '\n')
      let skipped := if line.length < rest.length then 1 else 0
      (⟨line⟩, { s with gpos := s.gpos + line.length + skipped })

/-- The state of a `std::fstream` the file line source looks at: `is_open()`, and the
characters of the file as the input stream `std::getline` reads them from. -/
structure IFStream where
  is_open : Bool := false
  text : IStringStream := {}
  deriving DecidableEq, Repr

/-- What a call of a line source does: the characters it copies to `ptr` with `memcpy`,
from the start of the buffer on, the value it returns, and the stream it leaves. -/
structure ReadResult (σ : Type) where
  copied : String
  returned : Nat
  stream : σ

/-- The product `size * nmemb` of two `size_t` on a machine of 64 bits. -/
def capacity (size nmemb : Nat) : Nat := (size * nmemb) % 2 ^ 64

/-- The function `CMailClient::ReadLineFromStringStreamCallback` (`MAILClient.cpp`, lines
474-491); `userp` is `none` for `nullptr`. -/
def CMailClient.ReadLineFromStringStreamCallback (size nmemb : Nat)
    (userp : Option IStringStream) : ReadResult (Option IStringStream) :=
  if size == 0 || nmemb == 0 || decide (capacity size nmemb < 1) || userp.isNone then
    { copied := "", returned := 0, stream := userp }
  else
    match userp with
    | none => { copied := "", returned := 0, stream := none }
    | some ssText =>
      let r := ssText.getline
      if r.2.good then
        let strLine := r.1 ++ "\r\n"
        { copied := strLine, returned := strLine.length, stream := some r.2 }
      else
        { copied := "", returned := 0, stream := some r.2 }

/-- The function `CMailClient::ReadLineFromFileStreamCallback` (`MAILClient.cpp`, lines
445-462); `stream` is `none` for `nullptr`. -/
def CMailClient.ReadLineFromFileStreamCallback (size nmemb : Nat)
    (stream : Option IFStream) : ReadResult (Option IFStream) :=
  if size == 0 || nmemb == 0 || decide (capacity size nmemb < 1) || stream.isNone then
    { copied := "", returned := 0, stream := stream }
  else
    match stream with
    | none => { copied := "", returned := 0, stream := none }
    | some pFileStream =>
      if pFileStream.is_open then
        let r := pFileStream.text.getline
        if r.2.good then
          let strLine := r.1 ++ "\r\n"
          { copied := strLine, returned := strLine.length,
            stream := some { pFileStream with text := r.2 } }
        else
          { copied := "", returned := 0, stream := some { pFileStream with text := r.2 } }
      else
        { copied := "", returned := 0, stream := some pFileStream }

/-- The string line source called `n` times in a row on the same stream with the same
`size` and `nmemb`: what each call copied and returned. -/
def CMailClient.readStringLines (size nmemb : Nat) :
    Nat → Option IStringStream → List (String × Nat)
  | 0, _ => []
  | n + 1, userp =>
    let r := CMailClient.ReadLineFromStringStreamCallback size nmemb userp
    (r.copied, r.returned) :: CMailClient.readStringLines size nmemb n r.stream

/-- The file line source called `n` times in a row on the same stream with the same `size`
and `nmemb`: what each call copied and returned. -/
def CMailClient.readFileLines (size nmemb : Nat) :
    Nat → Option IFStream → List (String × Nat)
  | 0, _ => []
  | n + 1, stream =>
    let r := CMailClient.ReadLineFromFileStreamCallback size nmemb stream
    (r.copied, r.returned) :: CMailClient.readFileLines size nmemb n r.stream

/-- The string stream as `PrePerform` hands it to the line source: `m_ssString.clear()`
and `m_ssString.str(text)`. -/
def IStringStream.ofText (text : String) : IStringStream :=
  { str := text, gpos := 0, good := true }

/-- The lines of a text as the specification words them: the segments of the text
separated by `'\n'`, without the last segment when it is empty (which it is when the text
is empty or ends with `'\n'`). -/
def specLines (t : String) : List String :=
  let segments := t.data.splitOn '\n'
  (if segments.getLast? = some [] then segments.dropLast else segments).map String.mk

/-- What `n` calls of a line source give according to the specification: one chunk per
line, the line followed by `"\r\n"`, and after the last line nothing, with length 0. -/
def specChunks : List String → Nat → List (String × Nat)
  | _, 0 => []
  | [], n + 1 => ("", 0) :: specChunks [] n
  | l :: ls, n + 1 => (l ++ "\r\n", l.length + 2) :: specChunks ls n

/-- The text made of the given lines, each followed by the terminator `term`. -/
def terminated (term : String) : List String → String
  | [] => ""
  | l :: ls => l ++ term ++ terminated term ls

/-! ## Notions of the statements about single operations -/

/-- The texts the logger was called with in a trace, oldest first. -/
def logs : List Event → List String
  | [] => []
  | .log msg :: es => msg :: logs es
  | _ :: es => logs es

/-- The calls `m_fLocalFile.open(path, mode)` in a trace, oldest first: the path and
whether the file was opened for writing. -/
def fileOpens : List Event → List (String × Bool)
  | [] => []
  | .fileOpen path forWriting _ :: es => (path, forWriting) :: fileOpens es
  | _ :: es => fileOpens es

/-- The options of a request an operation decides in its pre-configure hook: the target,
the command, the direction and the sinks and sources of the data, the envelope.  An option
that is `none` was not set after the reset of the handle. -/
structure Request where
  URL : Option String := none
  CUSTOMREQUEST : Option String := none
  NOBODY : Option Nat := none
  UPLOAD : Option Nat := none
  WRITEFUNCTION : Option Callback := none
  WRITEDATA : Option DataPtr := none
  READFUNCTION : Option Callback := none
  READDATA : Option DataPtr := none
  MAIL_FROM : Option String := none
  MAIL_RCPT : Option (List String) := none
  deriving DecidableEq, Repr

/-- The options of a handle that belong to the operation. -/
@[reducible] def CurlOpts.request (h : CurlOpts) : Request :=
  { URL := h.URL
    CUSTOMREQUEST := h.CUSTOMREQUEST
    NOBODY := h.NOBODY
    UPLOAD := h.UPLOAD
    WRITEFUNCTION := h.WRITEFUNCTION
    WRITEDATA := h.WRITEDATA
    READFUNCTION := h.READFUNCTION
    READDATA := h.READDATA
    MAIL_FROM := h.MAIL_FROM
    MAIL_RCPT := h.MAIL_RCPT }

/-- The request as the transport reads it: each string option as a C string, cut before
its first NUL character. -/
def Request.asCStrings (r : Request) : Request :=
  { r with
    URL := r.URL.map c_str
    CUSTOMREQUEST := r.CUSTOMREQUEST.map c_str
    MAIL_FROM := r.MAIL_FROM.map c_str
    MAIL_RCPT := r.MAIL_RCPT.map (List.map c_str) }

/-- Every call of the sequence, made on the object after those before it, returns: none
stops at a null pointer. -/
def Call.allReturn {a : Adapter} (env : Env) : List (Call a) → Object a.Fields → Bool
  | [], _ => true
  | c :: cs, o => !(c.run env o).2.base.crashed && Call.allReturn env cs (c.run env o).2

/-- The message number a POP3 operation is called with, for those that take one. -/
def POP.Op.msgNumber : POP.Op → Option String
  | .GetString strMsgNumber _ => some strMsgNumber
  | .GetFile strMsgNumber _ => some strMsgNumber
  | .GetHeaders strMsgNumber _ => some strMsgNumber
  | .Delete strMsgNumber => some strMsgNumber
  | _ => none

/-- The table of the POP3 requests as the specification words it, for the base URL `B`:
the URL, the custom command if there is one, and where the answer goes (the caller's
string, the local file, or no body at all). -/
def POP.Op.specRequest (B : String) : POP.Op → Request
  | .List strList =>
    { URL := some B
      WRITEFUNCTION := some Callback.WriteInStringCallback
      WRITEDATA := some (DataPtr.text strList) }
  | .ListUIDL strList =>
    { URL := some B
      CUSTOMREQUEST := some "UIDL"
      WRITEFUNCTION := some Callback.WriteInStringCallback
      WRITEDATA := some (DataPtr.text strList) }
  | .GetString m strOutput =>
    { URL := some (B ++ m)
      WRITEFUNCTION := some Callback.WriteInStringCallback
      WRITEDATA := some (DataPtr.text strOutput) }
  | .GetFile m _ =>
    { URL := some (B ++ m)
      WRITEFUNCTION := some Callback.WriteToFileCallback
      WRITEDATA := some DataPtr.localFile }
  | .GetHeaders m strOutput =>
    { URL := some B
      CUSTOMREQUEST := some ("TOP " ++ m ++ " 0")
      WRITEFUNCTION := some Callback.WriteInStringCallback
      WRITEDATA := some (DataPtr.text strOutput) }
  | .Delete m =>
    { URL := some B
      CUSTOMREQUEST := some ("DELE " ++ m)
      NOBODY := some 1 }
  | .Noop =>
    { URL := some B
      CUSTOMREQUEST := some "NOOP"
      NOBODY := some 1 }
  | .Stat strStat =>
    { URL := some B
      CUSTOMREQUEST := some "STAT"
      NOBODY := some 1
      WRITEFUNCTION := some Callback.WriteInStringCallback
      WRITEDATA := some (DataPtr.text strStat) }

/-- The message identifier an IMAP operation is called with, for those that take one. -/
def IMAP.Op.msgNumber : IMAP.Op → Option String
  | .GetString strMsgNumber _ => some strMsgNumber
  | .GetFile strMsgNumber _ => some strMsgNumber
  | .CopyMail strMsgNumber _ => some strMsgNumber
  | .SetMailProperty strMsgNumber _ => some strMsgNumber
  | _ => none

/-- The spelling of the search options in the specification: each enumerator with the
keyword of the same spelling. -/
def IMAP.SearchOption.spelling : List (IMAP.SearchOption × String) :=
  [(IMAP.SearchOption.ANSWERED, "ANSWERED"), (IMAP.SearchOption.DELETED, "DELETED"),
    (IMAP.SearchOption.DRAFT, "DRAFT"), (IMAP.SearchOption.FLAGGED, "FLAGGED"),
    (IMAP.SearchOption.NEW, "NEW"), (IMAP.SearchOption.RECENT, "RECENT"),
    (IMAP.SearchOption.SEEN, "SEEN")]

/-- The spelling of the mail properties in the specification: each enumerator with the
keyword of the same spelling. -/
def IMAP.MailProperty.spelling : List (IMAP.MailProperty × String) :=
  [(IMAP.MailProperty.Deleted, "Deleted"), (IMAP.MailProperty.Seen, "Seen"),
    (IMAP.MailProperty.Answered, "Answered"), (IMAP.MailProperty.Flagged, "Flagged"),
    (IMAP.MailProperty.Draft, "Draft"), (IMAP.MailProperty.Recent, "Recent")]

/-- The table of the IMAP requests as the specification words it, for the base URL `B`:
the URL and the custom command, if there is one, of the operations that download or
command (`none` for the two uploads, and for a search option or a property outside the
enumeration). -/
def IMAP.Op.specTarget (B : String) : IMAP.Op → Option (String × Option String)
  | .List _ f => some (B ++ f, none)
  | .ListSubFolders _ => some (B, some "LSUB \"\" *")
  | .SendString _ => none
  | .SendFile _ => none
  | .GetString m _ => some (B ++ "INBOX/;UID=" ++ m, none)
  | .GetFile m _ => some (B ++ "INBOX/;UID=" ++ m, none)
  | .DeleteFolder f => some (B, some ("DELETE " ++ f))
  | .Noop => some (B, some "NOOP")
  | .CopyMail m f => some (B ++ "INBOX", some ("COPY " ++ m ++ " " ++ f))
  | .CreateFolder f => some (B, some ("CREATE " ++ f))
  | .SetMailProperty m p =>
    (IMAP.MailProperty.spelling.lookup p).map
      (fun kw => (B ++ "INBOX", some ("STORE " ++ m ++ " +Flags \\" ++ kw)))
  | .Search _ e =>
    (IMAP.SearchOption.spelling.lookup e).map (fun kw => (B ++ "INBOX", some ("SEARCH " ++ kw)))
  | .InfoFolder f _ => some (B, some ("EXAMINE " ++ f))

/-- The folder name of the IMAP operations that refuse an empty one. -/
def IMAP.Op.requiredFolder : IMAP.Op → Option String
  | .DeleteFolder strFolderName => some strFolderName
  | .CopyMail _ strFolderName => some strFolderName
  | .CreateFolder strFolderName => some strFolderName
  | _ => none

/-- The local file an operation opens for writing, for those that download to a file. -/
def IMAP.Op.destination : IMAP.Op → Option String
  | .GetFile _ strFilePath => some strFilePath
  | _ => none

/-- The operation kind a public operation of `CIMAPClient` assigns to `m_eOperationType`. -/
def IMAP.Op.kind : IMAP.Op → IMAP.MailOperation
  | .List _ _ => IMAP.MailOperation.IMAP_LIST
  | .ListSubFolders _ => IMAP.MailOperation.IMAP_LSUB
  | .SendString _ => IMAP.MailOperation.IMAP_SEND_STRING
  | .SendFile _ => IMAP.MailOperation.IMAP_SEND_FILE
  | .GetString _ _ => IMAP.MailOperation.IMAP_RETR_STRING
  | .GetFile _ _ => IMAP.MailOperation.IMAP_RETR_FILE
  | .DeleteFolder _ => IMAP.MailOperation.IMAP_DELETE_FOLDER
  | .Noop => IMAP.MailOperation.IMAP_NOOP
  | .CopyMail _ _ => IMAP.MailOperation.IMAP_COPY
  | .CreateFolder _ => IMAP.MailOperation.IMAP_CREATE
  | .SetMailProperty _ _ => IMAP.MailOperation.IMAP_STORE
  | .Search _ _ => IMAP.MailOperation.IMAP_SEARCH
  | .InfoFolder _ _ => IMAP.MailOperation.IMAP_INFO_FOLDER

/-- The sender and the addressees a sending operation of SMTP is called with: from, to and
cc. -/
def SMTP.Op.envelope : SMTP.Op → Option (String × String × String)
  | .SendString strFrom strTo strCc _ => some (strFrom, strTo, strCc)
  | .SendFile strFrom strTo strCc _ => some (strFrom, strTo, strCc)
  | _ => none

/-- The local file an operation of SMTP reads the mail from, for the one that does. -/
def SMTP.Op.source : SMTP.Op → Option String
  | .SendFile _ _ _ strPath => some strPath
  | _ => none

/-- The wrapping of an address as the specification words it: `<` in front exactly when
the first character is not `<`, then `>` behind exactly when the last character is not
`>`. -/
def SMTP.angleBracketed (addr : String) : String :=
  let a := if firstChar addr = some '<' then addr else "<" ++ addr
  if lastChar a = some '>' then a else a ++ ">"

/-- Nothing is logged on the way from the session `c` to the session `c'` unless the
bit `ENABLE_LOG` is set in the settings flags, which stay the same. -/
structure Quiet (c c' : CMailClient) : Prop where
  flags : c'.m_eSettingsFlags = c.m_eSettingsFlags
  silent : flagSet c.m_eSettingsFlags ENABLE_LOG = false → logs c'.trace = logs c.trace

/-- The settings flags the session has stored lack `ENABLE_LOG` when each call of the
sequence is made on it. -/
def Call.logOffAtEntry {a : Adapter} (env : Env) : List (Call a) → Object a.Fields → Bool
  | [], _ => true
  | c :: cs, o =>
    !flagSet o.base.m_eSettingsFlags ENABLE_LOG && Call.logOffAtEntry env cs (c.run env o).2

/-- The call is an `InitSession` that gets past its two guards (the host is not empty and
the session has no handle) and is given flags that contain `ENABLE_LOG`. -/
def Call.turnsLogOn {a : Adapter} : Call a → Object a.Fields → Bool
  | .InitSession strHost _ _ eSettingsFlags _, o =>
    !empty strHost && o.base.m_pCurlSession.isNone && flagSet eSettingsFlags ENABLE_LOG
  | _, _ => false

/-- No call of the sequence, made on the object after those before it, is an `InitSession`
that gets past its guards with flags that contain `ENABLE_LOG`. -/
def Call.logKeptOff {a : Adapter} (env : Env) : List (Call a) → Object a.Fields → Bool
  | [], _ => true
  | c :: cs, o => !c.turnsLogOn o && Call.logKeptOff env cs (c.run env o).2

/-- The message number the specification lets `SendString` use: the one given to the most
recent `GetString`, `GetFile`, `CopyMail` or `SetMailProperty` among the calls, and `init`
when there is none. -/
def IMAP.lastMsgNumber (init : String) : List (Call Adapter.imap) → String
  | [] => init
  | .op x :: cs =>
    IMAP.lastMsgNumber (match IMAP.Op.msgNumber x with | some m => m | none => init) cs
  | _ :: cs => IMAP.lastMsgNumber init cs

/-- A session for worked examples: an IMAP client initialised for `"mail.example.com"` with
all flags and no TLS. -/
def Example.imapSession : Object CIMAPClient :=
  (InitSession CIMAPClient.vtable Env.online "mail.example.com" "user" "secret" ALL_FLAGS
    NO_SSLTLS CIMAPClient.new).2

/-- A session for worked examples: an SMTP client initialised for `"mail.example.com"` with
all flags and no TLS. -/
def Example.smtpSession : Object CSMTPClient :=
  (InitSession CSMTPClient.vtable Env.online "mail.example.com" "user" "secret" ALL_FLAGS
    NO_SSLTLS CSMTPClient.new).2

/-- An environment for worked examples: the transport allocates handles, the request
`EXPUNGE` succeeds and every other request fails with code 8 (the server answered
something unexpected). -/
def Env.expungeOnly : Env where
  curl_easy_init := fun _ => true
  curl_easy_perform := fun _ q => if q.CUSTOMREQUEST = some "EXPUNGE" then CURLE_OK else 8
  curl_easy_strerror := fun _ => "Weird server reply"
  fopen := fun _ _ _ => true
  s_strCertificationAuthorityFile := ""

/-- An environment for worked examples: the transport allocates a handle only as long as
no session was cleaned before; every request succeeds. -/
def Env.allocOnce : Env where
  curl_easy_init := fun tr => !(tr.contains Event.cleanup)
  curl_easy_perform := fun _ _ => CURLE_OK
  curl_easy_strerror := fun _ => "No error"
  fopen := fun _ _ _ => true
  s_strCertificationAuthorityFile := ""

/-! # Theorems -/


/-! ## The trace and its projections -/

@[simp] theorem requests_append (a b : List Event) :
    requests (a ++ b) = requests a ++ requests b := by
  induction a with
  | nil => rfl
  | cons e es ih => cases e <;> simp [requests, ih]

@[simp] theorem prePerformCalls_append (a b : List Event) :
    prePerformCalls (a ++ b) = prePerformCalls a + prePerformCalls b := by
  induction a with
  | nil => simp [prePerformCalls]
  | cons e es ih =>
    cases e <;> simp [prePerformCalls, ih]
    omega

@[simp] theorem postPerformCalls_append (a b : List Event) :
    postPerformCalls (a ++ b) = postPerformCalls a + postPerformCalls b := by
  induction a with
  | nil => simp [postPerformCalls]
  | cons e es ih =>
    cases e <;> simp [postPerformCalls, ih]
    omega

/-! ## What the hooks leave alone -/

theorem Frame.unchanged (s : Bool) (c : CMailClient) : Frame s c c :=
  ⟨rfl, rfl, rfl, rfl, rfl, rfl, rfl, rfl, [], by simp, by simp⟩

theorem Frame.andThen {s : Bool} {a b c : CMailClient} (h1 : Frame s a b) (h2 : Frame s b c) :
    Frame s a c := by
  obtain ⟨n1, e1, p1⟩ := h1.sent
  obtain ⟨n2, e2, p2⟩ := h2.sent
  refine ⟨h2.flags.trans h1.flags, h2.tls.trans h1.tls, h2.url.trans h1.url,
    h2.user.trans h1.user, h2.password.trans h1.password, h2.security.trans h1.security,
    h2.pre.trans h1.pre, h2.post.trans h1.post, n1 ++ n2, ?_, ?_⟩
  · rw [e2, e1, List.append_assoc]
  · intro q hq
    rcases List.mem_append.1 hq with hq | hq
    · exact p1 q hq
    · have := p2 q hq
      exact ⟨this.1, this.2.trans h1.security⟩

/-- A step that changes nothing the frame looks at and adds to the trace only events
that are neither a request nor a hook entry. -/
theorem Frame.of_silent (s : Bool) (c c' : CMailClient)
    (h1 : c'.m_eSettingsFlags = c.m_eSettingsFlags) (h2 : c'.m_eSslTlsFlags = c.m_eSslTlsFlags)
    (h3 : c'.m_strURL = c.m_strURL) (h4 : c'.m_strUserName = c.m_strUserName)
    (h5 : c'.m_strPassword = c.m_strPassword) (h6 : c'.security = c.security)
    (evs : List Event) (ht : c'.trace = c.trace ++ evs) (hr : requests evs = [])
    (hp : prePerformCalls evs = 0) (hq : postPerformCalls evs = 0) : Frame s c c' :=
  ⟨h1, h2, h3, h4, h5, h6, by rw [ht]; simp [hp], by rw [ht]; simp [hq],
    [], by rw [ht]; simp [hr], by simp⟩

theorem Frame.setopt (s : Bool) (c : CMailClient) (f : CurlOpts → CurlOpts)
    (hf : ∀ h, (f h).security = h.security) : Frame s c (c.setopt f) := by
  refine Frame.of_silent s c _ rfl rfl rfl rfl rfl ?_ [] (by simp [CMailClient.setopt]) rfl rfl rfl
  simp only [CMailClient.security, CMailClient.setopt]
  cases c.m_pCurlSession with
  | none => rfl
  | some h => simp [hf]

theorem Frame.logIfEnabled (s : Bool) (c : CMailClient) (msg : String) :
    Frame s c (c.logIfEnabled msg) := by
  unfold CMailClient.logIfEnabled
  split
  · exact Frame.of_silent s c _ rfl rfl rfl rfl rfl rfl [Event.log msg] rfl rfl rfl rfl
  · exact Frame.unchanged s c

theorem Frame.fileOpen (s : Bool) (env : Env) (c : CMailClient) (path : String) (w : Bool) :
    Frame s c (c.fileOpen env path w) :=
  Frame.of_silent s c _ rfl rfl rfl rfl rfl rfl _ rfl rfl rfl rfl

theorem Frame.closeIfOpen (s : Bool) (c : CMailClient) : Frame s c c.closeIfOpen := by
  unfold CMailClient.closeIfOpen
  split
  · exact Frame.of_silent s c _ rfl rfl rfl rfl rfl rfl [Event.fileClose] rfl rfl rfl rfl
  · exact Frame.unchanged s c

/-! The same steps, on an object and after what came before. -/

theorem Frame.onBase {δ : Type} {s : Bool} {c : CMailClient} {o : Object δ}
    (g : CMailClient → CMailClient) (hg : Frame s o.base (g o.base)) (h : Frame s c o.base) :
    Frame s c (o.onBase g).base :=
  h.andThen hg

theorem Frame.obj_setopt {δ : Type} {s : Bool} {c : CMailClient} {o : Object δ}
    (f : CurlOpts → CurlOpts) (hf : ∀ h, (f h).security = h.security) (h : Frame s c o.base) :
    Frame s c (o.setopt f).base :=
  h.andThen (Frame.setopt s o.base f hf)

theorem Frame.obj_logIfEnabled {δ : Type} {s : Bool} {c : CMailClient} {o : Object δ}
    (msg : String) (h : Frame s c o.base) : Frame s c (o.logIfEnabled msg).base :=
  h.andThen (Frame.logIfEnabled s o.base msg)

theorem Frame.writeInString {δ : Type} {s : Bool} {c : CMailClient} {o : Object δ}
    (addr : Nat) (h : Frame s c o.base) : Frame s c (writeInString o addr).base :=
  Frame.obj_setopt _ (fun _ => rfl) h

theorem Frame.writeToFile {δ : Type} {s : Bool} {c : CMailClient} {o : Object δ}
    (h : Frame s c o.base) : Frame s c (writeToFile o).base :=
  Frame.obj_setopt _ (fun _ => rfl) h

theorem Frame.uploadFrom {δ : Type} {s : Bool} {c : CMailClient} {o : Object δ}
    (cb : Callback) (data : DataPtr) (h : Frame s c o.base) :
    Frame s c (uploadFrom o cb data).base :=
  Frame.obj_setopt _ (fun _ => rfl) h

theorem Frame.finishPrePerform {δ : Type} {s : Bool} {c : CMailClient} {o : Object δ}
    (url : String) (h : Frame s c o.base) : Frame s c (finishPrePerform o url).2.base :=
  Frame.obj_setopt _ (fun _ => rfl) h

theorem Frame.appendRecipient {δ : Type} {s : Bool} {c : CMailClient} {o : Object δ}
    (r : String) (h : Frame s c o.base) : Frame s c (appendRecipient o r).base :=
  h.andThen (Frame.of_silent s _ _ rfl rfl rfl rfl rfl rfl []
    (by simp [MailClient.appendRecipient, Object.onBase]) rfl rfl rfl)

theorem Frame.setMailRcpt {δ : Type} {s : Bool} {c : CMailClient} {o : Object δ}
    (h : Frame s c o.base) : Frame s c (setMailRcpt o).base :=
  Frame.obj_setopt _ (fun _ => rfl) h

theorem Frame.obj_fileOpen {δ : Type} {s : Bool} {c : CMailClient} {o : Object δ}
    (env : Env) (w : Bool) (h : Frame s c o.base) :
    Frame s c (o.onBase (fun c => c.fileOpen env c.m_strLocalFile w)).base :=
  h.andThen (Frame.fileOpen s env o.base _ w)

theorem Frame.obj_closeIfOpen {δ : Type} {s : Bool} {c : CMailClient} {o : Object δ}
    (h : Frame s c o.base) : Frame s c (o.onBase CMailClient.closeIfOpen).base :=
  h.andThen (Frame.closeIfOpen s o.base)

theorem Frame.ssClear {δ : Type} {s : Bool} {c : CMailClient} {o : Object δ}
    (h : Frame s c o.base) : Frame s c (o.onBase CMailClient.ssClear).base :=
  h.andThen (Frame.of_silent s _ _ rfl rfl rfl rfl rfl rfl []
    (by simp [CMailClient.ssClear, Object.onBase]) rfl rfl rfl)

theorem Frame.ssStr {δ : Type} {s : Bool} {c : CMailClient} {o : Object δ} (text : String)
    (h : Frame s c o.base) : Frame s c (o.onBase (CMailClient.ssStr text)).base :=
  h.andThen (Frame.of_silent s _ _ rfl rfl rfl rfl rfl rfl []
    (by simp [CMailClient.ssStr, Object.onBase]) rfl rfl rfl)

theorem Frame.onDerived {δ : Type} {s : Bool} {c : CMailClient} {o : Object δ} (f : δ → δ)
    (h : Frame s c o.base) : Frame s c (o.onDerived f).base :=
  h

theorem Frame.curl_easy_perform (env : Env) (c : CMailClient) :
    Frame true c (c.curl_easy_perform env).2 := by
  unfold CMailClient.curl_easy_perform
  cases hh : c.m_pCurlSession with
  | none => exact Frame.unchanged true c
  | some opts =>
    refine ⟨rfl, rfl, rfl, rfl, rfl, by simp [CMailClient.security, hh],
      by simp [prePerformCalls], by simp [postPerformCalls], [opts], by simp [requests], ?_⟩
    intro q hq
    simp only [List.mem_singleton] at hq
    subst hq
    simp [CMailClient.security, hh]

theorem Frame.obj_curl_easy_perform {δ : Type} {c : CMailClient} {o : Object δ} (env : Env)
    (h : Frame true c o.base) :
    Frame true c (o.onBase (fun _ => (o.base.curl_easy_perform env).2)).base :=
  h.andThen (Frame.curl_easy_perform env o.base)

theorem Frame.ite_obj {δ : Type} {s : Bool} {c : CMailClient} {p : Prop} [Decidable p]
    {a b : Object δ} (ha : Frame s c a.base) (hb : Frame s c b.base) :
    Frame s c (if p then a else b).base := by
  split
  · exact ha
  · exact hb

theorem Frame.ite_pair {δ : Type} {s : Bool} {c : CMailClient} {p : Prop} [Decidable p]
    {a b : Bool × Object δ} (ha : Frame s c a.2.base) (hb : Frame s c b.2.base) :
    Frame s c (if p then a else b).2.base := by
  split
  · exact ha
  · exact hb

theorem CSMTPClient.addRecipients_frame {s : Bool} {c : CMailClient} {o : Object CSMTPClient}
    (h : Frame s c o.base) : Frame s c (CSMTPClient.addRecipients o).base := by
  unfold CSMTPClient.addRecipients
  dsimp only
  apply Frame.setMailRcpt
  apply Frame.ite_obj
  · exact Frame.appendRecipient _ (Frame.appendRecipient _ h)
  · exact Frame.appendRecipient _ h

theorem CPOPClient.PrePerform_frame_pop3 (env : Env) (o : Object CPOPClient) :
    Frame false o.base (CPOPClient.PrePerform env o).2.base := by
  unfold CPOPClient.PrePerform
  dsimp only
  repeat' split
  all_goals
    with_reducible repeat (first
      | dsimp only
      | exact Frame.unchanged _ _
      | apply Frame.ite_pair
      | apply Frame.ite_obj
      | apply Frame.finishPrePerform
      | apply Frame.writeInString
      | apply Frame.writeToFile
      | apply Frame.uploadFrom
      | apply Frame.setMailRcpt
      | apply Frame.appendRecipient
      | apply CSMTPClient.addRecipients_frame
      | apply Frame.obj_logIfEnabled
      | apply Frame.obj_fileOpen
      | apply Frame.obj_curl_easy_perform
      | apply Frame.obj_closeIfOpen
      | apply Frame.ssClear
      | apply Frame.ssStr
      | apply Frame.onDerived
      | refine Frame.obj_setopt _ (fun _ => by rfl) ?_)

theorem CPOPClient.PostPerform_frame_pop3 (env : Env) (code : Nat) (o : Object CPOPClient) :
    Frame true o.base (CPOPClient.PostPerform env code o).2.base := by
  unfold CPOPClient.PostPerform
  split
  · exact Frame.obj_closeIfOpen (Frame.unchanged _ _)
  · exact Frame.unchanged _ _

theorem CIMAPClient.PrePerform_frame_imap (env : Env) (o : Object CIMAPClient) :
    Frame false o.base (CIMAPClient.PrePerform env o).2.base := by
  unfold CIMAPClient.PrePerform
  dsimp only
  repeat' split
  all_goals
    with_reducible repeat (first
      | dsimp only
      | exact Frame.unchanged _ _
      | apply Frame.ite_pair
      | apply Frame.ite_obj
      | apply Frame.finishPrePerform
      | apply Frame.writeInString
      | apply Frame.writeToFile
      | apply Frame.uploadFrom
      | apply Frame.setMailRcpt
      | apply Frame.appendRecipient
      | apply CSMTPClient.addRecipients_frame
      | apply Frame.obj_logIfEnabled
      | apply Frame.obj_fileOpen
      | apply Frame.obj_curl_easy_perform
      | apply Frame.obj_closeIfOpen
      | apply Frame.ssClear
      | apply Frame.ssStr
      | apply Frame.onDerived
      | refine Frame.obj_setopt _ (fun _ => by rfl) ?_)

theorem CIMAPClient.PostPerform_frame_imap (env : Env) (code : Nat) (o : Object CIMAPClient) :
    Frame true o.base (CIMAPClient.PostPerform env code o).2.base := by
  unfold CIMAPClient.PostPerform
  dsimp only
  repeat' split
  all_goals
    with_reducible repeat (first
      | dsimp only
      | exact Frame.unchanged _ _
      | apply Frame.ite_pair
      | apply Frame.ite_obj
      | apply Frame.finishPrePerform
      | apply Frame.writeInString
      | apply Frame.writeToFile
      | apply Frame.uploadFrom
      | apply Frame.setMailRcpt
      | apply Frame.appendRecipient
      | apply CSMTPClient.addRecipients_frame
      | apply Frame.obj_logIfEnabled
      | apply Frame.obj_fileOpen
      | apply Frame.obj_curl_easy_perform
      | apply Frame.obj_closeIfOpen
      | apply Frame.ssClear
      | apply Frame.ssStr
      | apply Frame.onDerived
      | refine Frame.obj_setopt _ (fun _ => by rfl) ?_)

theorem CSMTPClient.PrePerform_frame_smtp (env : Env) (o : Object CSMTPClient) :
    Frame false o.base (CSMTPClient.PrePerform env o).2.base := by
  unfold CSMTPClient.PrePerform
  dsimp only
  split
  all_goals
    with_reducible repeat (first
      | dsimp only
      | exact Frame.unchanged _ _
      | apply Frame.ite_pair
      | apply Frame.ite_obj
      | apply Frame.finishPrePerform
      | apply Frame.writeInString
      | apply Frame.writeToFile
      | apply Frame.uploadFrom
      | apply Frame.setMailRcpt
      | apply Frame.appendRecipient
      | apply CSMTPClient.addRecipients_frame
      | apply Frame.obj_logIfEnabled
      | apply Frame.obj_fileOpen
      | apply Frame.obj_curl_easy_perform
      | apply Frame.obj_closeIfOpen
      | apply Frame.ssClear
      | apply Frame.ssStr
      | apply Frame.onDerived
      | refine Frame.obj_setopt _ (fun _ => by rfl) ?_)

theorem CSMTPClient.PostPerform_frame_smtp (env : Env) (code : Nat) (o : Object CSMTPClient) :
    Frame true o.base (CSMTPClient.PostPerform env code o).2.base := by
  unfold CSMTPClient.PostPerform
  split
  · exact Frame.obj_closeIfOpen (Frame.unchanged _ _)
  · exact Frame.unchanged _ _

/-- The pre-configure hook of every class keeps the session and executes nothing. -/
theorem Adapter.PrePerform_frame (a : Adapter) (env : Env) (o : Object a.Fields) :
    Frame false o.base (a.vtable.PrePerform env o).2.base := by
  cases a with
  | mail => exact Frame.unchanged _ _
  | pop3 => exact CPOPClient.PrePerform_frame_pop3 env o
  | imap => exact CIMAPClient.PrePerform_frame_imap env o
  | smtp => exact CSMTPClient.PrePerform_frame_smtp env o

/-- The post-configure hook of every class keeps the session; what it executes, it
executes with the security options of the handle. -/
theorem Adapter.PostPerform_frame (a : Adapter) (env : Env) (code : Nat) (o : Object a.Fields) :
    Frame true o.base (a.vtable.PostPerform env code o).2.base := by
  cases a with
  | mail => exact Frame.unchanged _ _
  | pop3 => exact CPOPClient.PostPerform_frame_pop3 env code o
  | imap => exact CIMAPClient.PostPerform_frame_imap env code o
  | smtp => exact CSMTPClient.PostPerform_frame_smtp env code o

/-! ## The perform cycle -/

theorem settingsBeforeProgress_security (env : Env) (c : CMailClient) (h : CurlOpts) :
    (c.settingsBeforeProgress env h).security =
      { USE_SSL :=
          if flagSet c.m_eSslTlsFlags ENABLE_TLS then some CURLUSESSL_ALL else h.USE_SSL
        SSL_VERIFYPEER :=
          if flagSet c.m_eSettingsFlags VERIFY_PEER then h.SSL_VERIFYPEER else some 0
        SSL_VERIFYHOST :=
          if flagSet c.m_eSettingsFlags VERIFY_HOST then h.SSL_VERIFYHOST else some 0 } := by
  unfold CMailClient.settingsBeforeProgress CurlOpts.security
  simp only [apply_ite CurlOpts.USE_SSL, apply_ite CurlOpts.SSL_VERIFYPEER,
    apply_ite CurlOpts.SSL_VERIFYHOST, ite_self]
  cases flagSet c.m_eSslTlsFlags ENABLE_TLS <;> cases flagSet c.m_eSettingsFlags VERIFY_PEER <;>
    cases flagSet c.m_eSettingsFlags VERIFY_HOST <;> simp

theorem settings_security (env : Env) (c : CMailClient) (h : CurlOpts) :
    (c.settings env h).security =
      { USE_SSL :=
          if flagSet c.m_eSslTlsFlags ENABLE_TLS then some CURLUSESSL_ALL else h.USE_SSL
        SSL_VERIFYPEER :=
          if flagSet c.m_eSettingsFlags VERIFY_PEER then h.SSL_VERIFYPEER else some 0
        SSL_VERIFYHOST :=
          if flagSet c.m_eSettingsFlags VERIFY_HOST then h.SSL_VERIFYHOST else some 0 } := by
  rw [← settingsBeforeProgress_security env c h]
  unfold CMailClient.settings CurlOpts.security
  simp only [apply_ite CurlOpts.USE_SSL, apply_ite CurlOpts.SSL_VERIFYPEER,
    apply_ite CurlOpts.SSL_VERIFYHOST, ite_self]

/-- What `Perform` does between the hooks on a session that still has its handle. -/
theorem execute_of_handle {δ : Type} (env : Env) (o : Object δ) (h : CurlOpts)
    (hh : o.base.m_pCurlSession = some h) :
    (o.execute env).1 = env.curl_easy_perform o.base.trace (o.base.settings env h) ∧
    (o.execute env).2.derived = o.derived ∧
    (o.execute env).2.base = { o.base with
      m_pCurlSession := some (o.base.settings env h)
      trace := o.base.trace ++
        [Event.perform (o.base.settings env h)
          (env.curl_easy_perform o.base.trace (o.base.settings env h)),
        Event.postPerform (env.curl_easy_perform o.base.trace (o.base.settings env h))] } := by
  simp [Object.execute, Object.onBase, CMailClient.applySettings, CMailClient.setopt,
    CMailClient.curl_easy_perform, hh]

/-- What `Perform` does between the hooks when the pre-configure hook has dropped the
handle: libcurl refuses the null handle and nothing is sent. -/
theorem execute_of_no_handle {δ : Type} (env : Env) (o : Object δ)
    (hh : o.base.m_pCurlSession = none) :
    (o.execute env).1 = CURLE_BAD_FUNCTION_ARGUMENT ∧
    (o.execute env).2.derived = o.derived ∧
    (o.execute env).2.base = { o.base with
      trace := o.base.trace ++ [Event.postPerform CURLE_BAD_FUNCTION_ARGUMENT] } := by
  simp [Object.execute, Object.onBase, CMailClient.applySettings, CMailClient.setopt,
    CMailClient.curl_easy_perform, hh]

theorem SessionStep.stay (c : CMailClient) : SessionStep c c :=
  ⟨rfl, rfl, rfl, rfl, rfl, rfl, [], by simp, by simp⟩

theorem SessionStep.followedBy {a b c : CMailClient} (h1 : SessionStep a b) (h2 : SessionStep b c) :
    SessionStep a c := by
  obtain ⟨n1, e1, p1⟩ := h1.sent
  obtain ⟨n2, e2, p2⟩ := h2.sent
  refine ⟨h2.flags.trans h1.flags, h2.tls.trans h1.tls, h2.url.trans h1.url,
    h2.user.trans h1.user, h2.password.trans h1.password, h2.handle.trans h1.handle,
    n1 ++ n2, ?_, ?_⟩
  · rw [e2, e1, List.append_assoc]
  · intro q hq
    rcases List.mem_append.1 hq with hq | hq
    · exact p1 q hq
    · rw [← h1.flags, ← h1.tls]
      exact p2 q hq

/-- A step that sends nothing keeps the session. -/
theorem SessionStep.of_frame {c c' : CMailClient} (h : Frame false c c') : SessionStep c c' := by
  obtain ⟨n, e, p⟩ := h.sent
  refine ⟨h.flags, h.tls, h.url, h.user, h.password, ?_, n, e, ?_⟩
  · have := congrArg Option.isSome h.security
    simpa [CMailClient.security] using this
  · intro q hq
    exact absurd (p q hq).1 (by simp)

/-- The perform cycle keeps the session, whatever the hooks are, as long as they keep it:
the requests it executes carry the security options of the flags and of the TLS mode. -/
theorem Perform_step {δ : Type} (vt : VTable δ) (env : Env)
    (hpre : ∀ o, Frame false o.base (vt.PrePerform env o).2.base)
    (hpost : ∀ code o, Frame true o.base (vt.PostPerform env code o).2.base) (o : Object δ) :
    SessionStep o.base (Perform vt env o).2.base := by
  unfold Perform
  cases hh : o.base.m_pCurlSession with
  | none =>
    simp only [Option.isNone_none, if_true]
    exact SessionStep.of_frame (Frame.logIfEnabled false o.base _)
  | some h0 =>
    simp only [Option.isNone_some, Bool.false_eq_true, if_false]
    have f1 := hpre o.beforePrePerform
    have b1 : o.beforePrePerform.base.security = some CurlOpts.default.security := rfl
    have s1 : (vt.PrePerform env o.beforePrePerform).2.base.security =
        some CurlOpts.default.security := f1.security.trans b1
    obtain ⟨n1, e1, p1⟩ := f1.sent
    have n1nil : n1 = [] := by
      cases n1 with
      | nil => rfl
      | cons q t => exact absurd (p1 q (by simp)).1 (by simp)
    subst n1nil
    have r0 : requests o.beforePrePerform.base.trace = requests o.base.trace := by
      simp [Object.beforePrePerform, Object.onBase, requests]
    rw [List.append_nil, r0] at e1
    split
    · -- the pre-configure hook failed
      have f2 := Frame.logIfEnabled false (vt.PrePerform env o.beforePrePerform).2.base
        LOG_ERROR_PREPERFORM_FAILED_MSG
      obtain ⟨n2, e2, p2⟩ := f2.sent
      have n2nil : n2 = [] := by
        cases n2 with
        | nil => rfl
        | cons q t => exact absurd (p2 q (by simp)).1 (by simp)
      subst n2nil
      refine ⟨f2.flags.trans f1.flags, f2.tls.trans f1.tls, f2.url.trans f1.url,
        f2.user.trans f1.user, f2.password.trans f1.password, ?_, [], ?_, by simp⟩
      · have := congrArg Option.isSome (f2.security.trans s1)
        simpa [CMailClient.security, hh] using this
      · simpa [e1] using e2
    · split
      · -- the program stops at the null pointer: nothing is executed
        refine ⟨f1.flags, f1.tls, f1.url, f1.user, f1.password, ?_, [], ?_, by simp⟩
        · have := congrArg Option.isSome s1
          simpa [CMailClient.security, hh, Object.onBase, CMailClient.nullDereference,
            CMailClient.setopt] using this
        · simpa [Object.onBase, CMailClient.nullDereference, CMailClient.setopt] using e1
      -- the request is executed
      obtain ⟨h1, hh1⟩ : ∃ h1, (vt.PrePerform env o.beforePrePerform).2.base.m_pCurlSession
          = some h1 := by
        cases hx : (vt.PrePerform env o.beforePrePerform).2.base.m_pCurlSession with
        | none => simp [CMailClient.security, hx] at s1
        | some h1 => exact ⟨h1, rfl⟩
      have hs1 : h1.security = CurlOpts.default.security := by
        simpa [CMailClient.security, hh1] using s1
      obtain ⟨x1, _, x3⟩ := execute_of_handle env (vt.PrePerform env o.beforePrePerform).2 h1 hh1
      set pre := vt.PrePerform env o.beforePrePerform with hpre_def
      set ex := pre.2.execute env with hex_def
      have f3 := hpost ex.1 ex.2
      have sec : ((pre.2.base.settings env h1)).security =
          requestSecurity o.base.m_eSettingsFlags o.base.m_eSslTlsFlags := by
        rw [settings_security, f1.flags, f1.tls]
        have a1 : h1.USE_SSL = none := congrArg Security.USE_SSL hs1
        have a2 : h1.SSL_VERIFYPEER = none := congrArg Security.SSL_VERIFYPEER hs1
        have a3 : h1.SSL_VERIFYHOST = none := congrArg Security.SSL_VERIFYHOST hs1
        simp [requestSecurity, a1, a2, a3, Object.beforePrePerform, Object.onBase]
      have exsec : ex.2.base.security =
          some (requestSecurity o.base.m_eSettingsFlags o.base.m_eSslTlsFlags) := by
        rw [x3]
        simp [CMailClient.security, sec]
      have exflags : ex.2.base.m_eSettingsFlags = o.base.m_eSettingsFlags := by
        rw [x3]; exact f1.flags
      have extls : ex.2.base.m_eSslTlsFlags = o.base.m_eSslTlsFlags := by
        rw [x3]; exact f1.tls
      have exurl : ex.2.base.m_strURL = o.base.m_strURL := by
        rw [x3]; exact f1.url
      have exuser : ex.2.base.m_strUserName = o.base.m_strUserName := by
        rw [x3]; exact f1.user
      have expw : ex.2.base.m_strPassword = o.base.m_strPassword := by
        rw [x3]; exact f1.password
      have exreq : requests ex.2.base.trace =
          requests o.base.trace ++ [pre.2.base.settings env h1] := by
        rw [x3]
        simp [requests, e1]
      obtain ⟨n3, e3, p3⟩ := f3.sent
      have core : SessionStep o.base (vt.PostPerform env ex.1 ex.2).2.base := by
        refine ⟨f3.flags.trans exflags, f3.tls.trans extls, f3.url.trans exurl,
          f3.user.trans exuser, f3.password.trans expw, ?_,
          [pre.2.base.settings env h1] ++ n3, ?_, ?_⟩
        · have := congrArg Option.isSome (f3.security.trans exsec)
          simpa [CMailClient.security, hh] using this
        · rw [e3, exreq, List.append_assoc]
        · intro q hq
          rcases List.mem_append.1 hq with hq | hq
          · simp only [List.mem_singleton] at hq
            rw [hq]; exact sec
          · have := (p3 q hq).2
            rw [exsec] at this
            exact Option.some.inj this
      split
      · exact core.followedBy (SessionStep.of_frame (Frame.logIfEnabled false _ _))
      · split
        · exact core.followedBy (SessionStep.of_frame (Frame.logIfEnabled false _ _))
        · exact core

/-! ## Strings -/

theorem empty_eq_true_iff (s : String) : empty s = true ↔ s = "" := by
  cases s with
  | mk d =>
    cases d with
    | nil => simp [empty]
    | cons a t =>
      simp only [empty, List.isEmpty_cons, Bool.false_eq_true, false_iff]
      intro h
      exact absurd (congrArg String.data h) (by simp)

theorem empty_eq_false_of_ne (s : String) (h : s ≠ "") : empty s = false := by
  cases hs : empty s with
  | false => rfl
  | true => exact absurd ((empty_eq_true_iff s).1 hs) h

theorem compare0_toupper (s : String) (n : Nat) (P p : String)
    (hn : p.data.length = n) (hP : p.data.map Char.toUpper = P.data) :
    compare0 (toupper s) n P = decide (startsWithNoCase s p) := by
  simp only [compare0, toupper, startsWithNoCase, hn, hP, List.map_take]
  by_cases h : List.take n (List.map Char.toUpper s.data) = P.data
  · simp [h]
  · simp [h]

theorem startsWithNoCase_of_append (s a b : String) (h : startsWithNoCase s (a ++ b)) :
    startsWithNoCase s a := by
  unfold startsWithNoCase at *
  have h2 := congrArg (List.take a.data.length) h
  simp only [String.data_append, List.length_append, List.map_append] at h2
  rw [← List.map_take, List.take_take] at h2
  simpa [List.take_append_eq_append_take, List.take_of_length_le] using h2

/-- A string without NUL character is its own C string. -/
theorem c_str_of_no_nul (s : String) (h : '\x00' ∉ s.data) : c_str s = s := by
  unfold c_str
  apply String.ext
  show s.data.takeWhile (fun c => c != '\x00') = s.data
  rw [List.takeWhile_eq_self_iff]
  intro c hc
  have : c ≠ '\x00' := fun e => h (e ▸ hc)
  simpa using this

/-- The C string of a concatenation whose first part has no NUL character. -/
theorem c_str_append (a b : String) (h : '\x00' ∉ a.data) : c_str (a ++ b) = a ++ c_str b := by
  unfold c_str
  apply String.ext
  show (a ++ b).data.takeWhile (fun c => c != '\x00') =
    (a ++ (⟨b.data.takeWhile (fun c => c != '\x00')⟩ : String)).data
  rw [String.data_append, String.data_append, List.takeWhile_append_of_pos]
  intro c hc
  have : c ≠ '\x00' := fun e => h (e ▸ hc)
  simpa using this

/-- The C string of a concatenation whose first part has a NUL character. -/
theorem c_str_append_of_nul (a b : String) (h : '\x00' ∈ a.data) :
    c_str (a ++ b) = c_str a := by
  unfold c_str
  apply String.ext
  show (a ++ b).data.takeWhile (fun c => c != '\x00') = a.data.takeWhile (fun c => c != '\x00')
  rw [String.data_append]
  generalize a.data = l at h
  induction l with
  | nil => simp at h
  | cons x xs ih =>
    by_cases hx : x = '\x00'
    · subst hx
      simp [List.takeWhile]
    · have hx2 : (x != '\x00') = true := by simpa using hx
      have hmem : '\x00' ∈ xs := by
        rcases List.mem_cons.1 h with e | e
        · exact absurd e.symm hx
        · exact e
      simp only [List.cons_append, List.takeWhile, hx2]
      exact congrArg (List.cons x) (ih hmem)

/-- A C string has no NUL character. -/
theorem c_str_no_nul (s : String) : '\x00' ∉ (c_str s).data := by
  unfold c_str
  show '\x00' ∉ s.data.takeWhile (fun c => c != '\x00')
  intro h
  have := List.mem_takeWhile_imp h
  simp at this

theorem no_nul_append (a b : String) :
    '\x00' ∉ (a ++ b).data ↔ '\x00' ∉ a.data ∧ '\x00' ∉ b.data := by
  rw [String.data_append, List.mem_append, not_or]

/-! ## C8: proxy normalisation -/

/-- C8, as stated, fails: the proxy `"httpproxy:8080"` begins with neither `"http://"`
nor `"https://"`, yet `SetProxy` stores it unchanged instead of putting `"http://"` in
front, because the source only compares the first four characters with `"HTTP"`. -/
theorem SetProxy_http_without_separator_kept :
    ¬ startsWithNoCase "httpproxy:8080" "http://" ∧
    ¬ startsWithNoCase "httpproxy:8080" "https://" ∧
    (CMailClient.SetProxy "httpproxy:8080" CMailClient.new).m_strProxy = "httpproxy:8080" ∧
    (CMailClient.SetProxy "httpproxy:8080" CMailClient.new).m_strProxy
      ≠ "http://" ++ "httpproxy:8080" := by
  decide

/-- C8, amended: for every non-empty proxy string `p`, `SetProxy(p)` stores `p` unchanged
when `p` begins, ignoring letter case, with the four characters `"http"` (in particular
when it begins with `"http://"` or `"https://"`), and stores `"http://"` followed by `p`
for every other `p`; so `"myproxy:8080"` is stored as `"http://myproxy:8080"`,
`"my_proxy"` as `"http://my_proxy"`, and `"HTTP://myproxy:8080"` unchanged. -/
theorem SetProxy_stored (p : String) (c : CMailClient) (hp : p ≠ "") :
    (startsWithNoCase p "http" → (CMailClient.SetProxy p c).m_strProxy = p) ∧
    (startsWithNoCase p "http://" ∨ startsWithNoCase p "https://" →
      (CMailClient.SetProxy p c).m_strProxy = p) ∧
    (¬ startsWithNoCase p "http" → (CMailClient.SetProxy p c).m_strProxy = "http://" ++ p) ∧
    (CMailClient.SetProxy "myproxy:8080" c).m_strProxy = "http://myproxy:8080" ∧
    (CMailClient.SetProxy "my_proxy" c).m_strProxy = "http://my_proxy" ∧
    (CMailClient.SetProxy "HTTP://myproxy:8080" c).m_strProxy = "HTTP://myproxy:8080" := by
  have key : ∀ q : String, q ≠ "" → (CMailClient.SetProxy q c).m_strProxy =
      if startsWithNoCase q "http" then q else "http://" ++ q := by
    intro q hq
    have h4 : compare0 (toupper q) 4 "HTTP" = decide (startsWithNoCase q "http") :=
      compare0_toupper q 4 "HTTP" "http" (by decide) (by decide)
    unfold CMailClient.SetProxy
    rw [empty_eq_false_of_ne q hq]
    by_cases h : startsWithNoCase q "http" <;> simp [h4, h]
  have hs : startsWithNoCase p "http" → (CMailClient.SetProxy p c).m_strProxy = p := by
    intro h
    rw [key p hp, if_pos h]
  refine ⟨hs, ?_, ?_, ?_, ?_, ?_⟩
  · rintro (h | h)
    · exact hs (startsWithNoCase_of_append p "http" "://" h)
    · exact hs (startsWithNoCase_of_append p "http" "s://" h)
  · intro h
    rw [key p hp, if_neg h]
  · rw [key _ (by decide)]; decide
  · rw [key _ (by decide)]; decide
  · rw [key _ (by decide)]; decide

/-- C8, amended, at the proxy `"myproxy:8080"` of the specification. -/
theorem SetProxy_stored_myproxy :
    ("myproxy:8080" : String) ≠ "" ∧
    ¬ startsWithNoCase "myproxy:8080" "http" ∧
    (CMailClient.SetProxy "myproxy:8080" CMailClient.new).m_strProxy = "http://myproxy:8080" :=
  ⟨by decide, by decide,
    (SetProxy_stored "myproxy:8080" CMailClient.new (by decide)).2.2.2.1⟩

/-! ## Address normalisation -/

theorem data_ne_nil_of_ne (s : String) (h : s ≠ "") : s.data ≠ [] := by
  intro hd
  exact h (String.ext_iff.2 (by simpa using hd))

theorem lastChar_append_of_ne (a b : String) (hb : b ≠ "") : lastChar (a ++ b) = lastChar b := by
  have hd := data_ne_nil_of_ne b hb
  unfold lastChar
  rw [String.data_append, List.getLast?_append]
  cases hl : b.data.getLast? with
  | none => exact absurd (List.getLast?_eq_none_iff.1 hl) hd
  | some c => rfl

theorem lastChar_eq_some_iff (s : String) (c : Char) :
    lastChar s = some c ↔ endsWithChar s c := by
  unfold lastChar endsWithChar
  constructor
  · intro h
    obtain ⟨l, hl⟩ := List.getLast?_eq_some_iff.1 h
    exact ⟨⟨l⟩, String.ext_iff.2 (by simpa using hl)⟩
  · rintro ⟨t, rfl⟩
    simp [String.singleton]

/-- The scheme `CPOPClient::ParseURL` puts in front of a host: none when the host already
carries one. -/
theorem CPOPClient.ParseURL_url_pop3 (o : Object CPOPClient) (hne : o.base.m_strURL ≠ "") :
    (CPOPClient.ParseURL o).base.m_strURL =
      (if startsWithNoCase o.base.m_strURL "pop3s://" ∨ startsWithNoCase o.base.m_strURL "pop3://"
        then "" else if o.base.m_eSslTlsFlags = ENABLE_SSL then "pop3s://" else "pop3://") ++
      o.base.m_strURL ++ (if lastChar o.base.m_strURL = some '/' then "" else "/") := by
  have h8 := compare0_toupper o.base.m_strURL 8 "POP3S://" "pop3s://" (by decide) (by decide)
  have h7 := compare0_toupper o.base.m_strURL 7 "POP3://" "pop3://" (by decide) (by decide)
  have l1 := lastChar_append_of_ne "pop3s://" _ hne
  have l2 := lastChar_append_of_ne "pop3://" _ hne
  unfold CPOPClient.ParseURL
  simp only [h8, h7]
  by_cases a : startsWithNoCase o.base.m_strURL "pop3s://" <;>
  by_cases b : startsWithNoCase o.base.m_strURL "pop3://" <;>
  by_cases t : o.base.m_eSslTlsFlags = ENABLE_SSL <;>
  by_cases l : lastChar o.base.m_strURL = some '/' <;>
  simp [a, b, t, l, l1, l2, Object.onBase]

/-- The scheme `CIMAPClient::ParseURL` puts in front of a host: none when the host already
carries one. -/
theorem CIMAPClient.ParseURL_url_imap (o : Object CIMAPClient) (hne : o.base.m_strURL ≠ "") :
    (CIMAPClient.ParseURL o).base.m_strURL =
      (if startsWithNoCase o.base.m_strURL "imaps://" ∨ startsWithNoCase o.base.m_strURL "imap://"
        then "" else if o.base.m_eSslTlsFlags = ENABLE_SSL then "imaps://" else "imap://") ++
      o.base.m_strURL ++ (if lastChar o.base.m_strURL = some '/' then "" else "/") := by
  have h8 := compare0_toupper o.base.m_strURL 8 "IMAPS://" "imaps://" (by decide) (by decide)
  have h7 := compare0_toupper o.base.m_strURL 7 "IMAP://" "imap://" (by decide) (by decide)
  have l1 := lastChar_append_of_ne "imaps://" _ hne
  have l2 := lastChar_append_of_ne "imap://" _ hne
  unfold CIMAPClient.ParseURL
  simp only [h8, h7]
  by_cases a : startsWithNoCase o.base.m_strURL "imaps://" <;>
  by_cases b : startsWithNoCase o.base.m_strURL "imap://" <;>
  by_cases t : o.base.m_eSslTlsFlags = ENABLE_SSL <;>
  by_cases l : lastChar o.base.m_strURL = some '/' <;>
  simp [a, b, t, l, l1, l2, Object.onBase]

/-- The scheme `CSMTPClient::ParseURL` puts in front of a host: none when the host already
carries one. -/
theorem CSMTPClient.ParseURL_url_smtp (o : Object CSMTPClient) :
    (CSMTPClient.ParseURL o).base.m_strURL =
      (if startsWithNoCase o.base.m_strURL "smtps://" ∨ startsWithNoCase o.base.m_strURL "smtp://"
        then "" else if o.base.m_eSslTlsFlags = ENABLE_SSL then "smtps://" else "smtp://") ++
      o.base.m_strURL := by
  have h8 := compare0_toupper o.base.m_strURL 8 "SMTPS://" "smtps://" (by decide) (by decide)
  have h7 := compare0_toupper o.base.m_strURL 7 "SMTP://" "smtp://" (by decide) (by decide)
  unfold CSMTPClient.ParseURL
  simp only [h8, h7]
  by_cases a : startsWithNoCase o.base.m_strURL "smtps://" <;>
  by_cases b : startsWithNoCase o.base.m_strURL "smtp://" <;>
  by_cases t : o.base.m_eSslTlsFlags = ENABLE_SSL <;>
  simp [a, b, t, Object.onBase]

/-- What `InitSession` does on a session without a handle when the host is not empty. -/
theorem InitSession_of_no_handle {δ : Type} (vt : VTable δ) (env : Env)
    (strHost strLogin strPassword : String) (eSettingsFlags eSslTlsFlags : Nat) (o : Object δ)
    (hne : strHost ≠ "") (hnone : o.base.m_pCurlSession = none) :
    InitSession vt env strHost strLogin strPassword eSettingsFlags eSslTlsFlags o =
      (((vt.ParseURL (o.onBase (CMailClient.storeSession
          (if env.curl_easy_init o.base.trace then some CurlOpts.default else none)
          eSettingsFlags eSslTlsFlags strHost))).base.m_pCurlSession.isSome),
        (vt.ParseURL (o.onBase (CMailClient.storeSession
          (if env.curl_easy_init o.base.trace then some CurlOpts.default else none)
          eSettingsFlags eSslTlsFlags strHost))).onBase
            (CMailClient.storeCredentials strLogin strPassword)) := by
  unfold InitSession
  simp [empty_eq_false_of_ne strHost hne, hnone, Object.onBase, CMailClient.storeCredentials]

/-! ## C6: the scheme and the separator put around a host without scheme -/

/-- C6: on a session without a handle, for every non-empty host `h` that does not begin
(ignoring letter case) with the adapter's own scheme, with or without the `s`: POP3
`InitSession` stores `"pop3s://" + h` when the TLS mode is `ENABLE_SSL` and
`"pop3://" + h` otherwise, followed by `"/"` if and only if `h` does not already end with
`"/"`; IMAP does the same with `"imaps://"` and `"imap://"`; SMTP stores
`"smtps://" + h` or `"smtp://" + h` and appends nothing. -/
theorem InitSession_url_of_host_without_scheme (env : Env) (h user pw : String)
    (flags tls : Nat) (hne : h ≠ "") :
    (∀ o : Object CPOPClient, o.base.m_pCurlSession = none →
      ¬ startsWithNoCase h "pop3://" → ¬ startsWithNoCase h "pop3s://" →
      let url := (InitSession CPOPClient.vtable env h user pw flags tls o).2.base.m_strURL
      let scheme := if tls = ENABLE_SSL then "pop3s://" else "pop3://"
      (endsWithChar h '/' → url = scheme ++ h) ∧
      (¬ endsWithChar h '/' → url = scheme ++ h ++ "/")) ∧
    (∀ o : Object CIMAPClient, o.base.m_pCurlSession = none →
      ¬ startsWithNoCase h "imap://" → ¬ startsWithNoCase h "imaps://" →
      let url := (InitSession CIMAPClient.vtable env h user pw flags tls o).2.base.m_strURL
      let scheme := if tls = ENABLE_SSL then "imaps://" else "imap://"
      (endsWithChar h '/' → url = scheme ++ h) ∧
      (¬ endsWithChar h '/' → url = scheme ++ h ++ "/")) ∧
    (∀ o : Object CSMTPClient, o.base.m_pCurlSession = none →
      ¬ startsWithNoCase h "smtp://" → ¬ startsWithNoCase h "smtps://" →
      (InitSession CSMTPClient.vtable env h user pw flags tls o).2.base.m_strURL =
        (if tls = ENABLE_SSL then "smtps://" else "smtp://") ++ h) := by
  refine ⟨?_, ?_, ?_⟩
  · intro o hnone h1 h2
    rw [InitSession_of_no_handle _ _ _ _ _ _ _ _ hne hnone]
    simp only [CPOPClient.vtable, Object.onBase, CMailClient.storeCredentials]
    rw [CPOPClient.ParseURL_url_pop3 _ hne]
    simp only [CMailClient.storeSession]
    simp only [h1, h2, or_self, if_false, ← lastChar_eq_some_iff]
    constructor
    · intro hl; simp [hl]
    · intro hl; simp [hl]
  · intro o hnone h1 h2
    rw [InitSession_of_no_handle _ _ _ _ _ _ _ _ hne hnone]
    simp only [CIMAPClient.vtable, Object.onBase, CMailClient.storeCredentials]
    rw [CIMAPClient.ParseURL_url_imap _ hne]
    simp only [CMailClient.storeSession]
    simp only [h1, h2, or_self, if_false, ← lastChar_eq_some_iff]
    constructor
    · intro hl; simp [hl]
    · intro hl; simp [hl]
  · intro o hnone h1 h2
    rw [InitSession_of_no_handle _ _ _ _ _ _ _ _ hne hnone]
    simp only [CSMTPClient.vtable, Object.onBase, CMailClient.storeCredentials]
    rw [CSMTPClient.ParseURL_url_smtp _]
    simp only [CMailClient.storeSession]
    simp [h1, h2]

/-- C6 at the host of the specification: in implicit mode the POP3 URL of
`"mail.example.com"` is `"pop3s://mail.example.com/"`. -/
theorem InitSession_url_mail_example_com :
    ("mail.example.com" : String) ≠ "" ∧
    (InitSession CPOPClient.vtable Env.online "mail.example.com" "user" "secret" ALL_FLAGS
      ENABLE_SSL CPOPClient.new).2.base.m_strURL = "pop3s://mail.example.com/" :=
  ⟨by decide,
    ((InitSession_url_of_host_without_scheme Env.online "mail.example.com" "user" "secret"
      ALL_FLAGS ENABLE_SSL (by decide)).1 CPOPClient.new rfl (by decide) (by decide)).2
      (fun hc => absurd ((lastChar_eq_some_iff _ _).2 hc) (by decide))⟩

/-! ## C7: the trailing separator -/

theorem ends_two_iff_reverse (s : List Char) (a b : Char) :
    (∃ l, s = l ++ [a, b]) ↔ ∃ t, s.reverse = b :: a :: t := by
  constructor
  · rintro ⟨l, rfl⟩
    exact ⟨l.reverse, by simp⟩
  · rintro ⟨t, ht⟩
    refine ⟨t.reverse, ?_⟩
    have := congrArg List.reverse ht
    simpa using this

theorem ends_two_core_rev (rp rh : List Char) (hne : rh ≠ [])
    (hpre : rp = [] ∨ ∃ p, rp = '/' :: p) :
    (∃ t, (if rh.head? = some '/' then [] else ['/']) ++ (rh ++ rp) = '/' :: '/' :: t) ↔
      ((rp ≠ [] ∧ rh = ['/']) ∨ ∃ t, rh = '/' :: '/' :: t) := by
  cases rh with
  | nil => exact absurd rfl hne
  | cons c r =>
    by_cases hc : c = '/'
    · subst hc
      cases r with
      | nil =>
        rcases hpre with rfl | ⟨p, rfl⟩
        · simp
        · simp
      | cons d r' => simp
    · simp [hc]

theorem ends_two_core (pre h : List Char) (hne : h ≠ [])
    (hpre : pre = [] ∨ ∃ p, pre = p ++ ['/']) :
    (∃ l, pre ++ h ++ (if h.getLast? = some '/' then [] else ['/']) = l ++ ['/', '/']) ↔
      ((pre ≠ [] ∧ h = ['/']) ∨ ∃ l, h = l ++ ['/', '/']) := by
  rw [ends_two_iff_reverse, ends_two_iff_reverse]
  have hr : h.reverse ≠ [] := by simpa using hne
  have hp : pre.reverse = [] ∨ ∃ p, pre.reverse = '/' :: p := by
    rcases hpre with rfl | ⟨p, rfl⟩
    · left; rfl
    · right; exact ⟨p.reverse, by simp⟩
  have key := ends_two_core_rev pre.reverse h.reverse hr hp
  have e1 : (pre ++ h ++ (if h.getLast? = some '/' then [] else ['/'])).reverse =
      (if h.reverse.head? = some '/' then [] else ['/']) ++ (h.reverse ++ pre.reverse) := by
    rw [List.head?_reverse]
    by_cases hl : h.getLast? = some '/' <;> simp [hl]
  rw [e1, key]
  have e2 : h.reverse = ['/'] ↔ h = ['/'] := by
    constructor
    · intro x; have := congrArg List.reverse x; simpa using this
    · intro x; simp [x]
  simp [e2]

theorem ends_two_slashes_iff_data (s : String) :
    (∃ t : String, s = t ++ "//") ↔ ∃ l, s.data = l ++ ['/', '/'] := by
  constructor
  · rintro ⟨t, rfl⟩
    exact ⟨t.data, rfl⟩
  · rintro ⟨l, hl⟩
    exact ⟨⟨l⟩, String.ext_iff.2 (by simpa using hl)⟩

/-- The shape both `CPOPClient::ParseURL` and `CIMAPClient::ParseURL` give the URL, and
where it ends. -/
theorem url_with_separator (pre h : String) (hne : h ≠ "")
    (hpre : pre = "" ∨ endsWithChar pre '/') (hslash : h = "/" → pre ≠ "") :
    endsWithChar (pre ++ h ++ (if lastChar h = some '/' then "" else "/")) '/' ∧
    ((∃ t : String, pre ++ h ++ (if lastChar h = some '/' then "" else "/") = t ++ "//") ↔
      (h = "/" ∨ ∃ t : String, h = t ++ "//")) := by
  constructor
  · rw [← lastChar_eq_some_iff]
    by_cases hl : lastChar h = some '/'
    · simp only [hl, if_true, String.append_empty]
      rw [lastChar_append_of_ne _ _ hne, hl]
    · simp only [hl, if_false]
      rw [lastChar_append_of_ne _ _ (by decide)]
      rfl
  · rw [ends_two_slashes_iff_data, ends_two_slashes_iff_data]
    have hp : pre.data = [] ∨ ∃ p, pre.data = p ++ ['/'] := by
      rcases hpre with rfl | ⟨t, ht⟩
      · left; rfl
      · right; exact ⟨t.data, by rw [ht]; rfl⟩
    have key := ends_two_core pre.data h.data (data_ne_nil_of_ne h hne) hp
    have e : (pre ++ h ++ (if lastChar h = some '/' then "" else "/")).data =
        pre.data ++ h.data ++ (if h.data.getLast? = some '/' then [] else ['/']) := by
      unfold lastChar
      by_cases hl : h.data.getLast? = some '/' <;> simp [hl]
    rw [e, key]
    have hs : h.data = ['/'] ↔ h = "/" := by
      rw [String.ext_iff]
    rw [hs]
    constructor
    · rintro (⟨_, h1⟩ | h2)
      · exact Or.inl h1
      · exact Or.inr h2
    · rintro (h1 | h2)
      · refine Or.inl ⟨?_, h1⟩
        intro hd
        exact hslash h1 (String.ext_iff.2 (by simpa using hd))
      · exact Or.inr h2

/-- C7, as stated, fails: for the host `"mail.example.com//"` POP3 `InitSession` stores
`"pop3://mail.example.com//"`, whose last character is `"/"` and whose character before
it is `"/"` too: the source only appends a separator when none is there, it removes
none. -/
theorem InitSession_url_two_separators :
    (InitSession CPOPClient.vtable Env.online "mail.example.com//" "user" "secret" ALL_FLAGS
      NO_SSLTLS CPOPClient.new).2.base.m_strURL = "pop3://mail.example.com//" ∧
    ¬ (endsWithChar (InitSession CPOPClient.vtable Env.online "mail.example.com//" "user"
        "secret" ALL_FLAGS NO_SSLTLS CPOPClient.new).2.base.m_strURL '/' ∧
      ¬ ∃ t : String, (InitSession CPOPClient.vtable Env.online "mail.example.com//" "user"
        "secret" ALL_FLAGS NO_SSLTLS CPOPClient.new).2.base.m_strURL = t ++ "//") := by
  have e : (InitSession CPOPClient.vtable Env.online "mail.example.com//" "user" "secret"
      ALL_FLAGS NO_SSLTLS CPOPClient.new).2.base.m_strURL = "pop3://mail.example.com//" := by
    decide
  refine ⟨e, ?_⟩
  rw [e]
  rintro ⟨_, h⟩
  exact h ⟨"pop3://mail.example.com", by decide⟩

/-- C7, amended: on a session without a handle, for every non-empty host and every TLS
mode, the URL stored by POP3 (and by IMAP) `InitSession` ends with `"/"`; the character
before that `"/"` is itself a `"/"` exactly when the host is `"/"` or ends with `"//"`, so
the URL ends with exactly one separator for every other host. -/
theorem InitSession_url_ends_with_separator (env : Env) (h user pw : String)
    (flags tls : Nat) (hne : h ≠ "") :
    (∀ o : Object CPOPClient, o.base.m_pCurlSession = none →
      let url := (InitSession CPOPClient.vtable env h user pw flags tls o).2.base.m_strURL
      endsWithChar url '/' ∧
      ((∃ t : String, url = t ++ "//") ↔ (h = "/" ∨ ∃ t : String, h = t ++ "//"))) ∧
    (∀ o : Object CIMAPClient, o.base.m_pCurlSession = none →
      let url := (InitSession CIMAPClient.vtable env h user pw flags tls o).2.base.m_strURL
      endsWithChar url '/' ∧
      ((∃ t : String, url = t ++ "//") ↔ (h = "/" ∨ ∃ t : String, h = t ++ "//"))) := by
  have sl : ∀ c : String, c = "pop3s://" ∨ c = "pop3://" ∨ c = "imaps://" ∨ c = "imap://" →
      endsWithChar c '/' := by
    intro c hc
    rw [← lastChar_eq_some_iff]
    rcases hc with rfl | rfl | rfl | rfl <;> decide
  refine ⟨?_, ?_⟩
  · intro o hnone
    rw [InitSession_of_no_handle _ _ _ _ _ _ _ _ hne hnone]
    simp only [CPOPClient.vtable, Object.onBase, CMailClient.storeCredentials]
    rw [CPOPClient.ParseURL_url_pop3 _ hne]
    simp only [CMailClient.storeSession]
    apply url_with_separator _ _ hne
    · by_cases a : startsWithNoCase h "pop3s://" ∨ startsWithNoCase h "pop3://"
      · simp [a]
      · by_cases t : tls = ENABLE_SSL
        · simp only [a, t, if_true, if_false]; exact Or.inr (sl _ (by simp))
        · simp only [a, t, if_false]; exact Or.inr (sl _ (by simp))
    · rintro rfl
      have a : ¬ (startsWithNoCase "/" "pop3s://" ∨ startsWithNoCase "/" "pop3://") := by
        decide
      by_cases t : tls = ENABLE_SSL
      · simp only [a, t, if_true, if_false]; decide
      · simp only [a, t, if_false]; decide
  · intro o hnone
    rw [InitSession_of_no_handle _ _ _ _ _ _ _ _ hne hnone]
    simp only [CIMAPClient.vtable, Object.onBase, CMailClient.storeCredentials]
    rw [CIMAPClient.ParseURL_url_imap _ hne]
    simp only [CMailClient.storeSession]
    apply url_with_separator _ _ hne
    · by_cases a : startsWithNoCase h "imaps://" ∨ startsWithNoCase h "imap://"
      · simp [a]
      · by_cases t : tls = ENABLE_SSL
        · simp only [a, t, if_true, if_false]; exact Or.inr (sl _ (by simp))
        · simp only [a, t, if_false]; exact Or.inr (sl _ (by simp))
    · rintro rfl
      have a : ¬ (startsWithNoCase "/" "imaps://" ∨ startsWithNoCase "/" "imap://") := by
        decide
      by_cases t : tls = ENABLE_SSL
      · simp only [a, t, if_true, if_false]; decide
      · simp only [a, t, if_false]; decide

/-- C7, amended, at the host `"mail.example.com"`: the stored POP3 URL ends with a
separator and not with two. -/
theorem InitSession_url_ends_with_separator_example :
    ("mail.example.com" : String) ≠ "" ∧
    endsWithChar (InitSession CPOPClient.vtable Env.online "mail.example.com" "user" "secret"
      ALL_FLAGS NO_SSLTLS CPOPClient.new).2.base.m_strURL '/' ∧
    ((∃ t : String, (InitSession CPOPClient.vtable Env.online "mail.example.com" "user"
        "secret" ALL_FLAGS NO_SSLTLS CPOPClient.new).2.base.m_strURL = t ++ "//") ↔
      (("mail.example.com" : String) = "/" ∨ ∃ t : String, "mail.example.com" = t ++ "//")) :=
  ⟨by decide,
    (InitSession_url_ends_with_separator Env.online "mail.example.com" "user" "secret"
      ALL_FLAGS NO_SSLTLS (by decide)).1 CPOPClient.new rfl⟩

/-! ## Initialising and cleaning a session -/

/-- The function `ParseURL` of every class only touches the URL and the TLS mode. -/
theorem Adapter.ParseURL_keeps (a : Adapter) (o : Object a.Fields) :
    (a.vtable.ParseURL o).base.m_pCurlSession = o.base.m_pCurlSession ∧
    (a.vtable.ParseURL o).base.m_eSettingsFlags = o.base.m_eSettingsFlags ∧
    (a.vtable.ParseURL o).base.trace = o.base.trace ∧
    (a.vtable.ParseURL o).derived = o.derived := by
  cases a with
  | mail => exact ⟨rfl, rfl, rfl, rfl⟩
  | pop3 =>
    simp only [Adapter.vtable, CPOPClient.vtable, CPOPClient.ParseURL, Object.onBase]
    split_ifs <;> exact ⟨rfl, rfl, rfl, rfl⟩
  | imap =>
    simp only [Adapter.vtable, CIMAPClient.vtable, CIMAPClient.ParseURL, Object.onBase]
    split_ifs <;> exact ⟨rfl, rfl, rfl, rfl⟩
  | smtp =>
    simp only [Adapter.vtable, CSMTPClient.vtable, CSMTPClient.ParseURL, Object.onBase]
    split_ifs <;> exact ⟨rfl, rfl, rfl, rfl⟩

/-- The URL `ParseURL` of every class leaves is the normalisation of the URL it finds. -/
theorem Adapter.ParseURL_normalises (a : Adapter) (o : Object a.Fields) (hne : o.base.m_strURL ≠ "") :
    (a.vtable.ParseURL o).base.m_strURL = a.normalise o.base.m_eSslTlsFlags o.base.m_strURL := by
  cases a with
  | mail => simp [Adapter.vtable, CMailClient.vtable, Adapter.normalise, Adapter.hasScheme,
      Adapter.scheme, Adapter.wantsSeparator]
  | pop3 =>
    have h := CPOPClient.ParseURL_url_pop3 o hne
    simp only [Adapter.vtable, CPOPClient.vtable, Adapter.normalise, Adapter.hasScheme,
      Adapter.scheme, Adapter.wantsSeparator, true_and]
    rw [h]
    by_cases l : lastChar o.base.m_strURL = some '/' <;> simp [l]
  | imap =>
    have h := CIMAPClient.ParseURL_url_imap o hne
    simp only [Adapter.vtable, CIMAPClient.vtable, Adapter.normalise, Adapter.hasScheme,
      Adapter.scheme, Adapter.wantsSeparator, true_and]
    rw [h]
    by_cases l : lastChar o.base.m_strURL = some '/' <;> simp [l]
  | smtp =>
    have h := CSMTPClient.ParseURL_url_smtp o
    simp only [Adapter.vtable, CSMTPClient.vtable, Adapter.normalise, Adapter.hasScheme,
      Adapter.scheme, Adapter.wantsSeparator]
    rw [h]
    simp

/-- The TLS mode `ParseURL` of every class leaves: `ENABLE_SSL` when the host carries the
scheme, the mode it finds otherwise. -/
theorem Adapter.ParseURL_tls (a : Adapter) (o : Object a.Fields) :
    (a.vtable.ParseURL o).base.m_eSslTlsFlags =
      if a.hasScheme o.base.m_strURL then ENABLE_SSL else o.base.m_eSslTlsFlags := by
  cases a with
  | mail => simp [Adapter.vtable, CMailClient.vtable, Adapter.hasScheme]
  | pop3 =>
    have h8 := compare0_toupper o.base.m_strURL 8 "POP3S://" "pop3s://" (by decide) (by decide)
    have h7 := compare0_toupper o.base.m_strURL 7 "POP3://" "pop3://" (by decide) (by decide)
    simp only [Adapter.vtable, CPOPClient.vtable, CPOPClient.ParseURL, Object.onBase,
      Adapter.hasScheme, h8, h7]
    split_ifs <;> simp_all
  | imap =>
    have h8 := compare0_toupper o.base.m_strURL 8 "IMAPS://" "imaps://" (by decide) (by decide)
    have h7 := compare0_toupper o.base.m_strURL 7 "IMAP://" "imap://" (by decide) (by decide)
    simp only [Adapter.vtable, CIMAPClient.vtable, CIMAPClient.ParseURL, Object.onBase,
      Adapter.hasScheme, h8, h7]
    split_ifs <;> simp_all
  | smtp =>
    have h8 := compare0_toupper o.base.m_strURL 8 "SMTPS://" "smtps://" (by decide) (by decide)
    have h7 := compare0_toupper o.base.m_strURL 7 "SMTP://" "smtp://" (by decide) (by decide)
    simp only [Adapter.vtable, CSMTPClient.vtable, CSMTPClient.ParseURL, Object.onBase,
      Adapter.hasScheme, h8, h7]
    split_ifs <;> simp_all

/-- What `InitSession` does on a session that has a handle: it logs and returns false. -/
theorem InitSession_of_handle {δ : Type} (vt : VTable δ) (env : Env)
    (strHost strLogin strPassword : String) (eSettingsFlags eSslTlsFlags : Nat) (o : Object δ)
    (hh : o.base.m_pCurlSession.isSome = true) :
    InitSession vt env strHost strLogin strPassword eSettingsFlags eSslTlsFlags o =
      (false, o.logIfEnabled
        (if empty strHost then LOG_ERROR_EMPTY_HOST_MSG else LOG_ERROR_CURL_ALREADY_INIT_MSG)) := by
  unfold InitSession
  by_cases he : empty strHost = true <;> simp [he, hh]

/-- The function `CleanupSession` of every class returns what the one of the session core
returns and leaves the base sub-object it leaves. -/
theorem Adapter.CleanupSession_base (a : Adapter) (o : Object a.Fields) :
    (a.vtable.CleanupSession o).1 = o.base.CleanupSession.1 ∧
    (a.vtable.CleanupSession o).2.base = o.base.CleanupSession.2 := by
  cases a <;> exact ⟨rfl, rfl⟩

/-- When `InitSession` returns true the session has a handle. -/
theorem InitSession_true_handle {δ : Type} (vt : VTable δ) (env : Env)
    (strHost strLogin strPassword : String) (eSettingsFlags eSslTlsFlags : Nat) (o : Object δ)
    (h : (InitSession vt env strHost strLogin strPassword eSettingsFlags eSslTlsFlags o).1
      = true) :
    (InitSession vt env strHost strLogin strPassword eSettingsFlags eSslTlsFlags o).2.base.m_pCurlSession.isSome
      = true := by
  cases hh : o.base.m_pCurlSession with
  | some h0 =>
    rw [InitSession_of_handle _ _ _ _ _ _ _ _ (by simp [hh])] at h
    simp at h
  | none =>
    by_cases he : strHost = ""
    · subst he
      have e : empty "" = true := rfl
      simp [InitSession, e] at h
    · rw [InitSession_of_no_handle _ _ _ _ _ _ _ _ he hh] at h ⊢
      simpa [Object.onBase] using h

/-! ## C3: `InitSession` on a session without a handle -/

/-- C3: `InitSession(host, user, password, settings, tls)` on a session without a
transport handle: if `host` is empty it returns false and creates no handle; if `host` is
not empty and the transport allocates a handle it returns true, and afterwards the handle
is present, the stored user name is `user`, the stored password is `password`, the stored
settings flags are `settings`, and the stored URL is the adapter's normalisation of
`host`, which is `host` itself for the session core used on its own. -/
theorem InitSession_on_session_without_handle (a : Adapter) (env : Env)
    (host user password : String) (settings tls : Nat) (o : Object a.Fields)
    (hnone : o.base.m_pCurlSession = none) :
    (host = "" →
      (InitSession a.vtable env host user password settings tls o).1 = false ∧
      (InitSession a.vtable env host user password settings tls o).2.base.m_pCurlSession
        = none) ∧
    (host ≠ "" → env.curl_easy_init o.base.trace = true →
      (InitSession a.vtable env host user password settings tls o).1 = true ∧
      (InitSession a.vtable env host user password settings tls o).2.base.m_pCurlSession.isSome
        = true ∧
      (InitSession a.vtable env host user password settings tls o).2.base.m_strUserName
        = user ∧
      (InitSession a.vtable env host user password settings tls o).2.base.m_strPassword
        = password ∧
      (InitSession a.vtable env host user password settings tls o).2.base.m_eSettingsFlags
        = settings ∧
      (InitSession a.vtable env host user password settings tls o).2.base.m_strURL
        = a.normalise tls host) ∧
    Adapter.mail.normalise tls host = host := by
  refine ⟨?_, ?_, ?_⟩
  · rintro rfl
    have he : empty "" = true := rfl
    simp [InitSession, he, Object.logIfEnabled, Object.onBase, CMailClient.logIfEnabled]
    split_ifs <;> exact hnone
  · intro hne hinit
    rw [InitSession_of_no_handle _ _ _ _ _ _ _ _ hne hnone]
    obtain ⟨k1, k2, _, _⟩ := Adapter.ParseURL_keeps a (o.onBase (CMailClient.storeSession
      (if env.curl_easy_init o.base.trace then some CurlOpts.default else none)
      settings tls host))
    have k3 := Adapter.ParseURL_normalises a (o.onBase (CMailClient.storeSession
      (if env.curl_easy_init o.base.trace then some CurlOpts.default else none)
      settings tls host)) hne
    have e : ∀ x : Object a.Fields,
        (x.onBase (CMailClient.storeCredentials user password)).base =
          CMailClient.storeCredentials user password x.base := fun _ => rfl
    simp only [e, CMailClient.storeCredentials]
    rw [k1, k2, k3]
    simp [Object.onBase, CMailClient.storeSession, hinit]
  · simp [Adapter.normalise, Adapter.hasScheme, Adapter.scheme, Adapter.wantsSeparator]

/-- C3 on the session of the test `TestSession`: the host `"localhost"` stays
`"localhost"`. -/
theorem InitSession_localhost :
    (Adapter.new Adapter.mail).base.m_pCurlSession = none ∧
    (InitSession Adapter.mail.vtable Env.online "localhost" "foobar" "magic" 3 ENABLE_TLS
      (Adapter.new Adapter.mail)).1 = true ∧
    (InitSession Adapter.mail.vtable Env.online "localhost" "foobar" "magic" 3 ENABLE_TLS
      (Adapter.new Adapter.mail)).2.base.m_strURL = "localhost" :=
  have h := (InitSession_on_session_without_handle Adapter.mail Env.online "localhost" "foobar"
    "magic" 3 ENABLE_TLS (Adapter.new Adapter.mail) rfl).2.1 (by decide) rfl
  ⟨rfl, h.1, h.2.2.2.2.2⟩

/-! ## C4: `CleanupSession` -/

/-- C4: `CleanupSession` returns true exactly when the session has a transport handle,
and always leaves the session without one; hence a second `CleanupSession` right after
the first returns false, and the first returns true on every initialised session. -/
theorem CleanupSession_true_iff_handle (a : Adapter) (o : Object a.Fields) :
    ((a.vtable.CleanupSession o).1 = true ↔ o.base.m_pCurlSession.isSome = true) ∧
    (a.vtable.CleanupSession o).2.base.m_pCurlSession = none ∧
    (a.vtable.CleanupSession (a.vtable.CleanupSession o).2).1 = false := by
  have key : ∀ c : CMailClient, (c.CleanupSession.1 = true ↔ c.m_pCurlSession.isSome = true) ∧
      c.CleanupSession.2.m_pCurlSession = none := by
    intro c
    unfold CMailClient.CleanupSession
    cases hc : c.m_pCurlSession with
    | none =>
      simp only [Option.isNone_none, if_true, Option.isSome_none, Bool.false_eq_true, iff_self,
        true_and]
      unfold CMailClient.logIfEnabled
      split_ifs <;> exact hc
    | some h => simp
  obtain ⟨e1, e2⟩ := Adapter.CleanupSession_base a o
  obtain ⟨e3, e4⟩ := Adapter.CleanupSession_base a (a.vtable.CleanupSession o).2
  refine ⟨?_, ?_, ?_⟩
  · rw [e1]; exact (key o.base).1
  · rw [e2]; exact (key o.base).2
  · have hn : (a.vtable.CleanupSession o).2.base.m_pCurlSession = none := by
      rw [e2]; exact (key o.base).2
    cases hb : (a.vtable.CleanupSession (a.vtable.CleanupSession o).2).1 with
    | false => rfl
    | true =>
      rw [e3] at hb
      have := (key _).1.1 hb
      rw [hn] at this
      simp at this

/-! ## Calls on a session -/

/-- What `Perform` does on a session without a handle: it logs and returns false. -/
theorem Perform_of_no_handle {δ : Type} (vt : VTable δ) (env : Env) (o : Object δ)
    (hnone : o.base.m_pCurlSession = none) :
    Perform vt env o = (false, o.logIfEnabled LOG_ERROR_CURL_NOT_INIT_MSG) := by
  unfold Perform
  simp [hnone]

/-- The perform cycle on a session without a handle: false, still no handle, and nothing
but a log line in the trace. -/
theorem Perform_without_handle {δ : Type} (vt : VTable δ) (env : Env) (o : Object δ)
    (c : CMailClient) (hc : o.base.m_pCurlSession = none) (ht : o.base.trace = c.trace) :
    (Perform vt env o).1 = false ∧
    (Perform vt env o).2.base.m_pCurlSession = none ∧
    (∃ logs, (Perform vt env o).2.base.trace = c.trace ++ logs ∧ ∀ e ∈ logs, e.isLog = true) ∧
    requests (Perform vt env o).2.base.trace = requests c.trace ∧
    prePerformCalls (Perform vt env o).2.base.trace = prePerformCalls c.trace ∧
    postPerformCalls (Perform vt env o).2.base.trace = postPerformCalls c.trace := by
  rw [Perform_of_no_handle vt env o hc, ← ht]
  have f := Frame.logIfEnabled false o.base LOG_ERROR_CURL_NOT_INIT_MSG
  obtain ⟨n, e, p⟩ := f.sent
  have nnil : n = [] := by
    cases n with
    | nil => rfl
    | cons q t => exact absurd (p q (by simp)).1 (by simp)
  subst nnil
  refine ⟨rfl, ?_, ?_, by simpa using e, f.pre, f.post⟩
  · have := congrArg Option.isSome f.security
    simpa [CMailClient.security, hc] using this
  · show ∃ logs, (o.base.logIfEnabled LOG_ERROR_CURL_NOT_INIT_MSG).trace = o.base.trace ++ logs ∧
      ∀ e ∈ logs, e.isLog = true
    unfold CMailClient.logIfEnabled
    split_ifs
    · exact ⟨[Event.log LOG_ERROR_CURL_NOT_INIT_MSG], rfl, by simp [Event.isLog]⟩
    · exact ⟨[], by simp, by simp⟩

theorem Perform_step_from {δ : Type} (vt : VTable δ) (env : Env)
    (hpre : ∀ o, Frame false o.base (vt.PrePerform env o).2.base)
    (hpost : ∀ code o, Frame true o.base (vt.PostPerform env code o).2.base)
    (c : CMailClient) (o : Object δ) (hc : SessionStep c o.base) :
    SessionStep c (Perform vt env o).2.base :=
  hc.followedBy (Perform_step vt env hpre hpost o)

theorem SessionStep.of_eq (c c' : CMailClient)
    (h1 : c'.m_eSettingsFlags = c.m_eSettingsFlags) (h2 : c'.m_eSslTlsFlags = c.m_eSslTlsFlags)
    (h3 : c'.m_strURL = c.m_strURL) (h4 : c'.m_strUserName = c.m_strUserName)
    (h5 : c'.m_strPassword = c.m_strPassword) (h6 : c'.m_pCurlSession = c.m_pCurlSession)
    (h7 : c'.trace = c.trace) : SessionStep c c' :=
  ⟨h1, h2, h3, h4, h5, by rw [h6], [], by simp [h7], by simp⟩

theorem SessionStep.localFile (c : CMailClient) (path : String) :
    SessionStep c { c with m_strLocalFile := path } :=
  SessionStep.of_eq _ _ rfl rfl rfl rfl rfl rfl rfl

theorem logIfEnabled_handle (c : CMailClient) (msg : String) :
    (c.logIfEnabled msg).m_pCurlSession = c.m_pCurlSession := by
  unfold CMailClient.logIfEnabled
  split <;> rfl

/-- Every public mail operation keeps the session. -/
theorem Adapter.op_step (a : Adapter) (env : Env) (x : a.Op) (o : Object a.Fields) :
    SessionStep o.base (a.run env x o).2.base := by
  cases a with
  | mail => exact nomatch x
  | pop3 =>
    cases x <;>
    ( simp only [Adapter.run, POP.Op.run, CPOPClient.List, CPOPClient.ListUIDL, CPOPClient.GetString,
        CPOPClient.GetFile, CPOPClient.GetHeaders, CPOPClient.Delete, CPOPClient.Noop,
        CPOPClient.Stat]
      first
      | exact Perform_step_from CPOPClient.vtable env (CPOPClient.PrePerform_frame_pop3 env)
          (CPOPClient.PostPerform_frame_pop3 env) o.base _ (SessionStep.stay _)
      | exact Perform_step_from CPOPClient.vtable env (CPOPClient.PrePerform_frame_pop3 env)
          (CPOPClient.PostPerform_frame_pop3 env) o.base _ (SessionStep.localFile _ _) )
  | imap =>
    cases x <;>
    ( simp only [Adapter.run, IMAP.Op.run, CIMAPClient.List, CIMAPClient.ListSubFolders,
        CIMAPClient.SendString, CIMAPClient.SendFile, CIMAPClient.GetString, CIMAPClient.GetFile,
        CIMAPClient.DeleteFolder, CIMAPClient.Noop, CIMAPClient.CopyMail,
        CIMAPClient.CreateFolder, CIMAPClient.SetMailProperty, CIMAPClient.Search,
        CIMAPClient.InfoFolder]
      first
      | exact Perform_step_from CIMAPClient.vtable env (CIMAPClient.PrePerform_frame_imap env)
          (CIMAPClient.PostPerform_frame_imap env) o.base _ (SessionStep.stay _)
      | exact Perform_step_from CIMAPClient.vtable env (CIMAPClient.PrePerform_frame_imap env)
          (CIMAPClient.PostPerform_frame_imap env) o.base _ (SessionStep.localFile _ _) )
  | smtp =>
    cases x <;>
    ( simp only [Adapter.run, SMTP.Op.run, CSMTPClient.SendString, CSMTPClient.SendFile,
        CSMTPClient.VerifyAddress, CSMTPClient.ExpandMailList]
      first
      | exact Perform_step_from CSMTPClient.vtable env (CSMTPClient.PrePerform_frame_smtp env)
          (CSMTPClient.PostPerform_frame_smtp env) o.base _ (SessionStep.stay _)
      | exact Perform_step_from CSMTPClient.vtable env (CSMTPClient.PrePerform_frame_smtp env)
          (CSMTPClient.PostPerform_frame_smtp env) o.base _ (SessionStep.localFile _ _) )

/-- Every public call other than `CleanupSession` keeps a session that has a handle. -/
theorem Call.call_step {a : Adapter} (env : Env) (c : Call a) (o : Object a.Fields)
    (hh : o.base.m_pCurlSession.isSome = true) (hc : c.isCleanup = false) :
    SessionStep o.base (c.run env o).2.base := by
  cases c with
  | InitSession strHost strLogin strPassword eSettingsFlags eSslTlsFlags =>
    simp only [Call.run]
    rw [InitSession_of_handle _ _ _ _ _ _ _ _ hh]
    exact SessionStep.of_frame (Frame.logIfEnabled false o.base _)
  | CleanupSession => simp [Call.isCleanup] at hc
  | SetProgressFnCallback pOwner =>
    exact SessionStep.of_eq _ _ rfl rfl rfl rfl rfl rfl rfl
  | SetProxy strProxy =>
    simp only [Call.run, Object.onBase, CMailClient.SetProxy]
    split_ifs <;> exact SessionStep.of_eq _ _ rfl rfl rfl rfl rfl rfl rfl
  | SetTimeout iTimeout =>
    exact SessionStep.of_eq _ _ rfl rfl rfl rfl rfl rfl rfl
  | SetNoSignal bNoSignal =>
    exact SessionStep.of_eq _ _ rfl rfl rfl rfl rfl rfl rfl
  | SetSSLCertFile strPath =>
    exact SessionStep.of_eq _ _ rfl rfl rfl rfl rfl rfl rfl
  | SetSSLKeyFile strPath =>
    exact SessionStep.of_eq _ _ rfl rfl rfl rfl rfl rfl rfl
  | SetSSLKeyPassword strPwd =>
    exact SessionStep.of_eq _ _ rfl rfl rfl rfl rfl rfl rfl
  | op x => exact Adapter.op_step a env x o

/-- Any sequence of public calls without `CleanupSession` keeps a session that has a
handle. -/
theorem Call.runAll_step {a : Adapter} (env : Env) (cs : List (Call a)) (o : Object a.Fields)
    (hh : o.base.m_pCurlSession.isSome = true) (hcs : ∀ c ∈ cs, c.isCleanup = false) :
    SessionStep o.base (Call.runAll env cs o).base := by
  induction cs generalizing o with
  | nil => exact SessionStep.stay _
  | cons c cs ih =>
    have h1 := Call.call_step env c o hh (hcs c (by simp))
    have h2 := ih (c.run env o).2 (h1.handle.trans hh) (fun d hd => hcs d (by simp [hd]))
    exact h1.followedBy h2

/-! ## C1: operations on a session without a handle -/

/-- C1: for every public operation of the POP3, IMAP and SMTP adapters and every argument
list, calling it on a session that has no transport handle returns false and performs no
transport activity: the session still has no handle, the trace gains nothing but log
lines, so no request is executed and neither hook of `Perform` is entered. -/
theorem operation_without_handle_fails (a : Adapter) (env : Env) (x : a.Op)
    (o : Object a.Fields) (hnone : o.base.m_pCurlSession = none) :
    (a.run env x o).1 = false ∧
    (a.run env x o).2.base.m_pCurlSession = none ∧
    (∃ logs, (a.run env x o).2.base.trace = o.base.trace ++ logs ∧
      ∀ e ∈ logs, e.isLog = true) ∧
    requests (a.run env x o).2.base.trace = requests o.base.trace ∧
    prePerformCalls (a.run env x o).2.base.trace = prePerformCalls o.base.trace ∧
    postPerformCalls (a.run env x o).2.base.trace = postPerformCalls o.base.trace := by
  cases a with
  | mail => exact nomatch x
  | pop3 => cases x <;> exact Perform_without_handle CPOPClient.vtable env _ o.base hnone rfl
  | imap => cases x <;> exact Perform_without_handle CIMAPClient.vtable env _ o.base hnone rfl
  | smtp => cases x <;> exact Perform_without_handle CSMTPClient.vtable env _ o.base hnone rfl

/-- C1 on a POP3 client that was never initialised: `List` returns false and the trace
only gains the log line. -/
theorem operation_without_handle_fails_pop3_list :
    CPOPClient.new.base.m_pCurlSession = none ∧
    (CPOPClient.List Env.online 0 CPOPClient.new).1 = false ∧
    requests (CPOPClient.List Env.online 0 CPOPClient.new).2.base.trace = [] ∧
    prePerformCalls (CPOPClient.List Env.online 0 CPOPClient.new).2.base.trace = 0 :=
  have h := operation_without_handle_fails Adapter.pop3 Env.online (POP.Op.List 0)
    CPOPClient.new rfl
  ⟨rfl, h.1, h.2.2.2.1, h.2.2.2.2.1⟩

/-! ## C2: a second `InitSession` -/

/-- C2: for every session on which `InitSession` has succeeded and on which
`CleanupSession` has not been called since (whatever else was called), a further
`InitSession` with any arguments returns false and leaves the stored URL, user name,
password, settings flags, TLS mode and transport handle exactly as they were before the
call. -/
theorem InitSession_twice_refused (a : Adapter) (env : Env) (o0 : Object a.Fields)
    (host1 user1 password1 : String) (settings1 tls1 : Nat) (cs : List (Call a))
    (host user password : String) (settings tls : Nat)
    (hinit : (InitSession a.vtable env host1 user1 password1 settings1 tls1 o0).1 = true)
    (hcs : ∀ c ∈ cs, c.isCleanup = false) :
    let o := Call.runAll env cs (InitSession a.vtable env host1 user1 password1 settings1 tls1
      o0).2
    let r := InitSession a.vtable env host user password settings tls o
    r.1 = false ∧
    r.2.base.m_strURL = o.base.m_strURL ∧
    r.2.base.m_strUserName = o.base.m_strUserName ∧
    r.2.base.m_strPassword = o.base.m_strPassword ∧
    r.2.base.m_eSettingsFlags = o.base.m_eSettingsFlags ∧
    r.2.base.m_eSslTlsFlags = o.base.m_eSslTlsFlags ∧
    r.2.base.m_pCurlSession = o.base.m_pCurlSession := by
  intro o r
  have h1 := InitSession_true_handle _ _ _ _ _ _ _ _ hinit
  have h2 := Call.runAll_step env cs _ h1 hcs
  have h3 : o.base.m_pCurlSession.isSome = true := h2.handle.trans h1
  have e : r = (false, o.logIfEnabled
      (if empty host then LOG_ERROR_EMPTY_HOST_MSG else LOG_ERROR_CURL_ALREADY_INIT_MSG)) :=
    InitSession_of_handle _ _ _ _ _ _ _ o h3
  rw [e]
  have f := Frame.logIfEnabled false o.base
    (if empty host then LOG_ERROR_EMPTY_HOST_MSG else LOG_ERROR_CURL_ALREADY_INIT_MSG)
  exact ⟨rfl, f.url, f.user, f.password, f.flags, f.tls, logIfEnabled_handle _ _⟩

/-- C2 on the session of the test `TestDoubleInitializingSession`. -/
theorem InitSession_twice_refused_localhost :
    (InitSession Adapter.mail.vtable Env.online "localhost" "foobar" "*****" ALL_FLAGS
      NO_SSLTLS (Adapter.new Adapter.mail)).1 = true ∧
    (InitSession Adapter.mail.vtable Env.online "localhost" "foobar" "*****" ALL_FLAGS
      NO_SSLTLS (InitSession Adapter.mail.vtable Env.online "localhost" "foobar" "*****"
        ALL_FLAGS NO_SSLTLS (Adapter.new Adapter.mail)).2).1 = false :=
  ⟨by decide,
    (InitSession_twice_refused Adapter.mail Env.online (Adapter.new Adapter.mail) "localhost"
      "foobar" "*****" ALL_FLAGS NO_SSLTLS [] "localhost" "foobar" "*****" ALL_FLAGS NO_SSLTLS
      (by decide) (by simp)).1⟩

/-! ## C5: the perform cycle -/

theorem requests_of_frame_false {c c' : CMailClient} (f : Frame false c c') :
    requests c'.trace = requests c.trace := by
  obtain ⟨n, e, p⟩ := f.sent
  cases n with
  | nil => simpa using e
  | cons q t => exact absurd (p q (by simp)).1 (by simp)

/-- When `Perform` does not stop at a null pointer on a session with a handle whose
pre-configure hook passes, no progress callback was registered or `GetProgressFnCallback()`
is not null. -/
theorem Perform_returns {δ : Type} (vt : VTable δ) (env : Env) (o : Object δ)
    (h0 : o.base.m_pCurlSession.isSome = true)
    (hpre : (vt.PrePerform env o.beforePrePerform).1 = true)
    (hret : (Perform vt env o).2.base.crashed = false) :
    ((vt.PrePerform env o.beforePrePerform).2.base.m_bProgressCallbackSet &&
      (vt.PrePerform env o.beforePrePerform).2.base.GetProgressFnCallback.isNone) = false := by
  cases ht : ((vt.PrePerform env o.beforePrePerform).2.base.m_bProgressCallbackSet &&
      (vt.PrePerform env o.beforePrePerform).2.base.GetProgressFnCallback.isNone) with
  | false => rfl
  | true =>
    exfalso
    have hnone : o.base.m_pCurlSession.isNone = false := by
      cases hx : o.base.m_pCurlSession with
      | none => simp [hx] at h0
      | some _ => rfl
    unfold Perform at hret
    simp only [hnone, Bool.false_eq_true, if_false, hpre, Bool.not_true, ht, if_true] at hret
    simp [Object.onBase, CMailClient.nullDereference] at hret

/-- The perform cycle on a session with a handle whose pre-configure hook passes, when a
progress callback was registered and `GetProgressFnCallback()` is a null pointer: the
program stops at line 294. -/
theorem Perform_null_dereference {δ : Type} (vt : VTable δ) (env : Env) (o : Object δ)
    (h0 : o.base.m_pCurlSession.isSome = true)
    (hpre : (vt.PrePerform env o.beforePrePerform).1 = true)
    (ht : ((vt.PrePerform env o.beforePrePerform).2.base.m_bProgressCallbackSet &&
      (vt.PrePerform env o.beforePrePerform).2.base.GetProgressFnCallback.isNone) = true) :
    Perform vt env o =
      (false, (vt.PrePerform env o.beforePrePerform).2.onBase
        (CMailClient.nullDereference env)) := by
  have hnone : o.base.m_pCurlSession.isNone = false := by
    cases hx : o.base.m_pCurlSession with
    | none => simp [hx] at h0
    | some _ => rfl
  unfold Perform
  simp only [hnone, Bool.false_eq_true, if_false, hpre, Bool.not_true, ht, if_true]

/-- The perform cycle when `Perform` returns: for an initialised session, whose hooks keep
the session (`Frame`: the
pre-configure hook executes nothing and keeps the handle, neither hook enters a hook),
`Perform` returns true if and only if the pre-configure hook returns true, the
post-configure hook returns true and the transport status is OK; the pre-configure hook is
entered once; when it returns false no request is executed and the post-configure hook is
not entered; when it returns true, `Perform` executes the transport once, whatever the
status, and then enters the post-configure hook, which is entered exactly once; after the
post-configure hook returns nothing more is executed. -/
theorem Perform_cycle {δ : Type} (vt : VTable δ) (env : Env) (o : Object δ)
    (hh : o.base.m_pCurlSession.isSome = true)
    (hpre : Frame false o.beforePrePerform.base (vt.PrePerform env o.beforePrePerform).2.base)
    (hpost : Frame true ((vt.PrePerform env o.beforePrePerform).2.execute env).2.base
      (vt.PostPerform env ((vt.PrePerform env o.beforePrePerform).2.execute env).1
        ((vt.PrePerform env o.beforePrePerform).2.execute env).2).2.base)
    (hret : (Perform vt env o).2.base.crashed = false) :
    let pre := vt.PrePerform env o.beforePrePerform
    let ex := pre.2.execute env
    let post := vt.PostPerform env ex.1 ex.2
    let r := Perform vt env o
    (r.1 = true ↔ pre.1 = true ∧ post.1 = true ∧ ex.1 = CURLE_OK) ∧
    prePerformCalls r.2.base.trace = prePerformCalls o.base.trace + 1 ∧
    (pre.1 = false →
      requests r.2.base.trace = requests o.base.trace ∧
      postPerformCalls r.2.base.trace = postPerformCalls o.base.trace) ∧
    (pre.1 = true →
      (∃ q, requests ex.2.base.trace = requests o.base.trace ++ [q]) ∧
      postPerformCalls ex.2.base.trace = postPerformCalls o.base.trace + 1 ∧
      postPerformCalls r.2.base.trace = postPerformCalls o.base.trace + 1 ∧
      requests r.2.base.trace = requests post.2.base.trace) := by
  intro pre ex post r
  have b_req : requests o.beforePrePerform.base.trace = requests o.base.trace := by
    simp [Object.beforePrePerform, Object.onBase, requests]
  have b_pre : prePerformCalls o.beforePrePerform.base.trace
      = prePerformCalls o.base.trace + 1 := by
    simp [Object.beforePrePerform, Object.onBase, prePerformCalls]
  have b_post : postPerformCalls o.beforePrePerform.base.trace
      = postPerformCalls o.base.trace := by
    simp [Object.beforePrePerform, Object.onBase, postPerformCalls]
  have p_req : requests pre.2.base.trace = requests o.base.trace :=
    (requests_of_frame_false hpre).trans b_req
  have p_pre : prePerformCalls pre.2.base.trace = prePerformCalls o.base.trace + 1 :=
    hpre.pre.trans b_pre
  have p_post : postPerformCalls pre.2.base.trace = postPerformCalls o.base.trace :=
    hpre.post.trans b_post
  obtain ⟨h1, hh1⟩ : ∃ h1, pre.2.base.m_pCurlSession = some h1 := by
    have := congrArg Option.isSome hpre.security
    simp only [CMailClient.security, Option.isSome_map'] at this
    cases hx : pre.2.base.m_pCurlSession with
    | none =>
      rw [hx] at this
      simp [Object.beforePrePerform, Object.onBase] at this
    | some h1 => exact ⟨h1, rfl⟩
  obtain ⟨_, _, x3⟩ := execute_of_handle env pre.2 h1 hh1
  have e_req : requests ex.2.base.trace = requests o.base.trace ++ [pre.2.base.settings env h1] := by
    show requests (pre.2.execute env).2.base.trace = _
    rw [x3]; simp [requests, p_req]
  have e_pre : prePerformCalls ex.2.base.trace = prePerformCalls o.base.trace + 1 := by
    show prePerformCalls (pre.2.execute env).2.base.trace = _
    rw [x3]; simp [prePerformCalls, p_pre]
  have e_post : postPerformCalls ex.2.base.trace = postPerformCalls o.base.trace + 1 := by
    show postPerformCalls (pre.2.execute env).2.base.trace = _
    rw [x3]; simp [postPerformCalls, p_post]
  have lg_req : ∀ (x : Object δ) (m : String),
      requests (x.logIfEnabled m).base.trace = requests x.base.trace :=
    fun x m => requests_of_frame_false (Frame.logIfEnabled false x.base m)
  have lg_pre : ∀ (x : Object δ) (m : String),
      prePerformCalls (x.logIfEnabled m).base.trace = prePerformCalls x.base.trace :=
    fun x m => (Frame.logIfEnabled false x.base m).pre
  have lg_post : ∀ (x : Object δ) (m : String),
      postPerformCalls (x.logIfEnabled m).base.trace = postPerformCalls x.base.trace :=
    fun x m => (Frame.logIfEnabled false x.base m).post
  have hnone : o.base.m_pCurlSession.isNone = false := by
    cases hx : o.base.m_pCurlSession with
    | none => simp [hx] at hh
    | some _ => rfl
  have hr : r = if !pre.1 then (false, pre.2.logIfEnabled LOG_ERROR_PREPERFORM_FAILED_MSG)
      else if !post.1 then (false, post.2.logIfEnabled LOG_ERROR_POSTPERFORM_FAILED_MSG)
      else if ex.1 != CURLE_OK then
        (false, post.2.logIfEnabled
          (LOG_ERROR_CURL_PEFORM_FAILURE ex.1 (env.curl_easy_strerror ex.1)))
      else (true, post.2) := by
    show Perform vt env o = _
    cases hp : pre.1 with
    | false =>
      unfold Perform
      simp only [hnone, Bool.false_eq_true, if_false]
      have hp' : (vt.PrePerform env o.beforePrePerform).1 = false := hp
      simp only [hp', Bool.not_false, if_true]
    | true =>
      have ht := Perform_returns vt env o hh hp hret
      unfold Perform
      simp only [hnone, Bool.false_eq_true, if_false]
      have hp' : (vt.PrePerform env o.beforePrePerform).1 = true := hp
      simp only [hp', Bool.not_true, Bool.false_eq_true, if_false, ht]
  cases hp : pre.1 with
  | false =>
    have hr' : r = (false, pre.2.logIfEnabled LOG_ERROR_PREPERFORM_FAILED_MSG) := by
      rw [hr, hp]; rfl
    rw [hr']
    refine ⟨by simp, ?_, ?_, by simp⟩
    · exact (lg_pre _ _).trans p_pre
    · intro _
      exact ⟨(lg_req _ _).trans p_req, (lg_post _ _).trans p_post⟩
  | true =>
    have q_pre : prePerformCalls post.2.base.trace = prePerformCalls o.base.trace + 1 :=
      hpost.pre.trans e_pre
    have q_post : postPerformCalls post.2.base.trace = postPerformCalls o.base.trace + 1 :=
      hpost.post.trans e_post
    cases hq : post.1 with
    | false =>
      have hr' : r = (false, post.2.logIfEnabled LOG_ERROR_POSTPERFORM_FAILED_MSG) := by
        rw [hr, hp, hq]; rfl
      rw [hr']
      refine ⟨by simp, (lg_pre _ _).trans q_pre, by simp, ?_⟩
      intro _
      exact ⟨⟨_, e_req⟩, e_post, (lg_post _ _).trans q_post, lg_req _ _⟩
    | true =>
      by_cases hc : ex.1 = CURLE_OK
      · have hr' : r = (true, post.2) := by
          rw [hr, hp, hq]; simp [hc]
        rw [hr']
        refine ⟨by simp [hc], q_pre, by simp, ?_⟩
        intro _
        exact ⟨⟨_, e_req⟩, e_post, q_post, rfl⟩
      · have hr' : r = (false, post.2.logIfEnabled
            (LOG_ERROR_CURL_PEFORM_FAILURE ex.1 (env.curl_easy_strerror ex.1))) := by
          rw [hr, hp, hq]; simp [hc]
        rw [hr']
        refine ⟨by simp [hc], (lg_pre _ _).trans q_pre, by simp, ?_⟩
        intro _
        exact ⟨⟨_, e_req⟩, e_post, (lg_post _ _).trans q_post, lg_req _ _⟩

/-- The perform cycle on a POP3 `Noop` whose request fails with code 7: the post-configure
hook is entered once all the same, and `Perform` returns false. -/
theorem Perform_cycle_pop3_noop :
    Example.popSession.base.m_pCurlSession.isSome = true ∧
    (CPOPClient.vtable.PrePerform Env.offline Example.popSession.beforePrePerform).1 = true ∧
    ((Perform CPOPClient.vtable Env.offline Example.popSession).1 = true ↔
      (CPOPClient.vtable.PrePerform Env.offline Example.popSession.beforePrePerform).1 = true ∧
      (CPOPClient.vtable.PostPerform Env.offline
        ((CPOPClient.vtable.PrePerform Env.offline
          Example.popSession.beforePrePerform).2.execute Env.offline).1
        ((CPOPClient.vtable.PrePerform Env.offline
          Example.popSession.beforePrePerform).2.execute Env.offline).2).1 = true ∧
      ((CPOPClient.vtable.PrePerform Env.offline
        Example.popSession.beforePrePerform).2.execute Env.offline).1 = CURLE_OK) ∧
    postPerformCalls (Perform CPOPClient.vtable Env.offline Example.popSession).2.base.trace =
      postPerformCalls Example.popSession.base.trace + 1 :=
  have h := Perform_cycle CPOPClient.vtable Env.offline Example.popSession (by decide)
    (CPOPClient.PrePerform_frame_pop3 Env.offline Example.popSession.beforePrePerform)
    (CPOPClient.PostPerform_frame_pop3 Env.offline
      ((CPOPClient.PrePerform Env.offline Example.popSession.beforePrePerform).2.execute
        Env.offline).1
      ((CPOPClient.PrePerform Env.offline Example.popSession.beforePrePerform).2.execute
        Env.offline).2) (by decide)
  ⟨by decide, by decide, h.1, (h.2.2.2 (by decide)).2.2.1⟩

/-- C5 fails on the code for a session with a progress callback that is not a plain
function: on the POP3 session of the examples, after
`SetProgressFnCallback(nullptr, <lambda>)`, the pre-configure hook of `Noop` passes, and
`Perform` then dereferences the null pointer `GetProgressFnCallback()` returns: no request
is executed and the post-configure hook is not entered.  With a plain function as callback
the request is executed once, with this function as progress function, and the
post-configure hook is entered once. -/
theorem Perform_stops_at_null_progress_callback :
    (Call.runAll (a := Adapter.pop3) Env.online
      [Call.SetProgressFnCallback none (ProgressFnCallback.callable 0)]
      Example.popSession).base.m_pCurlSession.isSome = true ∧
    (CPOPClient.PrePerform Env.online
      (POP.Op.Noop.store (Call.runAll (a := Adapter.pop3) Env.online
        [Call.SetProgressFnCallback none (ProgressFnCallback.callable 0)]
        Example.popSession)).beforePrePerform).1 = true ∧
    (Call.runAll (a := Adapter.pop3) Env.online
      [Call.SetProgressFnCallback none (ProgressFnCallback.callable 0), Call.op POP.Op.Noop]
      Example.popSession).base.crashed = true ∧
    requests (Call.runAll (a := Adapter.pop3) Env.online
      [Call.SetProgressFnCallback none (ProgressFnCallback.callable 0), Call.op POP.Op.Noop]
      Example.popSession).base.trace = [] ∧
    postPerformCalls (Call.runAll (a := Adapter.pop3) Env.online
      [Call.SetProgressFnCallback none (ProgressFnCallback.callable 0), Call.op POP.Op.Noop]
      Example.popSession).base.trace = 0 ∧
    (Call.runAll (a := Adapter.pop3) Env.online
      [Call.SetProgressFnCallback none (ProgressFnCallback.functionPointer 0),
        Call.op POP.Op.Noop]
      Example.popSession).base.crashed = false ∧
    (requests (Call.runAll (a := Adapter.pop3) Env.online
      [Call.SetProgressFnCallback none (ProgressFnCallback.functionPointer 0),
        Call.op POP.Op.Noop]
      Example.popSession).base.trace).map CurlOpts.PROGRESSFUNCTION =
      [some (Callback.ProgressFnCallback 0)] ∧
    postPerformCalls (Call.runAll (a := Adapter.pop3) Env.online
      [Call.SetProgressFnCallback none (ProgressFnCallback.functionPointer 0),
        Call.op POP.Op.Noop]
      Example.popSession).base.trace = 1 := by
  decide

/-! ## C10: peer and host verification -/

theorem flagSet_two_pow (n i : Nat) : flagSet n (2 ^ i) = n.testBit i := by
  unfold flagSet
  cases h : n.testBit i with
  | false =>
    have e : n &&& 2 ^ i = 0 := by
      apply Nat.eq_of_testBit_eq
      intro j
      by_cases hj : i = j
      · subst hj; simp [h]
      · simp [Nat.testBit_two_pow, hj]
    simp [e]
  | true =>
    have e : n &&& 2 ^ i ≠ 0 := by
      intro e
      have := congrArg (fun x => Nat.testBit x i) e
      simp [h, Nat.testBit_two_pow_self] at this
    simp [e]

/-- C10: on every request executed on an initialised session, whatever is called on it
short of `CleanupSession`, peer verification is switched off (the option is set to 0) if
and only if the `VERIFY_PEER` bit (bit 1) is clear in the settings flags of the session,
and host verification is switched off if and only if the `VERIFY_HOST` bit (bit 2) is
clear; when a bit is set the option is not touched and the transport verifies, as it does
by default; with the flags `ALL_FLAGS` neither verification is ever switched off. -/
theorem verification_off_iff_flag_clear (a : Adapter) (env : Env) (o : Object a.Fields)
    (cs : List (Call a)) (hh : o.base.m_pCurlSession.isSome = true)
    (hcs : ∀ c ∈ cs, c.isCleanup = false) :
    ∃ new, requests (Call.runAll env cs o).base.trace = requests o.base.trace ++ new ∧
      ∀ q ∈ new,
        (q.SSL_VERIFYPEER = some 0 ↔ Nat.testBit o.base.m_eSettingsFlags 1 = false) ∧
        (q.SSL_VERIFYPEER = none ↔ Nat.testBit o.base.m_eSettingsFlags 1 = true) ∧
        (q.SSL_VERIFYHOST = some 0 ↔ Nat.testBit o.base.m_eSettingsFlags 2 = false) ∧
        (q.SSL_VERIFYHOST = none ↔ Nat.testBit o.base.m_eSettingsFlags 2 = true) ∧
        (o.base.m_eSettingsFlags = ALL_FLAGS →
          q.SSL_VERIFYPEER = none ∧ q.SSL_VERIFYHOST = none) := by
  obtain ⟨new, e, p⟩ := (Call.runAll_step env cs o hh hcs).sent
  refine ⟨new, e, ?_⟩
  intro q hq
  have hs := p q hq
  have a1 : q.SSL_VERIFYPEER =
      if Nat.testBit o.base.m_eSettingsFlags 1 then none else some 0 := by
    have := congrArg Security.SSL_VERIFYPEER hs
    rw [← flagSet_two_pow]
    exact this
  have a2 : q.SSL_VERIFYHOST =
      if Nat.testBit o.base.m_eSettingsFlags 2 then none else some 0 := by
    have := congrArg Security.SSL_VERIFYHOST hs
    rw [← flagSet_two_pow]
    exact this
  rw [a1, a2]
  refine ⟨?_, ?_, ?_, ?_, ?_⟩
  · cases Nat.testBit o.base.m_eSettingsFlags 1 <;> simp
  · cases Nat.testBit o.base.m_eSettingsFlags 1 <;> simp
  · cases Nat.testBit o.base.m_eSettingsFlags 2 <;> simp
  · cases Nat.testBit o.base.m_eSettingsFlags 2 <;> simp
  · intro hall
    rw [hall]
    decide

/-- C10 on a POP3 session initialised with `ENABLE_LOG` alone: the request of `Noop` is
executed with both verifications switched off. -/
theorem verification_off_iff_flag_clear_example :
    Example.popSession.base.m_pCurlSession.isSome = true ∧
    Nat.testBit Example.popSession.base.m_eSettingsFlags 1 = false ∧
    (requests (Call.runAll Env.online [Call.op (a := Adapter.pop3) POP.Op.Noop]
      Example.popSession).base.trace).map (fun q => (q.SSL_VERIFYPEER, q.SSL_VERIFYHOST))
      = [(some 0, some 0)] ∧
    ∃ new, requests (Call.runAll Env.online [Call.op (a := Adapter.pop3) POP.Op.Noop]
        Example.popSession).base.trace = requests Example.popSession.base.trace ++ new ∧
      ∀ q ∈ new,
        (q.SSL_VERIFYPEER = some 0 ↔
          Nat.testBit Example.popSession.base.m_eSettingsFlags 1 = false) ∧
        (q.SSL_VERIFYPEER = none ↔
          Nat.testBit Example.popSession.base.m_eSettingsFlags 1 = true) ∧
        (q.SSL_VERIFYHOST = some 0 ↔
          Nat.testBit Example.popSession.base.m_eSettingsFlags 2 = false) ∧
        (q.SSL_VERIFYHOST = none ↔
          Nat.testBit Example.popSession.base.m_eSettingsFlags 2 = true) ∧
        (Example.popSession.base.m_eSettingsFlags = ALL_FLAGS →
          q.SSL_VERIFYPEER = none ∧ q.SSL_VERIFYHOST = none) :=
  ⟨by decide, by decide, by decide,
    verification_off_iff_flag_clear Adapter.pop3 Env.online Example.popSession
      [Call.op POP.Op.Noop] (by decide) (by simp [Call.isCleanup])⟩

/-! ## C9: explicit TLS -/

/-- C9 fails on the code for a host that carries the plain scheme: an SMTP session
initialised in mode `ENABLE_TLS` for the host `"smtp://mail.example.com"` is put in mode
`ENABLE_SSL` by `ParseURL`, because the host carries the scheme, and the request of
`SendString` is then executed on `"smtp://mail.example.com"` without the option that
requires TLS, although the comment of `ParseURL` says that TLS goes with the scheme
`smtp://`. -/
theorem tls_not_required_when_host_has_scheme :
    (InitSession CSMTPClient.vtable Env.online "smtp://mail.example.com" "user" "secret"
      ALL_FLAGS ENABLE_TLS CSMTPClient.new).1 = true ∧
    (InitSession CSMTPClient.vtable Env.online "smtp://mail.example.com" "user" "secret"
      ALL_FLAGS ENABLE_TLS CSMTPClient.new).2.base.m_eSslTlsFlags = ENABLE_SSL ∧
    (requests (CSMTPClient.SendString Env.online "a@example.com" "b@example.com" "" "hello"
      (InitSession CSMTPClient.vtable Env.online "smtp://mail.example.com" "user" "secret"
        ALL_FLAGS ENABLE_TLS CSMTPClient.new).2).2.base.trace).map
      (fun q => (q.URL, q.USE_SSL)) = [(some "smtp://mail.example.com", none)] := by
  decide

/-- Explicit TLS on a host without scheme: for every adapter and every host that does not
begin (ignoring letter
case) with the adapter's own scheme, with or without the `s`, if `InitSession` is called
with TLS mode `ENABLE_TLS` and succeeds, then every transport request executed afterwards
on that session, whatever is called on it short of `CleanupSession`, has the transport's
TLS-required option (use-SSL = ALL) set. -/
theorem tls_required_on_every_request (a : Adapter) (env : Env) (o0 : Object a.Fields)
    (host user password : String) (settings : Nat) (cs : List (Call a))
    (hs : ¬ a.hasScheme host)
    (hinit : (InitSession a.vtable env host user password settings ENABLE_TLS o0).1 = true)
    (hcs : ∀ c ∈ cs, c.isCleanup = false) :
    ∃ new,
      requests (Call.runAll env cs
        (InitSession a.vtable env host user password settings ENABLE_TLS o0).2).base.trace =
      requests (InitSession a.vtable env host user password settings ENABLE_TLS
        o0).2.base.trace ++ new ∧
      ∀ q ∈ new, q.USE_SSL = some CURLUSESSL_ALL := by
  have h1 := InitSession_true_handle _ _ _ _ _ _ _ _ hinit
  have tls : (InitSession a.vtable env host user password settings ENABLE_TLS
      o0).2.base.m_eSslTlsFlags = ENABLE_TLS := by
    cases hh : o0.base.m_pCurlSession with
    | some h0 =>
      rw [InitSession_of_handle _ _ _ _ _ _ _ _ (by simp [hh])] at hinit
      simp at hinit
    | none =>
      by_cases he : host = ""
      · subst he
        have e : empty "" = true := rfl
        simp [InitSession, e] at hinit
      · rw [InitSession_of_no_handle _ _ _ _ _ _ _ _ he hh]
        have k := Adapter.ParseURL_tls a (o0.onBase (CMailClient.storeSession
          (if env.curl_easy_init o0.base.trace then some CurlOpts.default else none)
          settings ENABLE_TLS host))
        have e : ∀ x : Object a.Fields,
            (x.onBase (CMailClient.storeCredentials user password)).base.m_eSslTlsFlags =
              x.base.m_eSslTlsFlags := fun _ => rfl
        rw [e, k]
        simp [Object.onBase, CMailClient.storeSession, hs]
  obtain ⟨new, e, p⟩ := (Call.runAll_step env cs _ h1 hcs).sent
  refine ⟨new, e, ?_⟩
  intro q hq
  have := congrArg Security.USE_SSL (p q hq)
  rw [tls] at this
  exact this

/-- Explicit TLS on an SMTP session for the host `"mail.example.com"`: the request of
`SendString` is executed with use-SSL = ALL. -/
theorem tls_required_on_every_request_example :
    ¬ Adapter.smtp.hasScheme "mail.example.com" ∧
    (InitSession Adapter.smtp.vtable Env.online "mail.example.com" "user" "secret" ALL_FLAGS
      ENABLE_TLS (Adapter.new Adapter.smtp)).1 = true ∧
    (requests (Call.runAll Env.online
      [Call.op (a := Adapter.smtp) (SMTP.Op.SendString "a@example.com" "b@example.com" "" "hello")]
      (InitSession Adapter.smtp.vtable Env.online "mail.example.com" "user" "secret" ALL_FLAGS
        ENABLE_TLS (Adapter.new Adapter.smtp)).2).base.trace).map
      (fun q => (q.URL, q.USE_SSL)) = [(some "smtp://mail.example.com", some CURLUSESSL_ALL)] ∧
    ∃ new,
      requests (Call.runAll Env.online
        [Call.op (a := Adapter.smtp)
          (SMTP.Op.SendString "a@example.com" "b@example.com" "" "hello")]
        (InitSession Adapter.smtp.vtable Env.online "mail.example.com" "user" "secret" ALL_FLAGS
          ENABLE_TLS (Adapter.new Adapter.smtp)).2).base.trace =
      requests (InitSession Adapter.smtp.vtable Env.online "mail.example.com" "user" "secret"
        ALL_FLAGS ENABLE_TLS (Adapter.new Adapter.smtp)).2.base.trace ++ new ∧
      ∀ q ∈ new, q.USE_SSL = some CURLUSESSL_ALL :=
  ⟨by decide, by decide, by decide,
    tls_required_on_every_request Adapter.smtp Env.online (Adapter.new Adapter.smtp)
      "mail.example.com" "user" "secret" ALL_FLAGS
      [Call.op (SMTP.Op.SendString "a@example.com" "b@example.com" "" "hello")]
      (by decide) (by decide) (by simp [Call.isCleanup])⟩

/-! ## Single operations: what the perform cycle does with the request of the hook -/


theorem POP.Op.run_eq_Perform (env : Env) (op : POP.Op) (o : Object CPOPClient) :
    op.run env o = Perform CPOPClient.vtable env (op.store o) := by
  cases op <;> rfl

theorem IMAP.Op.run_eq_Perform_imap (env : Env) (op : IMAP.Op) (o : Object CIMAPClient) :
    op.run env o = Perform CIMAPClient.vtable env (op.store o) := by
  cases op <;> rfl

theorem SMTP.Op.run_eq_Perform_smtp (env : Env) (op : SMTP.Op) (o : Object CSMTPClient) :
    op.run env o = Perform CSMTPClient.vtable env (op.store o) := by
  cases op <;> rfl

@[simp] theorem logs_append (a b : List Event) : logs (a ++ b) = logs a ++ logs b := by
  induction a with
  | nil => rfl
  | cons e es ih => cases e <;> simp [logs, ih]

@[simp] theorem fileOpens_append (a b : List Event) :
    fileOpens (a ++ b) = fileOpens a ++ fileOpens b := by
  induction a with
  | nil => rfl
  | cons e es ih => cases e <;> simp [fileOpens, ih]

theorem settingsBeforeProgress_request (env : Env) (c : CMailClient) (h : CurlOpts) :
    (c.settingsBeforeProgress env h).request = h.request := by
  unfold CMailClient.settingsBeforeProgress CurlOpts.request
  simp only [apply_ite CurlOpts.URL, apply_ite CurlOpts.CUSTOMREQUEST, apply_ite CurlOpts.NOBODY,
    apply_ite CurlOpts.UPLOAD, apply_ite CurlOpts.WRITEFUNCTION, apply_ite CurlOpts.WRITEDATA,
    apply_ite CurlOpts.READFUNCTION, apply_ite CurlOpts.READDATA, apply_ite CurlOpts.MAIL_FROM,
    apply_ite CurlOpts.MAIL_RCPT, ite_self]

/-- The cross-cutting settings of `Perform` leave the options of the operation alone. -/
theorem settings_request (env : Env) (c : CMailClient) (h : CurlOpts) :
    (c.settings env h).request = h.request := by
  rw [← settingsBeforeProgress_request env c h]
  unfold CMailClient.settings CurlOpts.request
  simp only [apply_ite CurlOpts.URL, apply_ite CurlOpts.CUSTOMREQUEST, apply_ite CurlOpts.NOBODY,
    apply_ite CurlOpts.UPLOAD, apply_ite CurlOpts.WRITEFUNCTION, apply_ite CurlOpts.WRITEDATA,
    apply_ite CurlOpts.READFUNCTION, apply_ite CurlOpts.READDATA, apply_ite CurlOpts.MAIL_FROM,
    apply_ite CurlOpts.MAIL_RCPT, ite_self]

/-- The perform cycle when the pre-configure hook fails. -/
theorem Perform_pre_failed {δ : Type} (vt : VTable δ) (env : Env) (o : Object δ)
    (h0 : o.base.m_pCurlSession.isSome = true)
    (hpre : (vt.PrePerform env o.beforePrePerform).1 = false) :
    Perform vt env o =
      (false, (vt.PrePerform env o.beforePrePerform).2.logIfEnabled
        LOG_ERROR_PREPERFORM_FAILED_MSG) := by
  unfold Perform
  cases hh : o.base.m_pCurlSession with
  | none => simp [hh] at h0
  | some h => simp [hpre]

/-- The perform cycle when both hooks pass and line 294 does not dereference a null
pointer: the value returned is that of the request executed between them. -/
theorem Perform_pre_passed {δ : Type} (vt : VTable δ) (env : Env) (o : Object δ)
    (h0 : o.base.m_pCurlSession.isSome = true)
    (hpre : (vt.PrePerform env o.beforePrePerform).1 = true)
    (hpost : (vt.PostPerform env ((vt.PrePerform env o.beforePrePerform).2.execute env).1
      ((vt.PrePerform env o.beforePrePerform).2.execute env).2).1 = true)
    (ht : ((vt.PrePerform env o.beforePrePerform).2.base.m_bProgressCallbackSet &&
      (vt.PrePerform env o.beforePrePerform).2.base.GetProgressFnCallback.isNone) = false) :
    Perform vt env o =
      (((vt.PrePerform env o.beforePrePerform).2.execute env).1 == CURLE_OK,
        if ((vt.PrePerform env o.beforePrePerform).2.execute env).1 != CURLE_OK then
          (vt.PostPerform env ((vt.PrePerform env o.beforePrePerform).2.execute env).1
            ((vt.PrePerform env o.beforePrePerform).2.execute env).2).2.logIfEnabled
            (LOG_ERROR_CURL_PEFORM_FAILURE ((vt.PrePerform env o.beforePrePerform).2.execute env).1
              (env.curl_easy_strerror ((vt.PrePerform env o.beforePrePerform).2.execute env).1))
        else
          (vt.PostPerform env ((vt.PrePerform env o.beforePrePerform).2.execute env).1
            ((vt.PrePerform env o.beforePrePerform).2.execute env).2).2) := by
  unfold Perform
  cases hh : o.base.m_pCurlSession with
  | none => simp [hh] at h0
  | some h =>
    simp only [Option.isNone_some, Bool.false_eq_true, if_false, hpre, Bool.not_true, hpost, ht]
    split <;> simp_all

@[simp] theorem requests_logIfEnabled (c : CMailClient) (msg : String) :
    requests (c.logIfEnabled msg).trace = requests c.trace := by
  unfold CMailClient.logIfEnabled
  split <;> simp [requests]

@[simp] theorem fileOpens_logIfEnabled (c : CMailClient) (msg : String) :
    fileOpens (c.logIfEnabled msg).trace = fileOpens c.trace := by
  unfold CMailClient.logIfEnabled
  split <;> simp [fileOpens]

@[simp] theorem recipients_logIfEnabled (c : CMailClient) (msg : String) :
    (c.logIfEnabled msg).m_pRecipientslist = c.m_pRecipientslist := by
  unfold CMailClient.logIfEnabled
  split <;> rfl


theorem requests_beforePrePerform {δ : Type} (o : Object δ) :
    requests o.beforePrePerform.base.trace = requests o.base.trace := by
  simp [Object.beforePrePerform, Object.onBase, requests]

/-- The perform cycle on a session with a handle whose pre-configure hook passes and
leaves the options `h` on the handle, when line 294 does not dereference a null pointer:
the request executed between the hooks carries the settings of the session on top of `h`, and its status decides the
value returned as soon as the post-configure hook passes. -/
theorem Perform_request {δ : Type} (vt : VTable δ) (env : Env) (o : Object δ) (h : CurlOpts)
    (h0 : o.base.m_pCurlSession.isSome = true)
    (hpre : (vt.PrePerform env o.beforePrePerform).1 = true)
    (hh : (vt.PrePerform env o.beforePrePerform).2.base.m_pCurlSession = some h)
    (hreq : requests (vt.PrePerform env o.beforePrePerform).2.base.trace =
      requests o.base.trace)
    (hpost : ∀ code x, (vt.PostPerform env code x).1 = true)
    (ht : ((vt.PrePerform env o.beforePrePerform).2.base.m_bProgressCallbackSet &&
      (vt.PrePerform env o.beforePrePerform).2.base.GetProgressFnCallback.isNone) = false) :
    ((vt.PrePerform env o.beforePrePerform).2.execute env).1 =
      env.curl_easy_perform (vt.PrePerform env o.beforePrePerform).2.base.trace
        ((vt.PrePerform env o.beforePrePerform).2.base.settings env h) ∧
    ((vt.PrePerform env o.beforePrePerform).2.execute env).2.base.m_pCurlSession =
      some ((vt.PrePerform env o.beforePrePerform).2.base.settings env h) ∧
    requests ((vt.PrePerform env o.beforePrePerform).2.execute env).2.base.trace =
      requests o.base.trace ++ [(vt.PrePerform env o.beforePrePerform).2.base.settings env h] ∧
    (Perform vt env o).1 =
      (((vt.PrePerform env o.beforePrePerform).2.execute env).1 == CURLE_OK) ∧
    requests (Perform vt env o).2.base.trace =
      requests (vt.PostPerform env ((vt.PrePerform env o.beforePrePerform).2.execute env).1
        ((vt.PrePerform env o.beforePrePerform).2.execute env).2).2.base.trace := by
  obtain ⟨x1, _, x3⟩ := execute_of_handle env (vt.PrePerform env o.beforePrePerform).2 h hh
  refine ⟨x1, by rw [x3], by rw [x3]; simp [requests, hreq], ?_, ?_⟩
  · rw [Perform_pre_passed vt env o h0 hpre (hpost _ _) ht]
  · rw [Perform_pre_passed vt env o h0 hpre (hpost _ _) ht]
    dsimp only
    split
    · simp [Object.logIfEnabled, Object.onBase]
    · rfl

/-- The perform cycle on a session with a handle whose pre-configure hook fails: false is
returned and the trace gains no request. -/
theorem Perform_no_request {δ : Type} (vt : VTable δ) (env : Env) (o : Object δ)
    (h0 : o.base.m_pCurlSession.isSome = true)
    (hpre : (vt.PrePerform env o.beforePrePerform).1 = false)
    (hreq : requests (vt.PrePerform env o.beforePrePerform).2.base.trace =
      requests o.base.trace) :
    (Perform vt env o).1 = false ∧
    requests (Perform vt env o).2.base.trace = requests o.base.trace ∧
    (Perform vt env o).2.base.m_pRecipientslist =
      (vt.PrePerform env o.beforePrePerform).2.base.m_pRecipientslist ∧
    fileOpens (Perform vt env o).2.base.trace =
      fileOpens (vt.PrePerform env o.beforePrePerform).2.base.trace := by
  rw [Perform_pre_failed vt env o h0 hpre]
  simp [Object.logIfEnabled, Object.onBase, hreq]

theorem CPOPClient.PostPerform_requests (env : Env) (code : Nat) (o : Object CPOPClient) :
    (CPOPClient.PostPerform env code o).1 = true ∧
    requests (CPOPClient.PostPerform env code o).2.base.trace = requests o.base.trace := by
  unfold CPOPClient.PostPerform
  split
  · refine ⟨rfl, ?_⟩
    simp only [Object.onBase, CMailClient.closeIfOpen]
    split
    · simp [requests]
    · rfl
  · exact ⟨rfl, rfl⟩

theorem CSMTPClient.PostPerform_requests_smtp (env : Env) (code : Nat) (o : Object CSMTPClient) :
    (CSMTPClient.PostPerform env code o).1 = true ∧
    requests (CSMTPClient.PostPerform env code o).2.base.trace = requests o.base.trace := by
  unfold CSMTPClient.PostPerform
  split
  · refine ⟨rfl, ?_⟩
    simp only [Object.onBase, CMailClient.closeIfOpen]
    split
    · simp [requests]
    · rfl
  · exact ⟨rfl, rfl⟩

theorem empty_eq_false_iff (s : String) : empty s = false ↔ s ≠ "" := by
  rw [Ne, ← empty_eq_true_iff]
  simp

/-- The perform cycle with a post-configure hook that passes and executes nothing, when
line 294 does not dereference a null pointer: one request is executed, and its status
decides the value returned. -/
theorem Perform_one_request {δ : Type} (vt : VTable δ) (env : Env) (o : Object δ) (h : CurlOpts)
    (h0 : o.base.m_pCurlSession.isSome = true)
    (hpre : (vt.PrePerform env o.beforePrePerform).1 = true)
    (hh : (vt.PrePerform env o.beforePrePerform).2.base.m_pCurlSession = some h)
    (hreq : requests (vt.PrePerform env o.beforePrePerform).2.base.trace =
      requests o.base.trace)
    (hpost : ∀ code x, (vt.PostPerform env code x).1 = true ∧
      requests (vt.PostPerform env code x).2.base.trace = requests x.base.trace)
    (ht : ((vt.PrePerform env o.beforePrePerform).2.base.m_bProgressCallbackSet &&
      (vt.PrePerform env o.beforePrePerform).2.base.GetProgressFnCallback.isNone) = false) :
    (Perform vt env o).1 =
      (env.curl_easy_perform (vt.PrePerform env o.beforePrePerform).2.base.trace
        ((vt.PrePerform env o.beforePrePerform).2.base.settings env h) == CURLE_OK) ∧
    requests (Perform vt env o).2.base.trace =
      requests o.base.trace ++ [(vt.PrePerform env o.beforePrePerform).2.base.settings env h] := by
  obtain ⟨r1, _, r3, r4, r5⟩ := Perform_request vt env o h h0 hpre hh hreq
    (fun code x => (hpost code x).1) ht
  exact ⟨by rw [r4, r1], by rw [r5, (hpost _ _).2, r3]⟩

/-! ## The POP3 operations one by one -/

theorem POP.Op.store_base (op : POP.Op) (o : Object CPOPClient) :
    (op.store o).base.trace = o.base.trace ∧
    (op.store o).base.m_pCurlSession = o.base.m_pCurlSession ∧
    (op.store o).base.m_strURL = o.base.m_strURL ∧
    (op.store o).base.m_fLocalFile = o.base.m_fLocalFile := by
  cases op <;> exact ⟨rfl, rfl, rfl, rfl⟩

theorem c_str_commands :
    c_str "UIDL" = "UIDL" ∧ c_str "NOOP" = "NOOP" ∧ c_str "STAT" = "STAT" ∧
    c_str "LSUB \"\" *" = "LSUB \"\" *" := by
  decide

theorem fileOpens_beforePrePerform {δ : Type} (o : Object δ) :
    fileOpens o.beforePrePerform.base.trace = fileOpens o.base.trace := by
  simp [Object.beforePrePerform, Object.onBase, fileOpens]

/-- The pre-configure hook of POP3 on the table of the specification: the handle carries
the request of the table, each string cut before its first NUL character, and `GetFile`
has opened its destination for writing. -/
theorem CPOPClient.PrePerform_table (env : Env) (o : Object CPOPClient) (op : POP.Op)
    (hm : ∀ m ∈ op.msgNumber, m ≠ "")
    (hfile : ∀ m path, op = POP.Op.GetFile m path →
      o.base.m_fLocalFile.is_open = false ∧
      env.fopen (op.store o).beforePrePerform.base.trace path true = true) :
    (CPOPClient.PrePerform env (op.store o).beforePrePerform).1 = true ∧
    (CPOPClient.PrePerform env (op.store o).beforePrePerform).2.base.m_pCurlSession.map
      CurlOpts.request = some (op.specRequest o.base.m_strURL).asCStrings ∧
    (∀ m path, op = POP.Op.GetFile m path →
      fileOpens (CPOPClient.PrePerform env (op.store o).beforePrePerform).2.base.trace =
        fileOpens o.base.trace ++ [(path, true)]) := by
  obtain ⟨c1, c2, c3, _⟩ := c_str_commands
  cases op with
  | GetFile m path =>
    have hm1 : empty m = false := (empty_eq_false_iff m).2 (hm m rfl)
    obtain ⟨h1, h2⟩ := hfile m path rfl
    simp only [POP.Op.store, Object.beforePrePerform, Object.onBase, List.append_assoc,
      List.singleton_append] at h2
    simp [CPOPClient.PrePerform, POP.Op.store, Object.beforePrePerform, Object.onBase,
      Object.setopt, CMailClient.setopt, writeToFile, finishPrePerform, hm1,
      POP.Op.specRequest, CMailClient.fileOpen, h1, h2, CurlOpts.default, Request.asCStrings,
      fileOpens]
  | GetString m a =>
    have hm1 : empty m = false := (empty_eq_false_iff m).2 (hm m rfl)
    simp [CPOPClient.PrePerform, POP.Op.store, Object.beforePrePerform, Object.onBase,
      Object.setopt, CMailClient.setopt, writeInString, finishPrePerform, hm1,
      POP.Op.specRequest, CurlOpts.default, Request.asCStrings]
  | GetHeaders m a =>
    have hm1 : empty m = false := (empty_eq_false_iff m).2 (hm m rfl)
    simp [CPOPClient.PrePerform, POP.Op.store, Object.beforePrePerform, Object.onBase,
      Object.setopt, CMailClient.setopt, writeInString, finishPrePerform, hm1,
      POP.Op.specRequest, CurlOpts.default, Request.asCStrings]
  | Delete m =>
    have hm1 : empty m = false := (empty_eq_false_iff m).2 (hm m rfl)
    simp [CPOPClient.PrePerform, POP.Op.store, Object.beforePrePerform, Object.onBase,
      Object.setopt, CMailClient.setopt, finishPrePerform, hm1,
      POP.Op.specRequest, CurlOpts.default, Request.asCStrings]
  | _ =>
    simp [CPOPClient.PrePerform, POP.Op.store, Object.beforePrePerform, Object.onBase,
      Object.setopt, CMailClient.setopt, writeInString, finishPrePerform,
      POP.Op.specRequest, CurlOpts.default, Request.asCStrings, c1, c2, c3]

/-- The table of the POP3 requests for a base URL and a message number without NUL
character: nothing is cut. -/
theorem POP.Op.specRequest_asCStrings (B : String) (op : POP.Op) (hB : '\x00' ∉ B.data)
    (hm : ∀ m ∈ op.msgNumber, '\x00' ∉ m.data) :
    (op.specRequest B).asCStrings = op.specRequest B := by
  obtain ⟨c1, c2, c3, _⟩ := c_str_commands
  have e0 : c_str B = B := c_str_of_no_nul B hB
  cases op with
  | GetFile m path =>
    have e1 : c_str m = m := c_str_of_no_nul m (hm m rfl)
    simp [POP.Op.specRequest, Request.asCStrings, c_str_append B m hB, e1]
  | GetString m a =>
    have e1 : c_str m = m := c_str_of_no_nul m (hm m rfl)
    simp [POP.Op.specRequest, Request.asCStrings, c_str_append B m hB, e1]
  | GetHeaders m a =>
    have e1 : c_str ("TOP " ++ m ++ " 0") = "TOP " ++ m ++ " 0" :=
      c_str_of_no_nul _ (by
        rw [no_nul_append, no_nul_append]
        exact ⟨⟨by decide, hm m rfl⟩, by decide⟩)
    simp [POP.Op.specRequest, Request.asCStrings, e0, e1]
  | Delete m =>
    have e1 : c_str ("DELE " ++ m) = "DELE " ++ m :=
      c_str_of_no_nul _ (by
        rw [no_nul_append]
        exact ⟨by decide, hm m rfl⟩)
    simp [POP.Op.specRequest, Request.asCStrings, e0, e1]
  | _ => simp [POP.Op.specRequest, Request.asCStrings, e0, c1, c2, c3]

theorem CPOPClient.PrePerform_requests (env : Env) (o : Object CPOPClient) :
    requests (CPOPClient.PrePerform env o.beforePrePerform).2.base.trace =
      requests o.base.trace :=
  (requests_of_frame_false (CPOPClient.PrePerform_frame_pop3 env o.beforePrePerform)).trans
    (requests_beforePrePerform o)

/-! ## C18: the table of the POP3 requests -/

/-- C18, as stated, fails for a message number with a NUL character: the command is handed
to the transport as a C string, so on the session of the examples `Delete` called with the
three characters `3`, NUL, `X` asks for `"DELE 3"`, where the table of the specification
has `"DELE "` followed by all three characters. -/
theorem pop3_request_cut_at_nul :
    ((POP.Op.Delete "3\x00X").run Env.online Example.popSession).1 = true ∧
    (requests ((POP.Op.Delete "3\x00X").run Env.online Example.popSession).2.base.trace).map
      CurlOpts.CUSTOMREQUEST = [some "DELE 3"] ∧
    ((POP.Op.Delete "3\x00X").specRequest Example.popSession.base.m_strURL).CUSTOMREQUEST =
      some "DELE 3\x00X" ∧
    "DELE 3" ≠ "DELE 3\x00X" := by
  decide

/-- C18, amended: on a POP3 session with a handle and the base URL `B = m_strURL`, for
every operation whose message number (if it takes one) is not empty, and for `GetFile` when
the local file stream is closed and the destination can be opened for writing, the
pre-configure hook passes and leaves on the handle exactly the request the table of the
specification gives (`POP.Op.specRequest`: URL, custom command, body or no body, sink), each
string of it as a C string, cut before its first NUL character; nothing is cut when `B` and
the message number have no NUL character; `GetFile(m, path)` has opened `path` for
writing; and the call, when it returns, has executed exactly one request, which carries
these options. -/
theorem pop3_request_table (env : Env) (o : Object CPOPClient) (op : POP.Op)
    (h0 : o.base.m_pCurlSession.isSome = true)
    (hm : ∀ m ∈ op.msgNumber, m ≠ "")
    (hfile : ∀ m path, op = POP.Op.GetFile m path →
      o.base.m_fLocalFile.is_open = false ∧
      env.fopen (op.store o).beforePrePerform.base.trace path true = true) :
    (CPOPClient.PrePerform env (op.store o).beforePrePerform).1 = true ∧
    (CPOPClient.PrePerform env (op.store o).beforePrePerform).2.base.m_pCurlSession.map
      CurlOpts.request = some (op.specRequest o.base.m_strURL).asCStrings ∧
    ('\x00' ∉ o.base.m_strURL.data → (∀ m ∈ op.msgNumber, '\x00' ∉ m.data) →
      (op.specRequest o.base.m_strURL).asCStrings = op.specRequest o.base.m_strURL) ∧
    (∀ m path, op = POP.Op.GetFile m path →
      fileOpens (CPOPClient.PrePerform env (op.store o).beforePrePerform).2.base.trace =
        fileOpens o.base.trace ++ [(path, true)]) ∧
    ((op.run env o).2.base.crashed = false →
      ∃ q, requests (op.run env o).2.base.trace = requests o.base.trace ++ [q] ∧
        q.request = (op.specRequest o.base.m_strURL).asCStrings) := by
  obtain ⟨p1, p2, p3⟩ := CPOPClient.PrePerform_table env o op hm hfile
  refine ⟨p1, p2, POP.Op.specRequest_asCStrings _ op, p3, fun hret => ?_⟩
  obtain ⟨st, sh, _, _⟩ := POP.Op.store_base op o
  cases hh : (CPOPClient.PrePerform env (op.store o).beforePrePerform).2.base.m_pCurlSession with
  | none => simp [hh] at p2
  | some h =>
    rw [hh] at p2
    have hq : h.request = (op.specRequest o.base.m_strURL).asCStrings := by simpa using p2
    rw [POP.Op.run_eq_Perform] at hret ⊢
    have r := (Perform_one_request CPOPClient.vtable env (op.store o) h
      (by rw [sh]; exact h0) p1 hh (CPOPClient.PrePerform_requests env _)
      (CPOPClient.PostPerform_requests env)
      (Perform_returns CPOPClient.vtable env (op.store o) (by rw [sh]; exact h0) p1 hret)).2
    rw [st] at r
    exact ⟨_, r, (settings_request env _ h).trans hq⟩

/-- C18, amended, on the session of the examples: `GetFile("3", path)` opens `path` for
writing, asks for the base URL followed by `3`, with no command, and downloads to the local
file. -/
theorem pop3_request_table_getfile :
    Example.popSession.base.m_strURL = "pop3://mail.example.com/" ∧
    Example.popSession.base.m_fLocalFile.is_open = false ∧
    fileOpens (CPOPClient.PrePerform Env.online
      ((POP.Op.GetFile "3" "/tmp/mail.eml").store Example.popSession).beforePrePerform).2.base.trace =
      fileOpens Example.popSession.base.trace ++ [("/tmp/mail.eml", true)] ∧
    ((POP.Op.GetFile "3" "/tmp/mail.eml").specRequest
      Example.popSession.base.m_strURL).asCStrings =
      { URL := some "pop3://mail.example.com/3"
        WRITEFUNCTION := some Callback.WriteToFileCallback
        WRITEDATA := some DataPtr.localFile } ∧
    ∃ q, requests ((POP.Op.GetFile "3" "/tmp/mail.eml").run Env.online
        Example.popSession).2.base.trace = requests Example.popSession.base.trace ++ [q] ∧
      q.request = ((POP.Op.GetFile "3" "/tmp/mail.eml").specRequest
        Example.popSession.base.m_strURL).asCStrings :=
  have h := pop3_request_table Env.online Example.popSession (POP.Op.GetFile "3" "/tmp/mail.eml")
    (by decide) (by decide) (fun _ _ _ => ⟨by decide, rfl⟩)
  ⟨by decide, by decide, h.2.2.2.1 "3" "/tmp/mail.eml" rfl, by decide, h.2.2.2.2 (by decide)⟩



/-- The pre-configure hook of POP3 on an empty message number, or on a destination that
cannot be opened: it fails, and on an empty message number it has done nothing. -/
theorem CPOPClient.PrePerform_fails (env : Env) (o : Object CPOPClient) (op : POP.Op)
    (hbad : op.msgNumber = some "" ∨ ∃ m path, op = POP.Op.GetFile m path ∧
      env.fopen (op.store o).beforePrePerform.base.trace path true = false) :
    (CPOPClient.PrePerform env (op.store o).beforePrePerform).1 = false ∧
    (op.msgNumber = some "" →
      (CPOPClient.PrePerform env (op.store o).beforePrePerform).2.base.trace =
        (op.store o).beforePrePerform.base.trace) := by
  rcases hbad with hm | ⟨m, path, rfl, hf⟩
  · cases op with
    | GetString m a =>
      obtain rfl : m = "" := by simpa [POP.Op.msgNumber] using hm
      exact ⟨rfl, fun _ => rfl⟩
    | GetFile m path =>
      obtain rfl : m = "" := by simpa [POP.Op.msgNumber] using hm
      exact ⟨rfl, fun _ => rfl⟩
    | GetHeaders m a =>
      obtain rfl : m = "" := by simpa [POP.Op.msgNumber] using hm
      exact ⟨rfl, fun _ => rfl⟩
    | Delete m =>
      obtain rfl : m = "" := by simpa [POP.Op.msgNumber] using hm
      exact ⟨rfl, fun _ => rfl⟩
    | _ => simp [POP.Op.msgNumber] at hm
  · simp only [POP.Op.store, Object.beforePrePerform, Object.onBase, List.append_assoc,
      List.singleton_append] at hf
    by_cases hm : empty m = true
    · obtain rfl := (empty_eq_true_iff m).1 hm
      exact ⟨rfl, fun _ => rfl⟩
    · refine ⟨?_, fun h => ?_⟩
      · simp [CPOPClient.PrePerform, POP.Op.store, Object.beforePrePerform, Object.onBase,
          hm, CMailClient.fileOpen, hf, Object.logIfEnabled]
      · simp only [POP.Op.msgNumber, Option.some.injEq] at h
        subst h
        exact absurd rfl hm

/-! ## C19: POP3 operations that fail before anything is sent -/

/-- C19: on a POP3 session with a handle, `GetString`, `GetFile`, `GetHeaders` and `Delete`
called with an empty message number, and `GetFile` called with a destination the
environment refuses to open for writing, fail in the pre-configure hook: the call returns
false and executes no request; with an empty message number the file stream is not asked
to open anything (the trace gains no `fileOpen`). -/
theorem pop3_preconfiguration_fails (env : Env) (o : Object CPOPClient) (op : POP.Op)
    (h0 : o.base.m_pCurlSession.isSome = true)
    (hbad : op.msgNumber = some "" ∨ ∃ m path, op = POP.Op.GetFile m path ∧
      env.fopen (op.store o).beforePrePerform.base.trace path true = false) :
    (CPOPClient.PrePerform env (op.store o).beforePrePerform).1 = false ∧
    (op.run env o).1 = false ∧
    requests (op.run env o).2.base.trace = requests o.base.trace ∧
    (op.msgNumber = some "" →
      fileOpens (op.run env o).2.base.trace = fileOpens o.base.trace) := by
  obtain ⟨p1, p2⟩ := CPOPClient.PrePerform_fails env o op hbad
  obtain ⟨st, sh, _, _⟩ := POP.Op.store_base op o
  obtain ⟨r1, r2, _, r4⟩ := Perform_no_request CPOPClient.vtable env (op.store o)
    (by rw [sh]; exact h0) p1 (CPOPClient.PrePerform_requests env _)
  rw [POP.Op.run_eq_Perform]
  refine ⟨p1, r1, by rw [r2, st], fun hm => ?_⟩
  rw [r4]
  show fileOpens (CPOPClient.PrePerform env _).2.base.trace = _
  rw [p2 hm, fileOpens_beforePrePerform, st]

/-- C19 on the session of the examples: `GetFile` with an empty message number returns
false, executes nothing and opens nothing, although the destination could be opened. -/
theorem pop3_preconfiguration_fails_getfile :
    Env.online.fopen [] "/tmp/mail.eml" true = true ∧
    ((POP.Op.GetFile "" "/tmp/mail.eml").run Env.online Example.popSession).1 = false ∧
    requests ((POP.Op.GetFile "" "/tmp/mail.eml").run Env.online
      Example.popSession).2.base.trace = requests Example.popSession.base.trace ∧
    fileOpens ((POP.Op.GetFile "" "/tmp/mail.eml").run Env.online
      Example.popSession).2.base.trace = fileOpens Example.popSession.base.trace :=
  have h := pop3_preconfiguration_fails Env.online Example.popSession
    (POP.Op.GetFile "" "/tmp/mail.eml") (by decide) (Or.inl rfl)
  ⟨rfl, h.2.1, h.2.2.1, h.2.2.2 rfl⟩

/-! ## The IMAP operations one by one -/

theorem CIMAPClient.searchKeyword_spelling (e : IMAP.SearchOption) :
    CIMAPClient.searchKeyword e = IMAP.SearchOption.spelling.lookup e := by
  simp only [CIMAPClient.searchKeyword, IMAP.SearchOption.spelling, List.lookup]
  repeat' split
  all_goals simp_all

theorem CIMAPClient.propertyKeyword_spelling (e : IMAP.MailProperty) :
    CIMAPClient.propertyKeyword e = IMAP.MailProperty.spelling.lookup e := by
  simp only [CIMAPClient.propertyKeyword, IMAP.MailProperty.spelling, List.lookup]
  repeat' split
  all_goals simp_all

theorem IMAP.Op.store_base_imap (op : IMAP.Op) (o : Object CIMAPClient) :
    (op.store o).base.trace = o.base.trace ∧
    (op.store o).base.m_pCurlSession = o.base.m_pCurlSession ∧
    (op.store o).base.m_strURL = o.base.m_strURL ∧
    (op.store o).base.m_fLocalFile = o.base.m_fLocalFile := by
  cases op <;> exact ⟨rfl, rfl, rfl, rfl⟩

/-- The pre-configure hook of IMAP on the table of the specification: the handle carries
the URL and the command of the table, each cut before its first NUL character, and
`GetFile` has opened its destination for writing. -/
theorem CIMAPClient.PrePerform_table_imap (env : Env) (o : Object CIMAPClient) (op : IMAP.Op)
    (u : String) (c : Option String) (ht : op.specTarget o.base.m_strURL = some (u, c))
    (hm : ∀ m ∈ op.msgNumber, m ≠ "") (hf : ∀ f ∈ op.requiredFolder, f ≠ "")
    (hfile : ∀ path ∈ op.destination, o.base.m_fLocalFile.is_open = false ∧
      env.fopen (op.store o).beforePrePerform.base.trace path true = true) :
    (CIMAPClient.PrePerform env (op.store o).beforePrePerform).1 = true ∧
    (∃ h, (CIMAPClient.PrePerform env (op.store o).beforePrePerform).2.base.m_pCurlSession =
        some h ∧
      h.URL = some (c_str u) ∧ h.CUSTOMREQUEST = c.map c_str ∧
      (op = IMAP.Op.Noop → h.NOBODY = some 1)) ∧
    (∀ path ∈ op.destination,
      fileOpens (CIMAPClient.PrePerform env (op.store o).beforePrePerform).2.base.trace =
        fileOpens o.base.trace ++ [(path, true)]) := by
  obtain ⟨_, c2, _, c4⟩ := c_str_commands
  cases op with
  | SendString s => simp [IMAP.Op.specTarget] at ht
  | SendFile s => simp [IMAP.Op.specTarget] at ht
  | GetFile m path =>
    have hm1 : empty m = false := (empty_eq_false_iff m).2 (hm m rfl)
    obtain ⟨h1, h2⟩ := hfile path rfl
    simp only [IMAP.Op.store, Object.beforePrePerform, Object.onBase, List.append_assoc,
      List.singleton_append] at h2
    simp only [IMAP.Op.specTarget, Option.some.injEq, Prod.mk.injEq] at ht
    obtain ⟨rfl, rfl⟩ := ht
    simp [CIMAPClient.PrePerform, IMAP.Op.store, Object.beforePrePerform, Object.onBase,
      Object.setopt, CMailClient.setopt, writeToFile, finishPrePerform, hm1,
      CMailClient.fileOpen, h1, h2, CurlOpts.default, CMailClient.ssClear, String.append_assoc, IMAP.Op.destination, fileOpens, c2, c4]
  | GetString m a =>
    have hm1 : empty m = false := (empty_eq_false_iff m).2 (hm m rfl)
    simp only [IMAP.Op.specTarget, Option.some.injEq, Prod.mk.injEq] at ht
    obtain ⟨rfl, rfl⟩ := ht
    simp [CIMAPClient.PrePerform, IMAP.Op.store, Object.beforePrePerform, Object.onBase,
      Object.setopt, CMailClient.setopt, writeInString, finishPrePerform, hm1,
      CurlOpts.default, CMailClient.ssClear, String.append_assoc, IMAP.Op.destination, fileOpens, c2, c4]
  | CopyMail m f =>
    have hm1 : empty m = false := (empty_eq_false_iff m).2 (hm m rfl)
    have hf1 : empty f = false := (empty_eq_false_iff f).2 (hf f rfl)
    simp only [IMAP.Op.specTarget, Option.some.injEq, Prod.mk.injEq] at ht
    obtain ⟨rfl, rfl⟩ := ht
    simp [CIMAPClient.PrePerform, IMAP.Op.store, Object.beforePrePerform, Object.onBase,
      Object.setopt, CMailClient.setopt, finishPrePerform, hm1, hf1,
      CurlOpts.default, CMailClient.ssClear, IMAP.Op.destination, fileOpens, c2, c4]
  | DeleteFolder f =>
    have hf1 : empty f = false := (empty_eq_false_iff f).2 (hf f rfl)
    simp only [IMAP.Op.specTarget, Option.some.injEq, Prod.mk.injEq] at ht
    obtain ⟨rfl, rfl⟩ := ht
    simp [CIMAPClient.PrePerform, IMAP.Op.store, Object.beforePrePerform, Object.onBase,
      Object.setopt, CMailClient.setopt, finishPrePerform, hf1,
      CurlOpts.default, CMailClient.ssClear, IMAP.Op.destination, fileOpens, c2, c4]
  | CreateFolder f =>
    have hf1 : empty f = false := (empty_eq_false_iff f).2 (hf f rfl)
    simp only [IMAP.Op.specTarget, Option.some.injEq, Prod.mk.injEq] at ht
    obtain ⟨rfl, rfl⟩ := ht
    simp [CIMAPClient.PrePerform, IMAP.Op.store, Object.beforePrePerform, Object.onBase,
      Object.setopt, CMailClient.setopt, finishPrePerform, hf1,
      CurlOpts.default, CMailClient.ssClear, IMAP.Op.destination, fileOpens, c2, c4]
  | List a f =>
    simp only [IMAP.Op.specTarget, Option.some.injEq, Prod.mk.injEq] at ht
    obtain ⟨rfl, rfl⟩ := ht
    by_cases he : empty f = true
    · obtain rfl := (empty_eq_true_iff f).1 he
      simp [CIMAPClient.PrePerform, IMAP.Op.store, Object.beforePrePerform, Object.onBase,
        Object.setopt, CMailClient.setopt, writeInString, finishPrePerform, he,
        CurlOpts.default, CMailClient.ssClear, IMAP.Op.destination, fileOpens, c2, c4]
    · simp [CIMAPClient.PrePerform, IMAP.Op.store, Object.beforePrePerform, Object.onBase,
        Object.setopt, CMailClient.setopt, writeInString, finishPrePerform, he,
        CurlOpts.default, CMailClient.ssClear, IMAP.Op.destination, fileOpens, c2, c4]
  | SetMailProperty m p =>
    have hm1 : empty m = false := (empty_eq_false_iff m).2 (hm m rfl)
    simp only [IMAP.Op.specTarget, Option.map_eq_some', Prod.mk.injEq] at ht
    obtain ⟨kw, hk, rfl, rfl⟩ := ht
    rw [← CIMAPClient.propertyKeyword_spelling] at hk
    simp [CIMAPClient.PrePerform, IMAP.Op.store, Object.beforePrePerform, Object.onBase,
      Object.setopt, CMailClient.setopt, finishPrePerform, hm1, hk,
      CurlOpts.default, CMailClient.ssClear, IMAP.Op.destination, fileOpens, c2, c4]
  | Search a e =>
    simp only [IMAP.Op.specTarget, Option.map_eq_some', Prod.mk.injEq] at ht
    obtain ⟨kw, hk, rfl, rfl⟩ := ht
    rw [← CIMAPClient.searchKeyword_spelling] at hk
    simp [CIMAPClient.PrePerform, IMAP.Op.store, Object.beforePrePerform, Object.onBase,
      Object.setopt, CMailClient.setopt, writeInString, finishPrePerform, hk,
      CurlOpts.default, CMailClient.ssClear, IMAP.Op.destination, fileOpens, c2, c4]
  | _ =>
    simp only [IMAP.Op.specTarget, Option.some.injEq, Prod.mk.injEq] at ht
    obtain ⟨rfl, rfl⟩ := ht
    simp [CIMAPClient.PrePerform, IMAP.Op.store, Object.beforePrePerform, Object.onBase,
      Object.setopt, CMailClient.setopt, writeInString, finishPrePerform,
      CurlOpts.default, CMailClient.ssClear, IMAP.Op.destination, fileOpens, c2, c4]

theorem CIMAPClient.PrePerform_derived (env : Env) (o : Object CIMAPClient) :
    (CIMAPClient.PrePerform env o).2.derived = o.derived := by
  unfold CIMAPClient.PrePerform
  dsimp only
  repeat' split
  all_goals rfl

theorem CIMAPClient.PostPerform_passes (env : Env) (code : Nat) (o : Object CIMAPClient) :
    (CIMAPClient.PostPerform env code o).1 = true := by
  unfold CIMAPClient.PostPerform
  dsimp only
  repeat' split
  all_goals rfl

theorem requests_closeIfOpen (c : CMailClient) :
    requests c.closeIfOpen.trace = requests c.trace ∧
    c.closeIfOpen.m_pCurlSession = c.m_pCurlSession := by
  unfold CMailClient.closeIfOpen
  split
  · simp [requests]
  · exact ⟨rfl, rfl⟩

/-- The requests the post-configure hook of IMAP executes on a session whose handle
carries the options `h`. -/
theorem CIMAPClient.PostPerform_requests_imap (env : Env) (code : Nat) (o : Object CIMAPClient)
    (h : CurlOpts) (hh : o.base.m_pCurlSession = some h) :
    requests (CIMAPClient.PostPerform env code o).2.base.trace =
      requests o.base.trace ++
        (if o.derived.m_eOperationType = IMAP.MailOperation.IMAP_STORE ∧ code ≠ CURLE_OK then
          [{ h with CUSTOMREQUEST := some "EXPUNGE" }]
        else []) := by
  by_cases hs : o.derived.m_eOperationType = IMAP.MailOperation.IMAP_STORE
  · by_cases hc : code = CURLE_OK
    · simp [CIMAPClient.PostPerform, hs, hc]
    · simp only [CIMAPClient.PostPerform, hs, hc, reduceCtorEq, or_self, if_false, if_true,
        bne_iff_ne, ne_eq, not_false_eq_true, and_self, Object.setopt, Object.onBase,
        CMailClient.setopt, CMailClient.curl_easy_perform, hh, Option.map_some']
      split
      · simp [Object.logIfEnabled, Object.onBase, requests]
      · simp [requests]
  · simp only [CIMAPClient.PostPerform, Object.onBase, hs, if_false, false_and,
      List.append_nil]
    split
    · exact (requests_closeIfOpen o.base).1
    · rfl

theorem IMAP.Op.store_kind (op : IMAP.Op) (o : Object CIMAPClient) :
    (op.store o).derived.m_eOperationType = op.kind := by
  cases op <;> rfl

/-- A step that keeps the session keeps the handle it has. -/
theorem handle_of_frame {s : Bool} {c c' : CMailClient} (f : Frame s c c')
    (h0 : c.m_pCurlSession.isSome = true) : ∃ h, c'.m_pCurlSession = some h := by
  have := congrArg Option.isSome f.security
  simp only [CMailClient.security, Option.isSome_map', h0] at this
  exact Option.isSome_iff_exists.1 this

/-- When an IMAP operation returns on a session with a handle whose pre-configure hook
passes, line 294 did not dereference a null pointer. -/
theorem IMAP.Op.run_returns (env : Env) (o : Object CIMAPClient) (op : IMAP.Op)
    (h0 : o.base.m_pCurlSession.isSome = true)
    (hpre : (CIMAPClient.PrePerform env (op.store o).beforePrePerform).1 = true)
    (hret : (op.run env o).2.base.crashed = false) :
    ((CIMAPClient.PrePerform env (op.store o).beforePrePerform).2.base.m_bProgressCallbackSet &&
      (CIMAPClient.PrePerform env
        (op.store o).beforePrePerform).2.base.GetProgressFnCallback.isNone) = false := by
  rw [IMAP.Op.run_eq_Perform_imap] at hret
  exact Perform_returns CIMAPClient.vtable env (op.store o)
    (by rw [(IMAP.Op.store_base_imap op o).2.1]; exact h0) hpre hret

theorem CIMAPClient.PrePerform_requests_imap (env : Env) (o : Object CIMAPClient) :
    requests (CIMAPClient.PrePerform env o.beforePrePerform).2.base.trace =
      requests o.base.trace :=
  (requests_of_frame_false (CIMAPClient.PrePerform_frame_imap env o.beforePrePerform)).trans
    (requests_beforePrePerform o)

/-- The requests an IMAP operation executes when its pre-configure hook passes and leaves
the options `h` on the handle: the request of the operation, and after it the `EXPUNGE`
when the operation is a `STORE` whose status is not OK. -/
theorem IMAP.Op.run_requests (env : Env) (o : Object CIMAPClient) (op : IMAP.Op) (h : CurlOpts)
    (h0 : o.base.m_pCurlSession.isSome = true)
    (hpre : (CIMAPClient.PrePerform env (op.store o).beforePrePerform).1 = true)
    (hh : (CIMAPClient.PrePerform env (op.store o).beforePrePerform).2.base.m_pCurlSession =
      some h)
    (ht : ((CIMAPClient.PrePerform env (op.store o).beforePrePerform).2.base.m_bProgressCallbackSet &&
      (CIMAPClient.PrePerform env
        (op.store o).beforePrePerform).2.base.GetProgressFnCallback.isNone) = false) :
    (op.run env o).1 =
      (env.curl_easy_perform (CIMAPClient.PrePerform env (op.store o).beforePrePerform).2.base.trace
        ((CIMAPClient.PrePerform env (op.store o).beforePrePerform).2.base.settings env h) ==
        CURLE_OK) ∧
    requests (op.run env o).2.base.trace =
      requests o.base.trace ++
        (CIMAPClient.PrePerform env (op.store o).beforePrePerform).2.base.settings env h ::
        (if op.kind = IMAP.MailOperation.IMAP_STORE ∧
            env.curl_easy_perform
              (CIMAPClient.PrePerform env (op.store o).beforePrePerform).2.base.trace
              ((CIMAPClient.PrePerform env (op.store o).beforePrePerform).2.base.settings env h) ≠
              CURLE_OK then
          [{ (CIMAPClient.PrePerform env (op.store o).beforePrePerform).2.base.settings env h with
            CUSTOMREQUEST := some "EXPUNGE" }]
        else []) := by
  obtain ⟨st, sh, _, _⟩ := IMAP.Op.store_base_imap op o
  obtain ⟨r1, r2, r3, r4, r5⟩ := Perform_request CIMAPClient.vtable env (op.store o) h
    (by rw [sh]; exact h0) hpre hh (CIMAPClient.PrePerform_requests_imap env _)
    (CIMAPClient.PostPerform_passes env) ht
  obtain ⟨_, x2, _⟩ := execute_of_handle env
    (CIMAPClient.PrePerform env (op.store o).beforePrePerform).2 h hh
  have hk : ((CIMAPClient.PrePerform env (op.store o).beforePrePerform).2.execute
      env).2.derived.m_eOperationType = op.kind := by
    rw [x2, CIMAPClient.PrePerform_derived]
    exact IMAP.Op.store_kind op o
  have e1 : CIMAPClient.vtable.PrePerform = CIMAPClient.PrePerform := rfl
  have e2 : CIMAPClient.vtable.PostPerform = CIMAPClient.PostPerform := rfl
  rw [e1] at r1 r2 r3 r4 r5
  rw [e2] at r5
  rw [IMAP.Op.run_eq_Perform_imap]
  refine ⟨by rw [r4, r1], ?_⟩
  rw [r5]
  have p := CIMAPClient.PostPerform_requests_imap env
    ((CIMAPClient.PrePerform env (op.store o).beforePrePerform).2.execute env).1
    ((CIMAPClient.PrePerform env (op.store o).beforePrePerform).2.execute env).2 _ r2
  rw [hk, r3, st] at p
  rw [← r1]
  simpa using p

/-- The pre-configure hook of IMAP on an empty message identifier, for the operations that
fetch or copy a message: it fails. -/
theorem CIMAPClient.PrePerform_fails_imap (env : Env) (o : Object CIMAPClient) (op : IMAP.Op)
    (hk : op.kind = IMAP.MailOperation.IMAP_RETR_STRING ∨
      op.kind = IMAP.MailOperation.IMAP_RETR_FILE ∨ op.kind = IMAP.MailOperation.IMAP_COPY)
    (hm : op.msgNumber = some "") :
    (CIMAPClient.PrePerform env (op.store o).beforePrePerform).1 = false := by
  cases op with
  | GetString m a =>
    obtain rfl : m = "" := by simpa [IMAP.Op.msgNumber] using hm
    rfl
  | GetFile m path =>
    obtain rfl : m = "" := by simpa [IMAP.Op.msgNumber] using hm
    rfl
  | CopyMail m f =>
    obtain rfl : m = "" := by simpa [IMAP.Op.msgNumber] using hm
    rfl
  | _ => simp [IMAP.Op.kind] at hk

/-! ## C20: the table of the IMAP requests -/

/-- C20, as stated, fails for a message identifier with a NUL character: the command is
handed to the transport as a C string, so on the IMAP session of the examples `CopyMail`
called with the three characters `7`, NUL, `X` and the folder `Archive` asks for
`"COPY 7"`, where the table of the specification has `"COPY "`, the three characters,
a blank and the folder. -/
theorem imap_request_cut_at_nul :
    ((IMAP.Op.CopyMail "7\x00X" "Archive").run Env.online Example.imapSession).1 = true ∧
    (requests ((IMAP.Op.CopyMail "7\x00X" "Archive").run Env.online
      Example.imapSession).2.base.trace).map CurlOpts.CUSTOMREQUEST = [some "COPY 7"] ∧
    (IMAP.Op.CopyMail "7\x00X" "Archive").specTarget Example.imapSession.base.m_strURL =
      some ("imap://mail.example.com/INBOX", some "COPY 7\x00X Archive") ∧
    "COPY 7" ≠ "COPY 7\x00X Archive" := by
  decide

/-- C20, amended: on an IMAP session with a handle and the base URL `B = m_strURL`, every
operation other than `SetMailProperty` that the table of the specification covers
(`IMAP.Op.specTarget`: `GetString`/`GetFile` on `B + "INBOX/;UID=" + m`, `CopyMail` on
`B + "INBOX"` with `COPY m f`, `List` on `B + f`, `DeleteFolder`, `CreateFolder`,
`InfoFolder`, `ListSubFolders` and `Noop` on `B` with their command) passes the
pre-configure hook with this URL and this command on the handle, each as a C string, cut
before its first NUL character (and no body for `Noop`), `GetFile` having opened its
destination for writing, and, when the call returns, it has executed exactly one request,
which carries them, when its message identifier and the folder it requires are not empty
and, for `GetFile`, the destination can be opened; a URL or a command without NUL character
is handed over whole; `GetString`, `GetFile` and `CopyMail` with an empty message
identifier fail in the hook, return false and execute nothing. -/
theorem imap_request_table (env : Env) (o : Object CIMAPClient) (op : IMAP.Op)
    (u : String) (c : Option String)
    (h0 : o.base.m_pCurlSession.isSome = true)
    (ht : op.specTarget o.base.m_strURL = some (u, c))
    (hk : op.kind ≠ IMAP.MailOperation.IMAP_STORE) :
    ((∀ m ∈ op.msgNumber, m ≠ "") → (∀ f ∈ op.requiredFolder, f ≠ "") →
      (∀ path ∈ op.destination, o.base.m_fLocalFile.is_open = false ∧
        env.fopen (op.store o).beforePrePerform.base.trace path true = true) →
      (CIMAPClient.PrePerform env (op.store o).beforePrePerform).1 = true ∧
      (∃ h, (CIMAPClient.PrePerform env (op.store o).beforePrePerform).2.base.m_pCurlSession =
          some h ∧
        h.URL = some (c_str u) ∧ h.CUSTOMREQUEST = c.map c_str ∧
        (op = IMAP.Op.Noop → h.NOBODY = some 1)) ∧
      (∀ path ∈ op.destination,
        fileOpens (CIMAPClient.PrePerform env (op.store o).beforePrePerform).2.base.trace =
          fileOpens o.base.trace ++ [(path, true)]) ∧
      ((op.run env o).2.base.crashed = false →
        ∃ q, requests (op.run env o).2.base.trace = requests o.base.trace ++ [q] ∧
          q.URL = some (c_str u) ∧ q.CUSTOMREQUEST = c.map c_str ∧
          (op = IMAP.Op.Noop → q.NOBODY = some 1))) ∧
    ('\x00' ∉ u.data → c_str u = u) ∧
    ((∀ x ∈ c, '\x00' ∉ x.data) → c.map c_str = c) ∧
    ((op.kind = IMAP.MailOperation.IMAP_RETR_STRING ∨
        op.kind = IMAP.MailOperation.IMAP_RETR_FILE ∨
        op.kind = IMAP.MailOperation.IMAP_COPY) → op.msgNumber = some "" →
      (CIMAPClient.PrePerform env (op.store o).beforePrePerform).1 = false ∧
      (op.run env o).1 = false ∧
      requests (op.run env o).2.base.trace = requests o.base.trace) := by
  obtain ⟨st, sh, _, _⟩ := IMAP.Op.store_base_imap op o
  refine ⟨?_, c_str_of_no_nul u, ?_, ?_⟩
  · intro hm hf hfile
    obtain ⟨p1, ⟨h, hh, hu, hc, hn⟩, p3⟩ :=
      CIMAPClient.PrePerform_table_imap env o op u c ht hm hf hfile
    refine ⟨p1, ⟨h, hh, hu, hc, hn⟩, p3, fun hret => ?_⟩
    have r := (IMAP.Op.run_requests env o op h h0 p1 hh
      (IMAP.Op.run_returns env o op h0 p1 hret)).2
    rw [if_neg (fun x => hk x.1)] at r
    have hs := settings_request env
      (CIMAPClient.PrePerform env (op.store o).beforePrePerform).2.base h
    refine ⟨_, r, ?_, ?_, fun x => ?_⟩
    · exact (congrArg Request.URL hs).trans hu
    · exact (congrArg Request.CUSTOMREQUEST hs).trans hc
    · exact (congrArg Request.NOBODY hs).trans (hn x)
  · intro hc
    cases c with
    | none => rfl
    | some x => simp [c_str_of_no_nul x (hc x rfl)]
  · intro hk2 hm
    have p1 := CIMAPClient.PrePerform_fails_imap env o op hk2 hm
    obtain ⟨r1, r2, _, _⟩ := Perform_no_request CIMAPClient.vtable env (op.store o)
      (by rw [sh]; exact h0) p1 (CIMAPClient.PrePerform_requests_imap env _)
    rw [IMAP.Op.run_eq_Perform_imap]
    exact ⟨p1, r1, by rw [r2, st]⟩

/-- C20, amended, on the IMAP session of the examples: `CopyMail("7", "Archive")` sends
`COPY 7 Archive` to the base URL followed by `INBOX`, and with an empty message identifier
it returns false and sends nothing. -/
theorem imap_request_table_copy :
    Example.imapSession.base.m_strURL = "imap://mail.example.com/" ∧
    c_str "imap://mail.example.com/INBOX" = "imap://mail.example.com/INBOX" ∧
    (some "COPY 7 Archive").map c_str = some "COPY 7 Archive" ∧
    (∃ q, requests ((IMAP.Op.CopyMail "7" "Archive").run Env.online
        Example.imapSession).2.base.trace = requests Example.imapSession.base.trace ++ [q] ∧
      q.URL = some (c_str "imap://mail.example.com/INBOX") ∧
      q.CUSTOMREQUEST = (some "COPY 7 Archive").map c_str) ∧
    ((IMAP.Op.CopyMail "" "Archive").run Env.online Example.imapSession).1 = false ∧
    requests ((IMAP.Op.CopyMail "" "Archive").run Env.online Example.imapSession).2.base.trace =
      requests Example.imapSession.base.trace := by
  obtain ⟨q, hq, hu, hc, _⟩ := ((imap_request_table Env.online Example.imapSession
    (IMAP.Op.CopyMail "7" "Archive") "imap://mail.example.com/INBOX" (some "COPY 7 Archive")
    (by decide) (by decide) (by decide)).1 (by decide) (by decide) (by decide)).2.2.2 (by decide)
  have h2 := (imap_request_table Env.online Example.imapSession
    (IMAP.Op.CopyMail "" "Archive") "imap://mail.example.com/INBOX" (some "COPY  Archive")
    (by decide) (by decide) (by decide)).2.2.2 (by decide) rfl
  exact ⟨by decide, by decide, by decide, ⟨q, hq, hu, hc⟩, h2.2.1, h2.2.2⟩

theorem mem_of_lookup {α β : Type} [BEq α] [LawfulBEq α] (l : List (α × β)) (a : α) (b : β)
    (h : l.lookup a = some b) : (a, b) ∈ l := by
  induction l with
  | nil => simp [List.lookup] at h
  | cons x xs ih =>
    obtain ⟨k, v⟩ := x
    by_cases hk : a == k
    · simp only [List.lookup, hk, Option.some.injEq] at h
      rw [eq_of_beq hk, h]
      exact List.mem_cons_self _ _
    · simp only [List.lookup, hk] at h
      exact List.mem_cons_of_mem _ (ih h)

theorem append_left_ne (a b c : String) (h : b ≠ c) : a ++ b ≠ a ++ c := by
  intro e
  apply h
  have := congrArg String.data e
  simp only [String.data_append, List.append_cancel_left_eq] at this
  exact String.ext this

/-- The pre-configure hook of IMAP on a search option or a property outside the
enumeration, or on a `STORE` without message identifier: it fails. -/
theorem CIMAPClient.PrePerform_fails_keyword (env : Env) (o : Object CIMAPClient) :
    (∀ a e, IMAP.SearchOption.spelling.lookup e = none →
      (CIMAPClient.PrePerform env ((IMAP.Op.Search a e).store o).beforePrePerform).1 = false) ∧
    (∀ m p, m = "" ∨ IMAP.MailProperty.spelling.lookup p = none →
      (CIMAPClient.PrePerform env
        ((IMAP.Op.SetMailProperty m p).store o).beforePrePerform).1 = false) := by
  constructor
  · intro a e he
    rw [← CIMAPClient.searchKeyword_spelling] at he
    simp [CIMAPClient.PrePerform, IMAP.Op.store, Object.beforePrePerform, Object.onBase, he,
      writeInString, Object.setopt]
  · intro m p hmp
    rcases hmp with rfl | hp
    · rfl
    · rw [← CIMAPClient.propertyKeyword_spelling] at hp
      by_cases hm : empty m = true
      · simp [CIMAPClient.PrePerform, IMAP.Op.store, Object.beforePrePerform, Object.onBase, hm]
      · simp [CIMAPClient.PrePerform, IMAP.Op.store, Object.beforePrePerform, Object.onBase,
          hm, hp]

/-! ## C15: search options and mail properties -/

/-- C15, as stated, fails for a message identifier with a NUL character: the command is
handed to the transport as a C string, so on the IMAP session of the examples
`SetMailProperty` called with the three characters `3`, NUL, `X` asks for `"STORE 3"`, for
the property `Seen` as for the property `Deleted`: the command is not the one of the
specification, and two properties give the same command. -/
theorem imap_store_command_cut_at_nul :
    (requests ((IMAP.Op.SetMailProperty "3\x00X" IMAP.MailProperty.Seen).run Env.online
      Example.imapSession).2.base.trace).map CurlOpts.CUSTOMREQUEST = [some "STORE 3"] ∧
    (requests ((IMAP.Op.SetMailProperty "3\x00X" IMAP.MailProperty.Deleted).run Env.online
      Example.imapSession).2.base.trace).map CurlOpts.CUSTOMREQUEST = [some "STORE 3"] ∧
    IMAP.MailProperty.Seen ≠ IMAP.MailProperty.Deleted ∧
    "STORE 3" ≠ "STORE " ++ "3\x00X" ++ " +Flags \\" ++ "Seen" := by
  decide

/-- The keywords of the two tables have no NUL character. -/
theorem spelling_no_nul :
    (∀ x ∈ IMAP.SearchOption.spelling, '\x00' ∉ x.2.data) ∧
    (∀ x ∈ IMAP.MailProperty.spelling, '\x00' ∉ x.2.data) := by
  decide

/-- The command of a `STORE` for a message identifier without NUL character is handed
over whole. -/
theorem c_str_store (m kw : String) (hm : '\x00' ∉ m.data) (hk : '\x00' ∉ kw.data) :
    c_str ("STORE " ++ m ++ " +Flags \\" ++ kw) = "STORE " ++ m ++ " +Flags \\" ++ kw :=
  c_str_of_no_nul _ (by
    rw [no_nul_append, no_nul_append, no_nul_append]
    exact ⟨⟨⟨by decide, hm⟩, by decide⟩, hk⟩)

/-- C15, amended: on an IMAP session with a handle and the base URL `B = m_strURL`, when
the call returns: `Search` with one of the seven search options has executed one request,
with the command `"SEARCH "` followed by the keyword spelled like the option;
`SetMailProperty` with one of the six properties and a message identifier `m` that is not
empty has executed its request with the command `"STORE " + m + " +Flags \"` followed by
the keyword spelled like the property, as a C string, cut before its first NUL character;
both on the URL `B + "INBOX"`, as a C string.  Nothing is cut when `B` and `m` have no NUL
character.  Every enumerator has its row; two different search options give two different
commands, and so do two different properties for an `m` without NUL character; and with a
value outside the enumeration, or with an empty `m` for `SetMailProperty`, the
pre-configure hook fails, the call returns false and executes no request. -/
theorem imap_keyword_commands (env : Env) (o : Object CIMAPClient)
    (h0 : o.base.m_pCurlSession.isSome = true) :
    (∀ a e kw, IMAP.SearchOption.spelling.lookup e = some kw →
      ((IMAP.Op.Search a e).run env o).2.base.crashed = false →
      ∃ q, requests ((IMAP.Op.Search a e).run env o).2.base.trace =
          requests o.base.trace ++ [q] ∧
        q.URL = some (c_str (o.base.m_strURL ++ "INBOX")) ∧
        q.CUSTOMREQUEST = some ("SEARCH " ++ kw)) ∧
    (∀ m p kw, m ≠ "" → IMAP.MailProperty.spelling.lookup p = some kw →
      ((IMAP.Op.SetMailProperty m p).run env o).2.base.crashed = false →
      ∃ q rest, requests ((IMAP.Op.SetMailProperty m p).run env o).2.base.trace =
          requests o.base.trace ++ q :: rest ∧
        q.URL = some (c_str (o.base.m_strURL ++ "INBOX")) ∧
        q.CUSTOMREQUEST = some (c_str ("STORE " ++ m ++ " +Flags \\" ++ kw))) ∧
    ('\x00' ∉ o.base.m_strURL.data →
      c_str (o.base.m_strURL ++ "INBOX") = o.base.m_strURL ++ "INBOX") ∧
    (∀ m p kw, '\x00' ∉ m.data → IMAP.MailProperty.spelling.lookup p = some kw →
      c_str ("STORE " ++ m ++ " +Flags \\" ++ kw) = "STORE " ++ m ++ " +Flags \\" ++ kw) ∧
    (∀ x ∈ IMAP.SearchOption.spelling, IMAP.SearchOption.spelling.lookup x.1 = some x.2) ∧
    (∀ x ∈ IMAP.MailProperty.spelling, IMAP.MailProperty.spelling.lookup x.1 = some x.2) ∧
    (∀ e e' kw kw', IMAP.SearchOption.spelling.lookup e = some kw →
      IMAP.SearchOption.spelling.lookup e' = some kw' → e ≠ e' →
      "SEARCH " ++ kw ≠ "SEARCH " ++ kw') ∧
    (∀ m p p' kw kw', '\x00' ∉ m.data → IMAP.MailProperty.spelling.lookup p = some kw →
      IMAP.MailProperty.spelling.lookup p' = some kw' → p ≠ p' →
      c_str ("STORE " ++ m ++ " +Flags \\" ++ kw) ≠
        c_str ("STORE " ++ m ++ " +Flags \\" ++ kw')) ∧
    (∀ a e, IMAP.SearchOption.spelling.lookup e = none →
      (CIMAPClient.PrePerform env ((IMAP.Op.Search a e).store o).beforePrePerform).1 = false ∧
      ((IMAP.Op.Search a e).run env o).1 = false ∧
      requests ((IMAP.Op.Search a e).run env o).2.base.trace = requests o.base.trace) ∧
    (∀ m p, m = "" ∨ IMAP.MailProperty.spelling.lookup p = none →
      (CIMAPClient.PrePerform env
        ((IMAP.Op.SetMailProperty m p).store o).beforePrePerform).1 = false ∧
      ((IMAP.Op.SetMailProperty m p).run env o).1 = false ∧
      requests ((IMAP.Op.SetMailProperty m p).run env o).2.base.trace =
        requests o.base.trace) := by
  have fails : ∀ op : IMAP.Op,
      (CIMAPClient.PrePerform env (op.store o).beforePrePerform).1 = false →
      (CIMAPClient.PrePerform env (op.store o).beforePrePerform).1 = false ∧
      (op.run env o).1 = false ∧
      requests (op.run env o).2.base.trace = requests o.base.trace := by
    intro op p1
    obtain ⟨st, sh, _, _⟩ := IMAP.Op.store_base_imap op o
    obtain ⟨r1, r2, _, _⟩ := Perform_no_request CIMAPClient.vtable env (op.store o)
      (by rw [sh]; exact h0) p1 (CIMAPClient.PrePerform_requests_imap env _)
    rw [IMAP.Op.run_eq_Perform_imap]
    exact ⟨p1, r1, by rw [r2, st]⟩
  have sends : ∀ (op : IMAP.Op) (u : String) (c : Option String),
      op.specTarget o.base.m_strURL = some (u, c) → (∀ m ∈ op.msgNumber, m ≠ "") →
      op.requiredFolder = none → op.destination = none →
      (op.run env o).2.base.crashed = false →
      ∃ q rest, requests (op.run env o).2.base.trace = requests o.base.trace ++ q :: rest ∧
        (op.kind ≠ IMAP.MailOperation.IMAP_STORE → rest = []) ∧
        q.URL = some (c_str u) ∧ q.CUSTOMREQUEST = c.map c_str := by
    intro op u c ht hm hf hd hret
    obtain ⟨p1, ⟨h, hh, hu, hc, _⟩, _⟩ := CIMAPClient.PrePerform_table_imap env o op u c ht hm
      (by rw [hf]; simp) (by rw [hd]; simp)
    have r := (IMAP.Op.run_requests env o op h h0 p1 hh
      (IMAP.Op.run_returns env o op h0 p1 hret)).2
    have hs := settings_request env
      (CIMAPClient.PrePerform env (op.store o).beforePrePerform).2.base h
    exact ⟨_, _, r, fun hk => if_neg (fun x => hk x.1), (congrArg Request.URL hs).trans hu,
      (congrArg Request.CUSTOMREQUEST hs).trans hc⟩
  have search_whole : ∀ x ∈ IMAP.SearchOption.spelling,
      c_str ("SEARCH " ++ x.2) = "SEARCH " ++ x.2 := by decide
  refine ⟨?_, ?_, ?_, ?_, by decide, by decide, ?_, ?_, ?_, ?_⟩
  · intro a e kw hk hret
    obtain ⟨q, rest, hq, hr, hu, hc⟩ := sends (IMAP.Op.Search a e)
      (o.base.m_strURL ++ "INBOX") (some ("SEARCH " ++ kw))
      (by simp [IMAP.Op.specTarget, hk]) (by simp [IMAP.Op.msgNumber]) rfl rfl hret
    rw [hr (by simp [IMAP.Op.kind])] at hq
    refine ⟨q, hq, hu, hc.trans ?_⟩
    exact congrArg some (search_whole _ (mem_of_lookup _ _ _ hk))
  · intro m p kw hm hk hret
    obtain ⟨q, rest, hq, _, hu, hc⟩ := sends (IMAP.Op.SetMailProperty m p)
      (o.base.m_strURL ++ "INBOX") (some ("STORE " ++ m ++ " +Flags \\" ++ kw))
      (by simp [IMAP.Op.specTarget, hk]) (by simpa [IMAP.Op.msgNumber] using hm) rfl rfl hret
    exact ⟨q, rest, hq, hu, hc⟩
  · intro hB
    exact c_str_of_no_nul _ (by
      rw [no_nul_append]
      exact ⟨hB, by decide⟩)
  · intro m p kw hm hk
    exact c_str_store m kw hm (spelling_no_nul.2 _ (mem_of_lookup _ _ _ hk))
  · intro e e' kw kw' h1 h2 hne
    apply append_left_ne
    have key : ∀ x ∈ IMAP.SearchOption.spelling, ∀ y ∈ IMAP.SearchOption.spelling,
        x.1 ≠ y.1 → x.2 ≠ y.2 := by decide
    exact key _ (mem_of_lookup _ _ _ h1) _ (mem_of_lookup _ _ _ h2) hne
  · intro m p p' kw kw' hm h1 h2 hne
    rw [c_str_store m kw hm (spelling_no_nul.2 _ (mem_of_lookup _ _ _ h1)),
      c_str_store m kw' hm (spelling_no_nul.2 _ (mem_of_lookup _ _ _ h2))]
    apply append_left_ne
    have key : ∀ x ∈ IMAP.MailProperty.spelling, ∀ y ∈ IMAP.MailProperty.spelling,
        x.1 ≠ y.1 → x.2 ≠ y.2 := by decide
    exact key _ (mem_of_lookup _ _ _ h1) _ (mem_of_lookup _ _ _ h2) hne
  · intro a e he
    exact fails _ ((CIMAPClient.PrePerform_fails_keyword env o).1 a e he)
  · intro m p hmp
    exact fails _ ((CIMAPClient.PrePerform_fails_keyword env o).2 m p hmp)

/-- C15, amended, on the IMAP session of the examples: `Search` with the option `NEW` sends
`SEARCH NEW` to the inbox, `SetMailProperty("3", Seen)` sends `STORE 3 +Flags \Seen`, and
`Search` with the value 7, which is no search option, returns false and sends nothing. -/
theorem imap_keyword_commands_example :
    Example.imapSession.base.m_strURL = "imap://mail.example.com/" ∧
    c_str (Example.imapSession.base.m_strURL ++ "INBOX") = "imap://mail.example.com/INBOX" ∧
    c_str ("STORE " ++ "3" ++ " +Flags \\" ++ "Seen") = "STORE 3 +Flags \\Seen" ∧
    (∃ q, requests ((IMAP.Op.Search 0 IMAP.SearchOption.NEW).run Env.online
        Example.imapSession).2.base.trace = requests Example.imapSession.base.trace ++ [q] ∧
      q.URL = some (c_str (Example.imapSession.base.m_strURL ++ "INBOX")) ∧
      q.CUSTOMREQUEST = some "SEARCH NEW") ∧
    (∃ q rest, requests ((IMAP.Op.SetMailProperty "3" IMAP.MailProperty.Seen).run Env.online
        Example.imapSession).2.base.trace =
        requests Example.imapSession.base.trace ++ q :: rest ∧
      q.URL = some (c_str (Example.imapSession.base.m_strURL ++ "INBOX")) ∧
      q.CUSTOMREQUEST = some (c_str ("STORE " ++ "3" ++ " +Flags \\" ++ "Seen"))) ∧
    ((IMAP.Op.Search 0 7).run Env.online Example.imapSession).1 = false ∧
    requests ((IMAP.Op.Search 0 7).run Env.online Example.imapSession).2.base.trace =
      requests Example.imapSession.base.trace :=
  have h := imap_keyword_commands Env.online Example.imapSession (by decide)
  ⟨by decide, by decide, by decide,
    h.1 0 IMAP.SearchOption.NEW "NEW" (by decide) (by decide),
    h.2.1 "3" IMAP.MailProperty.Seen "Seen" (by decide) (by decide) (by decide),
    (h.2.2.2.2.2.2.2.2.1 0 7 (by decide)).2.1, (h.2.2.2.2.2.2.2.2.1 0 7 (by decide)).2.2⟩

/-! ## C16: the `EXPUNGE` after a `STORE` -/

/-- C16: in the post-configure hook of IMAP, on a session whose handle carries the options
`h`, the hook passes and executes exactly the requests of the list on the right: the
request `h` with the command replaced by `EXPUNGE` when the operation kind is `IMAP_STORE`
and the status handed in is not OK, and nothing otherwise.  Seen from the caller: an IMAP
operation on a session with a handle whose pre-configure hook passes has executed, when it
returns, its own request `q`, followed by this `EXPUNGE` exactly when the operation is
`SetMailProperty` and the status of `q` is not OK. -/
theorem expunge_exactly_after_failed_store (env : Env) :
    (∀ (code : Nat) (o : Object CIMAPClient) (h : CurlOpts), o.base.m_pCurlSession = some h →
      (CIMAPClient.PostPerform env code o).1 = true ∧
      requests (CIMAPClient.PostPerform env code o).2.base.trace =
        requests o.base.trace ++
          (if o.derived.m_eOperationType = IMAP.MailOperation.IMAP_STORE ∧ code ≠ CURLE_OK then
            [{ h with CUSTOMREQUEST := some "EXPUNGE" }]
          else [])) ∧
    (∀ (o : Object CIMAPClient) (op : IMAP.Op), o.base.m_pCurlSession.isSome = true →
      (CIMAPClient.PrePerform env (op.store o).beforePrePerform).1 = true →
      (op.run env o).2.base.crashed = false →
      ∃ q, requests (op.run env o).2.base.trace =
        requests o.base.trace ++ q ::
          (if op.kind = IMAP.MailOperation.IMAP_STORE ∧
              env.curl_easy_perform
                (CIMAPClient.PrePerform env (op.store o).beforePrePerform).2.base.trace q ≠
                CURLE_OK then
            [{ q with CUSTOMREQUEST := some "EXPUNGE" }]
          else [])) := by
  constructor
  · intro code o h hh
    exact ⟨CIMAPClient.PostPerform_passes env code o,
      CIMAPClient.PostPerform_requests_imap env code o h hh⟩
  · intro o op h0 hpre hret
    obtain ⟨h, hh⟩ := handle_of_frame
      (CIMAPClient.PrePerform_frame_imap env (op.store o).beforePrePerform) rfl
    exact ⟨_, (IMAP.Op.run_requests env o op h h0 hpre hh
      (IMAP.Op.run_returns env o op h0 hpre hret)).2⟩

/-- C16 on the IMAP session of the examples: a `STORE` that fails is followed by an
`EXPUNGE`, a `STORE` that succeeds is not, and neither is a `NOOP` that fails. -/
theorem expunge_exactly_after_failed_store_example :
    (requests ((IMAP.Op.SetMailProperty "3" IMAP.MailProperty.Seen).run Env.expungeOnly
      Example.imapSession).2.base.trace).map CurlOpts.CUSTOMREQUEST =
      [some "STORE 3 +Flags \\Seen", some "EXPUNGE"] ∧
    (requests ((IMAP.Op.SetMailProperty "3" IMAP.MailProperty.Seen).run Env.online
      Example.imapSession).2.base.trace).map CurlOpts.CUSTOMREQUEST =
      [some "STORE 3 +Flags \\Seen"] ∧
    (requests (IMAP.Op.Noop.run Env.expungeOnly Example.imapSession).2.base.trace).map
      CurlOpts.CUSTOMREQUEST = [some "NOOP"] ∧
    ∃ q, requests (IMAP.Op.Noop.run Env.expungeOnly Example.imapSession).2.base.trace =
      requests Example.imapSession.base.trace ++ [q] := by
  obtain ⟨q, hq⟩ := (expunge_exactly_after_failed_store Env.expungeOnly).2
    Example.imapSession IMAP.Op.Noop (by decide) (by decide) (by decide)
  rw [if_neg (fun x => absurd x.1 (by decide))] at hq
  exact ⟨by decide, by decide, by decide, q, hq⟩

/-- The pre-configure hook of IMAP does not ask the environment anything for a
`STORE`. -/
theorem CIMAPClient.PrePerform_store_env (env env' : Env) (o : Object CIMAPClient)
    (hk : o.derived.m_eOperationType = IMAP.MailOperation.IMAP_STORE) :
    CIMAPClient.PrePerform env' o = CIMAPClient.PrePerform env o := by
  simp only [CIMAPClient.PrePerform, Object.onBase, hk]

/-- The cross-cutting settings ask the environment for the certification authority file
only. -/
theorem settings_env (env env' : Env) (c : CMailClient) (h : CurlOpts)
    (hca : env'.s_strCertificationAuthorityFile = env.s_strCertificationAuthorityFile) :
    c.settings env' h = c.settings env h := by
  unfold CMailClient.settings CMailClient.settingsBeforeProgress
  rw [hca]

theorem store_ne_expunge (s : String) : c_str ("STORE " ++ s) ≠ "EXPUNGE" := by
  rw [c_str_append "STORE " s (by decide)]
  intro e
  have := congrArg String.data e
  simp at this

/-- When the pre-configure hook of `SetMailProperty` passes, the handle carries a `STORE`
command. -/
theorem CIMAPClient.PrePerform_store_command (env : Env) (o : Object CIMAPClient)
    (m : String) (p : IMAP.MailProperty)
    (hpre : (CIMAPClient.PrePerform env
      ((IMAP.Op.SetMailProperty m p).store o).beforePrePerform).1 = true) :
    ∃ h kw, (CIMAPClient.PrePerform env
        ((IMAP.Op.SetMailProperty m p).store o).beforePrePerform).2.base.m_pCurlSession = some h ∧
      h.CUSTOMREQUEST = some (c_str ("STORE " ++ m ++ " +Flags \\" ++ kw)) := by
  have hm : m ≠ "" := by
    intro hm
    rw [(CIMAPClient.PrePerform_fails_keyword env o).2 m p (Or.inl hm)] at hpre
    exact Bool.noConfusion hpre
  cases hk : IMAP.MailProperty.spelling.lookup p with
  | none =>
    rw [(CIMAPClient.PrePerform_fails_keyword env o).2 m p (Or.inr hk)] at hpre
    exact Bool.noConfusion hpre
  | some kw =>
    obtain ⟨_, ⟨h, hh, _, hc, _⟩, _⟩ := CIMAPClient.PrePerform_table_imap env o
      (IMAP.Op.SetMailProperty m p) (o.base.m_strURL ++ "INBOX")
      (some ("STORE " ++ m ++ " +Flags \\" ++ kw)) (by simp [IMAP.Op.specTarget, hk])
      (by simpa [IMAP.Op.msgNumber] using hm) (by simp [IMAP.Op.requiredFolder])
      (by simp [IMAP.Op.destination])
    exact ⟨h, kw, hh, hc⟩

/-! ## C17: the value `SetMailProperty` returns -/

/-- C17: on an IMAP session with a handle, `SetMailProperty`, when it returns, returns true
exactly when the pre-configure hook passes and the status of the `STORE` request, the one
`Perform` executes, is OK; the post-configure hook passes whatever it is given; and the
value returned is the same in every environment that differs only in the status it gives
to `EXPUNGE` requests. -/
theorem SetMailProperty_true_iff_store_ok (env : Env) (o : Object CIMAPClient) (m : String)
    (p : IMAP.MailProperty) (h0 : o.base.m_pCurlSession.isSome = true) :
    ((CIMAPClient.SetMailProperty env m p o).2.base.crashed = false →
      ((CIMAPClient.SetMailProperty env m p o).1 = true ↔
        (CIMAPClient.PrePerform env
          ((IMAP.Op.SetMailProperty m p).store o).beforePrePerform).1 = true ∧
        ∃ h, (CIMAPClient.PrePerform env
            ((IMAP.Op.SetMailProperty m p).store o).beforePrePerform).2.base.m_pCurlSession =
            some h ∧
          env.curl_easy_perform
            (CIMAPClient.PrePerform env
              ((IMAP.Op.SetMailProperty m p).store o).beforePrePerform).2.base.trace
            ((CIMAPClient.PrePerform env
              ((IMAP.Op.SetMailProperty m p).store o).beforePrePerform).2.base.settings env h) =
            CURLE_OK)) ∧
    (∀ code x, (CIMAPClient.PostPerform env code x).1 = true) ∧
    (∀ env' : Env,
      env'.s_strCertificationAuthorityFile = env.s_strCertificationAuthorityFile →
      (∀ tr q, q.CUSTOMREQUEST ≠ some "EXPUNGE" →
        env'.curl_easy_perform tr q = env.curl_easy_perform tr q) →
      (CIMAPClient.SetMailProperty env' m p o).1 = (CIMAPClient.SetMailProperty env m p o).1) := by
  have hs0 : ((IMAP.Op.SetMailProperty m p).store o).base.m_pCurlSession.isSome = true := by
    rw [(IMAP.Op.store_base_imap (IMAP.Op.SetMailProperty m p) o).2.1]
    exact h0
  have value : ∀ e : Env, (CIMAPClient.SetMailProperty e m p o).1 =
      ((CIMAPClient.PrePerform e
        ((IMAP.Op.SetMailProperty m p).store o).beforePrePerform).1 &&
      (!((CIMAPClient.PrePerform e
          ((IMAP.Op.SetMailProperty m p).store o).beforePrePerform).2.base.m_bProgressCallbackSet &&
        (CIMAPClient.PrePerform e
          ((IMAP.Op.SetMailProperty m p).store
            o).beforePrePerform).2.base.GetProgressFnCallback.isNone) &&
      match (CIMAPClient.PrePerform e
          ((IMAP.Op.SetMailProperty m p).store o).beforePrePerform).2.base.m_pCurlSession with
      | some h => e.curl_easy_perform
          (CIMAPClient.PrePerform e
            ((IMAP.Op.SetMailProperty m p).store o).beforePrePerform).2.base.trace
          ((CIMAPClient.PrePerform e
            ((IMAP.Op.SetMailProperty m p).store o).beforePrePerform).2.base.settings e h) ==
          CURLE_OK
      | none => false)) := by
    intro e
    cases hpre : (CIMAPClient.PrePerform e
        ((IMAP.Op.SetMailProperty m p).store o).beforePrePerform).1 with
    | false =>
      have r := (Perform_no_request CIMAPClient.vtable e ((IMAP.Op.SetMailProperty m p).store o)
        h0 hpre (CIMAPClient.PrePerform_requests_imap e _)).1
      simpa using r
    | true =>
      cases ht : ((CIMAPClient.PrePerform e
          ((IMAP.Op.SetMailProperty m p).store o).beforePrePerform).2.base.m_bProgressCallbackSet &&
        (CIMAPClient.PrePerform e
          ((IMAP.Op.SetMailProperty m p).store
            o).beforePrePerform).2.base.GetProgressFnCallback.isNone) with
      | true =>
        have r := congrArg Prod.fst (Perform_null_dereference CIMAPClient.vtable e
          ((IMAP.Op.SetMailProperty m p).store o) hs0 hpre ht)
        rw [← IMAP.Op.run_eq_Perform_imap] at r
        simpa using r
      | false =>
        obtain ⟨h, kw, hh, _⟩ := CIMAPClient.PrePerform_store_command e o m p hpre
        have r := (IMAP.Op.run_requests e o (IMAP.Op.SetMailProperty m p) h h0 hpre hh ht).1
        rw [hh]
        simpa using r
  refine ⟨?_, CIMAPClient.PostPerform_passes env, ?_⟩
  · intro hret
    rw [value env]
    cases hpre : (CIMAPClient.PrePerform env
        ((IMAP.Op.SetMailProperty m p).store o).beforePrePerform).1 with
    | false => simp
    | true =>
      rw [IMAP.Op.run_returns env o (IMAP.Op.SetMailProperty m p) h0 hpre hret]
      cases hh : (CIMAPClient.PrePerform env
          ((IMAP.Op.SetMailProperty m p).store o).beforePrePerform).2.base.m_pCurlSession with
      | none => simp
      | some h => simp [CURLE_OK]
  · intro env' hca hagree
    rw [value env', value env,
      CIMAPClient.PrePerform_store_env env env' _ (by rfl)]
    cases hpre : (CIMAPClient.PrePerform env
        ((IMAP.Op.SetMailProperty m p).store o).beforePrePerform).1 with
    | false => simp
    | true =>
      obtain ⟨h, kw, hh, hc⟩ := CIMAPClient.PrePerform_store_command env o m p hpre
      rw [hh]
      simp only [Bool.true_and]
      rw [settings_env env env' _ h hca, hagree]
      have hs := congrArg Request.CUSTOMREQUEST (settings_request env
        (CIMAPClient.PrePerform env
          ((IMAP.Op.SetMailProperty m p).store o).beforePrePerform).2.base h)
      show CurlOpts.CUSTOMREQUEST _ ≠ _
      rw [show CurlOpts.CUSTOMREQUEST (CMailClient.settings env _ h) = h.CUSTOMREQUEST from hs,
        hc]
      intro e
      apply store_ne_expunge (m ++ " +Flags \\" ++ kw)
      simpa [String.append_assoc] using e

/-- C17 on the IMAP session of the examples, in an environment where the `STORE` fails and
the `EXPUNGE` after it succeeds: `SetMailProperty` returns false. -/
theorem SetMailProperty_true_iff_store_ok_example :
    (requests (CIMAPClient.SetMailProperty Env.expungeOnly "3" IMAP.MailProperty.Seen
      Example.imapSession).2.base.trace).map
      (fun q => (q.CUSTOMREQUEST, Env.expungeOnly.curl_easy_perform [] q)) =
      [(some "STORE 3 +Flags \\Seen", 8), (some "EXPUNGE", CURLE_OK)] ∧
    (CIMAPClient.SetMailProperty Env.expungeOnly "3" IMAP.MailProperty.Seen
      Example.imapSession).1 = false ∧
    (CIMAPClient.SetMailProperty Env.online "3" IMAP.MailProperty.Seen
      Example.imapSession).1 = true :=
  ⟨by decide, by decide,
    (SetMailProperty_true_iff_store_ok Env.online Example.imapSession "3"
      IMAP.MailProperty.Seen (by decide)).1 (by decide) |>.2 ⟨by decide, _, rfl, by decide⟩⟩

/-! ## The SMTP operations one by one -/

theorem SMTP.Op.store_base_smtp (op : SMTP.Op) (o : Object CSMTPClient) :
    (op.store o).base.trace = o.base.trace ∧
    (op.store o).base.m_pCurlSession = o.base.m_pCurlSession ∧
    (op.store o).base.m_strURL = o.base.m_strURL ∧
    (op.store o).base.m_fLocalFile = o.base.m_fLocalFile ∧
    (op.store o).base.m_pRecipientslist = o.base.m_pRecipientslist := by
  cases op <;> exact ⟨rfl, rfl, rfl, rfl, rfl⟩

theorem CSMTPClient.PrePerform_requests_smtp (env : Env) (o : Object CSMTPClient) :
    requests (CSMTPClient.PrePerform env o.beforePrePerform).2.base.trace =
      requests o.base.trace :=
  (requests_of_frame_false (CSMTPClient.PrePerform_frame_smtp env o.beforePrePerform)).trans
    (requests_beforePrePerform o)

/-- The pre-configure hook of SMTP on `SendString`. -/
theorem CSMTPClient.PrePerform_SendString (env : Env) (o : Object CSMTPClient)
    (f t c b : String) :
    ((CSMTPClient.PrePerform env
        ((SMTP.Op.SendString f t c b).store o).beforePrePerform).1 = true ↔ f ≠ "" ∧ t ≠ "") ∧
    ((CSMTPClient.PrePerform env
        ((SMTP.Op.SendString f t c b).store o).beforePrePerform).1 = false →
      (CSMTPClient.PrePerform env
        ((SMTP.Op.SendString f t c b).store o).beforePrePerform).2.base.m_pRecipientslist =
        o.base.m_pRecipientslist) ∧
    ((CSMTPClient.PrePerform env
        ((SMTP.Op.SendString f t c b).store o).beforePrePerform).1 = true →
      (CSMTPClient.PrePerform env
        ((SMTP.Op.SendString f t c b).store o).beforePrePerform).2.base.m_pRecipientslist =
        o.base.m_pRecipientslist ++ c_str t :: (if c = "" then [] else [c_str c]) ∧
      ∃ h, (CSMTPClient.PrePerform env
          ((SMTP.Op.SendString f t c b).store o).beforePrePerform).2.base.m_pCurlSession =
          some h ∧
        h.MAIL_FROM = some (c_str f) ∧
        h.MAIL_RCPT =
          some (o.base.m_pRecipientslist ++ c_str t :: (if c = "" then [] else [c_str c]))) := by
  by_cases hf : empty f = true
  · obtain rfl := (empty_eq_true_iff f).1 hf
    simp [CSMTPClient.PrePerform, SMTP.Op.store, Object.beforePrePerform, Object.onBase, hf,
      CMailClient.ssClear]
  · by_cases ht : empty t = true
    · obtain rfl := (empty_eq_true_iff t).1 ht
      simp [CSMTPClient.PrePerform, SMTP.Op.store, Object.beforePrePerform, Object.onBase, hf,
        ht, CMailClient.ssClear]
    · have hf' : f ≠ "" := fun e => hf ((empty_eq_true_iff f).2 e)
      have ht' : t ≠ "" := fun e => ht ((empty_eq_true_iff t).2 e)
      by_cases hc : empty c = true
      · obtain rfl := (empty_eq_true_iff c).1 hc
        simp [CSMTPClient.PrePerform, SMTP.Op.store, Object.beforePrePerform, Object.onBase, hf,
          ht, hf', ht', hc, CMailClient.ssClear, CMailClient.ssStr, Object.setopt,
          CMailClient.setopt, CSMTPClient.addRecipients, appendRecipient, setMailRcpt,
          uploadFrom, finishPrePerform, CurlOpts.default]
      · have hc' : c ≠ "" := fun e => hc ((empty_eq_true_iff c).2 e)
        simp [CSMTPClient.PrePerform, SMTP.Op.store, Object.beforePrePerform, Object.onBase, hf,
          ht, hf', ht', hc, hc', CMailClient.ssClear, CMailClient.ssStr, Object.setopt,
          CMailClient.setopt, CSMTPClient.addRecipients, appendRecipient, setMailRcpt,
          uploadFrom, finishPrePerform, CurlOpts.default]

/-- The pre-configure hook of SMTP on `SendFile`, on a session whose local file stream is
closed. -/
theorem CSMTPClient.PrePerform_SendFile (env : Env) (o : Object CSMTPClient)
    (f t c path : String) (hclosed : o.base.m_fLocalFile.is_open = false) :
    ((CSMTPClient.PrePerform env
        ((SMTP.Op.SendFile f t c path).store o).beforePrePerform).1 = true ↔
      f ≠ "" ∧ t ≠ "" ∧ path ≠ "" ∧
      env.fopen ((SMTP.Op.SendFile f t c path).store o).beforePrePerform.base.trace path false =
        true) ∧
    ((CSMTPClient.PrePerform env
        ((SMTP.Op.SendFile f t c path).store o).beforePrePerform).1 = false →
      (CSMTPClient.PrePerform env
        ((SMTP.Op.SendFile f t c path).store o).beforePrePerform).2.base.m_pRecipientslist =
        o.base.m_pRecipientslist) ∧
    ((CSMTPClient.PrePerform env
        ((SMTP.Op.SendFile f t c path).store o).beforePrePerform).1 = true →
      (CSMTPClient.PrePerform env
        ((SMTP.Op.SendFile f t c path).store o).beforePrePerform).2.base.m_pRecipientslist =
        o.base.m_pRecipientslist ++ c_str t :: (if c = "" then [] else [c_str c]) ∧
      ∃ h, (CSMTPClient.PrePerform env
          ((SMTP.Op.SendFile f t c path).store o).beforePrePerform).2.base.m_pCurlSession =
          some h ∧
        h.MAIL_FROM = some (c_str f) ∧
        h.MAIL_RCPT =
          some (o.base.m_pRecipientslist ++ c_str t :: (if c = "" then [] else [c_str c]))) := by
  by_cases hp : empty path = true
  · obtain rfl := (empty_eq_true_iff path).1 hp
    simp [CSMTPClient.PrePerform, SMTP.Op.store, Object.beforePrePerform, Object.onBase, hp,
      CMailClient.ssClear]
  · have hp' : path ≠ "" := fun e => hp ((empty_eq_true_iff path).2 e)
    by_cases hf : empty f = true
    · obtain rfl := (empty_eq_true_iff f).1 hf
      simp [CSMTPClient.PrePerform, SMTP.Op.store, Object.beforePrePerform, Object.onBase, hf,
        CMailClient.ssClear]
    · have hf' : f ≠ "" := fun e => hf ((empty_eq_true_iff f).2 e)
      by_cases ht : empty t = true
      · obtain rfl := (empty_eq_true_iff t).1 ht
        simp [CSMTPClient.PrePerform, SMTP.Op.store, Object.beforePrePerform, Object.onBase, hf,
          ht, CMailClient.ssClear]
      · have ht' : t ≠ "" := fun e => ht ((empty_eq_true_iff t).2 e)
        cases ho : env.fopen (o.base.trace ++ [Event.reset, Event.prePerform]) path false with
        | false =>
          simp [CSMTPClient.PrePerform, SMTP.Op.store, Object.beforePrePerform, Object.onBase,
            hp, hf, ht, hp', hf', ht', ho, hclosed, CMailClient.ssClear, CMailClient.fileOpen,
            Object.logIfEnabled]
        | true =>
          by_cases hc : empty c = true
          · obtain rfl := (empty_eq_true_iff c).1 hc
            simp [CSMTPClient.PrePerform, SMTP.Op.store, Object.beforePrePerform, Object.onBase,
              hp, hf, ht, hp', hf', ht', ho, hclosed, hc, CMailClient.ssClear,
              CMailClient.fileOpen, Object.setopt, CMailClient.setopt,
              CSMTPClient.addRecipients, appendRecipient, setMailRcpt, uploadFrom,
              finishPrePerform, CurlOpts.default]
          · have hc' : c ≠ "" := fun e => hc ((empty_eq_true_iff c).2 e)
            simp [CSMTPClient.PrePerform, SMTP.Op.store, Object.beforePrePerform, Object.onBase,
              hp, hf, ht, hp', hf', ht', ho, hclosed, hc, hc', CMailClient.ssClear,
              CMailClient.fileOpen, Object.setopt, CMailClient.setopt,
              CSMTPClient.addRecipients, appendRecipient, setMailRcpt, uploadFrom,
              finishPrePerform, CurlOpts.default]

/-! ## C13: the pre-configuration of the two sending operations -/

/-- An SMTP operation on a session with a handle whose pre-configure hook passes, when it
returns: the test of the progress callback did not stop the program. -/
theorem SMTP.Op.run_returns_smtp (env : Env) (o : Object CSMTPClient) (op : SMTP.Op)
    (h0 : o.base.m_pCurlSession.isSome = true)
    (hpre : (CSMTPClient.PrePerform env (op.store o).beforePrePerform).1 = true)
    (hret : (op.run env o).2.base.crashed = false) :
    ((CSMTPClient.PrePerform env (op.store o).beforePrePerform).2.base.m_bProgressCallbackSet &&
      (CSMTPClient.PrePerform env
        (op.store o).beforePrePerform).2.base.GetProgressFnCallback.isNone) = false := by
  rw [SMTP.Op.run_eq_Perform_smtp] at hret
  exact Perform_returns CSMTPClient.vtable env (op.store o)
    (by rw [(SMTP.Op.store_base_smtp op o).2.1]; exact h0) hpre hret

/-- C13, as stated, fails for a sender or an addressee with a NUL character: the envelope
is handed to the transport as C strings, so on the SMTP session of the examples
`SendString` with the sender `a`, NUL, `b` and the addressee `c`, NUL, `d` sends a request
whose envelope sender is `"a"` and whose only recipient is `"c"`. -/
theorem smtp_envelope_cut_at_nul :
    (requests ((SMTP.Op.SendString "a\x00b" "c\x00d" "" "hello").run Env.online
      Example.smtpSession).2.base.trace).map (fun q => (q.MAIL_FROM, q.MAIL_RCPT)) =
      [(some "a", some ["c"])] ∧
    ((SMTP.Op.SendString "a\x00b" "c\x00d" "" "hello").run Env.online
      Example.smtpSession).2.base.m_pRecipientslist = ["c"] ∧
    Example.smtpSession.base.m_pRecipientslist = [] ∧
    "a" ≠ "a\x00b" ∧ "c" ≠ "c\x00d" := by
  decide

/-- C13, amended: on an SMTP session with a handle and a closed local file stream, for
`SendString` and `SendFile` called with the sender `f` and the addressees `t` and `c`: the
pre-configure hook passes exactly when `f` and `t` are not empty and, for `SendFile`, the
path is not empty and the file can be opened for reading; when it fails the call returns
false, executes no request and leaves the recipient list as it was; when it passes the
entries appended to the recipient list are `t`, followed by `c` when `c` is not empty, and
the envelope sender set on the handle is `f`, each as a C string, cut before its first NUL
character, and the call, when it returns, has executed one request, whose envelope sender
and recipients are these; nothing is cut from a string without NUL character. -/
theorem smtp_send_preconfiguration (env : Env) (o : Object CSMTPClient) (op : SMTP.Op)
    (f t c : String) (h0 : o.base.m_pCurlSession.isSome = true)
    (hclosed : o.base.m_fLocalFile.is_open = false) (he : op.envelope = some (f, t, c)) :
    ((CSMTPClient.PrePerform env (op.store o).beforePrePerform).1 = true ↔
      f ≠ "" ∧ t ≠ "" ∧ ∀ path ∈ op.source, path ≠ "" ∧
        env.fopen (op.store o).beforePrePerform.base.trace path false = true) ∧
    ((CSMTPClient.PrePerform env (op.store o).beforePrePerform).1 = false →
      (op.run env o).1 = false ∧
      requests (op.run env o).2.base.trace = requests o.base.trace ∧
      (op.run env o).2.base.m_pRecipientslist = o.base.m_pRecipientslist) ∧
    ((CSMTPClient.PrePerform env (op.store o).beforePrePerform).1 = true →
      (CSMTPClient.PrePerform env (op.store o).beforePrePerform).2.base.m_pRecipientslist =
        o.base.m_pRecipientslist ++ c_str t :: (if c = "" then [] else [c_str c]) ∧
      (∃ h, (CSMTPClient.PrePerform env (op.store o).beforePrePerform).2.base.m_pCurlSession =
          some h ∧
        h.MAIL_FROM = some (c_str f) ∧
        h.MAIL_RCPT =
          some (o.base.m_pRecipientslist ++ c_str t :: (if c = "" then [] else [c_str c]))) ∧
      ((op.run env o).2.base.crashed = false →
        ∃ q, requests (op.run env o).2.base.trace = requests o.base.trace ++ [q] ∧
          q.MAIL_FROM = some (c_str f) ∧
          q.MAIL_RCPT =
            some (o.base.m_pRecipientslist ++ c_str t :: (if c = "" then [] else [c_str c])))) ∧
    (∀ s : String, '\x00' ∉ s.data → c_str s = s) := by
  obtain ⟨st, sh, _, _, _⟩ := SMTP.Op.store_base_smtp op o
  have key :
      ((CSMTPClient.PrePerform env (op.store o).beforePrePerform).1 = true ↔
        f ≠ "" ∧ t ≠ "" ∧ ∀ path ∈ op.source, path ≠ "" ∧
          env.fopen (op.store o).beforePrePerform.base.trace path false = true) ∧
      ((CSMTPClient.PrePerform env (op.store o).beforePrePerform).1 = false →
        (CSMTPClient.PrePerform env (op.store o).beforePrePerform).2.base.m_pRecipientslist =
          o.base.m_pRecipientslist) ∧
      ((CSMTPClient.PrePerform env (op.store o).beforePrePerform).1 = true →
        (CSMTPClient.PrePerform env (op.store o).beforePrePerform).2.base.m_pRecipientslist =
          o.base.m_pRecipientslist ++ c_str t :: (if c = "" then [] else [c_str c]) ∧
        ∃ h, (CSMTPClient.PrePerform env (op.store o).beforePrePerform).2.base.m_pCurlSession =
            some h ∧
          h.MAIL_FROM = some (c_str f) ∧
          h.MAIL_RCPT =
            some (o.base.m_pRecipientslist ++
              c_str t :: (if c = "" then [] else [c_str c]))) := by
    cases op with
    | SendString f1 t1 c1 b =>
      simp only [SMTP.Op.envelope, Option.some.injEq, Prod.mk.injEq] at he
      obtain ⟨rfl, rfl, rfl⟩ := he
      simpa [SMTP.Op.source] using CSMTPClient.PrePerform_SendString env o f1 t1 c1 b
    | SendFile f1 t1 c1 path =>
      simp only [SMTP.Op.envelope, Option.some.injEq, Prod.mk.injEq] at he
      obtain ⟨rfl, rfl, rfl⟩ := he
      simpa [SMTP.Op.source] using CSMTPClient.PrePerform_SendFile env o f1 t1 c1 path hclosed
    | VerifyAddress a => simp [SMTP.Op.envelope] at he
    | ExpandMailList a => simp [SMTP.Op.envelope] at he
  refine ⟨key.1, fun hpre => ?_, fun hpre => ?_, c_str_of_no_nul⟩
  · obtain ⟨r1, r2, r3, _⟩ := Perform_no_request CSMTPClient.vtable env (op.store o)
      (by rw [sh]; exact h0) hpre (CSMTPClient.PrePerform_requests_smtp env _)
    rw [SMTP.Op.run_eq_Perform_smtp]
    refine ⟨r1, by rw [r2, st], r3.trans ?_⟩
    exact key.2.1 hpre
  · obtain ⟨k1, h, hh, hfrom, hrcpt⟩ := key.2.2 hpre
    refine ⟨k1, ⟨h, hh, hfrom, hrcpt⟩, fun hret => ?_⟩
    have r := (Perform_one_request CSMTPClient.vtable env (op.store o) h
      (by rw [sh]; exact h0) hpre hh (CSMTPClient.PrePerform_requests_smtp env _)
      (CSMTPClient.PostPerform_requests_smtp env)
      (SMTP.Op.run_returns_smtp env o op h0 hpre hret)).2
    rw [st] at r
    rw [SMTP.Op.run_eq_Perform_smtp]
    have hs := settings_request env
      (CSMTPClient.PrePerform env (op.store o).beforePrePerform).2.base h
    exact ⟨_, r, (congrArg Request.MAIL_FROM hs).trans hfrom,
      (congrArg Request.MAIL_RCPT hs).trans hrcpt⟩

/-- C13, amended, on the SMTP session of the examples: `SendString` with a sender, an
addressee and a copy passes the hook and sends to both; without an addressee it returns
false and sends nothing. -/
theorem smtp_send_preconfiguration_example :
    Example.smtpSession.base.m_pRecipientslist = [] ∧
    c_str "a@example.com" = "a@example.com" ∧ c_str "b@example.com" = "b@example.com" ∧
    c_str "c@example.com" = "c@example.com" ∧
    (∃ q, requests ((SMTP.Op.SendString "a@example.com" "b@example.com" "c@example.com"
        "hello").run Env.online Example.smtpSession).2.base.trace =
        requests Example.smtpSession.base.trace ++ [q] ∧
      q.MAIL_FROM = some (c_str "a@example.com") ∧
      q.MAIL_RCPT = some (Example.smtpSession.base.m_pRecipientslist ++
        c_str "b@example.com" ::
          (if "c@example.com" = "" then [] else [c_str "c@example.com"]))) ∧
    ((SMTP.Op.SendString "a@example.com" "" "c@example.com" "hello").run Env.online
      Example.smtpSession).1 = false ∧
    ((SMTP.Op.SendString "a@example.com" "" "c@example.com" "hello").run Env.online
      Example.smtpSession).2.base.m_pRecipientslist =
      Example.smtpSession.base.m_pRecipientslist :=
  ⟨by decide, by decide, by decide, by decide,
    ((smtp_send_preconfiguration Env.online Example.smtpSession
      (SMTP.Op.SendString "a@example.com" "b@example.com" "c@example.com" "hello")
      "a@example.com" "b@example.com" "c@example.com" (by decide) (by decide) rfl).2.2.1
      (by decide)).2.2 (by decide),
    ((smtp_send_preconfiguration Env.online Example.smtpSession
      (SMTP.Op.SendString "a@example.com" "" "c@example.com" "hello")
      "a@example.com" "" "c@example.com" (by decide) (by decide) rfl).2.1 (by decide)).1,
    ((smtp_send_preconfiguration Env.online Example.smtpSession
      (SMTP.Op.SendString "a@example.com" "" "c@example.com" "hello")
      "a@example.com" "" "c@example.com" (by decide) (by decide) rfl).2.1 (by decide)).2.2⟩

theorem firstChar_append_of_ne (a b : String) (ha : a ≠ "") :
    firstChar (a ++ b) = firstChar a := by
  have hd := data_ne_nil_of_ne a ha
  unfold firstChar
  rw [String.data_append]
  cases h : a.data with
  | nil => exact absurd h hd
  | cons x xs => rfl

theorem firstChar_angleBracketed (addr : String) :
    firstChar (SMTP.angleBracketed addr) = some '<' := by
  unfold SMTP.angleBracketed
  dsimp only
  by_cases h1 : firstChar addr = some '<'
  · have hne : addr ≠ "" := by
      rintro rfl
      simp [firstChar] at h1
    rw [if_pos h1]
    split
    · exact h1
    · rw [firstChar_append_of_ne _ _ hne]
      exact h1
  · rw [if_neg h1]
    split
    · rfl
    · rfl

theorem lastChar_angleBracketed (addr : String) :
    lastChar (SMTP.angleBracketed addr) = some '>' := by
  have key : ∀ a : String, lastChar (if lastChar a = some '>' then a else a ++ ">") = some '>' := by
    intro a
    by_cases h : lastChar a = some '>'
    · rw [if_pos h]
      exact h
    · rw [if_neg h]
      exact lastChar_append_of_ne a ">" (by decide)
  exact key _

/-- An address between angle brackets is left as it is. -/
theorem angleBracketed_of_wrapped (w : String) (h1 : firstChar w = some '<')
    (h2 : lastChar w = some '>') : SMTP.angleBracketed w = w := by
  unfold SMTP.angleBracketed
  dsimp only
  rw [if_pos h1, if_pos h2]

theorem angleBracketed_contains (addr : String) :
    ∃ l r : String, SMTP.angleBracketed addr = l ++ addr ++ r := by
  unfold SMTP.angleBracketed
  dsimp only
  by_cases h1 : firstChar addr = some '<'
  · rw [if_pos h1]
    split
    · exact ⟨"", "", by simp⟩
    · exact ⟨"", ">", by simp⟩
  · rw [if_neg h1]
    split
    · exact ⟨"<", "", by simp⟩
    · exact ⟨"<", ">", rfl⟩

/-- The pre-configure hook of SMTP on `VerifyAddress`. -/
theorem CSMTPClient.PrePerform_VerifyAddress (env : Env) (o : Object CSMTPClient)
    (addr : String) :
    ((CSMTPClient.PrePerform env
        ((SMTP.Op.VerifyAddress addr).store o).beforePrePerform).1 = false ↔ addr = "") ∧
    (addr ≠ "" →
      (CSMTPClient.PrePerform env
        ((SMTP.Op.VerifyAddress addr).store o).beforePrePerform).2.base.m_pRecipientslist =
        o.base.m_pRecipientslist ++ [c_str (SMTP.angleBracketed addr)] ∧
      (CSMTPClient.PrePerform env
        ((SMTP.Op.VerifyAddress addr).store o).beforePrePerform).2.base.m_pCurlSession.map
        CurlOpts.MAIL_RCPT =
        some (some (o.base.m_pRecipientslist ++ [c_str (SMTP.angleBracketed addr)]))) := by
  by_cases he : empty addr = true
  · obtain rfl := (empty_eq_true_iff addr).1 he
    simp [CSMTPClient.PrePerform, SMTP.Op.store, Object.beforePrePerform, Object.onBase, he,
      CMailClient.ssClear]
  · have hne : addr ≠ "" := fun e => he ((empty_eq_true_iff addr).2 e)
    by_cases h1 : firstChar addr = some '<'
    · by_cases h2 : lastChar addr = some '>'
      · simp [CSMTPClient.PrePerform, SMTP.Op.store, Object.beforePrePerform, Object.onBase, he,
          hne, h1, h2, CMailClient.ssClear, Object.setopt, CMailClient.setopt, appendRecipient,
          setMailRcpt, finishPrePerform, CurlOpts.default, Object.onDerived,
          SMTP.angleBracketed]
      · simp [CSMTPClient.PrePerform, SMTP.Op.store, Object.beforePrePerform, Object.onBase, he,
          hne, h1, h2, CMailClient.ssClear, Object.setopt, CMailClient.setopt, appendRecipient,
          setMailRcpt, finishPrePerform, CurlOpts.default, Object.onDerived,
          SMTP.angleBracketed]
    · have e2 : lastChar ("<" ++ addr) = lastChar addr := lastChar_append_of_ne _ _ hne
      by_cases h2 : lastChar addr = some '>'
      · simp [CSMTPClient.PrePerform, SMTP.Op.store, Object.beforePrePerform, Object.onBase, he,
          hne, h1, h2, e2, CMailClient.ssClear, Object.setopt, CMailClient.setopt,
          appendRecipient, setMailRcpt, finishPrePerform, CurlOpts.default, Object.onDerived,
          SMTP.angleBracketed]
      · simp [CSMTPClient.PrePerform, SMTP.Op.store, Object.beforePrePerform, Object.onBase, he,
          hne, h1, h2, e2, CMailClient.ssClear, Object.setopt, CMailClient.setopt,
          appendRecipient, setMailRcpt, finishPrePerform, CurlOpts.default, Object.onDerived,
          SMTP.angleBracketed]

/-- Wrapping an address brings no NUL character into it. -/
theorem angleBracketed_no_nul (addr : String) (h : '\x00' ∉ addr.data) :
    '\x00' ∉ (SMTP.angleBracketed addr).data := by
  unfold SMTP.angleBracketed
  dsimp only
  split <;> split <;>
    simp only [no_nul_append, h, not_false_eq_true, true_and, and_true] <;> decide

/-! ## C14: the address `VerifyAddress` asks for -/

/-- C14, as stated, fails for an address with a NUL character: the recipient is handed to
the transport as a C string, so on the SMTP session of the examples `VerifyAddress` called
with `a`, NUL, `b` appends the recipient `"<a"`, which does not end with `>`. -/
theorem verify_address_cut_at_nul :
    (requests (CSMTPClient.VerifyAddress Env.online "a\x00b"
      Example.smtpSession).2.base.trace).map CurlOpts.MAIL_RCPT = [some ["<a"]] ∧
    (CSMTPClient.VerifyAddress Env.online "a\x00b"
      Example.smtpSession).2.base.m_pRecipientslist = ["<a"] ∧
    Example.smtpSession.base.m_pRecipientslist = [] ∧
    SMTP.angleBracketed "a\x00b" = "<a\x00b>" ∧
    lastChar "<a" ≠ some '>' := by
  decide

/-- C14, amended: on an SMTP session with a handle, the pre-configure hook of
`VerifyAddress(addr)` fails exactly when `addr` is empty; for every other `addr` the
recipient appended, and handed to the transport with the request when the call returns,
is `SMTP.angleBracketed addr` (`<` in front exactly when the first character is not `<`,
`>` behind exactly when the last character is then not `>`) as a C string, cut before its
first NUL character, which is `SMTP.angleBracketed addr` itself when `addr` has no NUL
character; the wrapped address begins with `<`, ends with `>` and contains `addr`; an
address that begins with `<` and ends with `>` is wrapped into itself, so wrapping twice
is wrapping once. -/
theorem verify_address_wrapping (env : Env) (o : Object CSMTPClient) (addr : String)
    (h0 : o.base.m_pCurlSession.isSome = true) :
    ((CSMTPClient.PrePerform env
        ((SMTP.Op.VerifyAddress addr).store o).beforePrePerform).1 = false ↔ addr = "") ∧
    (addr ≠ "" →
      (CSMTPClient.PrePerform env
        ((SMTP.Op.VerifyAddress addr).store o).beforePrePerform).2.base.m_pRecipientslist =
        o.base.m_pRecipientslist ++ [c_str (SMTP.angleBracketed addr)] ∧
      ((CSMTPClient.VerifyAddress env addr o).2.base.crashed = false →
        ∃ q, requests (CSMTPClient.VerifyAddress env addr o).2.base.trace =
            requests o.base.trace ++ [q] ∧
          q.MAIL_RCPT =
            some (o.base.m_pRecipientslist ++ [c_str (SMTP.angleBracketed addr)]))) ∧
    ('\x00' ∉ addr.data → c_str (SMTP.angleBracketed addr) = SMTP.angleBracketed addr) ∧
    firstChar (SMTP.angleBracketed addr) = some '<' ∧
    lastChar (SMTP.angleBracketed addr) = some '>' ∧
    (∃ l r : String, SMTP.angleBracketed addr = l ++ addr ++ r) ∧
    (∀ w, firstChar w = some '<' → lastChar w = some '>' → SMTP.angleBracketed w = w) ∧
    SMTP.angleBracketed (SMTP.angleBracketed addr) = SMTP.angleBracketed addr := by
  obtain ⟨k1, k2⟩ := CSMTPClient.PrePerform_VerifyAddress env o addr
  refine ⟨k1, fun hne => ?_,
    fun hn => c_str_of_no_nul _ (angleBracketed_no_nul addr hn),
    firstChar_angleBracketed addr, lastChar_angleBracketed addr,
    angleBracketed_contains addr, angleBracketed_of_wrapped,
    angleBracketed_of_wrapped _ (firstChar_angleBracketed addr) (lastChar_angleBracketed addr)⟩
  obtain ⟨r1, r2⟩ := k2 hne
  refine ⟨r1, fun hret => ?_⟩
  have hpre : (CSMTPClient.PrePerform env
      ((SMTP.Op.VerifyAddress addr).store o).beforePrePerform).1 = true := by
    cases hb : (CSMTPClient.PrePerform env
        ((SMTP.Op.VerifyAddress addr).store o).beforePrePerform).1 with
    | false => exact absurd (k1.1 hb) hne
    | true => rfl
  cases hh : (CSMTPClient.PrePerform env
      ((SMTP.Op.VerifyAddress addr).store o).beforePrePerform).2.base.m_pCurlSession with
  | none => simp [hh] at r2
  | some h =>
    rw [hh] at r2
    have hr : h.MAIL_RCPT =
        some (o.base.m_pRecipientslist ++ [c_str (SMTP.angleBracketed addr)]) := by
      simpa using r2
    have r := (Perform_one_request CSMTPClient.vtable env ((SMTP.Op.VerifyAddress addr).store o)
      h h0 hpre hh (CSMTPClient.PrePerform_requests_smtp env _)
      (CSMTPClient.PostPerform_requests_smtp env)
      (SMTP.Op.run_returns_smtp env o (SMTP.Op.VerifyAddress addr) h0 hpre hret)).2
    have hs := settings_request env (CSMTPClient.PrePerform env
      ((SMTP.Op.VerifyAddress addr).store o).beforePrePerform).2.base h
    exact ⟨_, r, (congrArg Request.MAIL_RCPT hs).trans hr⟩

/-- C14, amended, on the SMTP session of the examples: `VerifyAddress("user@example.com")`
asks for `<user@example.com>`, and so does `VerifyAddress("<user@example.com>")`. -/
theorem verify_address_wrapping_example :
    SMTP.angleBracketed "user@example.com" = "<user@example.com>" ∧
    SMTP.angleBracketed "<user@example.com>" = "<user@example.com>" ∧
    SMTP.angleBracketed "<user@example.com" = "<user@example.com>" ∧
    SMTP.angleBracketed "user@example.com>" = "<user@example.com>" ∧
    c_str (SMTP.angleBracketed "user@example.com") = "<user@example.com>" ∧
    ∃ q, requests (CSMTPClient.VerifyAddress Env.online "user@example.com"
        Example.smtpSession).2.base.trace = requests Example.smtpSession.base.trace ++ [q] ∧
      q.MAIL_RCPT = some (Example.smtpSession.base.m_pRecipientslist ++
        [c_str (SMTP.angleBracketed "user@example.com")]) :=
  ⟨by decide, by decide, by decide, by decide, by decide,
    ((verify_address_wrapping Env.online Example.smtpSession "user@example.com"
      (by decide)).2.1 (by decide)).2 (by decide)⟩

/-! ## The logger is called only with `ENABLE_LOG` -/

theorem quiet_same (c : CMailClient) : Quiet c c := ⟨rfl, fun _ => rfl⟩

theorem quiet_then {a b c : CMailClient} (h1 : Quiet a b) (h2 : Quiet b c) : Quiet a c :=
  ⟨h2.flags.trans h1.flags, fun h => (h2.silent (by rw [h1.flags]; exact h)).trans (h1.silent h)⟩

/-- A step that keeps the flags and adds no log line to the trace unless `ENABLE_LOG` is
set. -/
theorem quiet_of_events (c c' : CMailClient) (h1 : c'.m_eSettingsFlags = c.m_eSettingsFlags)
    (evs : List Event) (ht : c'.trace = c.trace ++ evs)
    (hl : flagSet c.m_eSettingsFlags ENABLE_LOG = false → logs evs = []) : Quiet c c' :=
  ⟨h1, fun h => by rw [ht, logs_append, hl h, List.append_nil]⟩

theorem quiet_setopt (c : CMailClient) (f : CurlOpts → CurlOpts) : Quiet c (c.setopt f) :=
  quiet_of_events c _ rfl [] (by simp [CMailClient.setopt]) (fun _ => rfl)

theorem quiet_logIfEnabled (c : CMailClient) (msg : String) : Quiet c (c.logIfEnabled msg) := by
  unfold CMailClient.logIfEnabled
  split
  · rename_i h
    exact quiet_of_events c _ rfl [Event.log msg] rfl (fun h2 => by rw [h2] at h; cases h)
  · exact quiet_same c

theorem quiet_fileOpen (env : Env) (c : CMailClient) (path : String) (w : Bool) :
    Quiet c (c.fileOpen env path w) :=
  quiet_of_events c _ rfl _ rfl (fun _ => rfl)

theorem quiet_closeIfOpen (c : CMailClient) : Quiet c c.closeIfOpen := by
  unfold CMailClient.closeIfOpen
  split
  · exact quiet_of_events c _ rfl [Event.fileClose] rfl (fun _ => rfl)
  · exact quiet_same c

theorem quiet_curl_easy_perform (env : Env) (c : CMailClient) :
    Quiet c (c.curl_easy_perform env).2 := by
  unfold CMailClient.curl_easy_perform
  cases c.m_pCurlSession with
  | none => exact quiet_same c
  | some opts => exact quiet_of_events c _ rfl _ rfl (fun _ => rfl)

/-! The same steps, on an object and after what came before. -/

theorem quiet_obj_setopt {δ : Type} {c : CMailClient} {o : Object δ} (f : CurlOpts → CurlOpts)
    (h : Quiet c o.base) : Quiet c (o.setopt f).base :=
  quiet_then h (quiet_setopt o.base f)

theorem quiet_obj_logIfEnabled {δ : Type} {c : CMailClient} {o : Object δ} (msg : String)
    (h : Quiet c o.base) : Quiet c (o.logIfEnabled msg).base :=
  quiet_then h (quiet_logIfEnabled o.base msg)

theorem quiet_writeInString {δ : Type} {c : CMailClient} {o : Object δ} (addr : Nat)
    (h : Quiet c o.base) : Quiet c (writeInString o addr).base :=
  quiet_obj_setopt _ h

theorem quiet_writeToFile {δ : Type} {c : CMailClient} {o : Object δ}
    (h : Quiet c o.base) : Quiet c (writeToFile o).base :=
  quiet_obj_setopt _ h

theorem quiet_uploadFrom {δ : Type} {c : CMailClient} {o : Object δ} (cb : Callback)
    (data : DataPtr) (h : Quiet c o.base) : Quiet c (uploadFrom o cb data).base :=
  quiet_obj_setopt _ h

theorem quiet_finishPrePerform {δ : Type} {c : CMailClient} {o : Object δ} (url : String)
    (h : Quiet c o.base) : Quiet c (finishPrePerform o url).2.base :=
  quiet_obj_setopt _ h

theorem quiet_appendRecipient {δ : Type} {c : CMailClient} {o : Object δ} (r : String)
    (h : Quiet c o.base) : Quiet c (appendRecipient o r).base :=
  quiet_then h (quiet_of_events _ _ rfl []
    (by simp [MailClient.appendRecipient, Object.onBase]) (fun _ => rfl))

theorem quiet_setMailRcpt {δ : Type} {c : CMailClient} {o : Object δ}
    (h : Quiet c o.base) : Quiet c (setMailRcpt o).base :=
  quiet_obj_setopt _ h

theorem quiet_obj_fileOpen {δ : Type} {c : CMailClient} {o : Object δ} (env : Env) (w : Bool)
    (h : Quiet c o.base) :
    Quiet c (o.onBase (fun c => c.fileOpen env c.m_strLocalFile w)).base :=
  quiet_then h (quiet_fileOpen env o.base _ w)

theorem quiet_obj_closeIfOpen {δ : Type} {c : CMailClient} {o : Object δ}
    (h : Quiet c o.base) : Quiet c (o.onBase CMailClient.closeIfOpen).base :=
  quiet_then h (quiet_closeIfOpen o.base)

theorem quiet_ssClear {δ : Type} {c : CMailClient} {o : Object δ}
    (h : Quiet c o.base) : Quiet c (o.onBase CMailClient.ssClear).base :=
  quiet_then h (quiet_of_events _ _ rfl []
    (by simp [CMailClient.ssClear, Object.onBase]) (fun _ => rfl))

theorem quiet_ssStr {δ : Type} {c : CMailClient} {o : Object δ} (text : String)
    (h : Quiet c o.base) : Quiet c (o.onBase (CMailClient.ssStr text)).base :=
  quiet_then h (quiet_of_events _ _ rfl []
    (by simp [CMailClient.ssStr, Object.onBase]) (fun _ => rfl))

theorem quiet_onDerived {δ : Type} {c : CMailClient} {o : Object δ} (f : δ → δ)
    (h : Quiet c o.base) : Quiet c (o.onDerived f).base :=
  h

theorem quiet_obj_curl_easy_perform {δ : Type} {c : CMailClient} {o : Object δ} (env : Env)
    (h : Quiet c o.base) :
    Quiet c (o.onBase (fun _ => (o.base.curl_easy_perform env).2)).base :=
  quiet_then h (quiet_curl_easy_perform env o.base)

theorem quiet_ite_obj {δ : Type} {c : CMailClient} {p : Prop} [Decidable p]
    {a b : Object δ} (ha : Quiet c a.base) (hb : Quiet c b.base) :
    Quiet c (if p then a else b).base := by
  split
  · exact ha
  · exact hb

theorem quiet_ite_pair {δ : Type} {c : CMailClient} {p : Prop} [Decidable p]
    {a b : Bool × Object δ} (ha : Quiet c a.2.base) (hb : Quiet c b.2.base) :
    Quiet c (if p then a else b).2.base := by
  split
  · exact ha
  · exact hb

theorem quiet_addRecipients {c : CMailClient} {o : Object CSMTPClient}
    (h : Quiet c o.base) : Quiet c (CSMTPClient.addRecipients o).base := by
  unfold CSMTPClient.addRecipients
  dsimp only
  apply quiet_setMailRcpt
  apply quiet_ite_obj
  · exact quiet_appendRecipient _ (quiet_appendRecipient _ h)
  · exact quiet_appendRecipient _ h

theorem quiet_PrePerform_pop3 (env : Env) (o : Object CPOPClient) :
    Quiet o.base (CPOPClient.PrePerform env o).2.base := by
  unfold CPOPClient.PrePerform
  dsimp only
  repeat' split
  all_goals
    with_reducible repeat (first
      | dsimp only
      | exact quiet_same _
      | apply quiet_ite_pair
      | apply quiet_ite_obj
      | apply quiet_finishPrePerform
      | apply quiet_writeInString
      | apply quiet_writeToFile
      | apply quiet_uploadFrom
      | apply quiet_setMailRcpt
      | apply quiet_appendRecipient
      | apply quiet_addRecipients
      | apply quiet_obj_logIfEnabled
      | apply quiet_obj_fileOpen
      | apply quiet_obj_curl_easy_perform
      | apply quiet_obj_closeIfOpen
      | apply quiet_ssClear
      | apply quiet_ssStr
      | apply quiet_onDerived
      | apply quiet_obj_setopt)

theorem quiet_PostPerform_pop3 (env : Env) (code : Nat) (o : Object CPOPClient) :
    Quiet o.base (CPOPClient.PostPerform env code o).2.base := by
  unfold CPOPClient.PostPerform
  split
  · exact quiet_obj_closeIfOpen (quiet_same _)
  · exact quiet_same _

theorem quiet_PrePerform_imap (env : Env) (o : Object CIMAPClient) :
    Quiet o.base (CIMAPClient.PrePerform env o).2.base := by
  unfold CIMAPClient.PrePerform
  dsimp only
  repeat' split
  all_goals
    with_reducible repeat (first
      | dsimp only
      | exact quiet_same _
      | apply quiet_ite_pair
      | apply quiet_ite_obj
      | apply quiet_finishPrePerform
      | apply quiet_writeInString
      | apply quiet_writeToFile
      | apply quiet_uploadFrom
      | apply quiet_setMailRcpt
      | apply quiet_appendRecipient
      | apply quiet_addRecipients
      | apply quiet_obj_logIfEnabled
      | apply quiet_obj_fileOpen
      | apply quiet_obj_curl_easy_perform
      | apply quiet_obj_closeIfOpen
      | apply quiet_ssClear
      | apply quiet_ssStr
      | apply quiet_onDerived
      | apply quiet_obj_setopt)

theorem quiet_PostPerform_imap (env : Env) (code : Nat) (o : Object CIMAPClient) :
    Quiet o.base (CIMAPClient.PostPerform env code o).2.base := by
  unfold CIMAPClient.PostPerform
  dsimp only
  repeat' split
  all_goals
    with_reducible repeat (first
      | dsimp only
      | exact quiet_same _
      | apply quiet_ite_pair
      | apply quiet_ite_obj
      | apply quiet_finishPrePerform
      | apply quiet_writeInString
      | apply quiet_writeToFile
      | apply quiet_uploadFrom
      | apply quiet_setMailRcpt
      | apply quiet_appendRecipient
      | apply quiet_addRecipients
      | apply quiet_obj_logIfEnabled
      | apply quiet_obj_fileOpen
      | apply quiet_obj_curl_easy_perform
      | apply quiet_obj_closeIfOpen
      | apply quiet_ssClear
      | apply quiet_ssStr
      | apply quiet_onDerived
      | apply quiet_obj_setopt)

theorem quiet_PrePerform_smtp (env : Env) (o : Object CSMTPClient) :
    Quiet o.base (CSMTPClient.PrePerform env o).2.base := by
  unfold CSMTPClient.PrePerform
  dsimp only
  split
  all_goals
    with_reducible repeat (first
      | dsimp only
      | exact quiet_same _
      | apply quiet_ite_pair
      | apply quiet_ite_obj
      | apply quiet_finishPrePerform
      | apply quiet_writeInString
      | apply quiet_writeToFile
      | apply quiet_uploadFrom
      | apply quiet_setMailRcpt
      | apply quiet_appendRecipient
      | apply quiet_addRecipients
      | apply quiet_obj_logIfEnabled
      | apply quiet_obj_fileOpen
      | apply quiet_obj_curl_easy_perform
      | apply quiet_obj_closeIfOpen
      | apply quiet_ssClear
      | apply quiet_ssStr
      | apply quiet_onDerived
      | apply quiet_obj_setopt)

theorem quiet_PostPerform_smtp (env : Env) (code : Nat) (o : Object CSMTPClient) :
    Quiet o.base (CSMTPClient.PostPerform env code o).2.base := by
  unfold CSMTPClient.PostPerform
  split
  · exact quiet_obj_closeIfOpen (quiet_same _)
  · exact quiet_same _

theorem quiet_PrePerform (a : Adapter) (env : Env) (o : Object a.Fields) :
    Quiet o.base (a.vtable.PrePerform env o).2.base := by
  cases a with
  | mail => exact quiet_same _
  | pop3 => exact quiet_PrePerform_pop3 env o
  | imap => exact quiet_PrePerform_imap env o
  | smtp => exact quiet_PrePerform_smtp env o

theorem quiet_PostPerform (a : Adapter) (env : Env) (code : Nat) (o : Object a.Fields) :
    Quiet o.base (a.vtable.PostPerform env code o).2.base := by
  cases a with
  | mail => exact quiet_same _
  | pop3 => exact quiet_PostPerform_pop3 env code o
  | imap => exact quiet_PostPerform_imap env code o
  | smtp => exact quiet_PostPerform_smtp env code o

theorem quiet_beforePrePerform {δ : Type} (o : Object δ) : Quiet o.base o.beforePrePerform.base :=
  quiet_of_events _ _ rfl [Event.reset, Event.prePerform]
    (by simp [Object.beforePrePerform, Object.onBase]) (fun _ => rfl)

theorem quiet_execute {δ : Type} (env : Env) (o : Object δ) :
    Quiet o.base (o.execute env).2.base := by
  cases hh : o.base.m_pCurlSession with
  | none =>
    rw [(execute_of_no_handle env o hh).2.2]
    exact quiet_of_events _ _ rfl _ rfl (fun _ => rfl)
  | some h =>
    rw [(execute_of_handle env o h hh).2.2]
    exact quiet_of_events _ _ rfl _ rfl (fun _ => rfl)

theorem quiet_nullDereference {δ : Type} (env : Env) (o : Object δ) :
    Quiet o.base (o.onBase (CMailClient.nullDereference env)).base :=
  quiet_then (quiet_setopt o.base (CMailClient.settingsBeforeProgress env o.base))
    ⟨rfl, fun _ => rfl⟩

/-- The perform cycle logs only with `ENABLE_LOG`, whatever the hooks are, as long as they
do. -/
theorem quiet_Perform {δ : Type} (vt : VTable δ) (env : Env)
    (hpre : ∀ o, Quiet o.base (vt.PrePerform env o).2.base)
    (hpost : ∀ code o, Quiet o.base (vt.PostPerform env code o).2.base) (o : Object δ) :
    Quiet o.base (Perform vt env o).2.base := by
  unfold Perform
  split
  · exact quiet_logIfEnabled _ _
  · have q1 := quiet_then (quiet_beforePrePerform o) (hpre o.beforePrePerform)
    dsimp only
    split
    · exact quiet_then q1 (quiet_logIfEnabled _ _)
    · split
      · exact quiet_then q1 (quiet_nullDereference env _)
      · have q2 := quiet_then q1 (quiet_execute env (vt.PrePerform env o.beforePrePerform).2)
        have q3 := quiet_then q2
          (hpost ((vt.PrePerform env o.beforePrePerform).2.execute env).1
            ((vt.PrePerform env o.beforePrePerform).2.execute env).2)
        split
        · exact quiet_then q3 (quiet_logIfEnabled _ _)
        · split
          · exact quiet_then q3 (quiet_logIfEnabled _ _)
          · exact q3

/-- A change of members other than the flags and the trace. -/
theorem quiet_of_eq (c c' : CMailClient) (h1 : c'.m_eSettingsFlags = c.m_eSettingsFlags)
    (h2 : c'.trace = c.trace) : Quiet c c' :=
  ⟨h1, fun _ => by rw [h2]⟩

theorem quiet_op (a : Adapter) (env : Env) (x : a.Op) (o : Object a.Fields) :
    Quiet o.base (a.run env x o).2.base := by
  cases a with
  | mail => exact nomatch x
  | pop3 =>
    show Quiet o.base (POP.Op.run env x o).2.base
    rw [POP.Op.run_eq_Perform]
    refine quiet_then ?_ (quiet_Perform _ env (quiet_PrePerform Adapter.pop3 env)
      (quiet_PostPerform Adapter.pop3 env) _)
    cases x <;> exact quiet_of_eq _ _ rfl rfl
  | imap =>
    show Quiet o.base (IMAP.Op.run env x o).2.base
    rw [IMAP.Op.run_eq_Perform_imap]
    refine quiet_then ?_ (quiet_Perform _ env (quiet_PrePerform Adapter.imap env)
      (quiet_PostPerform Adapter.imap env) _)
    cases x <;> exact quiet_of_eq _ _ rfl rfl
  | smtp =>
    show Quiet o.base (SMTP.Op.run env x o).2.base
    rw [SMTP.Op.run_eq_Perform_smtp]
    refine quiet_then ?_ (quiet_Perform _ env (quiet_PrePerform Adapter.smtp env)
      (quiet_PostPerform Adapter.smtp env) _)
    cases x <;> exact quiet_of_eq _ _ rfl rfl

theorem quiet_CleanupSession (c : CMailClient) : Quiet c c.CleanupSession.2 := by
  unfold CMailClient.CleanupSession
  split
  · exact quiet_logIfEnabled _ _
  · exact quiet_of_events _ _ rfl [Event.cleanup] rfl (fun _ => rfl)

theorem quiet_destroySession (c : CMailClient) : Quiet c c.destroySession := by
  unfold CMailClient.destroySession
  split
  · exact quiet_then (quiet_logIfEnabled _ _) (quiet_CleanupSession _)
  · exact quiet_same c

/-- The function `InitSession` adds to the trace at most a log line, and only with
`ENABLE_LOG` set in the flags stored when it is called; it changes the stored flags only
when the host is not empty and the session has no handle, and then to the flags it is
given. -/
theorem InitSession_logs (a : Adapter) (env : Env) (strHost strLogin strPassword : String)
    (eSettingsFlags eSslTlsFlags : Nat) (o : Object a.Fields) :
    (flagSet o.base.m_eSettingsFlags ENABLE_LOG = false →
      logs (InitSession a.vtable env strHost strLogin strPassword eSettingsFlags eSslTlsFlags
        o).2.base.trace = logs o.base.trace) ∧
    (InitSession a.vtable env strHost strLogin strPassword eSettingsFlags eSslTlsFlags
        o).2.base.m_eSettingsFlags =
      if (!empty strHost && o.base.m_pCurlSession.isNone) = true then eSettingsFlags
      else o.base.m_eSettingsFlags := by
  by_cases he : empty strHost = true
  · have : InitSession a.vtable env strHost strLogin strPassword eSettingsFlags eSslTlsFlags o =
        (false, o.logIfEnabled LOG_ERROR_EMPTY_HOST_MSG) := by
      unfold InitSession
      simp [he]
    rw [this]
    have q := quiet_logIfEnabled o.base LOG_ERROR_EMPTY_HOST_MSG
    exact ⟨q.silent, by simpa [he] using q.flags⟩
  · have hne : strHost ≠ "" := fun e => he ((empty_eq_true_iff strHost).2 e)
    cases hh : o.base.m_pCurlSession with
    | some h =>
      rw [InitSession_of_handle _ _ _ _ _ _ _ _ (by simp [hh])]
      have q := quiet_logIfEnabled o.base
        (if empty strHost then LOG_ERROR_EMPTY_HOST_MSG else LOG_ERROR_CURL_ALREADY_INIT_MSG)
      exact ⟨q.silent, by simpa [he, hh] using q.flags⟩
    | none =>
      rw [InitSession_of_no_handle _ _ _ _ _ _ _ _ hne hh]
      obtain ⟨_, k2, k3, _⟩ := Adapter.ParseURL_keeps a (o.onBase (CMailClient.storeSession
        (if env.curl_easy_init o.base.trace then some CurlOpts.default else none)
        eSettingsFlags eSslTlsFlags strHost))
      refine ⟨fun _ => ?_, ?_⟩
      · show logs (a.vtable.ParseURL _).base.trace = _
        rw [k3]
        rfl
      · show (a.vtable.ParseURL _).base.m_eSettingsFlags = _
        rw [k2]
        simp [he, Object.onBase, CMailClient.storeSession]

/-- A call made on a session whose stored flags lack `ENABLE_LOG` logs nothing, and the
flags still lack it afterwards unless the call is an `InitSession` that gets past its
guards with flags that contain it. -/
theorem Call.run_logs {a : Adapter} (env : Env) (c : Call a) (o : Object a.Fields)
    (h0 : flagSet o.base.m_eSettingsFlags ENABLE_LOG = false) :
    logs (c.run env o).2.base.trace = logs o.base.trace ∧
    (c.turnsLogOn o = false →
      flagSet (c.run env o).2.base.m_eSettingsFlags ENABLE_LOG = false) := by
  have of_quiet : ∀ o' : Object a.Fields, Quiet o.base o'.base →
      logs o'.base.trace = logs o.base.trace ∧
      flagSet o'.base.m_eSettingsFlags ENABLE_LOG = false :=
    fun o' q => ⟨q.silent h0, by rw [q.flags]; exact h0⟩
  cases c with
  | InitSession strHost strLogin strPassword eSettingsFlags eSslTlsFlags =>
    obtain ⟨k1, k2⟩ := InitSession_logs a env strHost strLogin strPassword eSettingsFlags
      eSslTlsFlags o
    refine ⟨k1 h0, fun ht => ?_⟩
    show flagSet (MailClient.InitSession a.vtable env strHost strLogin strPassword eSettingsFlags
      eSslTlsFlags o).2.base.m_eSettingsFlags ENABLE_LOG = false
    rw [k2]
    simp only [Call.turnsLogOn] at ht
    split
    · rename_i hg
      rw [hg] at ht
      simpa using ht
    · exact h0
  | CleanupSession =>
    have q : Quiet o.base (a.vtable.CleanupSession o).2.base := by
      rw [(Adapter.CleanupSession_base a o).2]
      exact quiet_CleanupSession o.base
    exact ⟨(of_quiet _ q).1, fun _ => (of_quiet _ q).2⟩
  | op x =>
    have q := quiet_op a env x o
    exact ⟨(of_quiet _ q).1, fun _ => (of_quiet _ q).2⟩
  | SetProgressFnCallback p => exact ⟨rfl, fun _ => h0⟩
  | SetProxy p =>
    have q : Quiet o.base (o.onBase (CMailClient.SetProxy p)).base := by
      simp only [Object.onBase, CMailClient.SetProxy]
      split
      · exact quiet_same _
      · split <;> exact quiet_of_eq _ _ rfl rfl
    exact ⟨(of_quiet _ q).1, fun _ => (of_quiet _ q).2⟩
  | SetTimeout t => exact ⟨rfl, fun _ => h0⟩
  | SetNoSignal b => exact ⟨rfl, fun _ => h0⟩
  | SetSSLCertFile p => exact ⟨rfl, fun _ => h0⟩
  | SetSSLKeyFile p => exact ⟨rfl, fun _ => h0⟩
  | SetSSLKeyPassword p => exact ⟨rfl, fun _ => h0⟩

theorem Call.runAll_logs {a : Adapter} (env : Env) (cs : List (Call a)) :
    ∀ o : Object a.Fields, Call.logOffAtEntry env cs o = true →
      logs (Call.runAll env cs o).base.trace = logs o.base.trace := by
  induction cs with
  | nil => intro o _; rfl
  | cons c cs ih =>
    intro o h
    simp only [Call.logOffAtEntry, Bool.and_eq_true, Bool.not_eq_true'] at h
    show logs (Call.runAll env cs (c.run env o).2).base.trace = _
    rw [ih _ h.2]
    exact (Call.run_logs env c o h.1).1

theorem Call.runAll_logKeptOff {a : Adapter} (env : Env) (cs : List (Call a)) :
    ∀ o : Object a.Fields, flagSet o.base.m_eSettingsFlags ENABLE_LOG = false →
      Call.logKeptOff env cs o = true →
      Call.logOffAtEntry env cs o = true ∧
      flagSet (Call.runAll env cs o).base.m_eSettingsFlags ENABLE_LOG = false := by
  induction cs with
  | nil => intro o h0 _; exact ⟨rfl, h0⟩
  | cons c cs ih =>
    intro o h0 h
    simp only [Call.logKeptOff, Bool.and_eq_true, Bool.not_eq_true'] at h
    have h1 := (Call.run_logs env c o h0).2 h.1
    obtain ⟨i1, i2⟩ := ih _ h1 h.2
    refine ⟨?_, i2⟩
    simp only [Call.logOffAtEntry, Bool.and_eq_true, Bool.not_eq_true']
    exact ⟨h0, i1⟩

/-! ## C11: no log line without `ENABLE_LOG` -/

/-- C11, amended: for every class and every sequence of calls on an object (`InitSession`,
`CleanupSession`, the setters, the mail operations), if the flags the session has stored
lack `ENABLE_LOG` when each call is made, the logger is not called at all, and neither is
it by the destructor when they lack it at the end; and they lack it throughout, so that
nothing is logged up to and including the destruction, once they lack it at the start and
no call of the sequence is an `InitSession` with a host that is not empty, on a session
without a handle, given flags that contain `ENABLE_LOG`. -/
theorem logger_only_when_enabled (a : Adapter) (env : Env) (cs : List (Call a))
    (o : Object a.Fields) :
    (Call.logOffAtEntry env cs o = true →
      logs (Call.runAll env cs o).base.trace = logs o.base.trace) ∧
    (flagSet (Call.runAll env cs o).base.m_eSettingsFlags ENABLE_LOG = false →
      ∀ g, logs ((Call.runAll env cs o).base.destructor g).1.trace =
        logs (Call.runAll env cs o).base.trace) ∧
    (flagSet o.base.m_eSettingsFlags ENABLE_LOG = false → Call.logKeptOff env cs o = true →
      Call.logOffAtEntry env cs o = true ∧
      flagSet (Call.runAll env cs o).base.m_eSettingsFlags ENABLE_LOG = false ∧
      ∀ g, logs ((Call.runAll env cs o).base.destructor g).1.trace = logs o.base.trace) := by
  have d : flagSet (Call.runAll env cs o).base.m_eSettingsFlags ENABLE_LOG = false →
      ∀ g, logs ((Call.runAll env cs o).base.destructor g).1.trace =
        logs (Call.runAll env cs o).base.trace :=
    fun h _ => (quiet_destroySession _).silent h
  refine ⟨Call.runAll_logs env cs o, d, fun h0 hk => ?_⟩
  obtain ⟨k1, k2⟩ := Call.runAll_logKeptOff env cs o h0 hk
  exact ⟨k1, k2, fun g => (d k2 g).trans (Call.runAll_logs env cs o k1)⟩

/-- C11, amended, on a POP3 session initialised without `ENABLE_LOG` in an environment
where every request fails: a failing `Noop`, two `CleanupSession`, a `Noop` without handle
and an `InitSession` with an empty host, each of which would log with `ENABLE_LOG`, log
nothing, and neither does the destructor. -/
theorem logger_only_when_enabled_example :
    flagSet (InitSession CPOPClient.vtable Env.offline "mail.example.com" "user" "secret"
      NO_FLAGS NO_SSLTLS CPOPClient.new).2.base.m_eSettingsFlags ENABLE_LOG = false ∧
    logs (Call.runAll Env.offline
      [Call.op (a := Adapter.pop3) POP.Op.Noop, Call.CleanupSession, Call.CleanupSession,
        Call.op (a := Adapter.pop3) POP.Op.Noop,
        Call.InitSession "" "user" "secret" ALL_FLAGS NO_SSLTLS]
      (InitSession CPOPClient.vtable Env.offline "mail.example.com" "user" "secret"
        NO_FLAGS NO_SSLTLS CPOPClient.new).2).base.trace = [] ∧
    ∀ g, logs ((Call.runAll Env.offline
      [Call.op (a := Adapter.pop3) POP.Op.Noop, Call.CleanupSession, Call.CleanupSession,
        Call.op (a := Adapter.pop3) POP.Op.Noop,
        Call.InitSession "" "user" "secret" ALL_FLAGS NO_SSLTLS]
      (InitSession CPOPClient.vtable Env.offline "mail.example.com" "user" "secret"
        NO_FLAGS NO_SSLTLS CPOPClient.new).2).base.destructor g).1.trace = [] :=
  have h := logger_only_when_enabled Adapter.pop3 Env.offline
    [Call.op (a := Adapter.pop3) POP.Op.Noop, Call.CleanupSession, Call.CleanupSession,
      Call.op (a := Adapter.pop3) POP.Op.Noop,
      Call.InitSession "" "user" "secret" ALL_FLAGS NO_SSLTLS]
    (InitSession CPOPClient.vtable Env.offline "mail.example.com" "user" "secret"
      NO_FLAGS NO_SSLTLS CPOPClient.new).2
  ⟨by decide, h.1 (h.2.2 (by decide) (by decide)).1, (h.2.2 (by decide) (by decide)).2.2⟩

/-- C11 as it is worded fails: on a POP3 object, in an environment where the transport
allocates no handle once a session was cleaned, `InitSession` without `ENABLE_LOG`
succeeds, `CleanupSession` follows, a second `InitSession`, with `ENABLE_LOG`, returns
false, and the `Noop` after it calls the logger although no `InitSession` has succeeded
since the first one. -/
theorem logger_called_after_failed_InitSession :
    (InitSession CPOPClient.vtable Env.allocOnce "mail.example.com" "user" "secret" NO_FLAGS
      NO_SSLTLS CPOPClient.new).1 = true ∧
    flagSet NO_FLAGS ENABLE_LOG = false ∧
    (Call.run Env.allocOnce
      (Call.InitSession (a := Adapter.pop3) "mail.example.com" "user" "secret" ENABLE_LOG
        NO_SSLTLS)
      (Call.runAll Env.allocOnce
        [Call.InitSession (a := Adapter.pop3) "mail.example.com" "user" "secret" NO_FLAGS
          NO_SSLTLS, Call.CleanupSession] CPOPClient.new)).1 = false ∧
    logs (Call.runAll Env.allocOnce
      [Call.InitSession (a := Adapter.pop3) "mail.example.com" "user" "secret" NO_FLAGS
          NO_SSLTLS, Call.CleanupSession,
        Call.InitSession "mail.example.com" "user" "secret" ENABLE_LOG NO_SSLTLS]
      CPOPClient.new).base.trace = [] ∧
    logs (Call.runAll Env.allocOnce
      [Call.InitSession (a := Adapter.pop3) "mail.example.com" "user" "secret" NO_FLAGS
          NO_SSLTLS, Call.CleanupSession,
        Call.InitSession "mail.example.com" "user" "secret" ENABLE_LOG NO_SSLTLS,
        Call.op POP.Op.Noop]
      CPOPClient.new).base.trace = [LOG_ERROR_CURL_NOT_INIT_MSG] := by
  decide

/-! ## C12: the recipient list from one operation to the next -/

/-- C12 fails on the code: on the SMTP session of the examples, the second of two
`SendString` calls hands the transport the addressee of the first call in front of its
own. -/
theorem recipient_list_accumulates :
    (requests (Call.runAll Env.online
      [Call.op (a := Adapter.smtp) (SMTP.Op.SendString "a@example.com" "b@example.com" "" "one"),
        Call.op (a := Adapter.smtp) (SMTP.Op.SendString "a@example.com" "c@example.com" "" "two")]
      Example.smtpSession).base.trace).map CurlOpts.MAIL_RCPT =
      [some ["b@example.com"], some ["b@example.com", "c@example.com"]] := by
  decide

/-! ## What `InitSession` stores for a host -/

/-- On a session without a handle, `InitSession` with a host that is not empty stores the
normalisation of the host, and the TLS mode it is given unless the host carries the
scheme. -/
theorem InitSession_stores (a : Adapter) (env : Env) (strHost strLogin strPassword : String)
    (eSettingsFlags eSslTlsFlags : Nat) (o : Object a.Fields) (hne : strHost ≠ "")
    (hnone : o.base.m_pCurlSession = none) :
    (InitSession a.vtable env strHost strLogin strPassword eSettingsFlags eSslTlsFlags
      o).2.base.m_strURL = a.normalise eSslTlsFlags strHost ∧
    (InitSession a.vtable env strHost strLogin strPassword eSettingsFlags eSslTlsFlags
      o).2.base.m_eSslTlsFlags = if a.hasScheme strHost then ENABLE_SSL else eSslTlsFlags := by
  rw [InitSession_of_no_handle _ _ _ _ _ _ _ _ hne hnone]
  constructor
  · show (a.vtable.ParseURL _).base.m_strURL = _
    rw [Adapter.ParseURL_normalises a _ hne]
    rfl
  · show (a.vtable.ParseURL _).base.m_eSslTlsFlags = _
    rw [Adapter.ParseURL_tls]
    rfl

theorem ne_empty_of_startsWithNoCase (s p : String) (hp : p ≠ "") (h : startsWithNoCase s p) :
    s ≠ "" := by
  rintro rfl
  unfold startsWithNoCase at h
  have hd := data_ne_nil_of_ne p hp
  simp at h
  exact hd (by simpa using h.symm)

theorem Adapter.ne_empty_of_hasScheme (a : Adapter) (h : String) (hs : a.hasScheme h) :
    h ≠ "" := by
  cases a with
  | mail => exact absurd hs (by simp [Adapter.hasScheme])
  | pop3 =>
    rcases hs with hs | hs
    · exact ne_empty_of_startsWithNoCase _ _ (by decide) hs
    · exact ne_empty_of_startsWithNoCase _ _ (by decide) hs
  | imap =>
    rcases hs with hs | hs
    · exact ne_empty_of_startsWithNoCase _ _ (by decide) hs
    · exact ne_empty_of_startsWithNoCase _ _ (by decide) hs
  | smtp =>
    rcases hs with hs | hs
    · exact ne_empty_of_startsWithNoCase _ _ (by decide) hs
    · exact ne_empty_of_startsWithNoCase _ _ (by decide) hs

/-! ## C28: a host that carries the scheme -/

/-- C28: for POP3, IMAP and SMTP, on a session without a handle, when the host begins,
letter case ignored, with the scheme of the adapter, with or without the `s`,
`InitSession` stores the TLS mode `ENABLE_SSL` whatever the mode it is given, and stores
as URL the host as it was given, character by character, followed only by the separator
`/` when the adapter wants one and the host does not end with it: no scheme is put in
front. -/
theorem InitSession_host_with_scheme (a : Adapter) (env : Env)
    (strHost strLogin strPassword : String) (eSettingsFlags eSslTlsFlags : Nat)
    (o : Object a.Fields) (hs : a.hasScheme strHost) (hnone : o.base.m_pCurlSession = none) :
    (InitSession a.vtable env strHost strLogin strPassword eSettingsFlags eSslTlsFlags
      o).2.base.m_eSslTlsFlags = ENABLE_SSL ∧
    (InitSession a.vtable env strHost strLogin strPassword eSettingsFlags eSslTlsFlags
      o).2.base.m_strURL =
      strHost ++ (if a.wantsSeparator = true ∧ lastChar strHost ≠ some '/' then "/" else "") := by
  obtain ⟨h1, h2⟩ := InitSession_stores a env strHost strLogin strPassword eSettingsFlags
    eSslTlsFlags o (Adapter.ne_empty_of_hasScheme a strHost hs) hnone
  rw [h1, h2]
  simp [Adapter.normalise, hs]

/-- C28 on a POP3 client: the host `"POP3://mail.example.com"`, given with the mode
`ENABLE_TLS`, is stored with its upper-case scheme and the mode `ENABLE_SSL`. -/
theorem InitSession_host_with_scheme_example :
    Adapter.pop3.hasScheme "POP3://mail.example.com" ∧
    (InitSession CPOPClient.vtable Env.online "POP3://mail.example.com" "user" "secret"
      ALL_FLAGS ENABLE_TLS CPOPClient.new).2.base.m_eSslTlsFlags = ENABLE_SSL ∧
    (InitSession CPOPClient.vtable Env.online "POP3://mail.example.com" "user" "secret"
      ALL_FLAGS ENABLE_TLS CPOPClient.new).2.base.m_strURL = "POP3://mail.example.com/" :=
  have h := InitSession_host_with_scheme Adapter.pop3 Env.online "POP3://mail.example.com"
    "user" "secret" ALL_FLAGS ENABLE_TLS CPOPClient.new (by decide) rfl
  ⟨by decide, h.1, h.2⟩

/-! ## C29: normalising twice -/

theorem startsWithNoCase_self_append (p x : String) : startsWithNoCase (p ++ x) p := by
  simp [startsWithNoCase]

theorem startsWithNoCase_append_right (s p x : String) (h : startsWithNoCase s p) :
    startsWithNoCase (s ++ x) p := by
  unfold startsWithNoCase at *
  have hl : p.data.length ≤ s.data.length := by
    have := congrArg List.length h
    simp only [List.length_map, List.length_take] at this
    omega
  rw [String.data_append, List.take_append_of_le_length hl]
  exact h

theorem Adapter.normalise_ne_empty (a : Adapter) (tls : Nat) (h : String) (hne : h ≠ "") :
    a.normalise tls h ≠ "" := by
  intro e
  have := congrArg String.data e
  simp only [Adapter.normalise, String.data_append] at this
  have hd := data_ne_nil_of_ne h hne
  simp [hd] at this

theorem Adapter.hasScheme_normalise (a : Adapter) (tls : Nat) (h : String) (ha : a ≠ Adapter.mail) :
    a.hasScheme (a.normalise tls h) := by
  unfold Adapter.normalise
  by_cases hs : a.hasScheme h
  · rw [if_pos hs, String.append_assoc]
    simp only [String.empty_append]
    cases a with
    | mail => exact absurd rfl ha
    | pop3 => exact hs.imp (startsWithNoCase_append_right _ _ _) (startsWithNoCase_append_right _ _ _)
    | imap => exact hs.imp (startsWithNoCase_append_right _ _ _) (startsWithNoCase_append_right _ _ _)
    | smtp => exact hs.imp (startsWithNoCase_append_right _ _ _) (startsWithNoCase_append_right _ _ _)
  · rw [if_neg hs, String.append_assoc]
    cases a with
    | mail => exact absurd rfl ha
    | pop3 =>
      simp only [Adapter.scheme]
      split
      · exact Or.inl (startsWithNoCase_self_append _ _)
      · exact Or.inr (startsWithNoCase_self_append _ _)
    | imap =>
      simp only [Adapter.scheme]
      split
      · exact Or.inl (startsWithNoCase_self_append _ _)
      · exact Or.inr (startsWithNoCase_self_append _ _)
    | smtp =>
      simp only [Adapter.scheme]
      split
      · exact Or.inl (startsWithNoCase_self_append _ _)
      · exact Or.inr (startsWithNoCase_self_append _ _)

theorem Adapter.lastChar_normalise (a : Adapter) (tls : Nat) (h : String) (hne : h ≠ "")
    (hw : a.wantsSeparator = true) : lastChar (a.normalise tls h) = some '/' := by
  unfold Adapter.normalise
  by_cases hl : lastChar h = some '/'
  · have e : (if a.wantsSeparator = true ∧ lastChar h ≠ some '/' then "/" else "") = "" :=
      if_neg (fun x => x.2 hl)
    rw [e, String.append_empty, lastChar_append_of_ne _ _ hne]
    exact hl
  · have e : (if a.wantsSeparator = true ∧ lastChar h ≠ some '/' then "/" else "") = "/" :=
      if_pos ⟨hw, hl⟩
    rw [e]
    exact lastChar_append_of_ne _ "/" (by decide)

/-- The normalisation of a normalised host is the normalised host. -/
theorem Adapter.normalise_normalise (a : Adapter) (tls tls2 : Nat) (h : String) (hne : h ≠ "") :
    a.normalise tls2 (a.normalise tls h) = a.normalise tls h := by
  cases a with
  | mail => simp [Adapter.normalise, Adapter.hasScheme, Adapter.scheme, Adapter.wantsSeparator]
  | pop3 =>
    have h1 := Adapter.hasScheme_normalise Adapter.pop3 tls h (by decide)
    have h2 := Adapter.lastChar_normalise Adapter.pop3 tls h hne rfl
    generalize Adapter.normalise Adapter.pop3 tls h = u at h1 h2
    simp [Adapter.normalise, h1, h2]
  | imap =>
    have h1 := Adapter.hasScheme_normalise Adapter.imap tls h (by decide)
    have h2 := Adapter.lastChar_normalise Adapter.imap tls h hne rfl
    generalize Adapter.normalise Adapter.imap tls h = u at h1 h2
    simp [Adapter.normalise, h1, h2]
  | smtp =>
    have h1 := Adapter.hasScheme_normalise Adapter.smtp tls h (by decide)
    generalize Adapter.normalise Adapter.smtp tls h = u at h1
    simp [Adapter.normalise, h1, Adapter.wantsSeparator]

/-- C29: for every class, every host that is not empty and every TLS mode: the
normalisation of the adapter applied to a normalised host gives it back; so does
`ParseURL` called a second time, whatever the TLS mode then is; and `InitSession` called,
on a session without a handle, with the URL an earlier `InitSession` has stored for the
host stores this same URL again. -/
theorem normalisation_idempotent (a : Adapter) (env env2 : Env) (strHost : String)
    (strLogin strPassword strLogin2 strPassword2 : String)
    (eSettingsFlags eSslTlsFlags eSettingsFlags2 eSslTlsFlags2 : Nat)
    (o o2 : Object a.Fields) (hne : strHost ≠ "") (hnone : o.base.m_pCurlSession = none)
    (hnone2 : o2.base.m_pCurlSession = none) :
    a.normalise eSslTlsFlags2 (a.normalise eSslTlsFlags strHost) =
      a.normalise eSslTlsFlags strHost ∧
    (∀ x : Object a.Fields, x.base.m_strURL = strHost →
      (a.vtable.ParseURL (a.vtable.ParseURL x)).base.m_strURL =
        (a.vtable.ParseURL x).base.m_strURL) ∧
    (InitSession a.vtable env2
      (InitSession a.vtable env strHost strLogin strPassword eSettingsFlags eSslTlsFlags
        o).2.base.m_strURL
      strLogin2 strPassword2 eSettingsFlags2 eSslTlsFlags2 o2).2.base.m_strURL =
      (InitSession a.vtable env strHost strLogin strPassword eSettingsFlags eSslTlsFlags
        o).2.base.m_strURL := by
  refine ⟨Adapter.normalise_normalise a _ _ strHost hne, fun x hx => ?_, ?_⟩
  · have h1 := Adapter.ParseURL_normalises a x (by rw [hx]; exact hne)
    rw [Adapter.ParseURL_normalises a _ (by
      rw [h1, hx]; exact Adapter.normalise_ne_empty a _ strHost hne), h1, hx]
    exact Adapter.normalise_normalise a _ _ strHost hne
  · have h1 := (InitSession_stores a env strHost strLogin strPassword eSettingsFlags
      eSslTlsFlags o hne hnone).1
    rw [h1, (InitSession_stores a env2 _ strLogin2 strPassword2 eSettingsFlags2 eSslTlsFlags2 o2
      (Adapter.normalise_ne_empty a _ strHost hne) hnone2).1]
    exact Adapter.normalise_normalise a _ _ strHost hne

/-- C29 on an IMAP client: the host `"mail.example.com"` is stored as
`"imap://mail.example.com/"`, and this URL given as host is stored as it is. -/
theorem normalisation_idempotent_example :
    (InitSession CIMAPClient.vtable Env.online "mail.example.com" "user" "secret" ALL_FLAGS
      NO_SSLTLS CIMAPClient.new).2.base.m_strURL = "imap://mail.example.com/" ∧
    (InitSession CIMAPClient.vtable Env.online
      (InitSession CIMAPClient.vtable Env.online "mail.example.com" "user" "secret" ALL_FLAGS
        NO_SSLTLS CIMAPClient.new).2.base.m_strURL
      "user" "secret" ALL_FLAGS NO_SSLTLS CIMAPClient.new).2.base.m_strURL =
      (InitSession CIMAPClient.vtable Env.online "mail.example.com" "user" "secret" ALL_FLAGS
        NO_SSLTLS CIMAPClient.new).2.base.m_strURL :=
  ⟨by decide,
    (normalisation_idempotent Adapter.imap Env.online Env.online "mail.example.com" "user"
      "secret" "user" "secret" ALL_FLAGS NO_SSLTLS ALL_FLAGS NO_SSLTLS CIMAPClient.new
      CIMAPClient.new (by decide) rfl rfl).2.2⟩

/-! ## C30, C21, C22: what the IMAP uploads and `InfoFolder` ask for -/

theorem CIMAPClient.PostPerform_derived (env : Env) (code : Nat) (o : Object CIMAPClient) :
    (CIMAPClient.PostPerform env code o).2.derived = o.derived := by
  unfold CIMAPClient.PostPerform
  dsimp only
  repeat' split
  all_goals rfl

/-- The perform cycle of IMAP leaves the members of `CIMAPClient` as the operation has
set them. -/
theorem CIMAPClient.Perform_derived (env : Env) (o : Object CIMAPClient) :
    (Perform CIMAPClient.vtable env o).2.derived = o.derived := by
  unfold Perform
  split
  · rfl
  · dsimp only
    have e1 : (CIMAPClient.vtable.PrePerform env o.beforePrePerform).2.derived = o.derived :=
      CIMAPClient.PrePerform_derived env _
    have e2 : ∀ x : Object CIMAPClient, (x.execute env).2.derived = x.derived := fun x => rfl
    have e3 : ∀ code x, (CIMAPClient.vtable.PostPerform env code x).2.derived = x.derived :=
      fun code x => CIMAPClient.PostPerform_derived env code x
    split
    · exact e1
    · split
      · exact e1
      · split
        · exact (e3 _ _).trans ((e2 _).trans e1)
        · split
          · exact (e3 _ _).trans ((e2 _).trans e1)
          · exact (e3 _ _).trans ((e2 _).trans e1)

/-- The message number an IMAP client holds after a call: the one the call is given, if
it is given one, and the one it held before otherwise. -/
theorem Call.run_msgNumber (env : Env) (c : Call Adapter.imap) (o : Object CIMAPClient) :
    (Call.run (a := Adapter.imap) env c o).2.derived.m_strMsgNumber =
      IMAP.lastMsgNumber o.derived.m_strMsgNumber [c] := by
  cases c with
  | InitSession strHost strLogin strPassword eSettingsFlags eSslTlsFlags =>
    show (MailClient.InitSession CIMAPClient.vtable env strHost strLogin strPassword
      eSettingsFlags eSslTlsFlags o).2.derived.m_strMsgNumber = o.derived.m_strMsgNumber
    unfold MailClient.InitSession
    split
    · rfl
    · split
      · rfl
      · exact congrArg CIMAPClient.m_strMsgNumber
          (Adapter.ParseURL_keeps Adapter.imap _).2.2.2
  | CleanupSession => rfl
  | op x =>
    show (IMAP.Op.run env x o).2.derived.m_strMsgNumber = _
    rw [IMAP.Op.run_eq_Perform_imap, CIMAPClient.Perform_derived]
    cases x <;> rfl
  | SetProgressFnCallback p => rfl
  | SetProxy p => rfl
  | SetTimeout t => rfl
  | SetNoSignal b => rfl
  | SetSSLCertFile p => rfl
  | SetSSLKeyFile p => rfl
  | SetSSLKeyPassword p => rfl

theorem IMAP.lastMsgNumber_cons (init : String) (c : Call Adapter.imap)
    (cs : List (Call Adapter.imap)) :
    IMAP.lastMsgNumber init (c :: cs) = IMAP.lastMsgNumber (IMAP.lastMsgNumber init [c]) cs := by
  cases c <;> rfl

theorem Call.runAll_msgNumber (env : Env) (cs : List (Call Adapter.imap)) :
    ∀ o : Object CIMAPClient,
      (Call.runAll (a := Adapter.imap) env cs o).derived.m_strMsgNumber =
        IMAP.lastMsgNumber o.derived.m_strMsgNumber cs := by
  induction cs with
  | nil => intro o; rfl
  | cons c cs ih =>
    intro o
    show (Call.runAll (a := Adapter.imap) env cs
      (Call.run (a := Adapter.imap) env c o).2).derived.m_strMsgNumber = _
    rw [ih, Call.run_msgNumber, ← IMAP.lastMsgNumber_cons]

/-- The pre-configure hook of IMAP on `SendString`: it passes, and the handle carries an
upload from the string stream to the base URL followed by the message number the client
holds. -/
theorem CIMAPClient.PrePerform_SendString_imap (env : Env) (o : Object CIMAPClient)
    (strMail : String) :
    (CIMAPClient.PrePerform env ((IMAP.Op.SendString strMail).store o).beforePrePerform).1 =
      true ∧
    (CIMAPClient.PrePerform env
      ((IMAP.Op.SendString strMail).store o).beforePrePerform).2.base.m_pCurlSession.map
      CurlOpts.request =
      some { URL := some (c_str (o.base.m_strURL ++ o.derived.m_strMsgNumber))
             UPLOAD := some 1
             READFUNCTION := some Callback.ReadLineFromStringStreamCallback
             READDATA := some DataPtr.ssString } ∧
    (CIMAPClient.PrePerform env
      ((IMAP.Op.SendString strMail).store o).beforePrePerform).2.base.m_ssString =
      { str := strMail, gpos := 0, good := true } := by
  simp [CIMAPClient.PrePerform, IMAP.Op.store, Object.beforePrePerform, Object.onBase,
    Object.setopt, CMailClient.setopt, uploadFrom, finishPrePerform, CurlOpts.default,
    CMailClient.ssClear, CMailClient.ssStr]

theorem IMAP.lastMsgNumber_of_none (init : String) (cs : List (Call Adapter.imap))
    (h : ∀ x, Call.op x ∈ cs → IMAP.Op.msgNumber x = none) :
    IMAP.lastMsgNumber init cs = init := by
  induction cs generalizing init with
  | nil => rfl
  | cons c cs ih =>
    rw [IMAP.lastMsgNumber_cons, ih _ (fun x hx => h x (List.mem_cons_of_mem _ hx))]
    cases c with
    | op x =>
      have := h x (List.mem_cons_self _ _)
      simp [IMAP.lastMsgNumber, this]
    | _ => rfl

/-- C30, as stated, fails for a stored message number with a NUL character: the URL is
handed to the transport as a C string, so on the IMAP session of the examples, after
`GetString` called with `5`, NUL, `X`, the client holds that message number and
`SendString` uploads to the base URL followed by `5` alone. -/
theorem imap_SendString_url_cut_at_nul :
    ((IMAP.Op.GetString "5\x00X" 0).run Env.online
      Example.imapSession).2.derived.m_strMsgNumber = "5\x00X" ∧
    Example.imapSession.base.m_strURL = "imap://mail.example.com/" ∧
    ((IMAP.Op.GetString "5\x00X" 0).run Env.online Example.imapSession).2.base.m_strURL =
      "imap://mail.example.com/" ∧
    (requests ((IMAP.Op.SendString "hello").run Env.online
      ((IMAP.Op.GetString "5\x00X" 0).run Env.online Example.imapSession).2).2.base.trace).map
      CurlOpts.URL =
      [some "imap://mail.example.com/INBOX/;UID=5", some "imap://mail.example.com/5"] ∧
    "imap://mail.example.com/5" ≠ "imap://mail.example.com/" ++ "5\x00X" := by
  decide

/-- C30, amended: for every sequence of public calls on a new IMAP client, in every
environment: the message number the client holds is the one given to the last `GetString`,
`GetFile`, `CopyMail` or `SetMailProperty` of the sequence (`CleanupSession` and
`InitSession` leave it), and the empty string when there is none; `SendString` does not
assign it; and on a session with a handle `SendString`, when it returns, has executed one
request, an upload read from the string stream, whose URL is the base URL followed by that
message number, so the base URL itself when there was no such call, as a C string, cut
before its first NUL character; nothing is cut when neither the base URL nor the message
number has a NUL character. -/
theorem imap_SendString_url (env : Env) (cs : List (Call Adapter.imap)) (strMail : String) :
    (Call.runAll (a := Adapter.imap) env cs CIMAPClient.new).derived.m_strMsgNumber =
      IMAP.lastMsgNumber "" cs ∧
    ((∀ x, Call.op x ∈ cs → IMAP.Op.msgNumber x = none) → IMAP.lastMsgNumber "" cs = "") ∧
    ((IMAP.Op.SendString strMail).store
      (Call.runAll (a := Adapter.imap) env cs CIMAPClient.new)).derived.m_strMsgNumber =
      IMAP.lastMsgNumber "" cs ∧
    ((Call.runAll (a := Adapter.imap) env cs CIMAPClient.new).base.m_pCurlSession.isSome = true →
      ((IMAP.Op.SendString strMail).run env
        (Call.runAll (a := Adapter.imap) env cs CIMAPClient.new)).2.base.crashed = false →
      ∃ q, requests ((IMAP.Op.SendString strMail).run env
          (Call.runAll (a := Adapter.imap) env cs CIMAPClient.new)).2.base.trace =
          requests (Call.runAll (a := Adapter.imap) env cs CIMAPClient.new).base.trace ++ [q] ∧
        q.request =
          { URL := some (c_str
              ((Call.runAll (a := Adapter.imap) env cs CIMAPClient.new).base.m_strURL ++
                IMAP.lastMsgNumber "" cs))
            UPLOAD := some 1
            READFUNCTION := some Callback.ReadLineFromStringStreamCallback
            READDATA := some DataPtr.ssString }) ∧
    ('\x00' ∉ (Call.runAll (a := Adapter.imap) env cs CIMAPClient.new).base.m_strURL.data →
      '\x00' ∉ (IMAP.lastMsgNumber "" cs).data →
      c_str ((Call.runAll (a := Adapter.imap) env cs CIMAPClient.new).base.m_strURL ++
          IMAP.lastMsgNumber "" cs) =
        (Call.runAll (a := Adapter.imap) env cs CIMAPClient.new).base.m_strURL ++
          IMAP.lastMsgNumber "" cs) := by
  have hm := Call.runAll_msgNumber env cs CIMAPClient.new
  refine ⟨hm, IMAP.lastMsgNumber_of_none "" cs, hm, fun h0 hret => ?_,
    fun h1 h2 => c_str_of_no_nul _ ((no_nul_append _ _).2 ⟨h1, h2⟩)⟩
  obtain ⟨p1, p2, _⟩ := CIMAPClient.PrePerform_SendString_imap env
    (Call.runAll (a := Adapter.imap) env cs CIMAPClient.new) strMail
  cases hh : (CIMAPClient.PrePerform env ((IMAP.Op.SendString strMail).store
      (Call.runAll (a := Adapter.imap) env cs CIMAPClient.new)).beforePrePerform).2.base.m_pCurlSession with
  | none => simp [hh] at p2
  | some h =>
    rw [hh] at p2
    have hq := Option.some.inj p2
    have r := (IMAP.Op.run_requests env _ (IMAP.Op.SendString strMail) h h0 p1 hh
      (IMAP.Op.run_returns env _ (IMAP.Op.SendString strMail) h0 p1 hret)).2
    rw [if_neg (fun x => absurd x.1 (by simp [IMAP.Op.kind]))] at r
    refine ⟨_, r, (settings_request env _ h).trans ?_⟩
    rw [hq, hm]
    rfl

/-- C30, amended, on two IMAP clients initialised for the same host with the same
settings: on the one that was used for `GetString("5")` in an earlier session,
`SendString("hello")` uploads to the base URL followed by `5`, on the other one to the
base URL. -/
theorem imap_SendString_url_example :
    (Call.runAll (a := Adapter.imap) Env.online
      [Call.InitSession "mail.example.com" "user" "secret" ALL_FLAGS NO_SSLTLS,
        Call.op (IMAP.Op.GetString "5" 0), Call.CleanupSession,
        Call.InitSession "mail.example.com" "user" "secret" ALL_FLAGS NO_SSLTLS]
      CIMAPClient.new).base =
      { (Call.runAll (a := Adapter.imap) Env.online
          [Call.InitSession "mail.example.com" "user" "secret" ALL_FLAGS NO_SSLTLS]
          CIMAPClient.new).base with
        trace := (Call.runAll (a := Adapter.imap) Env.online
          [Call.InitSession "mail.example.com" "user" "secret" ALL_FLAGS NO_SSLTLS,
            Call.op (IMAP.Op.GetString "5" 0), Call.CleanupSession,
            Call.InitSession "mail.example.com" "user" "secret" ALL_FLAGS NO_SSLTLS]
          CIMAPClient.new).base.trace } ∧
    (requests ((IMAP.Op.SendString "hello").run Env.online
      (Call.runAll (a := Adapter.imap) Env.online
        [Call.InitSession "mail.example.com" "user" "secret" ALL_FLAGS NO_SSLTLS]
        CIMAPClient.new)).2.base.trace).map CurlOpts.URL = [some "imap://mail.example.com/"] ∧
    c_str ((Call.runAll (a := Adapter.imap) Env.online
        [Call.InitSession "mail.example.com" "user" "secret" ALL_FLAGS NO_SSLTLS,
          Call.op (IMAP.Op.GetString "5" 0), Call.CleanupSession,
          Call.InitSession "mail.example.com" "user" "secret" ALL_FLAGS NO_SSLTLS]
        CIMAPClient.new).base.m_strURL ++
      IMAP.lastMsgNumber ""
        [Call.InitSession "mail.example.com" "user" "secret" ALL_FLAGS NO_SSLTLS,
          Call.op (IMAP.Op.GetString "5" 0), Call.CleanupSession,
          Call.InitSession "mail.example.com" "user" "secret" ALL_FLAGS NO_SSLTLS]) =
      "imap://mail.example.com/5" ∧
    ∃ q, requests ((IMAP.Op.SendString "hello").run Env.online
        (Call.runAll (a := Adapter.imap) Env.online
          [Call.InitSession "mail.example.com" "user" "secret" ALL_FLAGS NO_SSLTLS,
            Call.op (IMAP.Op.GetString "5" 0), Call.CleanupSession,
            Call.InitSession "mail.example.com" "user" "secret" ALL_FLAGS NO_SSLTLS]
          CIMAPClient.new)).2.base.trace =
        requests (Call.runAll (a := Adapter.imap) Env.online
          [Call.InitSession "mail.example.com" "user" "secret" ALL_FLAGS NO_SSLTLS,
            Call.op (IMAP.Op.GetString "5" 0), Call.CleanupSession,
            Call.InitSession "mail.example.com" "user" "secret" ALL_FLAGS NO_SSLTLS]
          CIMAPClient.new).base.trace ++ [q] ∧
      q.request =
        { URL := some (c_str ((Call.runAll (a := Adapter.imap) Env.online
              [Call.InitSession "mail.example.com" "user" "secret" ALL_FLAGS NO_SSLTLS,
                Call.op (IMAP.Op.GetString "5" 0), Call.CleanupSession,
                Call.InitSession "mail.example.com" "user" "secret" ALL_FLAGS NO_SSLTLS]
              CIMAPClient.new).base.m_strURL ++
            IMAP.lastMsgNumber ""
              [Call.InitSession "mail.example.com" "user" "secret" ALL_FLAGS NO_SSLTLS,
                Call.op (IMAP.Op.GetString "5" 0), Call.CleanupSession,
                Call.InitSession "mail.example.com" "user" "secret" ALL_FLAGS NO_SSLTLS]))
          UPLOAD := some 1
          READFUNCTION := some Callback.ReadLineFromStringStreamCallback
          READDATA := some DataPtr.ssString } :=
  ⟨by decide, by decide, by decide,
    (imap_SendString_url Env.online
      [Call.InitSession "mail.example.com" "user" "secret" ALL_FLAGS NO_SSLTLS,
        Call.op (IMAP.Op.GetString "5" 0), Call.CleanupSession,
        Call.InitSession "mail.example.com" "user" "secret" ALL_FLAGS NO_SSLTLS]
      "hello").2.2.2.1 (by decide) (by decide)⟩

/-- C21 fails on the code for `SendFile`: on the IMAP session of the examples, after
`GetString("5")`, `SendString` uploads to the base URL followed by `5`, read from the
string stream, whereas `SendFile` uploads to the base URL alone, read from the local
file. -/
theorem imap_SendFile_url_without_msgNumber :
    ((IMAP.Op.GetString "5" 0).run Env.online Example.imapSession).2.derived.m_strMsgNumber =
      "5" ∧
    (requests ((IMAP.Op.SendString "hello").run Env.online
      ((IMAP.Op.GetString "5" 0).run Env.online Example.imapSession).2).2.base.trace).map
      CurlOpts.request =
      [{ URL := some "imap://mail.example.com/INBOX/;UID=5"
         WRITEFUNCTION := some Callback.WriteInStringCallback
         WRITEDATA := some (DataPtr.text 0) },
       { URL := some "imap://mail.example.com/5"
         UPLOAD := some 1
         READFUNCTION := some Callback.ReadLineFromStringStreamCallback
         READDATA := some DataPtr.ssString }] ∧
    (requests ((IMAP.Op.SendFile "mail.txt").run Env.online
      ((IMAP.Op.GetString "5" 0).run Env.online Example.imapSession).2).2.base.trace).map
      CurlOpts.request =
      [{ URL := some "imap://mail.example.com/INBOX/;UID=5"
         WRITEFUNCTION := some Callback.WriteInStringCallback
         WRITEDATA := some (DataPtr.text 0) },
       { URL := some "imap://mail.example.com/"
         UPLOAD := some 1
         READFUNCTION := some Callback.ReadLineFromFileStreamCallback
         READDATA := some DataPtr.localFile }] := by
  decide

/-- C22 fails on the code for `InfoFolder`: on the IMAP session of the examples, with an
empty folder name, `DeleteFolder`, `CreateFolder` and `CopyMail` return false and execute
nothing, whereas `InfoFolder` passes the pre-configure hook, executes the command
`"EXAMINE "` and returns true. -/
theorem imap_InfoFolder_empty_folder :
    ((IMAP.Op.DeleteFolder "").run Env.online Example.imapSession).1 = false ∧
    requests ((IMAP.Op.DeleteFolder "").run Env.online Example.imapSession).2.base.trace = [] ∧
    ((IMAP.Op.CreateFolder "").run Env.online Example.imapSession).1 = false ∧
    requests ((IMAP.Op.CreateFolder "").run Env.online Example.imapSession).2.base.trace = [] ∧
    ((IMAP.Op.CopyMail "7" "").run Env.online Example.imapSession).1 = false ∧
    requests ((IMAP.Op.CopyMail "7" "").run Env.online Example.imapSession).2.base.trace = [] ∧
    (CIMAPClient.PrePerform Env.online
      ((IMAP.Op.InfoFolder "" 0).store Example.imapSession).beforePrePerform).1 = true ∧
    ((IMAP.Op.InfoFolder "" 0).run Env.online Example.imapSession).1 = true ∧
    (requests ((IMAP.Op.InfoFolder "" 0).run Env.online Example.imapSession).2.base.trace).map
      CurlOpts.CUSTOMREQUEST = [some "EXAMINE "] := by
  decide

/-! ## C26: the local file stream at the return of a call -/

@[simp] theorem file_logIfEnabled (c : CMailClient) (msg : String) :
    (c.logIfEnabled msg).m_fLocalFile = c.m_fLocalFile := by
  unfold CMailClient.logIfEnabled
  split <;> rfl

/-- An `open` that leaves the stream in error has not opened it. -/
theorem fileOpen_not_good (env : Env) (c : CMailClient) (path : String) (w : Bool)
    (h : (c.fileOpen env path w).m_fLocalFile.good = false) :
    (c.fileOpen env path w).m_fLocalFile.is_open = c.m_fLocalFile.is_open := by
  simp only [CMailClient.fileOpen] at h ⊢
  split at h
  · cases h
  · rename_i hok
    rw [if_neg hok]

theorem closeIfOpen_closed (c : CMailClient) : c.closeIfOpen.m_fLocalFile.is_open = false := by
  unfold CMailClient.closeIfOpen
  split
  · rfl
  · rename_i h
    simpa using h

theorem CPOPClient.PrePerform_file (env : Env) (o : Object CPOPClient) :
    (CPOPClient.PrePerform env o).2.derived.m_eOperationType = o.derived.m_eOperationType ∧
    (o.derived.m_eOperationType ≠ POP.MailOperation.POP3_RETR_FILE →
      (CPOPClient.PrePerform env o).2.base.m_fLocalFile = o.base.m_fLocalFile) ∧
    ((CPOPClient.PrePerform env o).1 = false →
      (CPOPClient.PrePerform env o).2.base.m_fLocalFile.is_open =
        o.base.m_fLocalFile.is_open) := by
  cases hk : o.derived.m_eOperationType with
  | POP3_RETR_FILE =>
    simp only [CPOPClient.PrePerform, hk]
    split
    · split
      · refine ⟨hk, fun h => absurd rfl h, fun h => ?_⟩
        simp [finishPrePerform] at h
      · rename_i hg
        refine ⟨hk, fun h => absurd rfl h, fun _ => ?_⟩
        simp only [Object.logIfEnabled, Object.onBase, file_logIfEnabled]
        exact fileOpen_not_good env o.base _ true (by simpa [Object.onBase] using hg)
    · exact ⟨hk, fun _ => rfl, fun _ => rfl⟩
  | _ =>
    simp only [CPOPClient.PrePerform, hk]
    (repeat' split) <;> exact ⟨hk, fun _ => rfl, fun _ => rfl⟩

theorem CPOPClient.PostPerform_file (env : Env) (code : Nat) (o : Object CPOPClient) :
    (CPOPClient.PostPerform env code o).2.base.m_fLocalFile.is_open =
      if o.derived.m_eOperationType = POP.MailOperation.POP3_RETR_FILE then false
      else o.base.m_fLocalFile.is_open := by
  unfold CPOPClient.PostPerform
  split
  · exact closeIfOpen_closed o.base
  · rfl

theorem CIMAPClient.PrePerform_file_imap (env : Env) (o : Object CIMAPClient) :
    (CIMAPClient.PrePerform env o).2.derived.m_eOperationType = o.derived.m_eOperationType ∧
    (¬ (o.derived.m_eOperationType = IMAP.MailOperation.IMAP_SEND_FILE ∨
        o.derived.m_eOperationType = IMAP.MailOperation.IMAP_RETR_FILE) →
      (CIMAPClient.PrePerform env o).2.base.m_fLocalFile = o.base.m_fLocalFile) ∧
    ((CIMAPClient.PrePerform env o).1 = false →
      (CIMAPClient.PrePerform env o).2.base.m_fLocalFile.is_open =
        o.base.m_fLocalFile.is_open) := by
  have hd := congrArg CIMAPClient.m_eOperationType (CIMAPClient.PrePerform_derived env o)
  refine ⟨hd, ?_⟩
  cases hk : o.derived.m_eOperationType with
  | IMAP_SEND_FILE =>
    simp only [CIMAPClient.PrePerform, Object.onBase, hk]
    split
    · split
      · refine ⟨fun h => absurd (Or.inl trivial) h, fun h => ?_⟩
        simp [finishPrePerform] at h
      · rename_i hg
        refine ⟨fun h => absurd (Or.inl trivial) h, fun _ => ?_⟩
        simp only [Object.logIfEnabled, Object.onBase, file_logIfEnabled]
        exact fileOpen_not_good env _ _ false (by simpa using hg)
    · exact ⟨fun _ => rfl, fun _ => rfl⟩
  | IMAP_RETR_FILE =>
    simp only [CIMAPClient.PrePerform, Object.onBase, hk]
    split
    · split
      · refine ⟨fun h => absurd (Or.inr trivial) h, fun h => ?_⟩
        simp [finishPrePerform] at h
      · rename_i hg
        refine ⟨fun h => absurd (Or.inr trivial) h, fun _ => ?_⟩
        simp only [Object.logIfEnabled, Object.onBase, file_logIfEnabled]
        exact fileOpen_not_good env _ _ true (by simpa using hg)
    · exact ⟨fun _ => rfl, fun _ => rfl⟩
  | _ =>
    simp only [CIMAPClient.PrePerform, Object.onBase, hk]
    (repeat' split) <;> exact ⟨fun _ => rfl, fun _ => rfl⟩

theorem CIMAPClient.PostPerform_file_imap (env : Env) (code : Nat) (o : Object CIMAPClient) :
    (CIMAPClient.PostPerform env code o).2.base.m_fLocalFile.is_open =
      if o.derived.m_eOperationType = IMAP.MailOperation.IMAP_SEND_FILE ∨
          o.derived.m_eOperationType = IMAP.MailOperation.IMAP_RETR_FILE then false
      else o.base.m_fLocalFile.is_open := by
  have keep : ∀ x : Object CIMAPClient,
      (if x.derived.m_eOperationType = IMAP.MailOperation.IMAP_STORE then
        if code != CURLE_OK then
          if ((x.setopt (fun h => { h with CUSTOMREQUEST := some "EXPUNGE" })).base.curl_easy_perform
              env).1 != CURLE_OK then
            (true, ((x.setopt (fun h => { h with CUSTOMREQUEST := some "EXPUNGE" })).onBase
              (fun _ => ((x.setopt (fun h => { h with CUSTOMREQUEST := some "EXPUNGE" })).base.curl_easy_perform
                env).2)).logIfEnabled
              (LOG_ERROR_CURL_PEFORM_FAILURE
                ((x.setopt (fun h => { h with CUSTOMREQUEST := some "EXPUNGE" })).base.curl_easy_perform
                  env).1
                (env.curl_easy_strerror
                  ((x.setopt (fun h => { h with CUSTOMREQUEST := some "EXPUNGE" })).base.curl_easy_perform
                    env).1)))
          else (true, (x.setopt (fun h => { h with CUSTOMREQUEST := some "EXPUNGE" })).onBase
              (fun _ => ((x.setopt (fun h => { h with CUSTOMREQUEST := some "EXPUNGE" })).base.curl_easy_perform
                env).2))
        else (true, x)
      else (true, x)).2.base.m_fLocalFile = x.base.m_fLocalFile := by
    intro x
    have hp : ∀ c : CMailClient, (c.curl_easy_perform env).2.m_fLocalFile = c.m_fLocalFile := by
      intro c
      unfold CMailClient.curl_easy_perform
      split <;> rfl
    (repeat' split) <;>
      simp [Object.logIfEnabled, Object.onBase, hp, Object.setopt, CMailClient.setopt]
  unfold CIMAPClient.PostPerform
  dsimp only
  split
  · rw [keep]
    exact closeIfOpen_closed o.base
  · rw [keep]

theorem CSMTPClient.addRecipients_keeps (o : Object CSMTPClient) :
    (CSMTPClient.addRecipients o).derived = o.derived ∧
    (CSMTPClient.addRecipients o).base.m_fLocalFile = o.base.m_fLocalFile := by
  simp only [CSMTPClient.addRecipients, setMailRcpt, appendRecipient, Object.setopt,
    Object.onBase, CMailClient.setopt]
  split <;> exact ⟨rfl, rfl⟩

theorem CSMTPClient.PrePerform_file_smtp (env : Env) (o : Object CSMTPClient) :
    (CSMTPClient.PrePerform env o).2.derived.m_eOperationType = o.derived.m_eOperationType ∧
    (o.derived.m_eOperationType ≠ SMTP.MailOperation.SMTP_SEND_FILE →
      (CSMTPClient.PrePerform env o).2.base.m_fLocalFile = o.base.m_fLocalFile) ∧
    ((CSMTPClient.PrePerform env o).1 = false →
      (CSMTPClient.PrePerform env o).2.base.m_fLocalFile.is_open =
        o.base.m_fLocalFile.is_open) := by
  cases hk : o.derived.m_eOperationType with
  | SMTP_SEND_FILE =>
    simp only [CSMTPClient.PrePerform, Object.onBase, hk]
    split
    · split
      · refine ⟨?_, fun h => absurd rfl h, fun h => ?_⟩
        · show (CSMTPClient.addRecipients _).derived.m_eOperationType = _
          rw [(CSMTPClient.addRecipients_keeps _).1]
          exact hk
        · simp [finishPrePerform] at h
      · rename_i hg
        refine ⟨hk, fun h => absurd rfl h, fun _ => ?_⟩
        simp only [Object.logIfEnabled, Object.onBase, file_logIfEnabled]
        exact fileOpen_not_good env _ _ false (by simpa using hg)
    · exact ⟨hk, fun _ => rfl, fun _ => rfl⟩
  | SMTP_SEND_STRING =>
    simp only [CSMTPClient.PrePerform, Object.onBase, hk]
    split
    · refine ⟨?_, fun _ => ?_, fun h => ?_⟩
      · show (CSMTPClient.addRecipients _).derived.m_eOperationType = _
        rw [(CSMTPClient.addRecipients_keeps _).1]
        exact hk
      · show (CSMTPClient.addRecipients _).base.m_fLocalFile = _
        rw [(CSMTPClient.addRecipients_keeps _).2]
        rfl
      · simp [finishPrePerform] at h
    · exact ⟨hk, fun _ => rfl, fun _ => rfl⟩
  | SMTP_VRFY =>
    simp only [CSMTPClient.PrePerform, Object.onBase, hk]
    split
    · refine ⟨?_, fun _ => ?_, fun h => ?_⟩
      · simp only [finishPrePerform, setMailRcpt, appendRecipient, Object.setopt, Object.onBase,
          CMailClient.setopt, Object.onDerived]
        (repeat' split) <;> exact hk
      · simp only [finishPrePerform, setMailRcpt, appendRecipient, Object.setopt, Object.onBase,
          CMailClient.setopt, Object.onDerived]
        (repeat' split) <;> rfl
      · simp [finishPrePerform] at h
    · exact ⟨hk, fun _ => rfl, fun _ => rfl⟩
  | SMTP_EXPN =>
    simp only [CSMTPClient.PrePerform, Object.onBase, hk]
    refine ⟨hk, fun _ => ?_, fun h => ?_⟩
    · simp only [finishPrePerform, setMailRcpt, appendRecipient, Object.setopt, Object.onBase,
        CMailClient.setopt, CMailClient.ssClear]
    · simp [finishPrePerform] at h

theorem CSMTPClient.PostPerform_file_smtp (env : Env) (code : Nat) (o : Object CSMTPClient) :
    (CSMTPClient.PostPerform env code o).2.base.m_fLocalFile.is_open =
      if o.derived.m_eOperationType = SMTP.MailOperation.SMTP_SEND_FILE then false
      else o.base.m_fLocalFile.is_open := by
  unfold CSMTPClient.PostPerform
  split
  · exact closeIfOpen_closed o.base
  · rfl

theorem execute_file {δ : Type} (env : Env) (o : Object δ) :
    (o.execute env).2.base.m_fLocalFile = o.base.m_fLocalFile := by
  cases hh : o.base.m_pCurlSession with
  | none => rw [(execute_of_no_handle env o hh).2.2]
  | some h => rw [(execute_of_handle env o h hh).2.2]

/-- The perform cycle, when it returns, returns with the local file stream closed when it
found it closed, for hooks that open a file only in the operations `isFile` and close it
after them. -/
theorem Perform_file_closed {δ : Type} (vt : VTable δ) (env : Env) (isFile : δ → Prop)
    [DecidablePred isFile]
    (hpre1 : ∀ x, isFile (vt.PrePerform env x).2.derived ↔ isFile x.derived)
    (hpre2 : ∀ x, ¬ isFile x.derived →
      (vt.PrePerform env x).2.base.m_fLocalFile = x.base.m_fLocalFile)
    (hpre3 : ∀ x, (vt.PrePerform env x).1 = false →
      (vt.PrePerform env x).2.base.m_fLocalFile.is_open = x.base.m_fLocalFile.is_open)
    (hpost : ∀ code x, (vt.PostPerform env code x).2.base.m_fLocalFile.is_open =
      if isFile x.derived then false else x.base.m_fLocalFile.is_open)
    (o : Object δ) (h : o.base.m_fLocalFile.is_open = false)
    (hret : (Perform vt env o).2.base.crashed = false) :
    (Perform vt env o).2.base.m_fLocalFile.is_open = false := by
  have hlog : ∀ (x : Object δ) msg,
      (x.logIfEnabled msg).base.m_fLocalFile = x.base.m_fLocalFile :=
    fun x msg => file_logIfEnabled x.base msg
  have hb : o.beforePrePerform.base.m_fLocalFile = o.base.m_fLocalFile := rfl
  have hbd : o.beforePrePerform.derived = o.derived := rfl
  have post : ∀ code, (vt.PostPerform env code
      ((vt.PrePerform env o.beforePrePerform).2.execute env).2).2.base.m_fLocalFile.is_open =
      false := by
    intro code
    rw [hpost]
    split
    · rfl
    · rename_i hf
      have hf2 : ¬ isFile o.beforePrePerform.derived := fun x => hf ((hpre1 _).2 x)
      rw [execute_file, hpre2 _ hf2, hb]
      exact h
  revert hret
  unfold Perform
  split
  · intro _
    rw [hlog]
    exact h
  · dsimp only
    split
    · rename_i hp
      intro _
      rw [hlog, hpre3 _ (by simpa using hp), hb]
      exact h
    · split
      · intro hret
        have hc : true = false := hret
        exact Bool.noConfusion hc
      · intro _
        split
        · rw [hlog]
          exact post _
        · split
          · rw [hlog]
            exact post _
          · exact post _

/-- Every public call that returns, returns with the local file stream closed when it
found it closed. -/
theorem Call.run_file_closed {a : Adapter} (env : Env) (c : Call a) (o : Object a.Fields)
    (h : o.base.m_fLocalFile.is_open = false)
    (hret : (c.run env o).2.base.crashed = false) :
    (c.run env o).2.base.m_fLocalFile.is_open = false := by
  cases c with
  | InitSession strHost strLogin strPassword eSettingsFlags eSslTlsFlags =>
    show (MailClient.InitSession a.vtable env strHost strLogin strPassword eSettingsFlags
      eSslTlsFlags o).2.base.m_fLocalFile.is_open = false
    unfold MailClient.InitSession
    split
    · rw [show (o.logIfEnabled LOG_ERROR_EMPTY_HOST_MSG).base.m_fLocalFile = _ from
        file_logIfEnabled _ _]
      exact h
    · split
      · rw [show (o.logIfEnabled LOG_ERROR_CURL_ALREADY_INIT_MSG).base.m_fLocalFile = _ from
          file_logIfEnabled _ _]
        exact h
      · have k : ∀ x : Object a.Fields,
            (a.vtable.ParseURL x).base.m_fLocalFile = x.base.m_fLocalFile := by
          intro x
          cases a with
          | mail => rfl
          | pop3 =>
            simp only [Adapter.vtable, CPOPClient.vtable, CPOPClient.ParseURL, Object.onBase]
            split_ifs <;> rfl
          | imap =>
            simp only [Adapter.vtable, CIMAPClient.vtable, CIMAPClient.ParseURL, Object.onBase]
            split_ifs <;> rfl
          | smtp =>
            simp only [Adapter.vtable, CSMTPClient.vtable, CSMTPClient.ParseURL, Object.onBase]
            split_ifs <;> rfl
        show (a.vtable.ParseURL _).base.m_fLocalFile.is_open = false
        rw [k]
        exact h
  | CleanupSession =>
    show (a.vtable.CleanupSession o).2.base.m_fLocalFile.is_open = false
    rw [(Adapter.CleanupSession_base a o).2]
    unfold CMailClient.CleanupSession
    split
    · rw [file_logIfEnabled]
      exact h
    · exact h
  | op x =>
    cases a with
    | mail => exact nomatch x
    | pop3 =>
      have hret2 : (POP.Op.run env x o).2.base.crashed = false := hret
      show (POP.Op.run env x o).2.base.m_fLocalFile.is_open = false
      rw [POP.Op.run_eq_Perform] at hret2 ⊢
      refine Perform_file_closed CPOPClient.vtable env
        (fun d => d.m_eOperationType = POP.MailOperation.POP3_RETR_FILE)
        (fun y => by
          show (CPOPClient.PrePerform env y).2.derived.m_eOperationType = _ ↔ _
          rw [(CPOPClient.PrePerform_file env y).1])
        (fun y => (CPOPClient.PrePerform_file env y).2.1)
        (fun y => (CPOPClient.PrePerform_file env y).2.2)
        (CPOPClient.PostPerform_file env) _ ?_ hret2
      cases x <;> exact h
    | imap =>
      have hret2 : (IMAP.Op.run env x o).2.base.crashed = false := hret
      show (IMAP.Op.run env x o).2.base.m_fLocalFile.is_open = false
      rw [IMAP.Op.run_eq_Perform_imap] at hret2 ⊢
      refine Perform_file_closed CIMAPClient.vtable env
        (fun d => d.m_eOperationType = IMAP.MailOperation.IMAP_SEND_FILE ∨
          d.m_eOperationType = IMAP.MailOperation.IMAP_RETR_FILE)
        (fun y => by
          show (CIMAPClient.PrePerform env y).2.derived.m_eOperationType = _ ∨
            (CIMAPClient.PrePerform env y).2.derived.m_eOperationType = _ ↔ _
          rw [(CIMAPClient.PrePerform_file_imap env y).1])
        (fun y => (CIMAPClient.PrePerform_file_imap env y).2.1)
        (fun y => (CIMAPClient.PrePerform_file_imap env y).2.2)
        (CIMAPClient.PostPerform_file_imap env) _ ?_ hret2
      cases x <;> exact h
    | smtp =>
      have hret2 : (SMTP.Op.run env x o).2.base.crashed = false := hret
      show (SMTP.Op.run env x o).2.base.m_fLocalFile.is_open = false
      rw [SMTP.Op.run_eq_Perform_smtp] at hret2 ⊢
      refine Perform_file_closed CSMTPClient.vtable env
        (fun d => d.m_eOperationType = SMTP.MailOperation.SMTP_SEND_FILE)
        (fun y => by
          show (CSMTPClient.PrePerform env y).2.derived.m_eOperationType = _ ↔ _
          rw [(CSMTPClient.PrePerform_file_smtp env y).1])
        (fun y => (CSMTPClient.PrePerform_file_smtp env y).2.1)
        (fun y => (CSMTPClient.PrePerform_file_smtp env y).2.2)
        (CSMTPClient.PostPerform_file_smtp env) _ ?_ hret2
      cases x <;> exact h
  | SetProgressFnCallback p => exact h
  | SetProxy p =>
    show (CMailClient.SetProxy p o.base).m_fLocalFile.is_open = false
    unfold CMailClient.SetProxy
    split
    · exact h
    · dsimp only
      split <;> exact h
  | SetTimeout t => exact h
  | SetNoSignal b => exact h
  | SetSSLCertFile p => exact h
  | SetSSLKeyFile p => exact h
  | SetSSLKeyPassword p => exact h

theorem Call.runAll_file_closed {a : Adapter} (env : Env) (cs : List (Call a)) :
    ∀ o : Object a.Fields, o.base.m_fLocalFile.is_open = false →
      Call.allReturn env cs o = true →
      (Call.runAll env cs o).base.m_fLocalFile.is_open = false := by
  induction cs with
  | nil => intro o h _; exact h
  | cons c cs ih =>
    intro o h hr
    have hr2 : (!(c.run env o).2.base.crashed &&
        Call.allReturn env cs (c.run env o).2) = true := hr
    rw [Bool.and_eq_true] at hr2
    exact ih _ (Call.run_file_closed env c o h (by simpa using hr2.1)) hr2.2

/-- C26: for every class and every sequence of public calls on a new object, in every
environment, when every call of the sequence returns (`Call.allReturn`), the local file
stream is closed when the last call has returned; more generally a call that finds the
stream closed and returns, returns with the stream closed, whether it succeeds or fails;
and the post-configure hooks of the operations that transfer a file (`GetFile` of POP3,
`GetFile` and `SendFile` of IMAP, `SendFile` of SMTP) leave the stream closed whatever the
status of the request they are given. -/
theorem local_file_closed_on_return (a : Adapter) (env : Env) (cs : List (Call a)) :
    (Call.allReturn env cs (Adapter.new a) = true →
      (Call.runAll env cs (Adapter.new a)).base.m_fLocalFile.is_open = false) ∧
    (∀ (o : Object a.Fields) (c : Call a), o.base.m_fLocalFile.is_open = false →
      (c.run env o).2.base.crashed = false →
      (c.run env o).2.base.m_fLocalFile.is_open = false) ∧
    (∀ (code : Nat) (x : Object CPOPClient),
      x.derived.m_eOperationType = POP.MailOperation.POP3_RETR_FILE →
      (CPOPClient.PostPerform env code x).2.base.m_fLocalFile.is_open = false) ∧
    (∀ (code : Nat) (x : Object CIMAPClient),
      x.derived.m_eOperationType = IMAP.MailOperation.IMAP_SEND_FILE ∨
        x.derived.m_eOperationType = IMAP.MailOperation.IMAP_RETR_FILE →
      (CIMAPClient.PostPerform env code x).2.base.m_fLocalFile.is_open = false) ∧
    (∀ (code : Nat) (x : Object CSMTPClient),
      x.derived.m_eOperationType = SMTP.MailOperation.SMTP_SEND_FILE →
      (CSMTPClient.PostPerform env code x).2.base.m_fLocalFile.is_open = false) := by
  refine ⟨Call.runAll_file_closed env cs _ (by cases a <;> rfl),
    fun o c h hret => Call.run_file_closed env c o h hret, fun code x hx => ?_,
    fun code x hx => ?_,
    fun code x hx => ?_⟩
  · rw [CPOPClient.PostPerform_file, if_pos hx]
  · rw [CIMAPClient.PostPerform_file_imap, if_pos hx]
  · rw [CSMTPClient.PostPerform_file_smtp, if_pos hx]

/-- C26 on a new IMAP client, in an environment where the file can be opened and the
request fails: `InitSession` and `GetFile` return, the stream is closed after them; and on
the IMAP session of the examples `GetFile` returns, with the value false, the file was
opened and closed, and the stream is closed at the return. -/
theorem local_file_closed_on_return_example :
    Call.allReturn (a := Adapter.imap) Env.expungeOnly
      [Call.InitSession "mail.example.com" "user" "secret" ALL_FLAGS NO_SSLTLS,
        Call.op (IMAP.Op.GetFile "3" "/tmp/mail.eml")] (Adapter.new Adapter.imap) = true ∧
    (Call.runAll (a := Adapter.imap) Env.expungeOnly
      [Call.InitSession "mail.example.com" "user" "secret" ALL_FLAGS NO_SSLTLS,
        Call.op (IMAP.Op.GetFile "3" "/tmp/mail.eml")]
      (Adapter.new Adapter.imap)).base.m_fLocalFile.is_open = false ∧
    ((IMAP.Op.GetFile "3" "/tmp/mail.eml").run Env.expungeOnly
      Example.imapSession).2.base.crashed = false ∧
    ((IMAP.Op.GetFile "3" "/tmp/mail.eml").run Env.expungeOnly Example.imapSession).1 = false ∧
    (((IMAP.Op.GetFile "3" "/tmp/mail.eml").run Env.expungeOnly
      Example.imapSession).2.base.trace.filter
      (fun e => e == Event.fileOpen "/tmp/mail.eml" true true || e == Event.fileClose)) =
      [Event.fileOpen "/tmp/mail.eml" true true, Event.fileClose] ∧
    ((IMAP.Op.GetFile "3" "/tmp/mail.eml").run Env.expungeOnly
      Example.imapSession).2.base.m_fLocalFile.is_open = false :=
  ⟨by decide,
    (local_file_closed_on_return Adapter.imap Env.expungeOnly
      [Call.InitSession "mail.example.com" "user" "secret" ALL_FLAGS NO_SSLTLS,
        Call.op (IMAP.Op.GetFile "3" "/tmp/mail.eml")]).1 (by decide),
    by decide, by decide, by decide,
    (local_file_closed_on_return Adapter.imap Env.expungeOnly
      [Call.InitSession "mail.example.com" "user" "secret" ALL_FLAGS NO_SSLTLS,
        Call.op (IMAP.Op.GetFile "3" "/tmp/mail.eml")]).2.1 Example.imapSession
      (Call.op (IMAP.Op.GetFile "3" "/tmp/mail.eml")) (by decide) (by decide)⟩

/-! ## C27: the counter of the objects and the global init and teardown -/

theorem wrapInt32_of_small (x : Int) (h1 : -2147483648 ≤ x) (h2 : x < 2147483648) :
    wrapInt32 x = x := by
  unfold wrapInt32
  omega

theorem Lifecycle.ordered_live (bound live : Nat) (evs : List Lifecycle)
    (h : Lifecycle.ordered bound live evs = true) : live < bound := by
  cases evs with
  | nil => simpa [Lifecycle.ordered] using h
  | cons e evs =>
    cases e <;> simp only [Lifecycle.ordered, Bool.and_eq_true, decide_eq_true_eq] at h
    · exact h.1
    · exact h.1.1

theorem Lifecycle.run_spec (evs : List Lifecycle) :
    ∀ (g : Globals) (live : Nat), g.s_iCurlSession = live →
      Lifecycle.ordered 2147483648 live evs = true →
      (Lifecycle.run g evs).s_iCurlSession = Lifecycle.liveAfter live evs ∧
      (Lifecycle.run g evs).calls = g.calls ++ Lifecycle.specCalls live evs := by
  induction evs with
  | nil => intro g live hg _; exact ⟨hg, by simp [Lifecycle.run, Lifecycle.specCalls]⟩
  | cons e evs ih =>
    intro g live hg ho
    cases e with
    | construct =>
      simp only [Lifecycle.ordered, Bool.and_eq_true, decide_eq_true_eq] at ho
      have hb : live + 1 < 2147483648 := Lifecycle.ordered_live _ _ _ ho.2
      have hs : (Lifecycle.step g Lifecycle.construct).s_iCurlSession = ((live + 1 : Nat) : Int) := by
        simp only [Lifecycle.step, CMailClient.constructor, hg]
        rw [wrapInt32_of_small ((live : Int) + 1) (by omega) (by omega)]
        push_cast
        rfl
      obtain ⟨i1, i2⟩ := ih (Lifecycle.step g Lifecycle.construct) (live + 1) hs ho.2
      refine ⟨i1, ?_⟩
      show (Lifecycle.run (Lifecycle.step g Lifecycle.construct) evs).calls = _
      rw [i2]
      simp only [Lifecycle.step, CMailClient.constructor, hg, Lifecycle.specCalls]
      by_cases h0 : live = 0
      · simp [h0]
      · have : ((live : Nat) : Int) ≠ 0 := by exact_mod_cast h0
        simp [h0, this]
    | destruct c =>
      simp only [Lifecycle.ordered, Bool.and_eq_true, decide_eq_true_eq] at ho
      have hb : live < 2147483648 := ho.1.1
      have hp : 0 < live := ho.1.2
      have hw : wrapInt32 (g.s_iCurlSession - 1) = ((live - 1 : Nat) : Int) := by
        rw [hg, wrapInt32_of_small ((live : Int) - 1) (by omega) (by omega)]
        omega
      have hs : (Lifecycle.step g (Lifecycle.destruct c)).s_iCurlSession =
          ((live - 1 : Nat) : Int) := by
        simp only [Lifecycle.step, CMailClient.destructor, hw]
      obtain ⟨i1, i2⟩ := ih (Lifecycle.step g (Lifecycle.destruct c)) (live - 1) hs ho.2
      refine ⟨i1, ?_⟩
      show (Lifecycle.run (Lifecycle.step g (Lifecycle.destruct c)) evs).calls = _
      rw [i2]
      simp only [Lifecycle.step, CMailClient.destructor, hw, Lifecycle.specCalls]
      by_cases h0 : live - 1 = 0
      · simp [h0]
      · have : ¬ (((live - 1 : Nat) : Int) ≤ 0) := by omega
        simp [h0, this]

/-- C27: for every sequence of constructions and destructions in which no destruction
comes when no object is alive, and fewer than `2^31` objects are alive at any time (the
counter is an `int`), starting with the counter at 0: the counter `s_iCurlSession` is the
number of objects alive, and the calls of `curl_global_init` and `curl_global_cleanup` are,
in order, exactly the init at each construction that finds no object alive and the
teardown at each destruction that leaves no object alive. -/
theorem counter_counts_live_sessions (evs : List Lifecycle)
    (ho : Lifecycle.ordered 2147483648 0 evs = true) :
    (Lifecycle.run {} evs).s_iCurlSession = Lifecycle.liveAfter 0 evs ∧
    (Lifecycle.run {} evs).calls = Lifecycle.specCalls 0 evs := by
  have h := Lifecycle.run_spec evs {} 0 rfl ho
  simpa using h

/-- C27 on two objects, the second constructed before the first is destroyed, and a third
one afterwards: the global init is called at the first and at the third construction,
the global teardown at the second and at the third destruction. -/
theorem counter_counts_live_sessions_example :
    Lifecycle.ordered 2147483648 0
      [Lifecycle.construct, Lifecycle.construct, Lifecycle.destruct CMailClient.new,
        Lifecycle.destruct CMailClient.new, Lifecycle.construct,
        Lifecycle.destruct CMailClient.new] = true ∧
    (Lifecycle.run {}
      [Lifecycle.construct, Lifecycle.construct, Lifecycle.destruct CMailClient.new,
        Lifecycle.destruct CMailClient.new, Lifecycle.construct,
        Lifecycle.destruct CMailClient.new]).s_iCurlSession = 0 ∧
    (Lifecycle.run {}
      [Lifecycle.construct, Lifecycle.construct, Lifecycle.destruct CMailClient.new,
        Lifecycle.destruct CMailClient.new, Lifecycle.construct,
        Lifecycle.destruct CMailClient.new]).calls =
      [GlobalCall.init, GlobalCall.cleanup, GlobalCall.init, GlobalCall.cleanup] :=
  have h := counter_counts_live_sessions
    [Lifecycle.construct, Lifecycle.construct, Lifecycle.destruct CMailClient.new,
      Lifecycle.destruct CMailClient.new, Lifecycle.construct,
      Lifecycle.destruct CMailClient.new] (by decide)
  ⟨by decide, h.1, h.2⟩

/-! ## The line sources -/

/-- The segments of a list: the first one is what comes before the first separator. -/
theorem splitOn_eq_takeWhile (l : List Char) :
    l.splitOn '\n' = l.takeWhile (fun c => c != '\n') ::
      (match l.dropWhile (fun c => c != '\n') with
        | [] => []
        | _ :: r => r.splitOn '\n') := by
  induction l with
  | nil => rfl
  | cons x xs ih =>
    unfold List.splitOn at ih ⊢
    rw [List.splitOnP_cons]
    by_cases hx : x = '\n'
    · subst hx
      simp [List.takeWhile, List.dropWhile]
    · have h1 : (x == '\n') = false := by simpa using hx
      have h2 : (x != '\n') = true := by simpa using hx
      rw [h1, ih]
      simp [List.takeWhile, List.dropWhile, h2, List.modifyHead]

theorem specLines_nil : specLines ⟨[]⟩ = [] := by decide

/-- The lines of a text that is not empty: what comes before the first `'\n'`, then the
lines of what comes after it. -/
theorem specLines_cons (l : List Char) (hl : l ≠ []) :
    specLines ⟨l⟩ = ⟨l.takeWhile (fun c => c != '\n')⟩ ::
      specLines ⟨l.drop ((l.takeWhile (fun c => c != '\n')).length + 1)⟩ := by
  have hsplit := splitOn_eq_takeWhile l
  have happ := List.takeWhile_append_dropWhile (fun c => c != '\n') l
  unfold specLines
  dsimp only
  rw [hsplit]
  cases hd : l.dropWhile (fun c => c != '\n') with
  | nil =>
    rw [hd, List.append_nil] at happ
    have hdrop : l.drop ((l.takeWhile (fun c => c != '\n')).length + 1) = [] := by
      rw [happ]
      exact List.drop_eq_nil_of_le (by omega)
    rw [hdrop, happ]
    simp [hl]
  | cons c r =>
    have hdrop : l.drop ((l.takeWhile (fun c => c != '\n')).length + 1) = r := by
      have h := congrArg (List.drop ((l.takeWhile (fun c => c != '\n')).length + 1)) happ
      rw [hd, List.drop_append] at h
      exact h.symm
    rw [hdrop]
    have hne : r.splitOn '\n' ≠ [] := List.splitOnP_ne_nil _ _
    dsimp only
    cases hS : r.splitOn '\n' with
    | nil => exact absurd hS hne
    | cons a as =>
      rw [List.getLast?_cons_cons]
      split
      · rfl
      · rfl

theorem specChunks_nil (n : Nat) : specChunks [] (n + 1) = ("", 0) :: specChunks [] n := rfl

theorem readStringLines_succ (size nmemb n : Nat) (userp : Option IStringStream) :
    CMailClient.readStringLines size nmemb (n + 1) userp =
      ((CMailClient.ReadLineFromStringStreamCallback size nmemb userp).copied,
        (CMailClient.ReadLineFromStringStreamCallback size nmemb userp).returned) ::
      CMailClient.readStringLines size nmemb n
        (CMailClient.ReadLineFromStringStreamCallback size nmemb userp).stream := rfl

theorem readFileLines_succ (size nmemb n : Nat) (stream : Option IFStream) :
    CMailClient.readFileLines size nmemb (n + 1) stream =
      ((CMailClient.ReadLineFromFileStreamCallback size nmemb stream).copied,
        (CMailClient.ReadLineFromFileStreamCallback size nmemb stream).returned) ::
      CMailClient.readFileLines size nmemb n
        (CMailClient.ReadLineFromFileStreamCallback size nmemb stream).stream := rfl

/-- The text a stream has left to read. -/
theorem getline_not_good (s : IStringStream) (hg : s.good = false) :
    s.getline = ("", s) := by
  simp [IStringStream.getline, hg]

/-- On a stream with nothing left, `std::getline` sets the error state. -/
theorem getline_at_end (s : IStringStream) (hg : s.good = true)
    (he : s.str.data.drop s.gpos = []) :
    s.getline.2.good = false := by
  simp [IStringStream.getline, hg, he]

/-- On a stream with text left, `std::getline` extracts the characters before the next
line feed and moves past it. -/
theorem getline_line (s : IStringStream) (hg : s.good = true)
    (hne : s.str.data.drop s.gpos ≠ []) :
    s.getline.1 = ⟨(s.str.data.drop s.gpos).takeWhile (fun c => c != '\n')⟩ ∧
    s.getline.2.good = true ∧
    s.getline.2.str.data.drop s.getline.2.gpos =
      (s.str.data.drop s.gpos).drop
        (((s.str.data.drop s.gpos).takeWhile (fun c => c != '\n')).length + 1) := by
  have hb : (s.str.data.drop s.gpos).isEmpty = false := by
    cases h : s.str.data.drop s.gpos with
    | nil => exact absurd h hne
    | cons a t => rfl
  have e : s.getline =
      (⟨(s.str.data.drop s.gpos).takeWhile (fun c => c != '\n')⟩,
        { s with gpos := s.gpos +
            ((s.str.data.drop s.gpos).takeWhile (fun c => c != '\n')).length +
            (if ((s.str.data.drop s.gpos).takeWhile (fun c => c != '\n')).length <
              (s.str.data.drop s.gpos).length then 1 else 0) }) := by
    simp only [IStringStream.getline, hg, Bool.not_true, Bool.false_eq_true, if_false, hb]
  rw [e]
  refine ⟨rfl, hg, ?_⟩
  have hle : ((s.str.data.drop s.gpos).takeWhile (fun c => c != '\n')).length ≤
      (s.str.data.drop s.gpos).length := (List.takeWhile_sublist _).length_le
  show List.drop _ s.str.data = _
  rw [Nat.add_assoc, ← List.drop_drop]
  split
  · rfl
  · rw [List.drop_eq_nil_of_le (by omega : (s.str.data.drop s.gpos).length ≤ _),
      List.drop_eq_nil_of_le (by omega : (s.str.data.drop s.gpos).length ≤ _)]

theorem crlf_length (l : List Char) :
    (String.mk l ++ "\r\n").length = (String.mk l).length + 2 := by
  rw [String.length_append]
  rfl

/-- The guard of the line sources passes when `size`, `nmemb` and their product are not
0 and the stream pointer is not null. -/
theorem line_source_guard (size nmemb : Nat) (hs : 0 < size) (hn : 0 < nmemb)
    (hc : 0 < capacity size nmemb) (isNone : Bool) (hp : isNone = false) :
    (size == 0 || nmemb == 0 || decide (capacity size nmemb < 1) || isNone) = false := by
  have h1 : (size == 0) = false := by simpa using Nat.pos_iff_ne_zero.1 hs
  have h2 : (nmemb == 0) = false := by simpa using Nat.pos_iff_ne_zero.1 hn
  have h3 : decide (capacity size nmemb < 1) = false := decide_eq_false (by omega)
  rw [h1, h2, h3, hp]
  rfl

/-- The string line source on a stream in error: nothing, with length 0, and the stream
as it was. -/
theorem ReadLineFromStringStreamCallback_not_good (size nmemb : Nat) (s : IStringStream)
    (hg : s.good = false) :
    CMailClient.ReadLineFromStringStreamCallback size nmemb (some s) =
      { copied := "", returned := 0, stream := some s } := by
  unfold CMailClient.ReadLineFromStringStreamCallback
  split
  · rfl
  · simp [getline_not_good s hg, hg]

/-- The string line source on a stream in error: nothing, with length 0, call after
call. -/
theorem readStringLines_of_not_good (size nmemb n : Nat) :
    ∀ s : IStringStream, s.good = false →
      CMailClient.readStringLines size nmemb n (some s) = specChunks [] n := by
  induction n with
  | zero => intro s _; rfl
  | succ n ih =>
    intro s hs
    rw [specChunks_nil, ← ih s hs, readStringLines_succ,
      ReadLineFromStringStreamCallback_not_good size nmemb s hs]

/-- The string line source called again and again on a stream that is not in error, with
a capacity that is not 0: one chunk for each line of the text left to read. -/
theorem readStringLines_of_good (size nmemb : Nat) (hs : 0 < size) (hn : 0 < nmemb)
    (hc : 0 < capacity size nmemb) (n : Nat) :
    ∀ s : IStringStream, s.good = true →
      CMailClient.readStringLines size nmemb n (some s) =
        specChunks (specLines ⟨s.str.data.drop s.gpos⟩) n := by
  induction n with
  | zero => intro s _; cases specLines ⟨s.str.data.drop s.gpos⟩ <;> rfl
  | succ n ih =>
    intro s hg
    have e : CMailClient.ReadLineFromStringStreamCallback size nmemb (some s) =
        if s.getline.2.good = true then
          { copied := s.getline.1 ++ "\r\n", returned := (s.getline.1 ++ "\r\n").length,
            stream := some s.getline.2 }
        else { copied := "", returned := 0, stream := some s.getline.2 } := by
      unfold CMailClient.ReadLineFromStringStreamCallback
      rw [if_neg (by rw [line_source_guard size nmemb hs hn hc (some s).isNone rfl]; simp)]
    rw [readStringLines_succ, e]
    by_cases he : s.str.data.drop s.gpos = []
    · have g1 := getline_at_end s hg he
      rw [he, specLines_nil, specChunks_nil, if_neg (by simp [g1])]
      dsimp only
      rw [readStringLines_of_not_good size nmemb n _ g1]
    · obtain ⟨k1, k2, k3⟩ := getline_line s hg he
      rw [specLines_cons _ he, if_pos k2]
      dsimp only
      rw [ih _ k2, k3, k1]
      simp only [specChunks, crlf_length]

/-- The file line source on an open file does what the string line source does on the
text of the file. -/
theorem readFileLines_of_open (size nmemb n : Nat) :
    ∀ f : IFStream, f.is_open = true →
      CMailClient.readFileLines size nmemb n (some f) =
        CMailClient.readStringLines size nmemb n (some f.text) := by
  induction n with
  | zero => intro f _; rfl
  | succ n ih =>
    intro f ho
    rw [readFileLines_succ, readStringLines_succ]
    unfold CMailClient.ReadLineFromFileStreamCallback
      CMailClient.ReadLineFromStringStreamCallback
    by_cases hg : (size == 0 || nmemb == 0 || decide (capacity size nmemb < 1)) = true
    · have e1 : (size == 0 || nmemb == 0 || decide (capacity size nmemb < 1) ||
          (some f).isNone) = true := by rw [hg]; rfl
      have e2 : (size == 0 || nmemb == 0 || decide (capacity size nmemb < 1) ||
          (some f.text).isNone) = true := by rw [hg]; rfl
      rw [if_pos e1, if_pos e2]
      dsimp only
      rw [ih f ho]
    · have hg2 : (size == 0 || nmemb == 0 || decide (capacity size nmemb < 1)) = false := by
        simpa using hg
      have e1 : ¬ (size == 0 || nmemb == 0 || decide (capacity size nmemb < 1) ||
          (some f).isNone) = true := by rw [hg2]; simp
      have e2 : ¬ (size == 0 || nmemb == 0 || decide (capacity size nmemb < 1) ||
          (some f.text).isNone) = true := by rw [hg2]; simp
      rw [if_neg e1, if_neg e2]
      dsimp only
      rw [if_pos ho]
      by_cases hr : f.text.getline.2.good = true
      · rw [if_pos hr, if_pos hr]
        dsimp only
        rw [ih { f with text := f.text.getline.2 } ho]
      · rw [if_neg hr, if_neg hr]
        dsimp only
        rw [ih { f with text := f.text.getline.2 } ho]

/-- A line feed at the end of a text adds one empty segment. -/
theorem splitOn_append_lf (l : List Char) :
    (l ++ ['\n']).splitOn '\n' = l.splitOn '\n' ++ [[]] := by
  induction l with
  | nil => decide
  | cons x xs ih =>
    unfold List.splitOn at ih ⊢
    rw [List.cons_append, List.splitOnP_cons, List.splitOnP_cons, ih]
    by_cases hx : (x == '\n') = true
    · rw [if_pos hx, if_pos hx]
      rfl
    · rw [if_neg hx, if_neg hx]
      cases hS : List.splitOnP (fun c => c == '\n') xs with
      | nil => exact absurd hS (List.splitOnP_ne_nil _ _)
      | cons a as => rfl

/-- The last segment of a text that is not empty and does not end with a line feed is
not empty. -/
theorem splitOn_getLast (l : List Char) (hl : l ≠ []) (hlast : l.getLast? ≠ some '\n') :
    (l.splitOn '\n').getLast? ≠ some [] := by
  induction l with
  | nil => exact absurd rfl hl
  | cons x xs ih =>
    unfold List.splitOn at ih ⊢
    rw [List.splitOnP_cons]
    cases xs with
    | nil =>
      have hx : ¬ (x == '\n') = true := by
        intro h
        exact hlast (by rw [eq_of_beq h]; rfl)
      rw [if_neg hx]
      simp [List.splitOnP_nil, List.modifyHead]
    | cons y ys =>
      have h1 := ih (List.cons_ne_nil _ _) (by rwa [List.getLast?_cons_cons] at hlast)
      cases hS : List.splitOnP (fun c => c == '\n') (y :: ys) with
      | nil => exact absurd hS (List.splitOnP_ne_nil _ _)
      | cons a as =>
        rw [hS] at h1
        split
        · rwa [List.getLast?_cons_cons]
        · cases as with
          | nil => simp [List.modifyHead]
          | cons b bs =>
            rw [List.getLast?_cons_cons] at h1
            simpa [List.modifyHead] using h1

/-- A line feed at the end of a text that is not empty and has none there adds no line. -/
theorem specLines_append_lf (l : List Char) (hl : l ≠ []) (hlast : l.getLast? ≠ some '\n') :
    specLines ⟨l ++ ['\n']⟩ = specLines ⟨l⟩ := by
  unfold specLines
  dsimp only
  rw [splitOn_append_lf, if_neg (splitOn_getLast l hl hlast)]
  simp

/-- The lines of a text made of lines without line feed, each followed by one. -/
theorem specLines_terminated (ls : List String) (h : ∀ l ∈ ls, '\n' ∉ l.data) :
    specLines (terminated "\n" ls) = ls := by
  induction ls with
  | nil => decide
  | cons l ls ih =>
    have hl : ∀ c ∈ l.data, (c != '\n') = true := by
      intro c hc
      have : c ≠ '\n' := fun e => h l (List.mem_cons_self _ _) (e ▸ hc)
      simpa using this
    have e : terminated "\n" (l :: ls) = ⟨l.data ++ '\n' :: (terminated "\n" ls).data⟩ := by
      show l ++ "\n" ++ terminated "\n" ls = _
      apply String.ext
      simp
    have htw : (l.data ++ '\n' :: (terminated "\n" ls).data).takeWhile (fun c => c != '\n') =
        l.data := by
      rw [List.takeWhile_append_of_pos hl]
      simp [List.takeWhile]
    rw [e, specLines_cons _ (by simp), htw]
    have hd : (l.data ++ '\n' :: (terminated "\n" ls).data).drop (l.data.length + 1) =
        (terminated "\n" ls).data := by
      rw [List.drop_append_eq_append_drop]
      simp
    rw [hd]
    show l :: specLines (terminated "\n" ls) = _
    rw [ih (fun l hl => h l (List.mem_cons_of_mem _ hl))]

/-- Lines followed by `"\r\n"` are the lines with `'\r'` at their end, followed by
`"\n"`. -/
theorem terminated_crlf (ls : List String) :
    terminated "\r\n" ls = terminated "\n" (ls.map (fun l => l ++ "\r")) := by
  induction ls with
  | nil => rfl
  | cons l ls ih =>
    show l ++ "\r\n" ++ terminated "\r\n" ls =
      l ++ "\r" ++ "\n" ++ terminated "\n" (ls.map (fun l => l ++ "\r"))
    rw [ih, String.append_assoc l "\r" "\n"]
    rfl

theorem pos_of_capacity (size nmemb : Nat) (hc : 0 < capacity size nmemb) :
    0 < size ∧ 0 < nmemb := by
  unfold capacity at hc
  constructor
  · rcases Nat.eq_zero_or_pos size with h | h
    · rw [h] at hc; simp at hc
    · exact h
  · rcases Nat.eq_zero_or_pos nmemb with h | h
    · rw [h] at hc; simp at hc
    · exact h

/-- The string line source on a whole text, with a capacity that is not 0. -/
theorem readStringLines_ofText (size nmemb : Nat) (hc : 0 < capacity size nmemb)
    (n : Nat) (t : String) :
    CMailClient.readStringLines size nmemb n (some (IStringStream.ofText t)) =
      specChunks (specLines t) n :=
  readStringLines_of_good size nmemb (pos_of_capacity size nmemb hc).1
    (pos_of_capacity size nmemb hc).2 hc n (IStringStream.ofText t) rfl

/-- The chunks of the specification, written out: the first `n` lines, each followed by
`"\r\n"`, then nothing with length 0 for the calls that are left. -/
theorem specChunks_eq (n : Nat) : ∀ ls : List String,
    specChunks ls n =
      (ls.take n).map (fun l => (l ++ "\r\n", l.length + 2)) ++
        List.replicate (n - ls.length) ("", 0) := by
  induction n with
  | zero => intro ls; cases ls <;> simp [specChunks]
  | succ n ih =>
    intro ls
    cases ls with
    | nil =>
      rw [specChunks_nil, ih []]
      simp [List.replicate_succ]
    | cons l ls =>
      show (l ++ "\r\n", l.length + 2) :: specChunks ls n = _
      rw [ih ls]
      simp [List.take]

/-! ## C23: the chunks of the string line source -/

/-- C23: for every text `t` and every `size` and `nmemb` whose product is positive, `n`
calls in a row of the string line source `ReadLineFromStringStreamCallback` on the stream
holding `t` give, in order, one chunk for each of the first `n` lines of `t` (the segments
of `t` separated by `"\n"`, without a last empty segment), the line followed by `"\r\n"`
with its length returned, and every call after the last line gives nothing and returns 0.
When `t` is not empty and does not end with `"\n"`, `t` and `t ++ "\n"` give the same
chunks. For `"a\nb\nc"` five calls give `"a\r\n"`, `"b\r\n"`, `"c\r\n"` and twice the end
of data. -/
theorem string_line_source_chunks (t : String) (size nmemb n : Nat)
    (hc : 0 < capacity size nmemb) :
    CMailClient.readStringLines size nmemb n (some (IStringStream.ofText t)) =
      ((specLines t).take n).map (fun l => (l ++ "\r\n", l.length + 2)) ++
        List.replicate (n - (specLines t).length) ("", 0) ∧
    (t ≠ "" → t.data.getLast? ≠ some '\n' →
      CMailClient.readStringLines size nmemb n (some (IStringStream.ofText (t ++ "\n"))) =
        CMailClient.readStringLines size nmemb n (some (IStringStream.ofText t))) ∧
    CMailClient.readStringLines size nmemb 5 (some (IStringStream.ofText "a\nb\nc")) =
      [("a\r\n", 3), ("b\r\n", 3), ("c\r\n", 3), ("", 0), ("", 0)] := by
  refine ⟨?_, ?_, ?_⟩
  · rw [readStringLines_ofText size nmemb hc, specChunks_eq]
  · intro hne hlast
    rw [readStringLines_ofText size nmemb hc, readStringLines_ofText size nmemb hc]
    have e : t ++ "\n" = ⟨t.data ++ ['\n']⟩ := by
      apply String.ext
      simp
    have hl : t.data ≠ [] := fun h => hne (String.ext h)
    rw [e, specLines_append_lf t.data hl hlast]
  · rw [readStringLines_ofText size nmemb hc]
    decide

/-- The statement C23 for `"a\nb\nc"`, with `size` 1 and `nmemb` 100. -/
theorem string_line_source_chunks_example :
    0 < capacity 1 100 ∧
    CMailClient.readStringLines 1 100 5 (some (IStringStream.ofText "a\nb\nc")) =
      [("a\r\n", 3), ("b\r\n", 3), ("c\r\n", 3), ("", 0), ("", 0)] :=
  ⟨by decide, (string_line_source_chunks "a\nb\nc" 1 100 5 (by decide)).2.2⟩

/-! ## C24: the terminator the line sources replace -/

/-- C24 fails on the code for a text whose lines end with `"\r\n"`: `std::getline` stops at
`'\n'` only, so the `'\r'` stays in the line and `"a\r\nb\r\n"` gives `"a\r\r\n"` and
`"b\r\r\n"`, while `"a\nb\n"` gives `"a\r\n"` and `"b\r\n"`. -/
theorem line_source_keeps_carriage_return :
    terminated "\r\n" ["a", "b"] = "a\r\nb\r\n" ∧
    CMailClient.readStringLines 1 100 3
        (some (IStringStream.ofText (terminated "\r\n" ["a", "b"]))) =
      [("a\r\r\n", 4), ("b\r\r\n", 4), ("", 0)] ∧
    CMailClient.readStringLines 1 100 3
        (some (IStringStream.ofText (terminated "\n" ["a", "b"]))) =
      [("a\r\n", 3), ("b\r\n", 3), ("", 0)] ∧
    CMailClient.readFileLines 1 100 3
        (some { is_open := true, text := IStringStream.ofText (terminated "\r\n" ["a", "b"]) }) =
      [("a\r\r\n", 4), ("b\r\r\n", 4), ("", 0)] := by
  decide

/-- C24, amended: the line sources (string and file variant) replace the terminator
`"\n"` of each line by `"\r\n"`. For every sequence of lines containing no `"\n"` and every
`size` and `nmemb` whose product is positive, the chunks for the text that joins the lines
with `"\n"` terminators are each line followed by exactly one `"\r\n"`; for the text that
joins them with `"\r\n"` terminators the `"\r"` stays part of the line, and the chunks are
each line followed by `"\r"` and then `"\r\n"`. -/
theorem line_source_replaces_line_feed (ls : List String) (size nmemb n : Nat)
    (hc : 0 < capacity size nmemb) (h : ∀ l ∈ ls, '\n' ∉ l.data) :
    (CMailClient.readStringLines size nmemb n
        (some (IStringStream.ofText (terminated "\n" ls))) =
      (ls.take n).map (fun l => (l ++ "\r\n", l.length + 2)) ++
        List.replicate (n - ls.length) ("", 0)) ∧
    (CMailClient.readStringLines size nmemb n
        (some (IStringStream.ofText (terminated "\r\n" ls))) =
      (ls.take n).map (fun l => (l ++ "\r" ++ "\r\n", l.length + 3)) ++
        List.replicate (n - ls.length) ("", 0)) ∧
    (CMailClient.readFileLines size nmemb n
        (some { is_open := true, text := IStringStream.ofText (terminated "\n" ls) }) =
      (ls.take n).map (fun l => (l ++ "\r\n", l.length + 2)) ++
        List.replicate (n - ls.length) ("", 0)) ∧
    (CMailClient.readFileLines size nmemb n
        (some { is_open := true, text := IStringStream.ofText (terminated "\r\n" ls) }) =
      (ls.take n).map (fun l => (l ++ "\r" ++ "\r\n", l.length + 3)) ++
        List.replicate (n - ls.length) ("", 0)) := by
  have h2 : ∀ l ∈ ls.map (fun l => l ++ "\r"), '\n' ∉ l.data := by
    intro l hl
    obtain ⟨l0, hl0, rfl⟩ := List.mem_map.1 hl
    intro hmem
    rw [String.data_append, List.mem_append] at hmem
    rcases hmem with hmem | hmem
    · exact h l0 hl0 hmem
    · revert hmem
      decide
  have k1 : CMailClient.readStringLines size nmemb n
        (some (IStringStream.ofText (terminated "\n" ls))) =
      (ls.take n).map (fun l => (l ++ "\r\n", l.length + 2)) ++
        List.replicate (n - ls.length) ("", 0) := by
    rw [readStringLines_ofText size nmemb hc, specLines_terminated ls h, specChunks_eq]
  have k2 : CMailClient.readStringLines size nmemb n
        (some (IStringStream.ofText (terminated "\r\n" ls))) =
      (ls.take n).map (fun l => (l ++ "\r" ++ "\r\n", l.length + 3)) ++
        List.replicate (n - ls.length) ("", 0) := by
    rw [readStringLines_ofText size nmemb hc, terminated_crlf,
      specLines_terminated _ h2, specChunks_eq, ← List.map_take, List.map_map,
      List.length_map]
    congr 1
    apply List.map_congr_left
    intro l _
    have e : "\r".length = 1 := rfl
    simp [String.length_append, e]
  refine ⟨k1, k2, ?_, ?_⟩
  · rw [readFileLines_of_open size nmemb n _ rfl]
    exact k1
  · rw [readFileLines_of_open size nmemb n _ rfl]
    exact k2

/-- The amended statement C24 for the lines `"a"` and `"b"`, with `size` 1 and `nmemb`
100. -/
theorem line_source_replaces_line_feed_example :
    0 < capacity 1 100 ∧ (∀ l ∈ ["a", "b"], '\n' ∉ l.data) ∧
    CMailClient.readStringLines 1 100 3
        (some (IStringStream.ofText (terminated "\n" ["a", "b"]))) =
      [("a\r\n", 3), ("b\r\n", 3), ("", 0)] ∧
    CMailClient.readFileLines 1 100 3
        (some { is_open := true, text := IStringStream.ofText (terminated "\n" ["a", "b"]) }) =
      [("a\r\n", 3), ("b\r\n", 3), ("", 0)] :=
  ⟨by decide, by decide,
    (line_source_replaces_line_feed ["a", "b"] 1 100 3 (by decide) (by decide)).1,
    (line_source_replaces_line_feed ["a", "b"] 1 100 3 (by decide) (by decide)).2.2.1⟩

/-! ## C25: the length the line sources write -/

/-- C25 fails on the code: with `size` 1 and `nmemb` 4 the offered capacity is 4, and on
the text `"hello world"` both line sources copy the 13 characters of `"hello world\r\n"`
into the buffer and return 13. -/
theorem line_source_writes_past_capacity :
    capacity 1 4 = 4 ∧
    (CMailClient.ReadLineFromStringStreamCallback 1 4
        (some (IStringStream.ofText "hello world"))).copied = "hello world\r\n" ∧
    (CMailClient.ReadLineFromStringStreamCallback 1 4
        (some (IStringStream.ofText "hello world"))).returned = 13 ∧
    (CMailClient.ReadLineFromFileStreamCallback 1 4
        (some { is_open := true, text := IStringStream.ofText "hello world" })).copied =
      "hello world\r\n" ∧
    (CMailClient.ReadLineFromFileStreamCallback 1 4
        (some { is_open := true, text := IStringStream.ofText "hello world" })).returned = 13 := by
  decide

end MailClient
